import Mathlib

/-!
# Changed-page tracking (`storage/innobase/log/log0online.cc`)

A shallow embedding of the bitmap block layout, the block checksum, the
modified-page set, the flush (`log_online_write_bitmap`), the follow cycle and
the bitmap iterator, followed by the properties proved about them.

Machine words are natural numbers; `ulint` arithmetic is reduced modulo `2 ^ 64`
where the source computes in an `ulint`.  A byte buffer is a map from offsets to
bytes.
-/

namespace LogOnline

/-! ## Bytes, buffers and machine words -/

/-- One byte of a buffer (`byte` is `unsigned char`). -/
abbrev byte := Fin 256

/-- The C conversion `(byte) n`: the low eight bits of a word. -/
def to_byte (n : Nat) : byte := ⟨n % 256, Nat.mod_lt n (by decide)⟩

/-- A byte buffer (`byte*`), addressed by offset.  A bitmap block uses the
offsets `0 .. MODIFIED_PAGE_BLOCK_SIZE - 1`. -/
abbrev Page := Nat → byte

/-- Reduction of a result to the 64-bit `ulint` it is computed in. -/
def ulint (n : Nat) : Nat := n % 2 ^ 64

/-- The block a `memset(node, 0, SIZEOF_NODE)` leaves behind. -/
def zero_page : Page := fun _ => 0

/-- The store `p[off] = (byte) v`. -/
def page_set (p : Page) (off : Nat) (v : Nat) : Page :=
  fun i => if i = off then to_byte v else p i

/-! ## Block layout (the enums of log0online.cc) -/

/-- The bitmap file block size in bytes. -/
abbrev MODIFIED_PAGE_BLOCK_SIZE : Nat := 4096

/-- Offset of the flag: 1 if last block in the current write, 0 otherwise. -/
abbrev MODIFIED_PAGE_IS_LAST_BLOCK : Nat := 0
/-- Offset of the starting tracked LSN of this and other blocks in the same write. -/
abbrev MODIFIED_PAGE_START_LSN : Nat := 4
/-- Offset of the ending tracked LSN of this and other blocks in the same write. -/
abbrev MODIFIED_PAGE_END_LSN : Nat := 12
/-- Offset of the space ID of tracked pages in this block. -/
abbrev MODIFIED_PAGE_SPACE_ID : Nat := 20
/-- Offset of the page ID of the first tracked page in this block. -/
abbrev MODIFIED_PAGE_1ST_PAGE_ID : Nat := 24
/-- Unused, aligns the start of the bitmap at an 8 byte boundary. -/
abbrev MODIFIED_PAGE_BLOCK_UNUSED_1 : Nat := 28
/-- Start of the bitmap itself. -/
abbrev MODIFIED_PAGE_BLOCK_BITMAP : Nat := 32
/-- Unused, aligns the end of the bitmap at an 8 byte boundary. -/
abbrev MODIFIED_PAGE_BLOCK_UNUSED_2 : Nat := MODIFIED_PAGE_BLOCK_SIZE - 8
/-- Offset of the checksum of the current block. -/
abbrev MODIFIED_PAGE_BLOCK_CHECKSUM : Nat := MODIFIED_PAGE_BLOCK_SIZE - 4

/-- Length of the bitmap data in a block in bytes. -/
abbrev MODIFIED_PAGE_BLOCK_BITMAP_LEN : Nat :=
  MODIFIED_PAGE_BLOCK_UNUSED_2 - MODIFIED_PAGE_BLOCK_BITMAP

/-- Length of the bitmap data in a block in page ids. -/
abbrev MODIFIED_PAGE_BLOCK_ID_COUNT : Nat := MODIFIED_PAGE_BLOCK_BITMAP_LEN * 8

/-! ## Big-endian field access (mach0data) -/

/-- Modelled from the spec: `mach_write_to_4` of mach0data, which is not among the
sources; the spec stores every multi-byte integer of a bitmap file in the
canonical big-endian on-disk form.  Stores the low 32 bits of `n` at
`off .. off + 3`, most significant byte first. -/
def mach_write_to_4 (p : Page) (off n : Nat) : Page :=
  page_set (page_set (page_set (page_set p off (n / 2 ^ 24)) (off + 1) (n / 2 ^ 16))
    (off + 2) (n / 2 ^ 8)) (off + 3) n

/-- Modelled from the spec: `mach_read_from_4` of mach0data, the big-endian
4-byte read at `off .. off + 3`. -/
def mach_read_from_4 (p : Page) (off : Nat) : Nat :=
  (p off).val * 2 ^ 24 + (p (off + 1)).val * 2 ^ 16 + (p (off + 2)).val * 2 ^ 8
    + (p (off + 3)).val

/-- Modelled from the spec: `mach_write_to_8` of mach0data, two big-endian 4-byte
stores, the high word first. -/
def mach_write_to_8 (p : Page) (off n : Nat) : Page :=
  mach_write_to_4 (mach_write_to_4 p off (n / 2 ^ 32)) (off + 4) n

/-- Modelled from the spec: `mach_read_from_8` of mach0data, the big-endian
8-byte read at `off .. off + 7`. -/
def mach_read_from_8 (p : Page) (off : Nat) : Nat :=
  mach_read_from_4 p off * 2 ^ 32 + mach_read_from_4 p (off + 4)

/-! ## Block checksum -/

/-- The body and the remaining iterations of the `for` loop of
`log_online_calc_checksum`: `n` iterations are left, `i` is the loop index. -/
def log_online_calc_checksum_loop (block : Page) : Nat → Nat → Nat → Nat → Nat
  | 0, _, sum, _ => sum
  | n + 1, i, sum, sh =>
    let b := (block i).val
    let sum := sum &&& 0x7FFFFFFF
    let sum := ulint (sum + b)
    let sum := ulint (sum + ulint (b <<< sh))
    let sh := sh + 1
    let sh := if sh > 24 then 0 else sh
    log_online_calc_checksum_loop block n (i + 1) sum sh

/-- Calculate a bitmap block checksum (`log_online_calc_checksum`): `sum = 1`,
`sh = 0`, then the loop over `i = 0 .. MODIFIED_PAGE_BLOCK_CHECKSUM - 1`. -/
def log_online_calc_checksum (block : Page) : Nat :=
  log_online_calc_checksum_loop block MODIFIED_PAGE_BLOCK_CHECKSUM 0 1 0

/-- One step of the checksum formula as the spec words it:
`sum &= 0x7FFF_FFFF; sum += b; sum += b << sh; sh = (sh + 1) if sh < 24 else 0`. -/
def spec_checksum_step (st : Nat × Nat) (b : Nat) : Nat × Nat :=
  let sum := st.1 &&& 0x7FFFFFFF
  let sum := sum + b
  let sum := sum + (b <<< st.2)
  (sum, if st.2 < 24 then st.2 + 1 else 0)

/-- The reference sum of the spec: start with `sum = 1`, `sh = 0` and take one
step for each byte at the offsets `0 .. 4091`, in order. -/
def spec_checksum (block : Page) : Nat :=
  (((List.range 4092).map fun i => (block i).val).foldl spec_checksum_step (1, 0)).1

/-! ## The modified-page set -/

/-- Comparison function of the RB-tree on (space, block_start_page) pairs
(`log_online_compare_bmp_keys`): -1 if `k1 < k2`, 0 if equal, 1 if `k1 > k2`. -/
def log_online_compare_bmp_keys (k1 k2 : Page) : Int :=
  let k1_space := mach_read_from_4 k1 MODIFIED_PAGE_SPACE_ID
  let k2_space := mach_read_from_4 k2 MODIFIED_PAGE_SPACE_ID
  if k1_space = k2_space then
    let k1_start_page := mach_read_from_4 k1 MODIFIED_PAGE_1ST_PAGE_ID
    let k2_start_page := mach_read_from_4 k2 MODIFIED_PAGE_1ST_PAGE_ID
    if k1_start_page < k2_start_page then -1
    else if k1_start_page > k2_start_page then 1 else 0
  else if k1_space < k2_space then -1 else 1

/-- Modelled from the spec: the RB-tree of ut0rbt, which is not among the sources.
The spec describes it as an ordered associative structure whose `first/next`
traversal produces the nodes in ascending key order; the model is the list of
node values in traversal order.  `rbt_search` returns the position of the node
whose key compares equal to the search key, if there is one. -/
def rbt_search : List Page → Page → Option Nat
  | [], _ => none
  | x :: xs, key =>
    if log_online_compare_bmp_keys key x = 0 then some 0
    else (rbt_search xs key).map (· + 1)

/-- Modelled from the spec: the place in traversal order at which
`rbt_add_preallocated_node` links a new node: before the first node that
compares greater. -/
def rbt_insert_pos : List Page → Page → Nat
  | [], _ => 0
  | x :: xs, node =>
    if log_online_compare_bmp_keys node x < 0 then 0 else rbt_insert_pos xs node + 1

/-- Modelled from the spec: `rbt_add_preallocated_node` of ut0rbt, the ordered
insertion of a node that `rbt_search` did not find. -/
def rbt_add_preallocated_node : List Page → Page → List Page
  | [], node => [node]
  | x :: xs, node =>
    if log_online_compare_bmp_keys node x < 0 then node :: x :: xs
    else x :: rbt_add_preallocated_node xs node

/-- A store through `page_ptr`, the pointer to the value of the node at position
`pos` of the tree. -/
def rbt_value_update (f : Page → Page) : List Page → Nat → List Page
  | [], _ => []
  | x :: xs, 0 => f x :: xs
  | x :: xs, pos + 1 => x :: rbt_value_update f xs pos

/-- The fields of `log_online_bitmap_file_t` the tracker uses. -/
structure log_online_bitmap_file_t where
  /-- Name with the directory part. -/
  name : String
  /-- True when the handle is closed (`file.is_closed()`). -/
  closed : Bool
  /-- Size of the file as last queried. -/
  size : Nat
  /-- Offset of the next read or write. -/
  offset : Nat

/-- Log parsing and bitmap output data structure (`struct log_bitmap_struct`),
without the read and parse buffers. -/
structure log_bitmap_struct where
  /-- Directory for bitmap files. -/
  bmp_file_home : String
  /-- The current bitmap file. -/
  out : log_online_bitmap_file_t
  /-- The bitmap file sequence number. -/
  out_seq_num : Nat
  /-- The LSN of the next unparsed record and the start of the next LSN interval
  to be parsed. -/
  start_lsn : Nat
  /-- The end of the LSN interval to be parsed. -/
  end_lsn : Nat
  /-- The current modified page set, in traversal order of the tree. -/
  modified_pages : List Page
  /-- Singly-linked list of freed nodes of the tree, with the bytes they were
  left with. -/
  page_free_list : List Page

/-- The statement `page_ptr[MODIFIED_PAGE_BLOCK_BITMAP + block_pos] |= (1U << bit_pos)`. -/
def page_or_bit (block_pos bit_pos : Nat) (page_ptr : Page) : Page :=
  page_set page_ptr (MODIFIED_PAGE_BLOCK_BITMAP + block_pos)
    ((page_ptr (MODIFIED_PAGE_BLOCK_BITMAP + block_pos)).val ||| (1 <<< bit_pos))

/-- The local `block_start_page` of `log_online_set_page_bit`. -/
def block_start_page (page_no : Nat) : Nat :=
  ulint (page_no / MODIFIED_PAGE_BLOCK_ID_COUNT * MODIFIED_PAGE_BLOCK_ID_COUNT)

/-- The local `block_pos` of `log_online_set_page_bit`:
`block_start_page ? (page_no % block_start_page / 8) : (page_no / 8)`. -/
def block_pos (page_no : Nat) : Nat :=
  if block_start_page page_no ≠ 0 then page_no % block_start_page page_no / 8
  else page_no / 8

/-- The local `bit_pos` of `log_online_set_page_bit`. -/
def bit_pos (page_no : Nat) : Nat := page_no % 8

/-- Set a bit for tracked page in the bitmap, expanding the bitmap tree as
necessary (`log_online_set_page_bit`).  The two `ut_a` assertions abort for an
argument equal to `ULINT_UNDEFINED = 2 ^ 64 - 1`; the definition gives the
execution for the other arguments.  The search key is built in a stack buffer of
which only the two key fields are written and read. -/
def log_online_set_page_bit (sys : log_bitmap_struct) (space page_no : Nat) :
    log_bitmap_struct :=
  let search_page :=
    mach_write_to_4 (mach_write_to_4 zero_page MODIFIED_PAGE_SPACE_ID space)
      MODIFIED_PAGE_1ST_PAGE_ID (block_start_page page_no)
  match rbt_search sys.modified_pages search_page with
  | some pos =>
    { sys with
      modified_pages :=
        rbt_value_update (page_or_bit (block_pos page_no) (bit_pos page_no))
          sys.modified_pages pos }
  | none =>
    let page_free_list := sys.page_free_list.tail
    let new_node := zero_page
    let page :=
      mach_write_to_4 (mach_write_to_4 new_node MODIFIED_PAGE_SPACE_ID space)
        MODIFIED_PAGE_1ST_PAGE_ID (block_start_page page_no)
    let pos := rbt_insert_pos sys.modified_pages page
    let tree := rbt_add_preallocated_node sys.modified_pages page
    { sys with
      page_free_list := page_free_list
      modified_pages :=
        rbt_value_update (page_or_bit (block_pos page_no) (bit_pos page_no)) tree pos }

/-- Tests if bit `num` of the bitmap starting at offset `bitmap` is set (the macro
`IS_BIT_SET`): the masked byte, non-zero when the bit is set. -/
def IS_BIT_SET (p : Page) (bitmap num : Nat) : Nat :=
  (p (bitmap + (num >>> 3))).val &&& (1 <<< (num &&& 7))

/-- A tracker with an empty modified-page set and an empty free list, as
`log_online_read_init` creates them (`rbt_create`, `page_free_list = NULL`). -/
def empty_sys (bmp_file_home : String) (out : log_online_bitmap_file_t)
    (out_seq_num start_lsn end_lsn : Nat) : log_bitmap_struct :=
  { bmp_file_home := bmp_file_home, out := out, out_seq_num := out_seq_num,
    start_lsn := start_lsn, end_lsn := end_lsn,
    modified_pages := [], page_free_list := [] }

/-- A sequence of `log_online_set_page_bit` calls, in order. -/
def set_page_bits (sys : log_bitmap_struct) (calls : List (Nat × Nat)) :
    log_bitmap_struct :=
  calls.foldl (fun s c => log_online_set_page_bit s c.1 c.2) sys

/-! ## The tracker and the operating system around it -/

/-- A call the tracker makes to the operating system or to the redo log reader,
as it appears in the trace of an execution. -/
inductive os_event where
  /-- A call of `os_file_write` with one block at an offset of the named file. -/
  | file_write (name : String) (offset : Nat) (block : Page)
  /-- A call of `os_file_flush` on the named file. -/
  | file_flush (name : String)
  /-- A call of `os_file_close` on the named file. -/
  | file_close (name : String)
  /-- A call of `os_file_get_status` on the named file. -/
  | file_status (name : String)
  /-- A call of `os_file_delete_if_exists` on the named file. -/
  | file_delete (name : String)
  /-- A call of `os_file_create_simple_no_error_handling` with `OS_FILE_CREATE`. -/
  | file_create (name : String)
  /-- A call of `os_file_set_eof_at` that truncates the named file to the given
  length. -/
  | file_truncate (name : String) (offset : Nat)
  /-- A redo log read and parse of one log group for an LSN interval. -/
  | log_read (group start_lsn end_lsn : Nat)

/-- The minilog record types the tracker tells apart; every other type of
`mlog_id_t` is `MLOG_OTHER`. -/
inductive mlog_id_t where
  | MLOG_MULTI_REC_END
  | MLOG_DUMMY_RECORD
  | MLOG_CHECKPOINT
  | MLOG_TRUNCATE
  | MLOG_INDEX_LOAD
  | MLOG_LSN
  | MLOG_OTHER (code : Nat)
  deriving DecidableEq

/-- A completely parsed redo record, as `recv_parse_log_rec` returns it. -/
structure redo_rec where
  type : mlog_id_t
  space : Nat
  page_no : Nat

/-- Modelled from the spec: the redo reader and the record parser, external
collaborators of the tracker (`log_group_read_log_seg`, `recv_parse_log_rec`,
the log block checksum).  For one log group and LSN interval they either end
the process (a failed `ut_a`, or the `ut_error` of `log_online_is_valid_log_seg`
for a block with a wrong checksum that is not all zeroes), or deliver the
complete records of the interval in order.  `log_online_is_valid_log_seg`
returns true whenever it returns, so that a log block never makes
`log_online_follow_log_seg` return false. -/
inductive redo_result where
  | aborted
  | parsed (recs : List redo_rec)

/-- What a tracker call reads from the rest of the server and does not write. -/
structure server_env where
  /-- Outcome of the call to the operating system made when the trace has the given
  length: success of a write, flush, delete or create, and for
  `os_file_get_status` whether the file is a zero-sized regular file. -/
  io_ok : Nat → Bool
  /-- The value of `log_sys->last_checkpoint_lsn`. -/
  last_checkpoint_lsn : Nat
  /-- The server variable `srv_max_bitmap_file_size`. -/
  srv_max_bitmap_file_size : Nat
  /-- Number of log groups in `log_sys->log_groups`. -/
  log_groups : Nat
  /-- The redo reader and parser for a group and an LSN interval. -/
  redo : Nat → Nat → Nat → redo_result
  /-- The function `fil_space_get_size`. -/
  fil_space_get_size : Nat → Nat
  /-- True in builds with `UNIV_LOG_LSN_DEBUG`. -/
  univ_log_lsn_debug : Bool

/-- The tracker singleton with the server variables it writes. -/
structure tracker where
  /-- The log parsing and bitmap output struct instance. -/
  log_bmp_sys : log_bitmap_struct
  /-- The server variable `srv_track_changed_pages`. -/
  srv_track_changed_pages : Bool
  /-- The published `log_sys->tracked_lsn`. -/
  tracked_lsn : Nat
  /-- Number of `mutex_enter(&log_bmp_sys_mutex)` executed. -/
  mutex_enters : Nat
  /-- Number of `mutex_exit(&log_bmp_sys_mutex)` executed. -/
  mutex_exits : Nat
  /-- The calls to the operating system so far, oldest first. -/
  trace : List os_event

/-- The statement `mutex_enter(&log_bmp_sys_mutex)`. -/
def mutex_enter (st : tracker) : tracker := { st with mutex_enters := st.mutex_enters + 1 }

/-- The statement `mutex_exit(&log_bmp_sys_mutex)`. -/
def mutex_exit (st : tracker) : tracker := { st with mutex_exits := st.mutex_exits + 1 }

/-- One call to the operating system: its outcome and the trace with the call
recorded. -/
def os_call (env : server_env) (st : tracker) (e : os_event) : Bool × tracker :=
  (env.io_ok st.trace.length, { st with trace := st.trace ++ [e] })

/-- Safely write the `log_sys->tracked_lsn` value (`log_set_tracked_lsn`): an
atomic increment of the old value by `tracked_lsn - old_value` in 64-bit
arithmetic. -/
def log_set_tracked_lsn (st : tracker) (tracked_lsn : Nat) : tracker :=
  let old_value := st.tracked_lsn
  { st with
    tracked_lsn := ulint (old_value + ulint (tracked_lsn + 2 ^ 64 - old_value % 2 ^ 64)) }

/-- Format a bitmap output file name to `log_bmp_sys->out.name`
(`log_online_make_bitmap_name`), template `"%s%s%lu_" LSN_PF ".xdb"`; the
truncation of `ut_snprintf` to `FN_REFLEN` characters is left out. -/
def log_online_make_bitmap_name (sys : log_bitmap_struct) (start_lsn : Nat) :
    log_bitmap_struct :=
  { sys with
    out := { sys.out with
      name := sys.bmp_file_home ++ "ib_modified_log_" ++ toString sys.out_seq_num ++ "_"
        ++ toString start_lsn ++ ".xdb" } }

/-- Create a new empty bitmap output file (`log_online_start_bitmap_file`); true if
the operation succeeded. -/
def log_online_start_bitmap_file (env : server_env) (st : tracker) : Bool × tracker :=
  let name := st.log_bmp_sys.out.name
  let should_overwrite := os_call env st (os_event.file_status name)
  let deleted :=
    if should_overwrite.1 then os_call env should_overwrite.2 (os_event.file_delete name)
    else (true, should_overwrite.2)
  let created :=
    if deleted.1 then
      let r := os_call env deleted.2 (os_event.file_create name)
      (r.1, { r.2 with
        log_bmp_sys := { r.2.log_bmp_sys with
          out := { r.2.log_bmp_sys.out with closed := !r.1 } } })
    else deleted
  if !created.1 then (false, created.2)
  else
    (true, { created.2 with
      log_bmp_sys := { created.2.log_bmp_sys with
        out := { created.2.log_bmp_sys.out with offset := 0 } } })

/-- Close the current bitmap output file and create the next one
(`log_online_rotate_bitmap_file`); true if the operation succeeded. -/
def log_online_rotate_bitmap_file (env : server_env) (st : tracker)
    (next_file_start_lsn : Nat) : Bool × tracker :=
  let st :=
    if !st.log_bmp_sys.out.closed then
      { st with
        trace := st.trace ++ [os_event.file_close st.log_bmp_sys.out.name]
        log_bmp_sys := { st.log_bmp_sys with
          out := { st.log_bmp_sys.out with closed := true } } }
    else st
  let st := { st with
    log_bmp_sys := { st.log_bmp_sys with out_seq_num := ulint (st.log_bmp_sys.out_seq_num + 1) } }
  let st := { st with
    log_bmp_sys := log_online_make_bitmap_name st.log_bmp_sys next_file_start_lsn }
  log_online_start_bitmap_file env st

/-- Write, flush one bitmap block to disk and advance the output position if
successful (`log_online_write_bitmap_page`); true if the page was written.  The
debug-only failure injection sites (`DBUG_EXECUTE_IF`) are left out. -/
def log_online_write_bitmap_page (env : server_env) (st : tracker) (block : Page) :
    Bool × tracker :=
  let written := os_call env st
    (os_event.file_write st.log_bmp_sys.out.name st.log_bmp_sys.out.offset block)
  if !written.1 then (false, written.2)
  else
    let flushed := os_call env written.2 (os_event.file_flush st.log_bmp_sys.out.name)
    if !flushed.1 then (false, flushed.2)
    else
      (true, { flushed.2 with
        log_bmp_sys := { flushed.2.log_bmp_sys with
          out := { flushed.2.log_bmp_sys.out with
            offset := flushed.2.log_bmp_sys.out.offset + MODIFIED_PAGE_BLOCK_SIZE } } })

/-- The header finalisation of one block in `log_online_write_bitmap`: the last
block flag for the last node, the two LSNs, then the checksum. -/
def log_online_write_bitmap_finalize (start_lsn end_lsn : Nat) (is_last_node : Bool)
    (page : Page) : Page :=
  let page :=
    if is_last_node then mach_write_to_4 page MODIFIED_PAGE_IS_LAST_BLOCK 1 else page
  let page := mach_write_to_8 page MODIFIED_PAGE_START_LSN start_lsn
  let page := mach_write_to_8 page MODIFIED_PAGE_END_LSN end_lsn
  mach_write_to_4 page MODIFIED_PAGE_BLOCK_CHECKSUM (log_online_calc_checksum page)

/-- The `while (bmp_tree_node)` loop of `log_online_write_bitmap` over the nodes
still to visit, in traversal order; a node is the last one of the tree when no
node follows it. -/
def log_online_write_bitmap_loop (env : server_env) :
    List Page → Bool → tracker → Bool × tracker
  | [], success, st => (success, st)
  | page :: rest, success, st =>
    let page' :=
      if success then
        log_online_write_bitmap_finalize st.log_bmp_sys.start_lsn st.log_bmp_sys.end_lsn
          rest.isEmpty page
      else page
    let r := if success then log_online_write_bitmap_page env st page' else (success, st)
    let st := { r.2 with
      log_bmp_sys := { r.2.log_bmp_sys with
        page_free_list := page' :: r.2.log_bmp_sys.page_free_list } }
    log_online_write_bitmap_loop env rest r.1 st

/-- Append the current changed page bitmap to the bitmap file, clear the bitmap
tree and recycle its nodes to the free list (`log_online_write_bitmap`); true if
the bitmap was written. -/
def log_online_write_bitmap (env : server_env) (st : tracker) : Bool × tracker :=
  let rotated :=
    if st.log_bmp_sys.out.offset ≥ env.srv_max_bitmap_file_size then
      log_online_rotate_bitmap_file env st st.log_bmp_sys.start_lsn
    else (true, st)
  if !rotated.1 then (false, rotated.2)
  else
    let r := log_online_write_bitmap_loop env rotated.2.log_bmp_sys.modified_pages true
      rotated.2
    (r.1, { r.2 with log_bmp_sys := { r.2.log_bmp_sys with modified_pages := [] } })

/-! ## The follow cycle -/

/-- For the given minilog record type determine if the record has (space; page)
associated with it (`log_online_rec_has_page`). -/
def log_online_rec_has_page (type : mlog_id_t) : Bool :=
  type != mlog_id_t.MLOG_MULTI_REC_END
    && type != mlog_id_t.MLOG_DUMMY_RECORD
    && type != mlog_id_t.MLOG_CHECKPOINT
    && type != mlog_id_t.MLOG_TRUNCATE

/-- Check if a page field for a given log record type actually contains a page id
(`log_online_rec_page_means_page`). -/
def log_online_rec_page_means_page (env : server_env) (type : mlog_id_t) : Bool :=
  log_online_rec_has_page type
    && (!env.univ_log_lsn_debug || type != mlog_id_t.MLOG_LSN)

/-- The `len > 0` branch of the loop of `log_online_parse_redo_log` for one
completely parsed record. -/
def log_online_parse_redo_log_rec (env : server_env) (sys : log_bitmap_struct)
    (r : redo_rec) : log_bitmap_struct :=
  if log_online_rec_page_means_page env r.type then
    let sys := log_online_set_page_bit sys r.space r.page_no
    if r.type = mlog_id_t.MLOG_INDEX_LOAD then
      (List.range (env.fil_space_get_size r.space)).foldl
        (fun s i => log_online_set_page_bit s r.space i) sys
    else sys
  else sys

/-- Read and parse the redo log in a given group and update the modified page
bitmap (`log_online_follow_log_group`), with the reading and the record parsing
delegated to the environment.  `none` is a fatal assertion.  The function returns
true whenever it returns: its `return false` hands on the false of
`log_online_follow_log_seg`, which takes a false of
`log_online_is_valid_log_seg`, and that function returns true or ends in
`ut_error`. -/
def log_online_follow_log_group (env : server_env) (group : Nat) (st : tracker) :
    Option (Bool × tracker) :=
  let st := { st with
    trace := st.trace ++
      [os_event.log_read group st.log_bmp_sys.start_lsn st.log_bmp_sys.end_lsn] }
  match env.redo group st.log_bmp_sys.start_lsn st.log_bmp_sys.end_lsn with
  | redo_result.aborted => none
  | redo_result.parsed recs =>
    some (true, { st with
      log_bmp_sys := recs.foldl (log_online_parse_redo_log_rec env) st.log_bmp_sys })

/-- The `while (group)` loop of `log_online_follow_redo_log` over the groups
`group, group + 1, ..`, `n` of them left. -/
def log_online_follow_log_groups (env : server_env) :
    Nat → Nat → tracker → Option (Bool × tracker)
  | 0, _, st => some (true, st)
  | n + 1, group, st =>
    match log_online_follow_log_group env group st with
    | none => none
    | some (false, st) => some (false, st)
    | some (true, st) => log_online_follow_log_groups env n (group + 1) st

/-- Read and parse the redo log up to last checkpoint LSN to build the changed page
bitmap which is then written to disk (`log_online_follow_redo_log`).  `none` is a
fatal assertion (`ut_a(group)`, or one inside the log reading). -/
def log_online_follow_redo_log (env : server_env) (st : tracker) :
    Option (Bool × tracker) :=
  if !st.srv_track_changed_pages then some (true, st)
  else
    let st := mutex_enter st
    if !st.srv_track_changed_pages then some (true, mutex_exit st)
    else
      let st := { st with
        log_bmp_sys := { st.log_bmp_sys with end_lsn := env.last_checkpoint_lsn } }
      if st.log_bmp_sys.end_lsn = st.log_bmp_sys.start_lsn then
        some (true, mutex_exit st)
      else if env.log_groups = 0 then none
      else
        match log_online_follow_log_groups env env.log_groups 0 st with
        | none => none
        | some (false, st) => some (false, mutex_exit st)
        | some (true, st) =>
          let r := log_online_write_bitmap env st
          let st := r.2
          let st := { st with
            log_bmp_sys := { st.log_bmp_sys with start_lsn := st.log_bmp_sys.end_lsn } }
          let st := log_set_tracked_lsn st st.log_bmp_sys.start_lsn
          some (r.1, mutex_exit st)

/-! ## Reading bitmap files -/

/-- The bitmap files as a reader finds them on disk. -/
structure read_env where
  /-- The server variable `srv_data_home`. -/
  srv_data_home : String
  /-- Size of the named file, `none` when it cannot be opened. -/
  file_size : String → Option Nat
  /-- The `MODIFIED_PAGE_BLOCK_SIZE` bytes `os_file_read` returns at an offset of
  the named file, `none` on an I/O error. -/
  file_block : String → Nat → Option Page
  /-- Whether closing the named file succeeds. -/
  close_ok : String → Bool

/-- The checksum test of `log_online_read_bitmap_page`: the stored 4-byte value
against the recomputed checksum. -/
def bitmap_page_checksum_ok (page : Page) : Bool :=
  let checksum := mach_read_from_4 page MODIFIED_PAGE_BLOCK_CHECKSUM
  let actual_checksum := log_online_calc_checksum page
  checksum == actual_checksum

/-- Read one bitmap data page and check it for corruption
(`log_online_read_bitmap_page`).  `none` is a failed `ut_a`; otherwise the
return value (false on an I/O error), the file with its offset advanced, the page
read and `checksum_ok`.  On an I/O error the page and the flag are as passed in. -/
def log_online_read_bitmap_page (env : read_env) (bitmap_file : log_online_bitmap_file_t)
    (page : Page) (checksum_ok : Bool) :
    Option (Bool × log_online_bitmap_file_t × Page × Bool) :=
  if ¬ (bitmap_file.size ≥ MODIFIED_PAGE_BLOCK_SIZE) then none
  else if ¬ (bitmap_file.offset ≤ bitmap_file.size - MODIFIED_PAGE_BLOCK_SIZE) then none
  else if ¬ (bitmap_file.offset % MODIFIED_PAGE_BLOCK_SIZE = 0) then none
  else
    match env.file_block bitmap_file.name bitmap_file.offset with
    | none => some (false, bitmap_file, page, checksum_ok)
    | some read_page =>
      some (true,
        { bitmap_file with offset := bitmap_file.offset + MODIFIED_PAGE_BLOCK_SIZE },
        read_page, bitmap_page_checksum_ok read_page)

/-- One slot of a bitmap file range (`files_t`); a slot that was not filled is all
zeroes. -/
structure log_online_bitmap_file_range_slot where
  /-- Name of the file, empty in an unfilled slot. -/
  name : String
  /-- Starting LSN of the data in this file. -/
  start_lsn : Nat
  /-- Sequence number of the file, 0 in an unfilled slot. -/
  seq_num : Nat

/-- A set of bitmap files containing some LSN range
(`log_online_bitmap_file_range_t`). -/
structure log_online_bitmap_file_range_t where
  /-- Number of slots. -/
  count : Nat
  /-- The slots, in sequence number order. -/
  files : List log_online_bitmap_file_range_slot

/-- The bitmap iterator (`log_bitmap_iterator_t`). -/
structure log_bitmap_iterator_t where
  /-- Has the iteration stopped prematurely. -/
  failed : Bool
  /-- The bitmap files for this iterator. -/
  in_files : log_online_bitmap_file_range_t
  /-- Index of the currently read file. -/
  in_i : Nat
  /-- The currently read file (the member `in`). -/
  in_file : log_online_bitmap_file_t
  /-- Bitmap page buffer. -/
  page : Page
  /-- Bit offset inside the current bitmap block. -/
  bit_offset : Nat
  /-- Start LSN of the current bitmap block. -/
  start_lsn : Nat
  /-- End LSN of the current bitmap block. -/
  end_lsn : Nat
  /-- Current block space id. -/
  space_id : Nat
  /-- Id of the first page in the current block. -/
  first_page_id : Nat
  /-- The last-page-in-run flag value for the current block. -/
  last_page_in_run : Bool
  /-- True if the current page was changed. -/
  changed : Bool
  /-- The upper LSN bound of the iteration. -/
  max_lsn : Nat

/-- Open a bitmap file for reading (`log_online_open_bitmap_file_read_only`): the
file with its name set, and whether it was opened. -/
def log_online_open_bitmap_file_read_only (env : read_env) (name : String)
    (bitmap_file : log_online_bitmap_file_t) : Bool × log_online_bitmap_file_t :=
  let full :=
    if env.srv_data_home.length ≠ 0 ∧ env.srv_data_home.back ≠ '/' then
      env.srv_data_home ++ "/" ++ name
    else env.srv_data_home ++ name
  match env.file_size full with
  | none => (false, { bitmap_file with name := full, closed := true })
  | some size => (true, { name := full, closed := false, size := size, offset := 0 })

/-- Diagnose the end of a bitmap file (`log_online_diagnose_bitmap_eof`); false for
the error that the last read page did not finish a run. -/
def log_online_diagnose_bitmap_eof (bitmap_file : log_online_bitmap_file_t)
    (last_page_in_run : Bool) : Bool :=
  if bitmap_file.size < MODIFIED_PAGE_BLOCK_SIZE
      ∨ bitmap_file.offset > bitmap_file.size - MODIFIED_PAGE_BLOCK_SIZE then
    if !last_page_in_run then false else true
  else true

/-- The tail of `log_online_bitmap_iterator_init` once
`log_online_setup_bitmap_file_range` has returned: `range` is `none` when the
resolver failed and the resolved range otherwise. -/
def log_online_bitmap_iterator_init (env : read_env)
    (range : Option log_online_bitmap_file_range_t) (i : log_bitmap_iterator_t)
    (min_lsn max_lsn : Nat) : Bool × log_bitmap_iterator_t :=
  let i := { i with max_lsn := max_lsn }
  if min_lsn > max_lsn then
    (true, { i with
      in_files := { count := 0, files := [] }
      in_file := { i.in_file with closed := true }
      failed := false })
  else
    match range with
    | none => (false, { i with failed := true })
    | some in_files =>
      let i := { i with in_files := in_files, in_i := 0 }
      if i.in_files.count = 0 then
        (true, { i with in_file := { i.in_file with closed := true }, failed := false })
      else
        match i.in_files.files.get? i.in_i with
        | none => (false, { i with failed := true })
        | some slot =>
          let opened := log_online_open_bitmap_file_read_only env slot.name i.in_file
          if !opened.1 then
            (false, { i with
              in_file := opened.2
              in_i := i.in_files.count
              in_files := { i.in_files with files := [] }
              failed := true })
          else
            (true, { i with
              in_file := opened.2
              bit_offset := MODIFIED_PAGE_BLOCK_BITMAP_LEN
              start_lsn := 0
              end_lsn := 0
              space_id := 0
              first_page_id := 0
              last_page_in_run := true
              changed := false
              failed := false })

/-- The header reads at the end of `log_online_bitmap_iterator_next`, after a page
with a valid checksum has been read into `i->page`. -/
def log_online_bitmap_iterator_load (i : log_bitmap_iterator_t) : log_bitmap_iterator_t :=
  { i with
    start_lsn := mach_read_from_8 i.page MODIFIED_PAGE_START_LSN
    end_lsn := mach_read_from_8 i.page MODIFIED_PAGE_END_LSN
    space_id := mach_read_from_4 i.page MODIFIED_PAGE_SPACE_ID
    first_page_id := mach_read_from_4 i.page MODIFIED_PAGE_1ST_PAGE_ID
    last_page_in_run := mach_read_from_4 i.page MODIFIED_PAGE_IS_LAST_BLOCK != 0
    bit_offset := 0
    changed := IS_BIT_SET i.page MODIFIED_PAGE_BLOCK_BITMAP 0 != 0 }

/-- The `while (!checksum_ok)` loop of `log_online_bitmap_iterator_next` with its
inner file-advancing loop: each round either advances to the next file or reads
one page.  `fuel` bounds the number of rounds; `none` is fuel exhausted, a failed
`ut_a` or a file index outside the range. -/
def log_online_bitmap_iterator_next_loop (env : read_env) :
    Nat → log_bitmap_iterator_t → Option (Bool × log_bitmap_iterator_t)
  | 0, _ => none
  | fuel + 1, i =>
    if i.in_file.size < MODIFIED_PAGE_BLOCK_SIZE
        ∨ i.in_file.offset > i.in_file.size - MODIFIED_PAGE_BLOCK_SIZE then
      let i := { i with in_i := i.in_i + 1 }
      let success := env.close_ok i.in_file.name
      let i := { i with in_file := { i.in_file with closed := true } }
      if !success then some (false, { i with failed := true })
      else if !log_online_diagnose_bitmap_eof i.in_file i.last_page_in_run then
        some (false, { i with failed := true })
      else if i.in_i = i.in_files.count then some (false, i)
      else
        match i.in_files.files.get? i.in_i with
        | none => none
        | some slot =>
          if slot.seq_num = 0 then some (false, { i with failed := true })
          else
            let opened := log_online_open_bitmap_file_read_only env slot.name i.in_file
            if !opened.1 then some (false, { i with in_file := opened.2, failed := true })
            else log_online_bitmap_iterator_next_loop env fuel { i with in_file := opened.2 }
    else
      match log_online_read_bitmap_page env i.in_file i.page false with
      | none => none
      | some (false, in_file, page, _) =>
        some (false, { i with in_file := in_file, page := page, failed := true })
      | some (true, in_file, page, checksum_ok) =>
        let i := { i with in_file := in_file, page := page }
        if checksum_ok then some (true, log_online_bitmap_iterator_load i)
        else log_online_bitmap_iterator_next_loop env fuel i

/-- Iterate through bits of saved bitmap blocks (`log_online_bitmap_iterator_next`):
true if the iteration is successful, false if all bits are iterated. -/
def log_online_bitmap_iterator_next (env : read_env) (fuel : Nat)
    (i : log_bitmap_iterator_t) : Option (Bool × log_bitmap_iterator_t) :=
  if i.in_files.count = 0 then some (false, i)
  else if i.bit_offset < MODIFIED_PAGE_BLOCK_BITMAP_LEN then
    let i := { i with bit_offset := i.bit_offset + 1 }
    some (true, { i with
      changed := IS_BIT_SET i.page MODIFIED_PAGE_BLOCK_BITMAP i.bit_offset != 0 })
  else if i.end_lsn ≥ i.max_lsn ∧ i.last_page_in_run then some (false, i)
  else log_online_bitmap_iterator_next_loop env fuel i

/-! ## Vocabulary of the statements -/

/-- The key of a block: its `space_id` and `first_page_id` header fields. -/
def block_key (p : Page) : Nat × Nat :=
  (mach_read_from_4 p MODIFIED_PAGE_SPACE_ID, mach_read_from_4 p MODIFIED_PAGE_1ST_PAGE_ID)

/-- Lexicographic order on (space_id, first_page_id) pairs. -/
def key_lt (a b : Nat × Nat) : Prop := a.1 < b.1 ∨ (a.1 = b.1 ∧ a.2 < b.2)

/-- The block `b` records page `page_no` of tablespace `space`: its key is the
one of the page's block region and the page's bit is set in its bitmap. -/
def records (b : Page) (space page_no : Nat) : Prop :=
  block_key b = (space, page_no / 32448 * 32448) ∧
  IS_BIT_SET b MODIFIED_PAGE_BLOCK_BITMAP (page_no % 32448) ≠ 0

/-- The blocks handed to `os_file_write` in a stretch of trace, in order. -/
def written_blocks : List os_event → List Page
  | [] => []
  | os_event.file_write _ _ block :: rest => block :: written_blocks rest
  | os_event.file_flush _ :: rest => written_blocks rest
  | os_event.file_close _ :: rest => written_blocks rest
  | os_event.file_status _ :: rest => written_blocks rest
  | os_event.file_delete _ :: rest => written_blocks rest
  | os_event.file_create _ :: rest => written_blocks rest
  | os_event.file_truncate _ _ :: rest => written_blocks rest
  | os_event.log_read _ _ _ :: rest => written_blocks rest

/-- The write batch of a flush: the blocks `log_online_write_bitmap` hands to the
writer when it is started in `st`, in the order of the writes. -/
def write_batch (env : server_env) (st : tracker) : List Page :=
  written_blocks ((log_online_write_bitmap env st).2.trace.drop st.trace.length)

/-- The nodes of a traversal as the flush finalises them: the last block flag goes
to the node that nothing follows. -/
def finalized_blocks (start_lsn end_lsn : Nat) : List Page → List Page
  | [] => []
  | page :: rest =>
    log_online_write_bitmap_finalize start_lsn end_lsn rest.isEmpty page
      :: finalized_blocks start_lsn end_lsn rest

/-- What a step of the flush leaves alone: it only appends `evs` to the trace and
keeps the LSNs and the modified-page set. -/
def flush_step (st st' : tracker) (evs : List os_event) : Prop :=
  st'.trace = st.trace ++ evs ∧
  st'.log_bmp_sys.start_lsn = st.log_bmp_sys.start_lsn ∧
  st'.log_bmp_sys.end_lsn = st.log_bmp_sys.end_lsn ∧
  st'.log_bmp_sys.modified_pages = st.log_bmp_sys.modified_pages

/-! ## Sample inputs -/

/-- An environment in which every call to the operating system succeeds, with one
log group whose redo log holds no record. -/
def sample_env : server_env :=
  { io_ok := fun _ => true
    last_checkpoint_lsn := 9000
    srv_max_bitmap_file_size := 104857600
    log_groups := 1
    redo := fun _ _ _ => redo_result.parsed []
    fil_space_get_size := fun _ => 0
    univ_log_lsn_debug := false }

/-- A tracker right after a start on an empty directory: empty set, first output
file, tracking from LSN 8716. -/
def sample_tracker : tracker :=
  { log_bmp_sys :=
      empty_sys ""
        { name := "ib_modified_log_1_0.xdb", closed := false, size := 0, offset := 0 }
        1 8716 9000
    srv_track_changed_pages := true
    tracked_lsn := 8716
    mutex_enters := 0
    mutex_exits := 0
    trace := [] }

/-- The sample tracker after the given `log_online_set_page_bit` calls. -/
def sample_tracker_with (calls : List (Nat × Nat)) : tracker :=
  { sample_tracker with log_bmp_sys := set_page_bits sample_tracker.log_bmp_sys calls }

/-- The node that `log_online_set_page_bit` creates for page 3 of space 7. -/
def sample_node : Page :=
  page_or_bit (block_pos 3) (bit_pos 3)
    (mach_write_to_4 (mach_write_to_4 zero_page MODIFIED_PAGE_SPACE_ID 7)
      MODIFIED_PAGE_1ST_PAGE_ID (block_start_page 3))

/-- The block the flush writes for `sample_node` as last node of its batch. -/
def sample_block : Page := log_online_write_bitmap_finalize 8716 9000 true sample_node

/-- A data directory holding one bitmap file that consists of `sample_block`. -/
def sample_read_env : read_env :=
  { srv_data_home := ""
    file_size := fun name => if name = "ib_modified_log_1_0.xdb" then some 4096 else none
    file_block := fun name offset =>
      if name = "ib_modified_log_1_0.xdb" ∧ offset = 0 then some sample_block else none
    close_ok := fun _ => true }

/-- The sample bitmap file, opened and positioned at its start. -/
def sample_file : log_online_bitmap_file_t :=
  { name := "ib_modified_log_1_0.xdb", closed := false, size := 4096, offset := 0 }

/-- An iterator that has just been initialised on the sample directory: one file,
nothing read yet, iterating up to `LSN_MAX`. -/
def sample_iterator : log_bitmap_iterator_t :=
  { failed := false
    in_files := { count := 1, files := [{ name := "ib_modified_log_1_0.xdb",
                                          start_lsn := 0, seq_num := 1 }] }
    in_i := 0
    in_file := sample_file
    page := zero_page
    bit_offset := MODIFIED_PAGE_BLOCK_BITMAP_LEN
    start_lsn := 0
    end_lsn := 0
    space_id := 0
    first_page_id := 0
    last_page_in_run := true
    changed := false
    max_lsn := 2 ^ 64 - 1 }

/-- A tracker as `log_online_read_init` leaves it on an empty directory: the
initialisation assigns `start_lsn` and publishes it but never assigns `end_lsn`,
which keeps what the allocation held (here 0). -/
def sample_fresh_tracker : tracker :=
  { sample_tracker with
    log_bmp_sys := { sample_tracker.log_bmp_sys with end_lsn := 0 } }

/-- The sample environment with the last checkpoint at the tracker's `start_lsn`. -/
def sample_env_at_checkpoint : server_env :=
  { sample_env with last_checkpoint_lsn := 8716 }

/-- A tracker between two follow cycles: `end_lsn` equals `start_lsn`. -/
def sample_idle_tracker : tracker :=
  { sample_tracker with
    log_bmp_sys := { sample_tracker.log_bmp_sys with end_lsn := 8716 } }

/-! ## A page beyond bit position 4056 -/

/-- The (space_id, page, changed) triples that the first `n` successful calls of
`log_online_bitmap_iterator_next` expose, the page being
`first_page_id + bit_offset`; the list ends with the first call that does not
return true. -/
def iterator_reports (env : read_env) (fuel : Nat) :
    Nat → log_bitmap_iterator_t → List (Nat × Nat × Bool)
  | 0, _ => []
  | n + 1, i =>
    match log_online_bitmap_iterator_next env fuel i with
    | some (true, i') =>
      (i'.space_id, i'.first_page_id + i'.bit_offset, i'.changed)
        :: iterator_reports env fuel n i'
    | _ => []

/-- The node that `log_online_set_page_bit` creates for page 4057 of space 0. -/
def page_4057_node : Page :=
  page_or_bit (block_pos 4057) (bit_pos 4057)
    (mach_write_to_4 (mach_write_to_4 zero_page MODIFIED_PAGE_SPACE_ID 0)
      MODIFIED_PAGE_1ST_PAGE_ID (block_start_page 4057))

/-- The block the flush writes for `page_4057_node` as last node of its batch. -/
def page_4057_block : Page := log_online_write_bitmap_finalize 8716 9000 true page_4057_node

/-- A data directory holding one bitmap file that consists of `page_4057_block`. -/
def page_4057_read_env : read_env :=
  { srv_data_home := ""
    file_size := fun name => if name = "ib_modified_log_1_0.xdb" then some 4096 else none
    file_block := fun name offset =>
      if name = "ib_modified_log_1_0.xdb" ∧ offset = 0 then some page_4057_block else none
    close_ok := fun _ => true }

/-- The file range the resolver returns for that directory. -/
def page_4057_range : log_online_bitmap_file_range_t :=
  { count := 1
    files := [{ name := "ib_modified_log_1_0.xdb", start_lsn := 0, seq_num := 1 }] }

/-- An iterator before its initialisation. -/
def blank_iterator : log_bitmap_iterator_t :=
  { failed := false
    in_files := { count := 0, files := [] }
    in_i := 0
    in_file := { name := "", closed := true, size := 0, offset := 0 }
    page := zero_page
    bit_offset := 0
    start_lsn := 0
    end_lsn := 0
    space_id := 0
    first_page_id := 0
    last_page_in_run := false
    changed := false
    max_lsn := 0 }

/-- The iterator over that directory with `page_4057_block` loaded and the bit
position at `k`. -/
def page_4057_iterator (k : Nat) : log_bitmap_iterator_t :=
  { failed := false
    in_files := page_4057_range
    in_i := 0
    in_file := { name := "ib_modified_log_1_0.xdb", closed := false, size := 4096,
                 offset := 4096 }
    page := page_4057_block
    bit_offset := k
    start_lsn := 8716
    end_lsn := 9000
    space_id := 0
    first_page_id := 0
    last_page_in_run := true
    changed := false
    max_lsn := 2 ^ 64 - 1 }

/-- The iterator that `log_online_bitmap_iterator_init` returns for that directory
and the LSN range `[0, LSN_MAX)`. -/
def page_4057_initial_iterator : log_bitmap_iterator_t :=
  (log_online_bitmap_iterator_init page_4057_read_env (some page_4057_range)
    blank_iterator 0 (2 ^ 64 - 1)).2


/-! ## Sample inputs of the follow cycle -/

/-- The sample environment with one page record in the redo log, for page 3 of
space 7, and a disk on which every call to the operating system fails. -/
def write_failure_env : server_env :=
  { sample_env with
    io_ok := fun _ => false
    redo := fun _ _ _ =>
      redo_result.parsed [{ type := mlog_id_t.MLOG_OTHER 1, space := 7, page_no := 3 }] }

/-- The sample environment with the same page record in the redo log and a disk on
which the block write succeeds and the flush of the file that follows it fails:
the write is the call made with one event in the trace (the log read), the flush
the one made with two. -/
def fsync_failure_env : server_env :=
  { sample_env with
    io_ok := fun n => decide (n ≠ 2)
    redo := fun _ _ _ =>
      redo_result.parsed [{ type := mlog_id_t.MLOG_OTHER 1, space := 7, page_no := 3 }] }

/-- The sample environment of a server that has not made a checkpoint yet: the
last checkpoint LSN is 0, below the LSN the sample tracker tracks from. -/
def early_checkpoint_env : server_env :=
  { sample_env with last_checkpoint_lsn := 0 }

/-- The sample tracker after one follow cycle in the sample environment. -/
def sample_followed_tracker : tracker :=
  ((log_online_follow_redo_log sample_env sample_tracker).getD (false, sample_tracker)).2

/-! ## The bitmap file range of an LSN interval -/

/-- The file types of `os_file_stat_t` that the file name test tells apart; every
other type of `os_file_type_t` is `OS_FILE_TYPE_OTHER`. -/
inductive os_file_type_t where
  | OS_FILE_TYPE_FILE
  | OS_FILE_TYPE_LINK
  | OS_FILE_TYPE_OTHER
  deriving DecidableEq

/-- One directory entry as `os_file_readdir_next_file` returns it
(`os_file_stat_t`). -/
structure os_file_stat_t where
  /-- Name of the entry, without the directory. -/
  name : String
  /-- Type of the entry. -/
  type : os_file_type_t
  /-- Size of the entry in bytes. -/
  size : Nat

/-- One enumeration of a directory: what `os_file_opendir`, the calls of
`os_file_readdir_next_file` and `os_file_closedir` deliver. -/
structure os_file_dir_t where
  /-- The entries in the order the operating system returns them, `none` when the
  directory cannot be opened. -/
  entries : Option (List os_file_stat_t)
  /-- Whether `os_file_closedir` reports an error. -/
  closedir_fails : Bool

/-- The C library call `sscanf(name, "%[a-z_]%lu_" LSN_PF ".xdb", stem, seq, lsn)`
of the file name test: for a name on which it returns 3 the three values it
stores, `none` otherwise. -/
abbrev bitmap_name_scan := String → Option (String × Nat × Nat)

/-- The constant `bmp_file_name_stem`. -/
def bmp_file_name_stem : String := "ib_modified_log_"

/-- The constant `ULONG_MAX` of the C library, for the `unsigned long` of 64 bits
that `ulint` models. -/
abbrev ULONG_MAX : Nat := 2 ^ 64 - 1

/-- The constant `LSN_MAX`, defined outside this file as the greatest value of the
64-bit type `lsn_t`. -/
abbrev LSN_MAX : Nat := 2 ^ 64 - 1

/-- Check the name of a given file if it is a changed page bitmap file and return
file sequence and start LSN name components if it is
(`log_online_is_bitmap_file`); `none` is the return value false.  The two
components are stored in an `ulong` and an `lsn_t`, of 64 bits each. -/
def log_online_is_bitmap_file (sscanf : bitmap_name_scan) (file_info : os_file_stat_t) :
    Option (Nat × Nat) :=
  if file_info.type = os_file_type_t.OS_FILE_TYPE_FILE
      ∨ file_info.type = os_file_type_t.OS_FILE_TYPE_LINK then
    match sscanf file_info.name with
    | some (stem, bitmap_file_seq_num, bitmap_file_start_lsn) =>
      if stem = bmp_file_name_stem then
        some (ulint bitmap_file_seq_num, ulint bitmap_file_start_lsn)
      else none
    | none => none
  else none

/-- The three locals that the first pass of `log_online_setup_bitmap_file_range`
computes. -/
structure bitmap_file_range_bounds where
  first_file_seq_num : Nat
  last_file_seq_num : Nat
  first_file_start_lsn : Nat
  deriving DecidableEq

/-- The body of the first `while` loop of `log_online_setup_bitmap_file_range` for
one directory entry. -/
def log_online_setup_bitmap_file_range_size (sscanf : bitmap_name_scan)
    (range_start range_end : Nat) (b : bitmap_file_range_bounds)
    (bitmap_dir_file_info : os_file_stat_t) : bitmap_file_range_bounds :=
  match log_online_is_bitmap_file sscanf bitmap_dir_file_info with
  | none => b
  | some (file_seq_num, file_start_lsn) =>
    if file_start_lsn ≥ range_end then b
    else
      let b :=
        if file_seq_num > b.last_file_seq_num then { b with last_file_seq_num := file_seq_num }
        else b
      if file_start_lsn ≥ range_start ∨ file_start_lsn = b.first_file_start_lsn
          ∨ b.first_file_start_lsn > range_start then
        let b :=
          if file_start_lsn < b.first_file_start_lsn then
            { b with first_file_start_lsn := file_start_lsn }
          else b
        if file_seq_num < b.first_file_seq_num then { b with first_file_seq_num := file_seq_num }
        else b
      else if file_start_lsn > b.first_file_start_lsn then
        { b with first_file_start_lsn := file_start_lsn, first_file_seq_num := file_seq_num }
      else b

/-- The first pass of `log_online_setup_bitmap_file_range` over the entries of the
directory, from the initial values of the three locals. -/
def log_online_setup_bitmap_file_range_first_pass (sscanf : bitmap_name_scan)
    (range_start range_end : Nat) (entries : List os_file_stat_t) : bitmap_file_range_bounds :=
  entries.foldl (log_online_setup_bitmap_file_range_size sscanf range_start range_end)
    { first_file_seq_num := ULONG_MAX, last_file_seq_num := 0, first_file_start_lsn := LSN_MAX }

/-- A slot as `ut_zalloc` returns it. -/
def zero_slot : log_online_bitmap_file_range_slot := { name := "", start_lsn := 0, seq_num := 0 }

/-- The body of the second `while` loop of `log_online_setup_bitmap_file_range` for
one directory entry; `none` is the return of false for an inconsistent directory,
also once it has happened for an earlier entry.  The sequence numbers are
`ulong` values, and their difference is taken in 64-bit arithmetic. -/
def log_online_setup_bitmap_file_range_fill (sscanf : bitmap_name_scan) (range_end : Nat)
    (b : bitmap_file_range_bounds) (count : Nat)
    (files : Option (List log_online_bitmap_file_range_slot))
    (bitmap_dir_file_info : os_file_stat_t) :
    Option (List log_online_bitmap_file_range_slot) :=
  match files with
  | none => none
  | some files =>
    match log_online_is_bitmap_file sscanf bitmap_dir_file_info with
    | none => some files
    | some (file_seq_num, file_start_lsn) =>
      if file_start_lsn ≥ range_end ∨ file_start_lsn < b.first_file_start_lsn then some files
      else
        let array_pos := ulint (file_seq_num + 2 ^ 64 - b.first_file_seq_num)
        if array_pos ≥ count then none
        else if file_seq_num > (files.getD array_pos zero_slot).seq_num then
          some (files.set array_pos
            { name := bitmap_dir_file_info.name, start_lsn := file_start_lsn,
              seq_num := file_seq_num })
        else some files

/-- The final `for` loop of `log_online_setup_bitmap_file_range` over the slots from
index 1 on, with the slot before the current one; false is the return of false
for an inconsistent directory. -/
def log_online_setup_bitmap_file_range_check :
    log_online_bitmap_file_range_slot → List log_online_bitmap_file_range_slot → Bool
  | _, [] => true
  | prev, cur :: rest =>
    if cur.seq_num = 0 then true
    else if cur.seq_num ≤ prev.seq_num ∨ cur.start_lsn < prev.start_lsn then false
    else log_online_setup_bitmap_file_range_check cur rest

/-- List the bitmap files in `srv_data_home` and set up their range that contains
the specified LSN interval (`log_online_setup_bitmap_file_range`), given the two
enumerations of the directory that it makes; true if succeeded.  On a failure
after the allocation the array has been freed. -/
def log_online_setup_bitmap_file_range (sscanf : bitmap_name_scan)
    (first_dir second_dir : os_file_dir_t) (range_start range_end : Nat) :
    Bool × log_online_bitmap_file_range_t :=
  match first_dir.entries with
  | none => (false, { count := 0, files := [] })
  | some entries =>
    let b := log_online_setup_bitmap_file_range_first_pass sscanf range_start range_end entries
    if first_dir.closedir_fails then (false, { count := 0, files := [] })
    else if b.first_file_seq_num = ULONG_MAX ∧ b.last_file_seq_num = 0 then
      (true, { count := 0, files := [] })
    else
      let count := ulint (b.last_file_seq_num + 2 ^ 64 - b.first_file_seq_num + 1)
      match second_dir.entries with
      | none => (false, { count := count, files := [] })
      | some entries =>
        match entries.foldl (log_online_setup_bitmap_file_range_fill sscanf range_end b count)
            (some (List.replicate count zero_slot)) with
        | none => (false, { count := count, files := [] })
        | some files =>
          if second_dir.closedir_fails then (false, { count := count, files := [] })
          else if (files.getD 0 zero_slot).seq_num = 0
              ∨ (files.getD 0 zero_slot).seq_num ≠ b.first_file_seq_num then
            (false, { count := count, files := [] })
          else if log_online_setup_bitmap_file_range_check (files.getD 0 zero_slot)
              (files.drop 1) then
            (true, { count := count, files := files })
          else (false, { count := count, files := [] })

/-- A directory entry for a regular file of 4096 bytes with the given name. -/
def bitmap_dir_entry (name : String) : os_file_stat_t :=
  { name := name, type := os_file_type_t.OS_FILE_TYPE_FILE, size := 4096 }

/-- An enumeration that delivers the given entries and closes without error. -/
def bitmap_dir_of (entries : List os_file_stat_t) : os_file_dir_t :=
  { entries := some entries, closedir_fails := false }

/-- What `sscanf` with the bitmap file name template returns for the file names of
the sample directories. -/
def sample_sscanf : bitmap_name_scan := fun name =>
  if name = "ib_modified_log_1_10.xdb" then some ("ib_modified_log_", 1, 10)
  else if name = "ib_modified_log_2_20.xdb" then some ("ib_modified_log_", 2, 20)
  else if name = "ib_modified_log_3_30.xdb" then some ("ib_modified_log_", 3, 30)
  else if name = "ib_modified_log_4_20.xdb" then some ("ib_modified_log_", 4, 20)
  else if name = "ib_modified_log_1_0.xdb" then some ("ib_modified_log_", 1, 0)
  else if name = "ib_modified_log_2_1000.xdb" then some ("ib_modified_log_", 2, 1000)
  else if name = "ib_modified_log_3_2000.xdb" then some ("ib_modified_log_", 3, 2000)
  else if name = "ib_modified_log_4_3000.xdb" then some ("ib_modified_log_", 4, 3000)
  else if name = "ib_modified_log_5_4000.xdb" then some ("ib_modified_log_", 5, 4000)
  else none

/-- A directory with two bitmap files, sequence numbers 1 and 2, start LSNs 10 and
20, enumerated in sequence number order. -/
def two_file_dir : os_file_dir_t :=
  bitmap_dir_of [bitmap_dir_entry "ib_modified_log_1_10.xdb",
    bitmap_dir_entry "ib_modified_log_2_20.xdb"]

/-- The same directory enumerated in the opposite order. -/
def two_file_dir_reversed : os_file_dir_t :=
  bitmap_dir_of [bitmap_dir_entry "ib_modified_log_2_20.xdb",
    bitmap_dir_entry "ib_modified_log_1_10.xdb"]

/-- A directory with the bitmap files of sequence numbers 1, 3 and 4, the file of
sequence number 2 missing, where file 4 starts at a smaller LSN than file 3. -/
def gap_dir : os_file_dir_t :=
  bitmap_dir_of [bitmap_dir_entry "ib_modified_log_1_10.xdb",
    bitmap_dir_entry "ib_modified_log_3_30.xdb",
    bitmap_dir_entry "ib_modified_log_4_20.xdb"]

/-- The range that the setup returns for the two-file directory and the LSN
interval from 20 to 1000. -/
def two_file_range : log_online_bitmap_file_range_t :=
  (log_online_setup_bitmap_file_range sample_sscanf two_file_dir two_file_dir 20 1000).2

/-- The sequence numbers and start LSNs of the slots of a range. -/
def range_slots (r : log_online_bitmap_file_range_t) : List (Nat × Nat) :=
  r.files.map (fun s => (s.seq_num, s.start_lsn))

/-! ## Purging bitmap files -/

/-- What `log_online_purge_changed_page_bitmaps` reads from the rest of the server
besides the tracker. -/
structure purge_env where
  /-- The server variable `srv_redo_log_thread_started`. -/
  srv_redo_log_thread_started : Bool
  /-- Whether the pointer `log_bmp_sys` is `NULL`; the bitmap struct of the tracker
  is not read then. -/
  log_bmp_sys_null : Bool
  /-- The server variable `srv_data_home`. -/
  srv_data_home : String
  /-- The constant `SRV_PATH_SEPARATOR`. -/
  SRV_PATH_SEPARATOR : Char
  /-- The C library call `sscanf` with the bitmap file name template. -/
  sscanf : bitmap_name_scan
  /-- The first enumeration of `srv_data_home` by the range setup. -/
  first_dir : os_file_dir_t
  /-- The second enumeration of `srv_data_home` by the range setup. -/
  second_dir : os_file_dir_t

/-- The full file name that the `for` loop of
`log_online_purge_changed_page_bitmaps` composes for a slot. -/
def purge_full_bmp_file_name (penv : purge_env) (st : tracker)
    (slot : log_online_bitmap_file_range_slot) : String :=
  if !penv.log_bmp_sys_null then st.log_bmp_sys.bmp_file_home ++ slot.name
  else
    let separator :=
      if penv.srv_data_home.length ≠ 0
          ∧ penv.srv_data_home.back ≠ penv.SRV_PATH_SEPARATOR then
        String.singleton penv.SRV_PATH_SEPARATOR
      else ""
    penv.srv_data_home ++ separator ++ slot.name

/-- The `for` loop of `log_online_purge_changed_page_bitmaps` over the slots from
the current one on, `count` being the length of the array; the result is the
local `result`, true for failure. -/
def log_online_purge_changed_page_bitmaps_loop (env : server_env) (penv : purge_env)
    (lsn : Nat) : List log_online_bitmap_file_range_slot → tracker → Bool × tracker
  | [], st => (false, st)
  | cur :: rest, st =>
    if (rest.isEmpty ∨ (rest.headD zero_slot).seq_num = 0
        ∨ (rest.headD zero_slot).start_lsn > lsn) ∧ lsn ≠ LSN_MAX then (false, st)
    else if cur.name = "" then log_online_purge_changed_page_bitmaps_loop env penv lsn rest st
    else
      let r := os_call env st (os_event.file_delete (purge_full_bmp_file_name penv st cur))
      if !r.1 then (true, r.2)
      else log_online_purge_changed_page_bitmaps_loop env penv lsn rest r.2

/-- The statement of `log_online_purge_changed_page_bitmaps` between the range
setup and the `for` loop: if the current output file has to be deleted, close it
first. -/
def log_online_purge_changed_page_bitmaps_close (penv : purge_env) (lsn : Nat)
    (st : tracker) : tracker :=
  if penv.srv_redo_log_thread_started ∧ lsn > st.log_bmp_sys.end_lsn then
    { st with
      trace := st.trace ++ [os_event.file_close st.log_bmp_sys.out.name]
      log_bmp_sys := { st.log_bmp_sys with
        out := { st.log_bmp_sys.out with closed := true } } }
  else st

/-- The statements of `log_online_purge_changed_page_bitmaps` after the `for` loop:
restart or continue the bitmap file sequence and release the mutex. -/
def log_online_purge_changed_page_bitmaps_rotate (env : server_env)
    (log_bmp_sys_inited : Bool) (lsn : Nat) (st : tracker) : tracker :=
  if log_bmp_sys_inited then
    let st :=
      if lsn > st.log_bmp_sys.end_lsn then
        let st :=
          if lsn = LSN_MAX then
            { st with log_bmp_sys := { st.log_bmp_sys with out_seq_num := 0 } }
          else st
        let new_file_lsn := if lsn = LSN_MAX then 0 else st.log_bmp_sys.end_lsn
        let rotated := log_online_rotate_bitmap_file env st new_file_lsn
        if !rotated.1 then { rotated.2 with srv_track_changed_pages := false }
        else rotated.2
      else st
    mutex_exit st
  else st

/-- Delete all the bitmap files for data less than the specified LSN
(`log_online_purge_changed_page_bitmaps`); false to indicate success, true for
failure.  The second test of `srv_redo_log_thread_started`, made under the mutex,
sees the value of the first one. -/
def log_online_purge_changed_page_bitmaps (env : server_env) (penv : purge_env)
    (st : tracker) (lsn : Nat) : Bool × tracker :=
  let lsn := if lsn = 0 then LSN_MAX else lsn
  let log_bmp_sys_inited := penv.srv_redo_log_thread_started
  let st := if penv.srv_redo_log_thread_started then mutex_enter st else st
  let bitmap_files :=
    log_online_setup_bitmap_file_range penv.sscanf penv.first_dir penv.second_dir 0 LSN_MAX
  if !bitmap_files.1 then (true, if log_bmp_sys_inited then mutex_exit st else st)
  else
    let st := log_online_purge_changed_page_bitmaps_close penv lsn st
    let r := log_online_purge_changed_page_bitmaps_loop env penv lsn bitmap_files.2.files st
    (r.1, log_online_purge_changed_page_bitmaps_rotate env log_bmp_sys_inited lsn r.2)

/-- The names of the files that the calls of `os_file_delete_if_exists` in a trace
were made for, in order. -/
def deleted_files : List os_event → List String
  | [] => []
  | os_event.file_delete name :: rest => name :: deleted_files rest
  | os_event.file_write _ _ _ :: rest => deleted_files rest
  | os_event.file_flush _ :: rest => deleted_files rest
  | os_event.file_close _ :: rest => deleted_files rest
  | os_event.file_status _ :: rest => deleted_files rest
  | os_event.file_create _ :: rest => deleted_files rest
  | os_event.file_truncate _ _ :: rest => deleted_files rest
  | os_event.log_read _ _ _ :: rest => deleted_files rest

/-- The deletion calls that the purge loop makes for the given slots: one for every
slot with a name. -/
def purge_deletions (penv : purge_env) (st : tracker)
    (slots : List log_online_bitmap_file_range_slot) : List os_event :=
  (slots.filter (fun s => s.name != "")).map
    (fun s => os_event.file_delete (purge_full_bmp_file_name penv st s))

/-- A purge environment with the redo log thread running, the data home `./` and
the given directory, enumerated twice in the same order. -/
def sample_purge_env (dir : os_file_dir_t) : purge_env :=
  { srv_redo_log_thread_started := true
    log_bmp_sys_null := false
    srv_data_home := "./"
    SRV_PATH_SEPARATOR := '/'
    sscanf := sample_sscanf
    first_dir := dir
    second_dir := dir }

/-- The sample environment with a disk on which the status query that the rotation
of the purge of LSN 9500 makes for the name of the next output file finds no
zero-sized file: it is the call made with four events in the trace (the close of
the output file and three deletions). -/
def purge_rotation_env : server_env :=
  { sample_env with io_ok := fun n => decide (n ≠ 4) }

/-- A directory with the bitmap files of sequence numbers 1 to 4 that start at the
LSNs 0, 1000, 2000 and 3000. -/
def four_file_dir : os_file_dir_t :=
  bitmap_dir_of [bitmap_dir_entry "ib_modified_log_1_0.xdb",
    bitmap_dir_entry "ib_modified_log_2_1000.xdb",
    bitmap_dir_entry "ib_modified_log_3_2000.xdb",
    bitmap_dir_entry "ib_modified_log_4_3000.xdb"]

/-- A directory with the bitmap files of sequence numbers 1, 2, 4 and 5 that start
at the LSNs 0, 1000, 3000 and 4000, the file of sequence number 3 missing. -/
def purge_gap_dir : os_file_dir_t :=
  bitmap_dir_of [bitmap_dir_entry "ib_modified_log_1_0.xdb",
    bitmap_dir_entry "ib_modified_log_2_1000.xdb",
    bitmap_dir_entry "ib_modified_log_4_3000.xdb",
    bitmap_dir_entry "ib_modified_log_5_4000.xdb"]

/-- The range that the setup returns for the four-file directory and the LSN
interval from 0 to `LSN_MAX`. -/
def four_file_range : log_online_bitmap_file_range_t :=
  (log_online_setup_bitmap_file_range sample_sscanf four_file_dir four_file_dir 0 LSN_MAX).2

/-! ## Startup: the last tracked LSN and the file to continue with -/

/-- The `while` loop of `log_online_read_last_tracked_lsn`: the output file, the
page buffer and the locals `checksum_ok`, `is_last_page` and `read_offset`, with
the number of iterations still allowed.  `none` is a failed `ut_a` of the page
read, or the allowance used up. -/
def log_online_read_last_tracked_lsn_loop (renv : read_env) :
    Nat → log_online_bitmap_file_t → Page → Bool → Bool → Nat →
      Option (log_online_bitmap_file_t × Page × Bool × Bool)
  | 0, out, page, checksum_ok, is_last_page, read_offset =>
    if (!checksum_ok || !is_last_page) && decide (read_offset > 0) then none
    else some (out, page, checksum_ok, is_last_page)
  | fuel + 1, out, page, checksum_ok, is_last_page, read_offset =>
    if (!checksum_ok || !is_last_page) && decide (read_offset > 0) then
      let read_offset := ulint (read_offset + 2 ^ 64 - MODIFIED_PAGE_BLOCK_SIZE)
      let out := { out with offset := read_offset }
      match log_online_read_bitmap_page renv out page checksum_ok with
      | none => none
      | some (false, out, page, _) => some (out, page, false, is_last_page)
      | some (true, out, page, checksum_ok) =>
        let is_last_page :=
          if checksum_ok then mach_read_from_4 page MODIFIED_PAGE_IS_LAST_BLOCK != 0
          else is_last_page
        log_online_read_last_tracked_lsn_loop renv fuel out page checksum_ok is_last_page
          read_offset
    else some (out, page, checksum_ok, is_last_page)

/-- Get the last tracked fully LSN from the bitmap file by reading backwards until
a correct end page is found (`log_online_read_last_tracked_lsn`), and set the
start output position for the written bitmap data.  `page` is the page buffer as
it is on entry; `none` is a failed `ut_a` of the page read. -/
def log_online_read_last_tracked_lsn (env : server_env) (renv : read_env) (page : Page)
    (st : tracker) : Option (Nat × tracker) :=
  match log_online_read_last_tracked_lsn_loop renv
      (st.log_bmp_sys.out.offset / MODIFIED_PAGE_BLOCK_SIZE + 1) st.log_bmp_sys.out page
      false false st.log_bmp_sys.out.offset with
  | none => none
  | some (out, page, checksum_ok, is_last_page) =>
    let st := { st with log_bmp_sys := { st.log_bmp_sys with out := out } }
    let result :=
      if checksum_ok && is_last_page then mach_read_from_8 page MODIFIED_PAGE_END_LSN else 0
    let truncated := os_call env st
      (os_event.file_truncate st.log_bmp_sys.out.name st.log_bmp_sys.out.offset)
    if !truncated.1 then some (0, truncated.2) else some (result, truncated.2)

/-- What `log_online_read_init` reads from the rest of the server besides the
checkpoint LSN and the files. -/
structure init_env where
  /-- The constant `LOG_START_LSN`. -/
  LOG_START_LSN : Nat
  /-- The constant `OS_FILE_LOG_BLOCK_SIZE`. -/
  OS_FILE_LOG_BLOCK_SIZE : Nat
  /-- The constant `LOG_BLOCK_HDR_SIZE`. -/
  LOG_BLOCK_HDR_SIZE : Nat
  /-- The constant `SRV_PATH_SEPARATOR`. -/
  SRV_PATH_SEPARATOR : Char
  /-- The value of `log_sys->lsn`. -/
  lsn : Nat
  /-- The value of `log_sys->log_group_capacity`. -/
  log_group_capacity : Nat
  /-- The C library call `sscanf` with the bitmap file name template. -/
  sscanf : bitmap_name_scan
  /-- The enumeration of the bitmap file directory. -/
  bitmap_dir : os_file_dir_t
  /-- The page buffer of `log_online_read_last_tracked_lsn` as it is on entry. -/
  page : Page

/-- The constant `MIN_TRACKED_LSN`: on server startup with an empty database the
first LSN of actual log records. -/
def MIN_TRACKED_LSN (ienv : init_env) : Nat :=
  ienv.LOG_START_LSN + ienv.OS_FILE_LOG_BLOCK_SIZE + ienv.LOG_BLOCK_HDR_SIZE

/-- Check if missing, if any, LSN interval can be read and tracked using the
current LSN value, the LSN value where the tracking stopped, and the log group
capacity (`log_online_can_track_missing`).  `none` is the fatal error for a last
tracked LSN ahead of the tracking start LSN; the difference of the two LSNs is
taken in 64-bit arithmetic. -/
def log_online_can_track_missing (ienv : init_env)
    (last_tracked_lsn tracking_start_lsn : Nat) : Option Bool :=
  let last_tracked_lsn := max last_tracked_lsn (MIN_TRACKED_LSN ienv)
  if last_tracked_lsn > tracking_start_lsn then none
  else
    some (last_tracked_lsn == tracking_start_lsn
      || decide (ulint (ienv.lsn + 2 ^ 64 - last_tracked_lsn) ≤ ienv.log_group_capacity))

/-- Diagnose a gap in tracked LSN range on server startup and try to close it by
tracking the data immediately, if possible
(`log_online_track_missing_on_startup`).  `none` is the end of the process: the
fatal error of `log_online_can_track_missing`, or `exit(1)` after a failed
follow, or a fatal assertion inside the follow. -/
def log_online_track_missing_on_startup (env : server_env) (ienv : init_env) (st : tracker)
    (last_tracked_lsn tracking_start_lsn : Nat) : Option tracker :=
  match log_online_can_track_missing ienv last_tracked_lsn tracking_start_lsn with
  | none => none
  | some true =>
    let st := { st with
      log_bmp_sys := { st.log_bmp_sys with
        start_lsn := max last_tracked_lsn (MIN_TRACKED_LSN ienv) } }
    let st := log_set_tracked_lsn st st.log_bmp_sys.start_lsn
    match log_online_follow_redo_log env st with
    | none => none
    | some (false, _) => none
    | some (true, st) => some st
  | some false =>
    let st := { st with
      log_bmp_sys := { st.log_bmp_sys with
        start_lsn := tracking_start_lsn, end_lsn := tracking_start_lsn } }
    some (log_set_tracked_lsn st st.log_bmp_sys.start_lsn)

/-- The body of the `while` loop of `log_online_read_init` over the directory for
one entry: the bitmap struct and the local `last_file_start_lsn`. -/
def log_online_read_init_scan (sscanf : bitmap_name_scan) (acc : log_bitmap_struct × Nat)
    (bitmap_dir_file_info : os_file_stat_t) : log_bitmap_struct × Nat :=
  match log_online_is_bitmap_file sscanf bitmap_dir_file_info with
  | none => acc
  | some (file_seq_num, file_start_lsn) =>
    if file_seq_num > acc.1.out_seq_num ∧ bitmap_dir_file_info.size > 0 then
      ({ acc.1 with
          out_seq_num := file_seq_num
          out := { acc.1.out with name := bitmap_dir_file_info.name } },
        file_start_lsn)
    else acc

/-- The statements of `log_online_read_init` that set the size of the opened last
file and the output position, the size rounded down to a multiple of the block
size. -/
def log_online_read_init_position (st : tracker) (size : Nat) : tracker :=
  let st := { st with
    log_bmp_sys := { st.log_bmp_sys with
      out := { st.log_bmp_sys.out with size := size, offset := size } } }
  if st.log_bmp_sys.out.offset % MODIFIED_PAGE_BLOCK_SIZE ≠ 0 then
    { st with
      log_bmp_sys := { st.log_bmp_sys with
        out := { st.log_bmp_sys.out with
          offset := st.log_bmp_sys.out.offset
            - st.log_bmp_sys.out.offset % MODIFIED_PAGE_BLOCK_SIZE } } }
  else st

/-- The branch of `log_online_read_init` for a last file that could be opened, of
the given size: read the last tracked LSN from it, rotate, and track the missing
interval.  `none` is the end of the process by `exit(1)` or a fatal error. -/
def log_online_read_init_last_file (env : server_env) (ienv : init_env) (renv : read_env)
    (st : tracker) (tracking_start_lsn last_file_start_lsn size : Nat) : Option tracker :=
  let st := log_online_read_init_position st size
  match log_online_read_last_tracked_lsn env renv ienv.page st with
  | none => none
  | some (last_tracked_lsn, st) =>
    let need_rotate := last_tracked_lsn != 0
    let last_tracked_lsn := if last_tracked_lsn = 0 then last_file_start_lsn else last_tracked_lsn
    match log_online_can_track_missing ienv last_tracked_lsn tracking_start_lsn with
    | none => none
    | some can_track =>
      let file_start_lsn := if can_track then last_tracked_lsn else tracking_start_lsn
      let rotated :=
        if need_rotate then log_online_rotate_bitmap_file env st file_start_lsn
        else (true, st)
      if !rotated.1 then none
      else if last_tracked_lsn < tracking_start_lsn then
        log_online_track_missing_on_startup env ienv rotated.2 last_tracked_lsn
          tracking_start_lsn
      else
        let st := { rotated.2 with
          log_bmp_sys := { rotated.2.log_bmp_sys with start_lsn := tracking_start_lsn } }
        some (log_set_tracked_lsn st tracking_start_lsn)

/-- The statements of `log_online_read_init` from the setting of `bmp_file_home`
to the end of the `while` loop over the entries of the bitmap file directory:
the bitmap struct and the local `last_file_start_lsn`. -/
def log_online_read_init_enumerate (ienv : init_env) (renv : read_env)
    (sys : log_bitmap_struct) (entries : List os_file_stat_t) : log_bitmap_struct × Nat :=
  let bmp_file_home :=
    if renv.srv_data_home.length ≠ 0 ∧ renv.srv_data_home.back ≠ ienv.SRV_PATH_SEPARATOR then
      renv.srv_data_home ++ String.singleton ienv.SRV_PATH_SEPARATOR
    else renv.srv_data_home
  let sys := { sys with
    bmp_file_home := bmp_file_home
    out := { sys.out with name := "" }
    out_seq_num := 0 }
  entries.foldl (log_online_read_init_scan ienv.sscanf) (sys, MIN_TRACKED_LSN ienv)

/-- Initialize the dynamic part of the log tracking subsystem
(`log_online_read_init`), from a tracker whose bitmap struct is as `ut_malloc`
returned it.  `none` is the end of the process by `exit(1)`, a fatal error or a
failed `ut_a`.  The last file is opened by its name without the directory, and
it can be opened when the reader environment knows its size; the limits on the
length of file names (`FN_REFLEN`) are left out. -/
def log_online_read_init (env : server_env) (ienv : init_env) (renv : read_env)
    (st : tracker) : Option tracker :=
  let tracking_start_lsn := max env.last_checkpoint_lsn (MIN_TRACKED_LSN ienv)
  match ienv.bitmap_dir.entries with
  | none => none
  | some entries =>
    let scanned := log_online_read_init_enumerate ienv renv st.log_bmp_sys entries
    let sys := scanned.1
    let last_file_start_lsn := scanned.2
    if ienv.bitmap_dir.closedir_fails then none
    else
      let sys :=
        if sys.out_seq_num = 0 then
          log_online_make_bitmap_name { sys with out_seq_num := 1 } 0
        else sys
      let sys := { sys with modified_pages := [], page_free_list := [] }
      let st := { st with log_bmp_sys := sys }
      match renv.file_size st.log_bmp_sys.out.name with
      | none =>
        let st := { st with
          log_bmp_sys := { st.log_bmp_sys with
            out := { st.log_bmp_sys.out with closed := true } } }
        let started := log_online_start_bitmap_file env st
        if !started.1 then none
        else
          let st := { started.2 with
            log_bmp_sys := { started.2.log_bmp_sys with start_lsn := tracking_start_lsn } }
          some (log_set_tracked_lsn st tracking_start_lsn)
      | some size =>
        let st := { st with
          log_bmp_sys := { st.log_bmp_sys with
            out := { st.log_bmp_sys.out with closed := false } } }
        log_online_read_init_last_file env ienv renv st tracking_start_lsn
          last_file_start_lsn size

/-- A block with a valid checksum and without the last block flag, as the flush
writes it for a node that is not the last of its batch. -/
def sample_inner_block : Page := log_online_write_bitmap_finalize 8000 8716 false sample_node

/-- A data directory whose bitmap file `ib_modified_log_1_0.xdb` holds
`sample_inner_block`, then `sample_block`, then 2048 more bytes. -/
def torn_read_env : read_env :=
  { srv_data_home := ""
    file_size := fun name => if name = "ib_modified_log_1_0.xdb" then some 10240 else none
    file_block := fun name offset =>
      if name = "ib_modified_log_1_0.xdb" ∧ offset = 0 then some sample_inner_block
      else if name = "ib_modified_log_1_0.xdb" ∧ offset = 4096 then some sample_block
      else none
    close_ok := fun _ => true }

/-- The sample tracker with that file as its output file, positioned at the size of
the file rounded down to a multiple of the block size. -/
def torn_file_tracker : tracker :=
  { sample_tracker with
    log_bmp_sys := { sample_tracker.log_bmp_sys with
      out := { name := "ib_modified_log_1_0.xdb", closed := false, size := 10240,
               offset := 8192 } } }

/-- A data directory whose bitmap file `ib_modified_log_1_0.xdb` is one block of
zero bytes, which does not have the last block flag. -/
def zero_block_read_env : read_env :=
  { srv_data_home := ""
    file_size := fun name => if name = "ib_modified_log_1_0.xdb" then some 4096 else none
    file_block := fun name offset =>
      if name = "ib_modified_log_1_0.xdb" ∧ offset = 0 then some zero_page else none
    close_ok := fun _ => true }

/-- The sample tracker with that file as its output file, positioned at its end. -/
def zero_block_tracker : tracker :=
  { sample_tracker with
    log_bmp_sys := { sample_tracker.log_bmp_sys with
      out := { name := "ib_modified_log_1_0.xdb", closed := false, size := 4096,
               offset := 4096 } } }

/-- The startup environment of a server whose redo log is at LSN 9100, with a log
group capacity of 1000000 bytes, for the given bitmap file directory. -/
def sample_init_env (dir : os_file_dir_t) : init_env :=
  { LOG_START_LSN := 8192
    OS_FILE_LOG_BLOCK_SIZE := 512
    LOG_BLOCK_HDR_SIZE := 12
    SRV_PATH_SEPARATOR := '/'
    lsn := 9100
    log_group_capacity := 1000000
    sscanf := sample_sscanf
    bitmap_dir := dir
    page := zero_page }

/-- A directory with the one bitmap file `ib_modified_log_1_0.xdb`, of 4096
bytes. -/
def one_file_dir : os_file_dir_t :=
  bitmap_dir_of [bitmap_dir_entry "ib_modified_log_1_0.xdb"]

/-- The tracker that `log_online_read_init` has built from the sample tracker when
it opens the file `ib_modified_log_1_0.xdb` of the one-file directory. -/
def one_file_tracker : tracker :=
  { sample_tracker with
    log_bmp_sys :=
      { bmp_file_home := ""
        out := { name := "ib_modified_log_1_0.xdb", closed := false, size := 0, offset := 0 }
        out_seq_num := 1
        start_lsn := 8716
        end_lsn := 9000
        modified_pages := []
        page_free_list := [] } }

/-- A block with a valid checksum, the last block flag and the given end LSN, as
the flush writes it for the last node of a batch. -/
def last_block (end_lsn : Nat) : Page :=
  log_online_write_bitmap_finalize 8000 end_lsn true sample_node

/-- A data directory whose bitmap file `ib_modified_log_1_0.xdb` is the one block
`last_block end_lsn`. -/
def last_block_read_env (end_lsn : Nat) : read_env :=
  { srv_data_home := ""
    file_size := fun name => if name = "ib_modified_log_1_0.xdb" then some 4096 else none
    file_block := fun name offset =>
      if name = "ib_modified_log_1_0.xdb" ∧ offset = 0 then some (last_block end_lsn)
      else none
    close_ok := fun _ => true }

/-- The sample environment with the last checkpoint at the given LSN. -/
def checkpoint_env (last_checkpoint_lsn : Nat) : server_env :=
  { sample_env with last_checkpoint_lsn := last_checkpoint_lsn }

/-- The startup environment of a server whose redo log is at the given LSN, with
the given log group capacity, for the one-file directory. -/
def capacity_init_env (lsn log_group_capacity : Nat) : init_env :=
  { sample_init_env one_file_dir with lsn := lsn, log_group_capacity := log_group_capacity }

/-! ## Vocabulary of the record classification -/

/-- The `log_online_set_page_bit` calls that the spec's words give for one
completely parsed redo record: none for the bookkeeping types (multi-record
terminator, dummy record, checkpoint marker, truncate marker) and, in a build with
LSN debugging, for the LSN pseudo-record; otherwise the call for the page of the
record, followed for the index load type by one call for each page
`0 .. space_size - 1` of the tablespace. -/
def rec_page_calls (env : server_env) (r : redo_rec) : List (Nat × Nat) :=
  if r.type = mlog_id_t.MLOG_MULTI_REC_END ∨ r.type = mlog_id_t.MLOG_DUMMY_RECORD
      ∨ r.type = mlog_id_t.MLOG_CHECKPOINT ∨ r.type = mlog_id_t.MLOG_TRUNCATE
      ∨ (env.univ_log_lsn_debug = true ∧ r.type = mlog_id_t.MLOG_LSN) then []
  else if r.type = mlog_id_t.MLOG_INDEX_LOAD then
    (r.space, r.page_no)
      :: (List.range (env.fil_space_get_size r.space)).map (fun i => (r.space, i))
  else [(r.space, r.page_no)]

/-- The sample tracker after the follow cycle whose flush fails on the write. -/
def sample_failed_flush_tracker : tracker :=
  ((log_online_follow_redo_log write_failure_env sample_tracker).getD (false, sample_tracker)).2

/-- A data directory without any bitmap file. -/
def empty_read_env : read_env :=
  { srv_data_home := ""
    file_size := fun _ => none
    file_block := fun _ _ => none
    close_ok := fun _ => true }

/-- The tracker that `log_online_read_init` leaves when it starts from the sample
tracker on an empty directory. -/
def sample_started_tracker : tracker :=
  (log_online_read_init sample_env (sample_init_env (bitmap_dir_of [])) empty_read_env
    sample_tracker).getD sample_tracker

/-! ## Sample inputs of the later claims -/

/-- The entries of a directory with the bitmap files of sequence numbers 1, 2 and 3
that start at the LSNs 10, 20 and 30, in sequence number order. -/
def three_file_entries : List os_file_stat_t :=
  [bitmap_dir_entry "ib_modified_log_1_10.xdb", bitmap_dir_entry "ib_modified_log_2_20.xdb",
    bitmap_dir_entry "ib_modified_log_3_30.xdb"]

/-- The same entries with the first two exchanged. -/
def three_file_entries_swapped : List os_file_stat_t :=
  [bitmap_dir_entry "ib_modified_log_2_20.xdb", bitmap_dir_entry "ib_modified_log_1_10.xdb",
    bitmap_dir_entry "ib_modified_log_3_30.xdb"]

/-- The sample tracker with an output file that has reached
`srv_max_bitmap_file_size` of the sample environment, 100 MiB. -/
def full_file_tracker : tracker :=
  { sample_tracker with
    log_bmp_sys := { sample_tracker.log_bmp_sys with
      out := { name := "ib_modified_log_1_0.xdb", closed := false, size := 104857600,
               offset := 104857600 } } }

/-! ## The C library call on a file name -/

/-- The conversion `%[a-z_]` of `sscanf`: the longest initial run of characters of
the scanset, and the input after it. -/
def scan_stem (input : List Char) : List Char × List Char :=
  input.span (fun c => c.isLower || c == '_')

/-- The value of a sequence of decimal digits. -/
def decimal_value (digits : List Char) : Nat :=
  digits.foldl (fun n c => 10 * n + (c.toNat - '0'.toNat)) 0

/-- The white space of the C library (`isspace` in the C locale): the space and
the characters from the horizontal tab to the carriage return, which include the
vertical tab and the form feed. -/
def c_isspace (c : Char) : Bool :=
  c.toNat == 32 || (decide (9 ≤ c.toNat) && decide (c.toNat ≤ 13))

/-- An unsigned decimal conversion of `sscanf` (`%lu`, and `LSN_PF`, which is defined
outside this file as the conversion specification of an unsigned 64-bit decimal
integer): white space is skipped, then an optional sign and the longest
non-empty run of decimal digits are consumed, as by `strtoul` with base 10.  The
result is the value stored and the input after the digits: `ULONG_MAX` for digits
whose value does not fit 64 bits, with or without a sign, and otherwise the
value, negated in 64-bit arithmetic after a minus sign.  `none` is a matching
failure. -/
def scan_unsigned (input : List Char) : Option (Nat × List Char) :=
  let input := input.dropWhile c_isspace
  let negative := input.head? == some '-'
  let input :=
    if input.head? == some '-' ∨ input.head? == some '+' then input.tail else input
  let digits := (input.span Char.isDigit).1
  let rest := (input.span Char.isDigit).2
  if digits = [] then none
  else if decimal_value digits > ULONG_MAX then some (ULONG_MAX, rest)
  else
    some (if negative then ulint (2 ^ 64 - decimal_value digits) else decimal_value digits,
      rest)

/-- The call `sscanf(name, "%[a-z_]%lu_" LSN_PF ".xdb", stem, &seq, &lsn)` of
`log_online_is_bitmap_file` with the comparison of its return value to 3, as the
C standard defines the function: the directives are executed in order, and the
return value is the number of input items assigned.  It is 3 as soon as the
third conversion has been made, so the directive `.xdb` that follows cannot
change it.  The result is the three values stored when the return value is 3. -/
def sscanf_bitmap_name : bitmap_name_scan := fun name =>
  let stem := (scan_stem name.toList).1
  let input := (scan_stem name.toList).2
  if stem = [] then none
  else
    match scan_unsigned input with
    | none => none
    | some (seq_num, input) =>
      match input with
      | '_' :: input =>
        match scan_unsigned input with
        | none => none
        | some (start_lsn, _) => some (String.mk stem, seq_num, start_lsn)
      | _ => none

/-! # Properties -/

/-! ## Checksum -/

theorem ulint_of_lt {n : Nat} (h : n < 2 ^ 64) : ulint n = n := Nat.mod_eq_of_lt h

theorem land_mask_lt (x : Nat) : x &&& 0x7FFFFFFF < 2 ^ 31 := by
  have h : x &&& 0x7FFFFFFF = x % 2 ^ 31 := Nat.and_pow_two_sub_one_eq_mod x 31
  rw [h]
  exact Nat.mod_lt _ (by decide)

theorem shl_byte_lt (b : byte) {sh : Nat} (hsh : sh ≤ 24) : b.val <<< sh < 2 ^ 32 := by
  rw [Nat.shiftLeft_eq]
  have h1 : b.val < 2 ^ 8 := b.isLt
  have h2 : (2 : Nat) ^ sh ≤ 2 ^ 24 := Nat.pow_le_pow_right (by decide) hsh
  calc b.val * 2 ^ sh ≤ b.val * 2 ^ 24 := Nat.mul_le_mul_left _ h2
    _ < 2 ^ 8 * 2 ^ 24 := Nat.mul_lt_mul_of_pos_right h1 (by decide)
    _ = 2 ^ 32 := by norm_num

/-- The source loop is the fold of the spec's step over the bytes it visits. -/
theorem calc_checksum_loop_eq_foldl (block : Page) :
    ∀ (n i sum sh : Nat), sh ≤ 24 →
      log_online_calc_checksum_loop block n i sum sh
        = (((List.range' i n).map fun j => (block j).val).foldl
            spec_checksum_step (sum, sh)).1 := by
  intro n
  induction n with
  | zero => intro i sum sh _; rfl
  | succ n ih =>
    intro i sum sh hsh
    have hm := land_mask_lt sum
    have hb : (block i).val < 256 := (block i).isLt
    have hs := shl_byte_lt (block i) hsh
    have e1 : ulint ((sum &&& 0x7FFFFFFF) + (block i).val)
        = (sum &&& 0x7FFFFFFF) + (block i).val := ulint_of_lt (by omega)
    have e2 : ulint ((block i).val <<< sh) = (block i).val <<< sh := ulint_of_lt (by omega)
    have e3 : ulint ((sum &&& 0x7FFFFFFF) + (block i).val + (block i).val <<< sh)
        = (sum &&& 0x7FFFFFFF) + (block i).val + (block i).val <<< sh :=
      ulint_of_lt (by omega)
    have hsh2 : (if sh + 1 > 24 then 0 else sh + 1) = (if sh < 24 then sh + 1 else 0) := by
      split <;> split <;> omega
    have hsh3 : (if sh < 24 then sh + 1 else 0) ≤ 24 := by split <;> omega
    simp only [log_online_calc_checksum_loop, List.range'_succ, List.map_cons, List.foldl_cons]
    rw [e1, e2, e3, hsh2, ih _ _ _ hsh3]
    rfl

theorem calc_checksum_eq_spec (block : Page) :
    log_online_calc_checksum block = spec_checksum block := by
  have h : MODIFIED_PAGE_BLOCK_CHECKSUM = 4092 := by norm_num
  unfold log_online_calc_checksum spec_checksum
  rw [calc_checksum_loop_eq_foldl block _ _ _ _ (by decide), List.range_eq_range', h]

theorem calc_checksum_congr (block block' : Page)
    (h : ∀ i, i < MODIFIED_PAGE_BLOCK_CHECKSUM → block' i = block i) :
    log_online_calc_checksum block' = log_online_calc_checksum block := by
  have e : ((List.range 4092).map fun i => (block' i).val)
      = ((List.range 4092).map fun i => (block i).val) := by
    apply List.map_congr_left
    intro i hi
    have hi' : i < 4092 := List.mem_range.mp hi
    have hlt : i < MODIFIED_PAGE_BLOCK_CHECKSUM := by
      have h0 : MODIFIED_PAGE_BLOCK_CHECKSUM = 4092 := by norm_num
      omega
    simp only [h i hlt]
  rw [calc_checksum_eq_spec, calc_checksum_eq_spec]
  unfold spec_checksum
  rw [e]

/-- C1: `log_online_calc_checksum` equals the reference sum of the spec (start with
`sum = 1`, `sh = 0`; for each byte at the offsets 0..4091 mask, add the byte, add the
shifted byte, advance `sh` cyclically), and the bytes at the offsets 4092..4095 do not
influence it. -/
theorem log_online_calc_checksum_refines_spec (block : Page) :
    log_online_calc_checksum block = spec_checksum block ∧
    ∀ block' : Page, (∀ i, i < MODIFIED_PAGE_BLOCK_CHECKSUM → block' i = block i) →
      log_online_calc_checksum block' = log_online_calc_checksum block :=
  ⟨calc_checksum_eq_spec block, fun block' h => calc_checksum_congr block block' h⟩

theorem log_online_calc_checksum_refines_spec_witness :
    log_online_calc_checksum zero_page = spec_checksum zero_page ∧
    log_online_calc_checksum (page_set zero_page 4093 255)
      = log_online_calc_checksum zero_page :=
  ⟨(log_online_calc_checksum_refines_spec zero_page).1,
   (log_online_calc_checksum_refines_spec zero_page).2 (page_set zero_page 4093 255)
     (fun i hi => by
        have h : i ≠ 4093 := by
          have : i < 4092 := hi
          omega
        simp [page_set, h])⟩

/-! ## Buffers and big-endian fields -/

theorem to_byte_val (n : Nat) : (to_byte n).val = n % 256 := rfl

theorem page_set_same (p : Page) (off v : Nat) : page_set p off v off = to_byte v := by
  simp [page_set]

theorem page_set_other (p : Page) {off i : Nat} (v : Nat) (h : i ≠ off) :
    page_set p off v i = p i := by
  simp [page_set, h]

theorem mach_write_to_4_other (p : Page) (off n : Nat) {i : Nat}
    (h : i < off ∨ off + 4 ≤ i) : mach_write_to_4 p off n i = p i := by
  unfold mach_write_to_4
  rw [page_set_other _ _ (by omega), page_set_other _ _ (by omega),
    page_set_other _ _ (by omega), page_set_other _ _ (by omega)]

theorem mach_write_to_8_other (p : Page) (off n : Nat) {i : Nat}
    (h : i < off ∨ off + 8 ≤ i) : mach_write_to_8 p off n i = p i := by
  unfold mach_write_to_8
  rw [mach_write_to_4_other _ _ _ (by omega), mach_write_to_4_other _ _ _ (by omega)]

theorem mach_read_from_4_congr (p q : Page) (off : Nat)
    (h : ∀ i, off ≤ i → i < off + 4 → p i = q i) :
    mach_read_from_4 p off = mach_read_from_4 q off := by
  unfold mach_read_from_4
  rw [h off (by omega) (by omega), h (off + 1) (by omega) (by omega),
    h (off + 2) (by omega) (by omega), h (off + 3) (by omega) (by omega)]

theorem mach_read_from_8_congr (p q : Page) (off : Nat)
    (h : ∀ i, off ≤ i → i < off + 8 → p i = q i) :
    mach_read_from_8 p off = mach_read_from_8 q off := by
  unfold mach_read_from_8
  rw [mach_read_from_4_congr (p)
      (q) (off)
        (fun i h1 h2 => h i h1 (by omega)),
    mach_read_from_4_congr (p)
      (q) (off + 4)
        (fun i h1 h2 => h i (by omega) (by omega))]

theorem mach_read_write_4 (p : Page) (off n : Nat) :
    mach_read_from_4 (mach_write_to_4 p off n) off = n % 2 ^ 32 := by
  have b0 : mach_write_to_4 p off n off = to_byte (n / 2 ^ 24) := by
    simp [mach_write_to_4, page_set]
  have b1 : mach_write_to_4 p off n (off + 1) = to_byte (n / 2 ^ 16) := by
    simp [mach_write_to_4, page_set]
  have b2 : mach_write_to_4 p off n (off + 2) = to_byte (n / 2 ^ 8) := by
    simp [mach_write_to_4, page_set]
  have b3 : mach_write_to_4 p off n (off + 3) = to_byte n := by
    simp [mach_write_to_4, page_set]
  unfold mach_read_from_4
  rw [b0, b1, b2, b3]
  simp only [to_byte_val]
  omega

theorem mach_read_write_8 (p : Page) (off n : Nat) :
    mach_read_from_8 (mach_write_to_8 p off n) off = n % 2 ^ 64 := by
  unfold mach_read_from_8 mach_write_to_8
  rw [mach_read_write_4,
    mach_read_from_4_congr (mach_write_to_4 (mach_write_to_4 p off (n / 2 ^ 32)) (off + 4) n)
      (mach_write_to_4 p off (n / 2 ^ 32)) (off)
      (fun i h1 h2 => mach_write_to_4_other _ _ _ (by omega)),
    mach_read_write_4]
  omega

theorem mach_read_from_4_lt (p : Page) (off : Nat) : mach_read_from_4 p off < 2 ^ 32 := by
  unfold mach_read_from_4
  have h0 := (p off).isLt
  have h1 := (p (off + 1)).isLt
  have h2 := (p (off + 2)).isLt
  have h3 := (p (off + 3)).isLt
  omega

/-! ## Keys and their order -/

theorem compare_eq_zero_iff (a b : Page) :
    log_online_compare_bmp_keys a b = 0 ↔ block_key a = block_key b := by
  unfold log_online_compare_bmp_keys block_key
  simp only [Prod.mk.injEq]
  split_ifs with h1 h2 h3 h4 <;> simp <;> omega

theorem compare_neg_iff (a b : Page) :
    log_online_compare_bmp_keys a b < 0 ↔ key_lt (block_key a) (block_key b) := by
  unfold log_online_compare_bmp_keys block_key key_lt
  simp only []
  split_ifs with h1 h2 h3 h4 <;> simp <;> omega

theorem key_lt_irrefl (a : Nat × Nat) : ¬ key_lt a a := by
  unfold key_lt
  omega

theorem key_lt_trans {a b c : Nat × Nat} (h1 : key_lt a b) (h2 : key_lt b c) : key_lt a c := by
  unfold key_lt at *
  omega

theorem key_lt_total (a b : Nat × Nat) : key_lt a b ∨ a = b ∨ key_lt b a := by
  unfold key_lt
  rcases Nat.lt_trichotomy a.1 b.1 with h | h | h
  · exact Or.inl (Or.inl h)
  · rcases Nat.lt_trichotomy a.2 b.2 with h' | h' | h'
    · exact Or.inl (Or.inr ⟨h, h'⟩)
    · exact Or.inr (Or.inl (Prod.ext h h'))
    · exact Or.inr (Or.inr (Or.inr ⟨h.symm, h'⟩))
  · exact Or.inr (Or.inr (Or.inl h))

/-! ## Positions computed by `log_online_set_page_bit` -/

theorem block_start_page_eq {page_no : Nat} (h : page_no < 2 ^ 32) :
    block_start_page page_no = page_no / 32448 * 32448 := by
  unfold block_start_page
  have e : MODIFIED_PAGE_BLOCK_ID_COUNT = 32448 := by norm_num
  rw [e]
  exact ulint_of_lt (by omega)

theorem block_pos_eq {page_no : Nat} (h : page_no < 2 ^ 32) :
    block_pos page_no = page_no % 32448 / 8 := by
  unfold block_pos
  rw [block_start_page_eq h]
  split
  · rename_i hne
    have hle : page_no % 32448 < page_no / 32448 * 32448 := by omega
    have hd : page_no = page_no / 32448 * 32448 + page_no % 32448 := by omega
    have hm : ∀ a r : Nat, r < a → (a + r) % a = r := by
      intro a r hr
      rw [Nat.add_mod_left, Nat.mod_eq_of_lt hr]
    have hm2 := hm _ _ hle
    rw [← hd] at hm2
    rw [hm2]
  · omega

theorem bit_pos_eq (page_no : Nat) : bit_pos page_no = page_no % 32448 % 8 := by
  unfold bit_pos
  omega

theorem block_pos_lt {page_no : Nat} (h : page_no < 2 ^ 32) :
    block_pos page_no < MODIFIED_PAGE_BLOCK_BITMAP_LEN := by
  rw [block_pos_eq h]
  have e : MODIFIED_PAGE_BLOCK_BITMAP_LEN = 4056 := by norm_num
  omega

/-! ## Bits of a bitmap byte -/

theorem and_shl_ne_zero_iff (x j : Nat) : x &&& (1 <<< j) ≠ 0 ↔ x.testBit j = true := by
  rw [Nat.one_shiftLeft, Nat.and_two_pow]
  have hp : 0 < 2 ^ j := Nat.pow_pos (by decide)
  cases h : x.testBit j
  · simp
  · simp

theorem IS_BIT_SET_iff (p : Page) (bitmap num : Nat) :
    IS_BIT_SET p bitmap num ≠ 0 ↔ (p (bitmap + num / 8)).val.testBit (num % 8) = true := by
  unfold IS_BIT_SET
  have e1 : num >>> 3 = num / 8 := by rw [Nat.shiftRight_eq_div_pow]
  have e2 : num &&& 7 = num % 8 := Nat.and_pow_two_sub_one_eq_mod num 3
  rw [e1, e2, and_shl_ne_zero_iff]

theorem testBit_or_byte (x k j : Nat) (hj : j < 8) :
    ((x ||| (1 <<< k)) % 256).testBit j = (x.testBit j || decide (k = j)) := by
  have e : (256 : Nat) = 2 ^ 8 := by norm_num
  rw [e, Nat.testBit_mod_two_pow, Nat.testBit_or, Nat.one_shiftLeft, Nat.testBit_two_pow]
  simp [hj]

theorem page_or_bit_other (bp k : Nat) (b : Page) {i : Nat}
    (h : i ≠ MODIFIED_PAGE_BLOCK_BITMAP + bp) : page_or_bit bp k b i = b i := by
  unfold page_or_bit
  exact page_set_other _ _ h

theorem page_or_bit_same (bp k : Nat) (b : Page) :
    (page_or_bit bp k b (MODIFIED_PAGE_BLOCK_BITMAP + bp)).val
      = ((b (MODIFIED_PAGE_BLOCK_BITMAP + bp)).val ||| (1 <<< k)) % 256 := by
  unfold page_or_bit
  rw [page_set_same, to_byte_val]

theorem page_or_bit_key (bp k : Nat) (b : Page) :
    block_key (page_or_bit bp k b) = block_key b := by
  unfold block_key
  have h4 : ∀ off, off + 4 ≤ 32 → mach_read_from_4 (page_or_bit bp k b) off
      = mach_read_from_4 b off := by
    intro off hoff
    apply mach_read_from_4_congr
    intro i h1 h2
    exact page_or_bit_other _ _ _ (by
      have : MODIFIED_PAGE_BLOCK_BITMAP = 32 := rfl
      omega)
  rw [h4 _ (by norm_num), h4 _ (by norm_num)]

/-- A bit that is set stays set under `page_or_bit`. -/
theorem IS_BIT_SET_page_or_bit_mono (bp k : Nat) (b : Page) (num : Nat)
    (h : IS_BIT_SET b MODIFIED_PAGE_BLOCK_BITMAP num ≠ 0) :
    IS_BIT_SET (page_or_bit bp k b) MODIFIED_PAGE_BLOCK_BITMAP num ≠ 0 := by
  rw [IS_BIT_SET_iff] at h ⊢
  by_cases hb : MODIFIED_PAGE_BLOCK_BITMAP + num / 8 = MODIFIED_PAGE_BLOCK_BITMAP + bp
  · rw [hb] at h ⊢
    rw [page_or_bit_same, testBit_or_byte _ _ _ (Nat.mod_lt _ (by decide)), h]
    rfl
  · rw [page_or_bit_other _ _ _ hb]
    exact h

/-- The bit of `page_no` is set after the `|=` of `log_online_set_page_bit`. -/
theorem IS_BIT_SET_page_or_bit_self {page_no : Nat} (h : page_no < 2 ^ 32) (b : Page) :
    IS_BIT_SET (page_or_bit (block_pos page_no) (bit_pos page_no) b)
      MODIFIED_PAGE_BLOCK_BITMAP (page_no % 32448) ≠ 0 := by
  rw [IS_BIT_SET_iff, ← block_pos_eq h, page_or_bit_same, ← bit_pos_eq,
    testBit_or_byte _ _ _ (by unfold bit_pos; omega)]
  simp

/-! ## The tree model -/

theorem rbt_value_update_map_key (f : Page → Page)
    (hf : ∀ x, block_key (f x) = block_key x) :
    ∀ (t : List Page) (pos : Nat),
      (rbt_value_update f t pos).map block_key = t.map block_key := by
  intro t
  induction t with
  | nil => intro pos; rfl
  | cons x xs ih =>
    intro pos
    cases pos with
    | zero => simp [rbt_value_update, hf]
    | succ pos => simp [rbt_value_update, ih]

theorem rbt_value_update_length (f : Page → Page) :
    ∀ (t : List Page) (pos : Nat), (rbt_value_update f t pos).length = t.length := by
  intro t
  induction t with
  | nil => intro pos; rfl
  | cons x xs ih =>
    intro pos
    cases pos with
    | zero => simp [rbt_value_update]
    | succ pos => simp [rbt_value_update, ih]

theorem mem_rbt_value_update (f : Page → Page) :
    ∀ (t : List Page) (pos : Nat) (x : Page), x ∈ t →
      x ∈ rbt_value_update f t pos ∨ f x ∈ rbt_value_update f t pos := by
  intro t
  induction t with
  | nil => intro pos x hx; cases hx
  | cons y ys ih =>
    intro pos x hx
    cases pos with
    | zero =>
      rcases List.mem_cons.mp hx with h | h
      · subst h; right; simp [rbt_value_update]
      · left; simp [rbt_value_update, h]
    | succ pos =>
      rcases List.mem_cons.mp hx with h | h
      · subst h; left; simp [rbt_value_update]
      · rcases ih pos x h with h' | h'
        · left; simp [rbt_value_update, h']
        · right; simp [rbt_value_update, h']

theorem of_mem_rbt_value_update (f : Page → Page) :
    ∀ (t : List Page) (pos : Nat) (y : Page), y ∈ rbt_value_update f t pos →
      y ∈ t ∨ ∃ x ∈ t, y = f x := by
  intro t
  induction t with
  | nil => intro pos y hy; cases hy
  | cons x xs ih =>
    intro pos y hy
    cases pos with
    | zero =>
      simp only [rbt_value_update, List.mem_cons] at hy
      rcases hy with h | h
      · right; exact ⟨x, List.mem_cons_self _ _, h⟩
      · left; exact List.mem_cons_of_mem _ h
    | succ pos =>
      simp only [rbt_value_update, List.mem_cons] at hy
      rcases hy with h | h
      · left; rw [h]; exact List.mem_cons_self _ _
      · rcases ih pos y h with h' | ⟨z, hz, hzy⟩
        · left; exact List.mem_cons_of_mem _ h'
        · right; exact ⟨z, List.mem_cons_of_mem _ hz, hzy⟩

theorem rbt_search_none {t : List Page} {key : Page} (h : rbt_search t key = none) :
    ∀ x ∈ t, block_key x ≠ block_key key := by
  induction t with
  | nil => intro x hx; cases hx
  | cons y ys ih =>
    intro x hx
    unfold rbt_search at h
    split at h
    · cases h
    · rename_i hne
      rw [compare_eq_zero_iff] at hne
      rcases List.mem_cons.mp hx with hxy | hxy
      · subst hxy; exact fun e => hne e.symm
      · apply ih _ x hxy
        cases hr : rbt_search ys key with
        | none => rfl
        | some v => rw [hr] at h; cases h

theorem rbt_search_some (f : Page → Page) {t : List Page} {key : Page} {pos : Nat}
    (h : rbt_search t key = some pos) :
    ∃ x ∈ t, block_key x = block_key key ∧ f x ∈ rbt_value_update f t pos := by
  induction t generalizing pos with
  | nil => cases h
  | cons y ys ih =>
    unfold rbt_search at h
    split at h
    · rename_i heq
      rw [compare_eq_zero_iff] at heq
      cases h
      exact ⟨y, List.mem_cons_self _ _, heq.symm, by simp [rbt_value_update]⟩
    · cases hr : rbt_search ys key with
      | none => rw [hr] at h; cases h
      | some v =>
        rw [hr] at h
        simp only [Option.map_some', Option.some.injEq] at h
        subst h
        obtain ⟨x, hx, hk, hm⟩ := ih hr
        exact ⟨x, List.mem_cons_of_mem _ hx, hk, by simp [rbt_value_update, hm]⟩

theorem mem_rbt_add_preallocated_node (node : Page) :
    ∀ (t : List Page) (x : Page),
      x ∈ rbt_add_preallocated_node t node ↔ x = node ∨ x ∈ t := by
  intro t
  induction t with
  | nil => intro x; simp [rbt_add_preallocated_node]
  | cons y ys ih =>
    intro x
    unfold rbt_add_preallocated_node
    split
    · simp
    · simp only [List.mem_cons, ih]
      tauto

theorem rbt_add_update_mem (f : Page → Page) (node : Page) :
    ∀ t : List Page,
      f node ∈ rbt_value_update f (rbt_add_preallocated_node t node)
        (rbt_insert_pos t node) := by
  intro t
  induction t with
  | nil => simp [rbt_add_preallocated_node, rbt_insert_pos, rbt_value_update]
  | cons y ys ih =>
    unfold rbt_add_preallocated_node rbt_insert_pos
    split
    · simp [rbt_value_update]
    · simp [rbt_value_update, ih]

theorem rbt_add_length (node : Page) :
    ∀ t : List Page, (rbt_add_preallocated_node t node).length = t.length + 1 := by
  intro t
  induction t with
  | nil => rfl
  | cons y ys ih =>
    unfold rbt_add_preallocated_node
    split
    · simp
    · simp [ih]

/-- Ordered insertion of a node whose key is not in the tree keeps the traversal
strictly ascending. -/
theorem rbt_add_pairwise (node : Page) :
    ∀ t : List Page, (t.map block_key).Pairwise key_lt →
      (∀ x ∈ t, block_key x ≠ block_key node) →
      ((rbt_add_preallocated_node t node).map block_key).Pairwise key_lt := by
  intro t
  induction t with
  | nil => intro _ _; simp [rbt_add_preallocated_node]
  | cons y ys ih =>
    intro hp hne
    rw [List.map_cons, List.pairwise_cons] at hp
    unfold rbt_add_preallocated_node
    split
    · rename_i hlt
      rw [compare_neg_iff] at hlt
      rw [List.map_cons, List.pairwise_cons]
      refine ⟨?_, by rw [List.map_cons, List.pairwise_cons]; exact hp⟩
      intro k hk
      rw [List.map_cons, List.mem_cons] at hk
      rcases hk with hk | hk
      · rw [hk]; exact hlt
      · exact key_lt_trans hlt (hp.1 k hk)
    · rename_i hnlt
      rw [compare_neg_iff] at hnlt
      have hyn : key_lt (block_key y) (block_key node) := by
        rcases key_lt_total (block_key y) (block_key node) with h | h | h
        · exact h
        · exact absurd h (hne y (List.mem_cons_self _ _))
        · exact absurd h hnlt
      rw [List.map_cons, List.pairwise_cons]
      refine ⟨?_, ih hp.2 (fun x hx => hne x (List.mem_cons_of_mem _ hx))⟩
      intro k hk
      rw [List.mem_map] at hk
      obtain ⟨x, hx, rfl⟩ := hk
      rw [mem_rbt_add_preallocated_node] at hx
      rcases hx with hx | hx
      · rw [hx]; exact hyn
      · exact hp.1 _ (List.mem_map_of_mem _ hx)

/-- In a strictly ascending traversal two nodes with the same key are the same. -/
theorem eq_of_key_eq_of_pairwise :
    ∀ t : List Page, (t.map block_key).Pairwise key_lt →
      ∀ a ∈ t, ∀ b ∈ t, block_key a = block_key b → a = b := by
  intro t
  induction t with
  | nil => intro _ a ha; cases ha
  | cons y ys ih =>
    intro hp a ha b hb hk
    rw [List.map_cons, List.pairwise_cons] at hp
    rcases List.mem_cons.mp ha with h1 | h1 <;> rcases List.mem_cons.mp hb with h2 | h2
    · rw [h1, h2]
    · exfalso
      have := hp.1 _ (List.mem_map_of_mem block_key h2)
      rw [← hk, h1] at this
      exact key_lt_irrefl _ this
    · exfalso
      have := hp.1 _ (List.mem_map_of_mem block_key h1)
      rw [hk, h2] at this
      exact key_lt_irrefl _ this
    · exact ih hp.2 a h1 b h2 hk

/-- In a strictly ascending traversal at most one node has a given key. -/
theorem countP_key_le_one (k : Nat × Nat) :
    ∀ t : List Page, (t.map block_key).Pairwise key_lt →
      t.countP (fun b => decide (block_key b = k)) ≤ 1 := by
  intro t
  induction t with
  | nil => intro _; simp
  | cons y ys ih =>
    intro hp
    rw [List.map_cons, List.pairwise_cons] at hp
    rw [List.countP_cons]
    by_cases hy : block_key y = k
    · have h0 : ys.countP (fun b => decide (block_key b = k)) = 0 := by
        rw [List.countP_eq_zero]
        intro x hx
        have := hp.1 _ (List.mem_map_of_mem block_key hx)
        intro hxk
        simp only [decide_eq_true_eq] at hxk
        rw [hy, hxk] at this
        exact key_lt_irrefl _ this
      rw [h0]
      simp [hy]
    · have := ih hp.2
      simp [hy, this]

theorem countP_key_eq_one (k : Nat × Nat) (t : List Page)
    (hp : (t.map block_key).Pairwise key_lt) (b : Page) (hb : b ∈ t)
    (hk : block_key b = k) :
    t.countP (fun b => decide (block_key b = k)) = 1 := by
  have h1 := countP_key_le_one k t hp
  have h2 : 0 < t.countP (fun b => decide (block_key b = k)) := by
    rw [List.countP_pos_iff]
    exact ⟨b, hb, by simp [hk]⟩
  omega

/-! ## One call of `log_online_set_page_bit` -/

theorem set_page_bit_modified_pages (sys : log_bitmap_struct) (space page_no : Nat) :
    (log_online_set_page_bit sys space page_no).modified_pages =
      match rbt_search sys.modified_pages
          (mach_write_to_4 (mach_write_to_4 zero_page MODIFIED_PAGE_SPACE_ID space)
            MODIFIED_PAGE_1ST_PAGE_ID (block_start_page page_no)) with
      | some pos =>
        rbt_value_update (page_or_bit (block_pos page_no) (bit_pos page_no))
          sys.modified_pages pos
      | none =>
        rbt_value_update (page_or_bit (block_pos page_no) (bit_pos page_no))
          (rbt_add_preallocated_node sys.modified_pages
            (mach_write_to_4 (mach_write_to_4 zero_page MODIFIED_PAGE_SPACE_ID space)
              MODIFIED_PAGE_1ST_PAGE_ID (block_start_page page_no)))
          (rbt_insert_pos sys.modified_pages
            (mach_write_to_4 (mach_write_to_4 zero_page MODIFIED_PAGE_SPACE_ID space)
              MODIFIED_PAGE_1ST_PAGE_ID (block_start_page page_no))) := by
  unfold log_online_set_page_bit
  simp only []
  split <;> rfl

theorem new_node_key (space bsp : Nat) :
    block_key (mach_write_to_4 (mach_write_to_4 zero_page MODIFIED_PAGE_SPACE_ID space)
      MODIFIED_PAGE_1ST_PAGE_ID bsp) = (space % 2 ^ 32, bsp % 2 ^ 32) := by
  unfold block_key
  rw [mach_read_write_4,
    mach_read_from_4_congr (mach_write_to_4 (mach_write_to_4 zero_page
        MODIFIED_PAGE_SPACE_ID space) MODIFIED_PAGE_1ST_PAGE_ID bsp)
      (mach_write_to_4 zero_page MODIFIED_PAGE_SPACE_ID space) (MODIFIED_PAGE_SPACE_ID)
      (fun i h1 h2 => mach_write_to_4_other _ _ _ (by
        have e1 : MODIFIED_PAGE_SPACE_ID = 20 := rfl
        have e2 : MODIFIED_PAGE_1ST_PAGE_ID = 24 := rfl
        omega)),
    mach_read_write_4]

theorem new_node_key_of_lt {space page_no : Nat} (hs : space < 2 ^ 32)
    (hp : page_no < 2 ^ 32) :
    block_key (mach_write_to_4 (mach_write_to_4 zero_page MODIFIED_PAGE_SPACE_ID space)
      MODIFIED_PAGE_1ST_PAGE_ID (block_start_page page_no))
      = (space, page_no / 32448 * 32448) := by
  rw [new_node_key, block_start_page_eq hp, Nat.mod_eq_of_lt hs,
    Nat.mod_eq_of_lt (by omega)]

/-- The traversal stays strictly ascending in (space_id, first_page_id). -/
theorem set_page_bit_sorted (sys : log_bitmap_struct) (space page_no : Nat)
    (h : (sys.modified_pages.map block_key).Pairwise key_lt) :
    ((log_online_set_page_bit sys space page_no).modified_pages.map block_key).Pairwise
      key_lt := by
  rw [set_page_bit_modified_pages]
  split
  · rw [rbt_value_update_map_key _ (page_or_bit_key _ _)]
    exact h
  · rename_i hnone
    rw [rbt_value_update_map_key _ (page_or_bit_key _ _)]
    exact rbt_add_pairwise _ _ h (rbt_search_none hnone)

/-- After the call some block of the set records the page. -/
theorem set_page_bit_records (sys : log_bitmap_struct) {space page_no : Nat}
    (hs : space < 2 ^ 32) (hp : page_no < 2 ^ 32) :
    ∃ b ∈ (log_online_set_page_bit sys space page_no).modified_pages,
      records b space page_no := by
  rw [set_page_bit_modified_pages]
  split
  · rename_i pos hsome
    obtain ⟨x, _, hk, hm⟩ :=
      rbt_search_some (page_or_bit (block_pos page_no) (bit_pos page_no)) hsome
    refine ⟨_, hm, ?_, IS_BIT_SET_page_or_bit_self hp x⟩
    rw [page_or_bit_key, hk, new_node_key_of_lt hs hp]
  · refine ⟨_, rbt_add_update_mem _ _ _, ?_, IS_BIT_SET_page_or_bit_self hp _⟩
    rw [page_or_bit_key, new_node_key_of_lt hs hp]

/-- Every block of the set survives the call, with its key and at least its bits. -/
theorem set_page_bit_mono (sys : log_bitmap_struct) (space page_no : Nat) (b : Page)
    (hb : b ∈ sys.modified_pages) :
    ∃ b' ∈ (log_online_set_page_bit sys space page_no).modified_pages,
      block_key b' = block_key b ∧
      ∀ num, IS_BIT_SET b MODIFIED_PAGE_BLOCK_BITMAP num ≠ 0 →
        IS_BIT_SET b' MODIFIED_PAGE_BLOCK_BITMAP num ≠ 0 := by
  have key : ∀ (t : List Page) (pos : Nat), b ∈ t →
      ∃ b' ∈ rbt_value_update (page_or_bit (block_pos page_no) (bit_pos page_no)) t pos,
        block_key b' = block_key b ∧
        ∀ num, IS_BIT_SET b MODIFIED_PAGE_BLOCK_BITMAP num ≠ 0 →
          IS_BIT_SET b' MODIFIED_PAGE_BLOCK_BITMAP num ≠ 0 := by
    intro t pos hbt
    rcases mem_rbt_value_update _ t pos b hbt with h | h
    · exact ⟨b, h, rfl, fun _ hn => hn⟩
    · exact ⟨_, h, page_or_bit_key _ _ _,
        fun num hn => IS_BIT_SET_page_or_bit_mono _ _ _ num hn⟩
  rw [set_page_bit_modified_pages]
  split
  · exact key _ _ hb
  · exact key _ _ ((mem_rbt_add_preallocated_node _ _ _).mpr (Or.inr hb))

/-- A property of blocks that holds of a fresh node and is kept by the `|=` holds of
every block after the call. -/
theorem set_page_bit_forall (P : Page → Prop) (sys : log_bitmap_struct)
    (space page_no : Nat)
    (hnew : P (mach_write_to_4 (mach_write_to_4 zero_page MODIFIED_PAGE_SPACE_ID space)
      MODIFIED_PAGE_1ST_PAGE_ID (block_start_page page_no)))
    (hf : ∀ b, P b → P (page_or_bit (block_pos page_no) (bit_pos page_no) b))
    (h : ∀ b ∈ sys.modified_pages, P b) :
    ∀ b ∈ (log_online_set_page_bit sys space page_no).modified_pages, P b := by
  have key : ∀ (t : List Page) (pos : Nat), (∀ b ∈ t, P b) →
      ∀ b ∈ rbt_value_update (page_or_bit (block_pos page_no) (bit_pos page_no)) t pos,
        P b := by
    intro t pos ht b hb
    rcases of_mem_rbt_value_update _ t pos b hb with h1 | ⟨x, hx, rfl⟩
    · exact ht b h1
    · exact hf x (ht x hx)
  rw [set_page_bit_modified_pages]
  split
  · exact key _ _ h
  · apply key
    intro b hb
    rcases (mem_rbt_add_preallocated_node _ _ _).mp hb with h1 | h1
    · rw [h1]; exact hnew
    · exact h b h1

/-! ## Sequences of calls -/

theorem set_page_bits_append (sys : log_bitmap_struct) (l1 l2 : List (Nat × Nat)) :
    set_page_bits sys (l1 ++ l2) = set_page_bits (set_page_bits sys l1) l2 := by
  unfold set_page_bits
  rw [List.foldl_append]

theorem set_page_bits_sorted (calls : List (Nat × Nat)) :
    ∀ sys : log_bitmap_struct, (sys.modified_pages.map block_key).Pairwise key_lt →
      ((set_page_bits sys calls).modified_pages.map block_key).Pairwise key_lt := by
  induction calls with
  | nil => intro sys h; exact h
  | cons c cs ih =>
    intro sys h
    exact ih _ (set_page_bit_sorted sys c.1 c.2 h)

theorem set_page_bits_mono (calls : List (Nat × Nat)) :
    ∀ (sys : log_bitmap_struct) (b : Page), b ∈ sys.modified_pages →
      ∃ b' ∈ (set_page_bits sys calls).modified_pages,
        block_key b' = block_key b ∧
        ∀ num, IS_BIT_SET b MODIFIED_PAGE_BLOCK_BITMAP num ≠ 0 →
          IS_BIT_SET b' MODIFIED_PAGE_BLOCK_BITMAP num ≠ 0 := by
  induction calls with
  | nil => intro sys b hb; exact ⟨b, hb, rfl, fun _ h => h⟩
  | cons c cs ih =>
    intro sys b hb
    obtain ⟨b1, hb1, hk1, hbit1⟩ := set_page_bit_mono sys c.1 c.2 b hb
    obtain ⟨b2, hb2, hk2, hbit2⟩ := ih _ b1 hb1
    exact ⟨b2, hb2, hk2.trans hk1, fun num h => hbit2 num (hbit1 num h)⟩

/-- Every call of a sequence is recorded by some block of the resulting set. -/
theorem set_page_bits_records (calls : List (Nat × Nat))
    (h32 : ∀ c ∈ calls, c.1 < 2 ^ 32 ∧ c.2 < 2 ^ 32) :
    ∀ (sys : log_bitmap_struct) (space page_no : Nat), (space, page_no) ∈ calls →
      ∃ b ∈ (set_page_bits sys calls).modified_pages, records b space page_no := by
  induction calls with
  | nil => intro sys space page_no hm; cases hm
  | cons c cs ih =>
    intro sys space page_no hm
    rcases List.mem_cons.mp hm with h | h
    · have hc := h32 c (List.mem_cons_self _ _)
      rw [← h] at hc
      obtain ⟨b1, hb1, hk1, hbit1⟩ := set_page_bit_records sys hc.1 hc.2
      obtain ⟨b2, hb2, hk2, hbit2⟩ := set_page_bits_mono cs _ b1 hb1
      refine ⟨b2, ?_, hk2.trans hk1, hbit2 _ hbit1⟩
      have e : set_page_bits sys (c :: cs)
          = set_page_bits (log_online_set_page_bit sys space page_no) cs := by
        rw [← h]; rfl
      rw [e]; exact hb2
    · exact ih (fun c' hc' => h32 c' (List.mem_cons_of_mem _ hc')) _ space page_no h

/-! ## The flush -/

theorem written_blocks_append (a b : List os_event) :
    written_blocks (a ++ b) = written_blocks a ++ written_blocks b := by
  induction a with
  | nil => rfl
  | cons e es ih => cases e <;> simp [written_blocks, ih]

theorem flush_step_refl (st : tracker) : flush_step st st [] :=
  ⟨(List.append_nil _).symm, rfl, rfl, rfl⟩

theorem flush_step_trans {a b c : tracker} {e1 e2 : List os_event}
    (h1 : flush_step a b e1) (h2 : flush_step b c e2) : flush_step a c (e1 ++ e2) := by
  obtain ⟨t1, s1, n1, m1⟩ := h1
  obtain ⟨t2, s2, n2, m2⟩ := h2
  exact ⟨by rw [t2, t1, List.append_assoc], s2.trans s1, n2.trans n1, m2.trans m1⟩

theorem start_bitmap_file_step (env : server_env) (st : tracker) :
    ∃ evs, flush_step st (log_online_start_bitmap_file env st).2 evs ∧
      written_blocks evs = [] := by
  unfold log_online_start_bitmap_file os_call
  simp only []
  split_ifs <;>
    exact ⟨_, ⟨by simp only [List.append_assoc]; rfl, rfl, rfl, rfl⟩,
      by simp [written_blocks]⟩

theorem rotate_bitmap_file_step (env : server_env) (st : tracker) (lsn : Nat) :
    ∃ evs, flush_step st (log_online_rotate_bitmap_file env st lsn).2 evs ∧
      written_blocks evs = [] := by
  have key : ∀ X : tracker, (∃ e0, flush_step st X e0 ∧ written_blocks e0 = []) →
      ∃ evs, flush_step st (log_online_start_bitmap_file env X).2 evs ∧
        written_blocks evs = [] := by
    intro X hX
    obtain ⟨e0, h0, hw0⟩ := hX
    obtain ⟨evs, h, hw⟩ := start_bitmap_file_step env X
    exact ⟨e0 ++ evs, flush_step_trans h0 h, by rw [written_blocks_append, hw0, hw]; rfl⟩
  unfold log_online_rotate_bitmap_file
  simp only []
  apply key
  split_ifs
  · exact ⟨[os_event.file_close st.log_bmp_sys.out.name], ⟨rfl, rfl, rfl, rfl⟩, rfl⟩
  · exact ⟨[], ⟨(List.append_nil _).symm, rfl, rfl, rfl⟩, rfl⟩

theorem write_bitmap_page_step (env : server_env) (st : tracker) (block : Page) :
    ∃ evs, flush_step st (log_online_write_bitmap_page env st block).2 evs ∧
      written_blocks evs = [block] := by
  unfold log_online_write_bitmap_page os_call
  simp only []
  split_ifs <;>
    exact ⟨_, ⟨by simp only [List.append_assoc]; rfl, rfl, rfl, rfl⟩,
      by simp [written_blocks]⟩

/-- The loop of the flush hands to the writer a prefix of the finalised nodes, in
traversal order, and all of them when it ends with success. -/
theorem write_bitmap_loop_step (env : server_env) :
    ∀ (nodes : List Page) (success : Bool) (st : tracker),
      ∃ evs, flush_step st (log_online_write_bitmap_loop env nodes success st).2 evs ∧
        (success = false → written_blocks evs = [] ∧
          (log_online_write_bitmap_loop env nodes success st).1 = false) ∧
        (success = true →
          written_blocks evs <+: finalized_blocks st.log_bmp_sys.start_lsn
            st.log_bmp_sys.end_lsn nodes ∧
          ((log_online_write_bitmap_loop env nodes success st).1 = true →
            written_blocks evs = finalized_blocks st.log_bmp_sys.start_lsn
              st.log_bmp_sys.end_lsn nodes)) := by
  intro nodes
  induction nodes with
  | nil =>
    intro success st
    exact ⟨[], flush_step_refl st, fun h => ⟨rfl, h⟩,
      fun _ => ⟨List.prefix_refl _, fun _ => rfl⟩⟩
  | cons page rest ih =>
    intro success st
    cases success with
    | false =>
      have e : log_online_write_bitmap_loop env (page :: rest) false st
          = log_online_write_bitmap_loop env rest false
              { st with log_bmp_sys := { st.log_bmp_sys with
                  page_free_list := page :: st.log_bmp_sys.page_free_list } } := rfl
      rw [e]
      obtain ⟨evs, h, hf, _⟩ := ih false
        { st with log_bmp_sys := { st.log_bmp_sys with
            page_free_list := page :: st.log_bmp_sys.page_free_list } }
      refine ⟨evs, ?_, fun _ => hf rfl, fun h' => by cases h'⟩
      have h0 : flush_step st
          { st with log_bmp_sys := { st.log_bmp_sys with
              page_free_list := page :: st.log_bmp_sys.page_free_list } } [] :=
        ⟨(List.append_nil _).symm, rfl, rfl, rfl⟩
      have := flush_step_trans h0 h
      simpa using this
    | true =>
      have e : log_online_write_bitmap_loop env (page :: rest) true st
          = log_online_write_bitmap_loop env rest
              (log_online_write_bitmap_page env st
                (log_online_write_bitmap_finalize st.log_bmp_sys.start_lsn
                  st.log_bmp_sys.end_lsn rest.isEmpty page)).1
              { (log_online_write_bitmap_page env st
                  (log_online_write_bitmap_finalize st.log_bmp_sys.start_lsn
                    st.log_bmp_sys.end_lsn rest.isEmpty page)).2 with
                log_bmp_sys :=
                  { (log_online_write_bitmap_page env st
                      (log_online_write_bitmap_finalize st.log_bmp_sys.start_lsn
                        st.log_bmp_sys.end_lsn rest.isEmpty page)).2.log_bmp_sys with
                    page_free_list :=
                      log_online_write_bitmap_finalize st.log_bmp_sys.start_lsn
                          st.log_bmp_sys.end_lsn rest.isEmpty page
                        :: (log_online_write_bitmap_page env st
                            (log_online_write_bitmap_finalize st.log_bmp_sys.start_lsn
                              st.log_bmp_sys.end_lsn rest.isEmpty
                              page)).2.log_bmp_sys.page_free_list } } := rfl
      rw [e]
      obtain ⟨e1, h1, hw1⟩ := write_bitmap_page_step env st
        (log_online_write_bitmap_finalize st.log_bmp_sys.start_lsn
          st.log_bmp_sys.end_lsn rest.isEmpty page)
      generalize log_online_write_bitmap_page env st
        (log_online_write_bitmap_finalize st.log_bmp_sys.start_lsn
          st.log_bmp_sys.end_lsn rest.isEmpty page) = wp at h1 ⊢
      obtain ⟨ok, st1⟩ := wp
      have h1' : flush_step st
          { st1 with log_bmp_sys := { st1.log_bmp_sys with
              page_free_list :=
                log_online_write_bitmap_finalize st.log_bmp_sys.start_lsn
                    st.log_bmp_sys.end_lsn rest.isEmpty page
                  :: st1.log_bmp_sys.page_free_list } } e1 :=
        ⟨h1.1, h1.2.1, h1.2.2.1, h1.2.2.2⟩
      obtain ⟨e2, h2, hf2, ht2⟩ := ih ok
        { st1 with log_bmp_sys := { st1.log_bmp_sys with
            page_free_list :=
              log_online_write_bitmap_finalize st.log_bmp_sys.start_lsn
                  st.log_bmp_sys.end_lsn rest.isEmpty page
                :: st1.log_bmp_sys.page_free_list } }
      have hs : st1.log_bmp_sys.start_lsn = st.log_bmp_sys.start_lsn := h1.2.1
      have hn : st1.log_bmp_sys.end_lsn = st.log_bmp_sys.end_lsn := h1.2.2.1
      refine ⟨e1 ++ e2, flush_step_trans h1' h2, fun h' => (by cases h'), fun _ => ?_⟩
      rw [written_blocks_append, hw1]
      cases ok with
      | false =>
        obtain ⟨hw2, hr2⟩ := hf2 rfl
        rw [hw2]
        refine ⟨?_, fun h' => ?_⟩
        · exact ⟨finalized_blocks st.log_bmp_sys.start_lsn st.log_bmp_sys.end_lsn rest, rfl⟩
        · rw [hr2] at h'; cases h'
      | true =>
        obtain ⟨hp2, he2⟩ := ht2 rfl
        have hp2' : written_blocks e2 <+: finalized_blocks st.log_bmp_sys.start_lsn
            st.log_bmp_sys.end_lsn rest := by
          rw [← hs, ← hn]; exact hp2
        refine ⟨?_, fun h' => ?_⟩
        · obtain ⟨tl, htl⟩ := hp2'
          exact ⟨tl, by simp [finalized_blocks, ← htl]⟩
        · have h3 : written_blocks e2 = finalized_blocks st.log_bmp_sys.start_lsn
              st.log_bmp_sys.end_lsn rest := by
            rw [← hs, ← hn]; exact he2 h'
          simp [finalized_blocks, h3]

/-- The batch of a flush is a prefix of the finalised nodes of the set, and all of
them when the flush succeeds. -/
theorem write_batch_initial_segment (env : server_env) (st : tracker) :
    write_batch env st <+: finalized_blocks st.log_bmp_sys.start_lsn
        st.log_bmp_sys.end_lsn st.log_bmp_sys.modified_pages ∧
    ((log_online_write_bitmap env st).1 = true →
      write_batch env st = finalized_blocks st.log_bmp_sys.start_lsn
        st.log_bmp_sys.end_lsn st.log_bmp_sys.modified_pages) := by
  have key : ∀ X : Bool × tracker, (∃ e0, flush_step st X.2 e0 ∧ written_blocks e0 = []) →
      let r := if !X.1 then (false, X.2) else
        ((log_online_write_bitmap_loop env X.2.log_bmp_sys.modified_pages true X.2).1,
          { (log_online_write_bitmap_loop env X.2.log_bmp_sys.modified_pages true X.2).2 with
            log_bmp_sys :=
              { (log_online_write_bitmap_loop env X.2.log_bmp_sys.modified_pages true
                  X.2).2.log_bmp_sys with modified_pages := [] } })
      written_blocks (r.2.trace.drop st.trace.length)
          <+: finalized_blocks st.log_bmp_sys.start_lsn
            st.log_bmp_sys.end_lsn st.log_bmp_sys.modified_pages ∧
        (r.1 = true →
          written_blocks (r.2.trace.drop st.trace.length)
            = finalized_blocks st.log_bmp_sys.start_lsn
              st.log_bmp_sys.end_lsn st.log_bmp_sys.modified_pages) := by
    intro X hX
    obtain ⟨e0, h0, hw0⟩ := hX
    obtain ⟨ok, st1⟩ := X
    cases ok with
    | false =>
      simp only [Bool.not_false, ↓reduceIte]
      have ht : st1.trace = st.trace ++ e0 := h0.1
      rw [ht, List.drop_left, hw0]
      exact ⟨ List.nil_prefix, fun h => by cases h⟩
    | true =>
      simp only [Bool.not_true, Bool.false_eq_true, ↓reduceIte]
      obtain ⟨e2, h2, _, ht2⟩ :=
        write_bitmap_loop_step env st1.log_bmp_sys.modified_pages true st1
      obtain ⟨hp, he⟩ := ht2 rfl
      have h02 := flush_step_trans h0 h2
      have ht : (log_online_write_bitmap_loop env st1.log_bmp_sys.modified_pages true
          st1).2.trace = st.trace ++ (e0 ++ e2) := h02.1
      have hs : st1.log_bmp_sys.start_lsn = st.log_bmp_sys.start_lsn := h0.2.1
      have hn : st1.log_bmp_sys.end_lsn = st.log_bmp_sys.end_lsn := h0.2.2.1
      have hm : st1.log_bmp_sys.modified_pages = st.log_bmp_sys.modified_pages := h0.2.2.2
      rw [hs, hn, hm] at hp he
      rw [ht, List.drop_left, written_blocks_append, hw0, List.nil_append]
      exact ⟨hp, fun h => he (by rw [← hm]; exact h)⟩
  unfold write_batch log_online_write_bitmap
  split_ifs with hrot
  · exact key _ (rotate_bitmap_file_step env st _)
  · exact key (true, st) ⟨[], flush_step_refl st, rfl⟩

/-! ## The checksum fits the 4-byte field -/

theorem spec_checksum_foldl_sh (l : List Nat) :
    ∀ st : Nat × Nat, st.2 < 25 →
      (l.foldl spec_checksum_step st).2 = (st.2 + l.length) % 25 := by
  induction l with
  | nil => intro st h; simp [Nat.mod_eq_of_lt h]
  | cons b bs ih =>
    intro st h
    have h' : (spec_checksum_step st b).2 < 25 := by
      unfold spec_checksum_step
      simp only []
      split <;> omega
    rw [List.foldl_cons, ih _ h']
    unfold spec_checksum_step
    simp only [List.length_cons]
    split <;> omega

/-- The last byte is added with shift 16, so the checksum is below `2 ^ 32`. -/
theorem calc_checksum_lt (block : Page) : log_online_calc_checksum block < 2 ^ 32 := by
  rw [calc_checksum_eq_spec]
  unfold spec_checksum
  have e : List.range 4092 = List.range 4091 ++ [4091] := List.range_succ 4091
  rw [e, List.map_append, List.foldl_append]
  have hsh := spec_checksum_foldl_sh ((List.range 4091).map fun i => (block i).val) (1, 0)
    (by decide)
  simp only [List.length_map, List.length_range] at hsh
  generalize ((List.range 4091).map fun i => (block i).val).foldl spec_checksum_step (1, 0)
    = acc at hsh ⊢
  have h16 : acc.2 = 16 := by rw [hsh]
  simp only [List.map_cons, List.map_nil, List.foldl_cons, List.foldl_nil]
  unfold spec_checksum_step
  simp only [h16]
  have hm := land_mask_lt acc.1
  have hb : (block 4091).val < 256 := (block 4091).isLt
  rw [Nat.shiftLeft_eq]
  omega

/-! ## What the finalisation of a block writes -/

theorem finalize_other (start_lsn end_lsn : Nat) (is_last_node : Bool) (page : Page)
    {j : Nat} (h1 : 20 ≤ j) (h2 : j < 4092) :
    log_online_write_bitmap_finalize start_lsn end_lsn is_last_node page j = page j := by
  unfold log_online_write_bitmap_finalize
  have e0 : MODIFIED_PAGE_IS_LAST_BLOCK = 0 := rfl
  have e1 : MODIFIED_PAGE_START_LSN = 4 := rfl
  have e2 : MODIFIED_PAGE_END_LSN = 12 := rfl
  have e3 : MODIFIED_PAGE_BLOCK_CHECKSUM = 4092 := by norm_num
  rw [mach_write_to_4_other _ _ _ (by omega), mach_write_to_8_other _ _ _ (by omega),
    mach_write_to_8_other _ _ _ (by omega)]
  cases is_last_node
  · rfl
  · simp only [↓reduceIte]
    rw [mach_write_to_4_other _ _ _ (by omega)]

theorem finalize_key (start_lsn end_lsn : Nat) (is_last_node : Bool) (page : Page) :
    block_key (log_online_write_bitmap_finalize start_lsn end_lsn is_last_node page)
      = block_key page := by
  unfold block_key
  have e1 : MODIFIED_PAGE_SPACE_ID = 20 := rfl
  have e2 : MODIFIED_PAGE_1ST_PAGE_ID = 24 := rfl
  rw [mach_read_from_4_congr (log_online_write_bitmap_finalize start_lsn end_lsn
        is_last_node page)
      (page) (MODIFIED_PAGE_SPACE_ID)
      (fun i h1 h2 => finalize_other _ _ _ _ (by omega) (by omega)),
    mach_read_from_4_congr (log_online_write_bitmap_finalize start_lsn end_lsn
        is_last_node page)
      (page) (MODIFIED_PAGE_1ST_PAGE_ID)
      (fun i h1 h2 => finalize_other _ _ _ _ (by omega) (by omega))]

theorem finalize_checksum (start_lsn end_lsn : Nat) (is_last_node : Bool) (page : Page) :
    mach_read_from_4 (log_online_write_bitmap_finalize start_lsn end_lsn is_last_node page)
        MODIFIED_PAGE_BLOCK_CHECKSUM
      = log_online_calc_checksum
          (log_online_write_bitmap_finalize start_lsn end_lsn is_last_node page) := by
  unfold log_online_write_bitmap_finalize
  simp only []
  rw [mach_read_write_4, Nat.mod_eq_of_lt (calc_checksum_lt _)]
  symm
  apply calc_checksum_congr
  intro i hi
  exact mach_write_to_4_other _ _ _ (Or.inl hi)

theorem finalize_start_lsn (start_lsn end_lsn : Nat) (is_last_node : Bool) (page : Page) :
    mach_read_from_8 (log_online_write_bitmap_finalize start_lsn end_lsn is_last_node page)
        MODIFIED_PAGE_START_LSN = start_lsn % 2 ^ 64 := by
  unfold log_online_write_bitmap_finalize
  simp only []
  have e1 : MODIFIED_PAGE_START_LSN = 4 := rfl
  have e2 : MODIFIED_PAGE_END_LSN = 12 := rfl
  have e3 : MODIFIED_PAGE_BLOCK_CHECKSUM = 4092 := by norm_num
  rw [mach_read_from_8_congr _ _ MODIFIED_PAGE_START_LSN
      (fun i h1 h2 => mach_write_to_4_other _ _ _ (by omega)),
    mach_read_from_8_congr _ _ MODIFIED_PAGE_START_LSN
      (fun i h1 h2 => mach_write_to_8_other _ _ _ (by omega)),
    mach_read_write_8]

theorem finalize_end_lsn (start_lsn end_lsn : Nat) (is_last_node : Bool) (page : Page) :
    mach_read_from_8 (log_online_write_bitmap_finalize start_lsn end_lsn is_last_node page)
        MODIFIED_PAGE_END_LSN = end_lsn % 2 ^ 64 := by
  unfold log_online_write_bitmap_finalize
  simp only []
  have e2 : MODIFIED_PAGE_END_LSN = 12 := rfl
  have e3 : MODIFIED_PAGE_BLOCK_CHECKSUM = 4092 := by norm_num
  rw [mach_read_from_8_congr _ _ MODIFIED_PAGE_END_LSN
      (fun i h1 h2 => mach_write_to_4_other _ _ _ (by omega)),
    mach_read_write_8]

theorem finalize_is_last (start_lsn end_lsn : Nat) (is_last_node : Bool) (page : Page) :
    mach_read_from_4 (log_online_write_bitmap_finalize start_lsn end_lsn is_last_node page)
        MODIFIED_PAGE_IS_LAST_BLOCK
      = if is_last_node then 1 else mach_read_from_4 page MODIFIED_PAGE_IS_LAST_BLOCK := by
  unfold log_online_write_bitmap_finalize
  simp only []
  have e0 : MODIFIED_PAGE_IS_LAST_BLOCK = 0 := rfl
  have e1 : MODIFIED_PAGE_START_LSN = 4 := rfl
  have e2 : MODIFIED_PAGE_END_LSN = 12 := rfl
  have e3 : MODIFIED_PAGE_BLOCK_CHECKSUM = 4092 := by norm_num
  rw [mach_read_from_4_congr _ _ MODIFIED_PAGE_IS_LAST_BLOCK
      (fun i h1 h2 => mach_write_to_4_other _ _ _ (by omega)),
    mach_read_from_4_congr _ _ MODIFIED_PAGE_IS_LAST_BLOCK
      (fun i h1 h2 => mach_write_to_8_other _ _ _ (by omega)),
    mach_read_from_4_congr _ _ MODIFIED_PAGE_IS_LAST_BLOCK
      (fun i h1 h2 => mach_write_to_8_other _ _ _ (by omega))]
  cases is_last_node
  · rfl
  · simp only [↓reduceIte]
    rw [mach_read_write_4]
    norm_num

/-! ## The finalised nodes of a traversal -/

theorem finalized_blocks_map_key (start_lsn end_lsn : Nat) (l : List Page) :
    (finalized_blocks start_lsn end_lsn l).map block_key = l.map block_key := by
  induction l with
  | nil => rfl
  | cons x xs ih => simp [finalized_blocks, finalize_key, ih]

theorem mem_finalized_blocks (start_lsn end_lsn : Nat) (l : List Page) (b : Page)
    (hb : b ∈ finalized_blocks start_lsn end_lsn l) :
    ∃ node ∈ l, ∃ is_last_node : Bool,
      b = log_online_write_bitmap_finalize start_lsn end_lsn is_last_node node := by
  induction l with
  | nil => cases hb
  | cons x xs ih =>
    simp only [finalized_blocks, List.mem_cons] at hb
    rcases hb with h | h
    · exact ⟨x, List.mem_cons_self _ _, _, h⟩
    · obtain ⟨node, hn, il, hil⟩ := ih h
      exact ⟨node, List.mem_cons_of_mem _ hn, il, hil⟩

theorem finalized_blocks_concat (start_lsn end_lsn : Nat) (init : List Page) (x : Page) :
    finalized_blocks start_lsn end_lsn (init ++ [x])
      = init.map (log_online_write_bitmap_finalize start_lsn end_lsn false)
        ++ [log_online_write_bitmap_finalize start_lsn end_lsn true x] := by
  induction init with
  | nil => rfl
  | cons a as ih =>
    have hne : (as ++ [x]).isEmpty = false := by
      cases as <;> rfl
    simp [finalized_blocks, hne, ih]

theorem mem_write_batch (env : server_env) (st : tracker) (b : Page)
    (hb : b ∈ write_batch env st) :
    ∃ node ∈ st.log_bmp_sys.modified_pages, ∃ is_last_node : Bool,
      b = log_online_write_bitmap_finalize st.log_bmp_sys.start_lsn
        st.log_bmp_sys.end_lsn is_last_node node :=
  mem_finalized_blocks _ _ _ b ((write_batch_initial_segment env st).1.subset hb)

theorem countP_key_eq_of_map_eq (k : Nat × Nat) (l1 l2 : List Page)
    (h : l1.map block_key = l2.map block_key) :
    l1.countP (fun b => decide (block_key b = k))
      = l2.countP (fun b => decide (block_key b = k)) := by
  have e : ∀ l : List Page, l.countP (fun b => decide (block_key b = k))
      = (l.map block_key).countP (fun k' => decide (k' = k)) := by
    intro l
    rw [List.countP_map]
    rfl
  rw [e l1, e l2, h]

/-! ## Sets built by sequences of calls -/

theorem set_page_bits_forall (P : Page → Prop)
    (hnew : ∀ space page_no,
      P (mach_write_to_4 (mach_write_to_4 zero_page MODIFIED_PAGE_SPACE_ID space)
        MODIFIED_PAGE_1ST_PAGE_ID (block_start_page page_no)))
    (hf : ∀ bp k b, P b → P (page_or_bit bp k b)) (calls : List (Nat × Nat)) :
    ∀ sys : log_bitmap_struct, (∀ b ∈ sys.modified_pages, P b) →
      ∀ b ∈ (set_page_bits sys calls).modified_pages, P b := by
  induction calls with
  | nil => intro sys h; exact h
  | cons c cs ih =>
    intro sys h
    exact ih _ (set_page_bit_forall P sys c.1 c.2 (hnew _ _) (hf _ _) h)

theorem set_page_bit_lsn (sys : log_bitmap_struct) (space page_no : Nat) :
    (log_online_set_page_bit sys space page_no).start_lsn = sys.start_lsn ∧
    (log_online_set_page_bit sys space page_no).end_lsn = sys.end_lsn := by
  unfold log_online_set_page_bit
  simp only []
  split <;> exact ⟨rfl, rfl⟩

theorem set_page_bits_lsn (calls : List (Nat × Nat)) :
    ∀ sys : log_bitmap_struct,
      (set_page_bits sys calls).start_lsn = sys.start_lsn ∧
      (set_page_bits sys calls).end_lsn = sys.end_lsn := by
  induction calls with
  | nil => intro sys; exact ⟨rfl, rfl⟩
  | cons c cs ih =>
    intro sys
    have h1 := ih (log_online_set_page_bit sys c.1 c.2)
    have h2 := set_page_bit_lsn sys c.1 c.2
    exact ⟨h1.1.trans h2.1, h1.2.trans h2.2⟩

/-- In a set built from the empty set the traversal is strictly ascending. -/
theorem set_page_bits_sorted_of_empty (sys : log_bitmap_struct) (calls : List (Nat × Nat))
    (h0 : sys.modified_pages = []) :
    ((set_page_bits sys calls).modified_pages.map block_key).Pairwise key_lt :=
  set_page_bits_sorted calls sys (by rw [h0]; exact List.Pairwise.nil)

/-- In a set built from the empty set no node carries the last block flag. -/
theorem set_page_bits_is_last_zero (sys : log_bitmap_struct) (calls : List (Nat × Nat))
    (h0 : sys.modified_pages = []) :
    ∀ b ∈ (set_page_bits sys calls).modified_pages,
      mach_read_from_4 b MODIFIED_PAGE_IS_LAST_BLOCK = 0 := by
  apply set_page_bits_forall (fun b => mach_read_from_4 b MODIFIED_PAGE_IS_LAST_BLOCK = 0)
  · intro space page_no
    have e0 : MODIFIED_PAGE_IS_LAST_BLOCK = 0 := rfl
    have e1 : MODIFIED_PAGE_SPACE_ID = 20 := rfl
    have e2 : MODIFIED_PAGE_1ST_PAGE_ID = 24 := rfl
    show mach_read_from_4 _ MODIFIED_PAGE_IS_LAST_BLOCK = 0
    rw [mach_read_from_4_congr _ _ MODIFIED_PAGE_IS_LAST_BLOCK
        (fun i h1 h2 => mach_write_to_4_other _ _ _ (by omega)),
      mach_read_from_4_congr _ _ MODIFIED_PAGE_IS_LAST_BLOCK
        (fun i h1 h2 => mach_write_to_4_other _ _ _ (by omega))]
    rfl
  · intro bp k b hb
    show mach_read_from_4 _ MODIFIED_PAGE_IS_LAST_BLOCK = 0
    rw [mach_read_from_4_congr _ _ MODIFIED_PAGE_IS_LAST_BLOCK
        (fun i h1 h2 => page_or_bit_other _ _ _ (by
          have e0 : MODIFIED_PAGE_IS_LAST_BLOCK = 0 := rfl
          have e3 : MODIFIED_PAGE_BLOCK_BITMAP = 32 := rfl
          omega))]
    exact hb
  · intro b hb
    rw [h0] at hb
    cases hb

/-! ## Sample inputs, evaluated -/

theorem sample_tracker_with_one_pages :
    (sample_tracker_with [(7, 3)]).log_bmp_sys.modified_pages = [sample_node] := rfl

theorem sample_write_bitmap_ok :
    (log_online_write_bitmap sample_env (sample_tracker_with [(7, 3)])).1 = true := rfl

theorem sample_write_batch : write_batch sample_env (sample_tracker_with [(7, 3)])
    = [sample_block] := by
  rw [(write_batch_initial_segment sample_env (sample_tracker_with [(7, 3)])).2 sample_write_bitmap_ok]
  rfl

/-! ## Claims about the flush -/

/-- C2: every block that `log_online_write_bitmap` hands to the writer is a node
finalised with the tracker's LSNs whose 4-byte value at offset 4092 equals
`log_online_calc_checksum` recomputed over the block as written, so that
`log_online_read_bitmap_page` returns it with `checksum_ok = true`. -/
theorem write_bitmap_blocks_have_valid_checksum (env : server_env) (st : tracker)
    (b : Page) (hb : b ∈ write_batch env st) :
    (∃ node ∈ st.log_bmp_sys.modified_pages, ∃ is_last_node : Bool,
      b = log_online_write_bitmap_finalize st.log_bmp_sys.start_lsn
        st.log_bmp_sys.end_lsn is_last_node node) ∧
    mach_read_from_4 b MODIFIED_PAGE_BLOCK_CHECKSUM = log_online_calc_checksum b ∧
    ∀ (renv : read_env) (f : log_online_bitmap_file_t) (page0 : Page) (ok0 : Bool),
      f.size ≥ MODIFIED_PAGE_BLOCK_SIZE →
      f.offset ≤ f.size - MODIFIED_PAGE_BLOCK_SIZE →
      f.offset % MODIFIED_PAGE_BLOCK_SIZE = 0 →
      renv.file_block f.name f.offset = some b →
      log_online_read_bitmap_page renv f page0 ok0
        = some (true, { f with offset := f.offset + MODIFIED_PAGE_BLOCK_SIZE }, b, true) := by
  obtain ⟨node, hn, il, hil⟩ := mem_write_batch env st b hb
  have hck : mach_read_from_4 b MODIFIED_PAGE_BLOCK_CHECKSUM = log_online_calc_checksum b := by
    rw [hil]; exact finalize_checksum _ _ _ _
  refine ⟨⟨node, hn, il, hil⟩, hck, ?_⟩
  intro renv f page0 ok0 h1 h2 h3 h4
  unfold log_online_read_bitmap_page
  rw [if_neg (by simpa using h1), if_neg (by simpa using h2), if_neg (by simpa using h3), h4]
  simp [bitmap_page_checksum_ok, hck]

theorem write_bitmap_blocks_have_valid_checksum_witness :
    sample_block ∈ write_batch sample_env (sample_tracker_with [(7, 3)]) ∧
    mach_read_from_4 sample_block MODIFIED_PAGE_BLOCK_CHECKSUM
      = log_online_calc_checksum sample_block ∧
    log_online_read_bitmap_page sample_read_env sample_file zero_page false
      = some (true, { sample_file with offset := sample_file.offset + MODIFIED_PAGE_BLOCK_SIZE },
          sample_block, true) :=
  have hb : sample_block ∈ write_batch sample_env (sample_tracker_with [(7, 3)]) := by
    rw [sample_write_batch]; exact List.mem_singleton.mpr rfl
  ⟨hb,
   (write_bitmap_blocks_have_valid_checksum sample_env (sample_tracker_with [(7, 3)])
      sample_block hb).2.1,
   (write_bitmap_blocks_have_valid_checksum sample_env (sample_tracker_with [(7, 3)])
      sample_block hb).2.2 sample_read_env sample_file zero_page false
      (by decide) (by decide) (by decide) rfl⟩

/-! ## Claims about the modified-page set -/

theorem IS_BIT_SET_finalize (start_lsn end_lsn : Nat) (is_last_node : Bool) (page : Page)
    {num : Nat} (h : num < 32448) :
    IS_BIT_SET (log_online_write_bitmap_finalize start_lsn end_lsn is_last_node page)
        MODIFIED_PAGE_BLOCK_BITMAP num
      = IS_BIT_SET page MODIFIED_PAGE_BLOCK_BITMAP num := by
  unfold IS_BIT_SET
  have e : num >>> 3 = num / 8 := by rw [Nat.shiftRight_eq_div_pow]
  have e3 : MODIFIED_PAGE_BLOCK_BITMAP = 32 := rfl
  rw [finalize_other _ _ _ _ (by omega) (by omega)]

/-- In a set built from the empty set, each recorded call has exactly one block
with its key, and that block has the bit of the page. -/
theorem set_page_bits_recorded_once (sys : log_bitmap_struct) (calls : List (Nat × Nat))
    (h0 : sys.modified_pages = [])
    (h32 : ∀ c ∈ calls, c.1 < 2 ^ 32 ∧ c.2 < 2 ^ 32)
    (space page_no : Nat) (hc : (space, page_no) ∈ calls) :
    (set_page_bits sys calls).modified_pages.countP
        (fun b => decide (block_key b = (space, page_no / 32448 * 32448))) = 1 ∧
    ∀ b ∈ (set_page_bits sys calls).modified_pages,
      block_key b = (space, page_no / 32448 * 32448) →
      IS_BIT_SET b MODIFIED_PAGE_BLOCK_BITMAP (page_no % 32448) ≠ 0 := by
  have hsorted := set_page_bits_sorted_of_empty sys calls h0
  obtain ⟨b0, hb0, hk0, hbit0⟩ := set_page_bits_records calls h32 sys space page_no hc
  refine ⟨countP_key_eq_one _ _ hsorted b0 hb0 hk0, ?_⟩
  intro b hb hk
  have : b = b0 := eq_of_key_eq_of_pairwise _ hsorted b hb b0 hb0 (hk.trans hk0.symm)
  rw [this]
  exact hbit0

/-- C3: after any sequence of `log_online_set_page_bit` calls with 32-bit arguments
on an empty modified-page set, each (space, page_no) of the sequence has exactly
one block of the set with `space_id = space` and
`first_page_id = (page_no / 32448) * 32448`, that block has the bit of the page set,
and the same holds of the batch written by a successful flush of the set. -/
theorem set_page_bit_calls_recorded_in_one_block (env : server_env) (st : tracker)
    (calls : List (Nat × Nat)) (h0 : st.log_bmp_sys.modified_pages = [])
    (h32 : ∀ c ∈ calls, c.1 < 2 ^ 32 ∧ c.2 < 2 ^ 32)
    (space page_no : Nat) (hc : (space, page_no) ∈ calls) :
    ((set_page_bits st.log_bmp_sys calls).modified_pages.countP
        (fun b => decide (block_key b = (space, page_no / 32448 * 32448))) = 1 ∧
      ∀ b ∈ (set_page_bits st.log_bmp_sys calls).modified_pages,
        block_key b = (space, page_no / 32448 * 32448) →
        IS_BIT_SET b MODIFIED_PAGE_BLOCK_BITMAP (page_no % 32448) ≠ 0) ∧
    ((log_online_write_bitmap env
        { st with log_bmp_sys := set_page_bits st.log_bmp_sys calls }).1 = true →
      (write_batch env { st with log_bmp_sys := set_page_bits st.log_bmp_sys calls }).countP
          (fun b => decide (block_key b = (space, page_no / 32448 * 32448))) = 1 ∧
      ∀ b ∈ write_batch env { st with log_bmp_sys := set_page_bits st.log_bmp_sys calls },
        block_key b = (space, page_no / 32448 * 32448) →
        IS_BIT_SET b MODIFIED_PAGE_BLOCK_BITMAP (page_no % 32448) ≠ 0) := by
  have hset := set_page_bits_recorded_once st.log_bmp_sys calls h0 h32 space page_no hc
  refine ⟨hset, fun hok => ?_⟩
  have hbatch := (write_batch_initial_segment env
    { st with log_bmp_sys := set_page_bits st.log_bmp_sys calls }).2 hok
  rw [hbatch]
  refine ⟨?_, ?_⟩
  · rw [countP_key_eq_of_map_eq _ _ _ (finalized_blocks_map_key _ _ _)]
    exact hset.1
  · intro b hb hk
    obtain ⟨node, hn, il, hil⟩ := mem_finalized_blocks _ _ _ b hb
    rw [hil, finalize_key] at hk
    rw [hil, IS_BIT_SET_finalize _ _ _ _ (Nat.mod_lt _ (by decide))]
    exact hset.2 node hn hk

theorem set_page_bit_calls_recorded_in_one_block_witness :
    ((set_page_bits sample_tracker.log_bmp_sys [(7, 3)]).modified_pages.countP
        (fun b => decide (block_key b = (7, 3 / 32448 * 32448))) = 1 ∧
      ∀ b ∈ (set_page_bits sample_tracker.log_bmp_sys [(7, 3)]).modified_pages,
        block_key b = (7, 3 / 32448 * 32448) →
        IS_BIT_SET b MODIFIED_PAGE_BLOCK_BITMAP (3 % 32448) ≠ 0) ∧
    ((write_batch sample_env (sample_tracker_with [(7, 3)])).countP
          (fun b => decide (block_key b = (7, 3 / 32448 * 32448))) = 1 ∧
      ∀ b ∈ write_batch sample_env (sample_tracker_with [(7, 3)]),
        block_key b = (7, 3 / 32448 * 32448) →
        IS_BIT_SET b MODIFIED_PAGE_BLOCK_BITMAP (3 % 32448) ≠ 0) :=
  ⟨(set_page_bit_calls_recorded_in_one_block sample_env sample_tracker [(7, 3)] rfl
      (by decide) 7 3 (by decide)).1,
   (set_page_bit_calls_recorded_in_one_block sample_env sample_tracker [(7, 3)] rfl
      (by decide) 7 3 (by decide)).2 sample_write_bitmap_ok⟩

/-- C4: two pages of one tablespace are recorded in the same bitmap block if and
only if `page_no / 32448` is the same for both; pages 32447 and 32448 are recorded
in different blocks, with `first_page_id` 0 and 32448. -/
theorem pages_share_block_iff_same_region (st : tracker) (calls : List (Nat × Nat))
    (h0 : st.log_bmp_sys.modified_pages = [])
    (h32 : ∀ c ∈ calls, c.1 < 2 ^ 32 ∧ c.2 < 2 ^ 32)
    (space p1 p2 : Nat) (h1 : (space, p1) ∈ calls) (h2 : (space, p2) ∈ calls) :
    (∃ b1 ∈ (set_page_bits st.log_bmp_sys calls).modified_pages, records b1 space p1) ∧
    (∃ b2 ∈ (set_page_bits st.log_bmp_sys calls).modified_pages, records b2 space p2) ∧
    (∀ b1 ∈ (set_page_bits st.log_bmp_sys calls).modified_pages,
      ∀ b2 ∈ (set_page_bits st.log_bmp_sys calls).modified_pages,
        records b1 space p1 → records b2 space p2 →
          ((b1 = b2 ↔ p1 / 32448 = p2 / 32448) ∧
           (p1 = 32447 → p2 = 32448 →
              b1 ≠ b2 ∧ mach_read_from_4 b1 MODIFIED_PAGE_1ST_PAGE_ID = 0 ∧
                mach_read_from_4 b2 MODIFIED_PAGE_1ST_PAGE_ID = 32448))) := by
  have hsorted := set_page_bits_sorted_of_empty st.log_bmp_sys calls h0
  refine ⟨set_page_bits_records calls h32 _ space p1 h1,
    set_page_bits_records calls h32 _ space p2 h2, ?_⟩
  intro b1 hb1 b2 hb2 hr1 hr2
  have hiff : b1 = b2 ↔ p1 / 32448 = p2 / 32448 := by
    constructor
    · intro e
      have hk : block_key b1 = block_key b2 := by rw [e]
      rw [hr1.1, hr2.1] at hk
      have := (Prod.mk.injEq _ _ _ _ ▸ hk : space = space ∧ p1 / 32448 * 32448 = p2 / 32448 * 32448).2
      omega
    · intro e
      apply eq_of_key_eq_of_pairwise _ hsorted b1 hb1 b2 hb2
      rw [hr1.1, hr2.1, e]
  refine ⟨hiff, ?_⟩
  intro e1 e2
  subst e1 e2
  refine ⟨fun e => ?_, ?_, ?_⟩
  · have := hiff.mp e
    omega
  · have := congrArg Prod.snd hr1.1
    simpa [block_key] using this
  · have := congrArg Prod.snd hr2.1
    simpa [block_key] using this

theorem pages_share_block_iff_same_region_witness :
    (∃ b1 ∈ (set_page_bits sample_tracker.log_bmp_sys [(1, 32447), (1, 32448)]).modified_pages,
      records b1 1 32447) ∧
    (∃ b2 ∈ (set_page_bits sample_tracker.log_bmp_sys [(1, 32447), (1, 32448)]).modified_pages,
      records b2 1 32448) ∧
    (∀ b1 ∈ (set_page_bits sample_tracker.log_bmp_sys [(1, 32447), (1, 32448)]).modified_pages,
      ∀ b2 ∈ (set_page_bits sample_tracker.log_bmp_sys [(1, 32447), (1, 32448)]).modified_pages,
        records b1 1 32447 → records b2 1 32448 →
          ((b1 = b2 ↔ 32447 / 32448 = 32448 / 32448) ∧
           (32447 = 32447 → 32448 = 32448 →
              b1 ≠ b2 ∧ mach_read_from_4 b1 MODIFIED_PAGE_1ST_PAGE_ID = 0 ∧
                mach_read_from_4 b2 MODIFIED_PAGE_1ST_PAGE_ID = 32448))) :=
  pages_share_block_iff_same_region sample_tracker [(1, 32447), (1, 32448)] rfl
    (by decide) 1 32447 32448 (by decide) (by decide)

/-- C5: for a 32-bit page number, with `i = page_no mod 32448`, the source's
`block_pos` and `bit_pos` are `i / 8` and `i mod 8` (the uniform formula), whether
`block_start_page` is 0 or not, and `log_online_set_page_bit` leaves bit `i mod 8`
of the byte at block offset `32 + i / 8` set in the block of the page. -/
theorem set_page_bit_sets_uniform_position (sys : log_bitmap_struct) (space page_no : Nat)
    (hs : space < 2 ^ 32) (hp : page_no < 2 ^ 32) :
    block_pos page_no = page_no % MODIFIED_PAGE_BLOCK_ID_COUNT / 8 ∧
    bit_pos page_no = page_no % MODIFIED_PAGE_BLOCK_ID_COUNT % 8 ∧
    bit_pos page_no = page_no % 8 ∧
    (block_start_page page_no = 0 → page_no / 8 = page_no % MODIFIED_PAGE_BLOCK_ID_COUNT / 8) ∧
    (block_start_page page_no ≠ 0 →
      page_no % block_start_page page_no / 8 = page_no % MODIFIED_PAGE_BLOCK_ID_COUNT / 8) ∧
    ∃ b ∈ (log_online_set_page_bit sys space page_no).modified_pages,
      block_key b = (space, page_no / MODIFIED_PAGE_BLOCK_ID_COUNT * MODIFIED_PAGE_BLOCK_ID_COUNT) ∧
      (b (MODIFIED_PAGE_BLOCK_BITMAP + page_no % MODIFIED_PAGE_BLOCK_ID_COUNT / 8)).val.testBit
        (page_no % MODIFIED_PAGE_BLOCK_ID_COUNT % 8) = true := by
  have e : MODIFIED_PAGE_BLOCK_ID_COUNT = 32448 := by norm_num
  rw [e]
  have hbp := block_pos_eq hp
  refine ⟨hbp, bit_pos_eq page_no, rfl, ?_, ?_, ?_⟩
  · intro h0
    rw [← hbp]
    unfold block_pos
    rw [if_neg (by simpa using h0)]
  · intro hne
    rw [← hbp]
    unfold block_pos
    rw [if_pos hne]
  · obtain ⟨b, hb, hk, hbit⟩ := set_page_bit_records sys hs hp
    exact ⟨b, hb, hk, (IS_BIT_SET_iff _ _ _).mp hbit⟩

theorem set_page_bit_sets_uniform_position_witness :
    block_pos 40000 = 40000 % MODIFIED_PAGE_BLOCK_ID_COUNT / 8 ∧
    bit_pos 40000 = 40000 % MODIFIED_PAGE_BLOCK_ID_COUNT % 8 ∧
    bit_pos 40000 = 40000 % 8 ∧
    (block_start_page 40000 = 0 → 40000 / 8 = 40000 % MODIFIED_PAGE_BLOCK_ID_COUNT / 8) ∧
    (block_start_page 40000 ≠ 0 →
      40000 % block_start_page 40000 / 8 = 40000 % MODIFIED_PAGE_BLOCK_ID_COUNT / 8) ∧
    ∃ b ∈ (log_online_set_page_bit sample_tracker.log_bmp_sys 7 40000).modified_pages,
      block_key b = (7, 40000 / MODIFIED_PAGE_BLOCK_ID_COUNT * MODIFIED_PAGE_BLOCK_ID_COUNT) ∧
      (b (MODIFIED_PAGE_BLOCK_BITMAP + 40000 % MODIFIED_PAGE_BLOCK_ID_COUNT / 8)).val.testBit
        (40000 % MODIFIED_PAGE_BLOCK_ID_COUNT % 8) = true :=
  set_page_bit_sets_uniform_position sample_tracker.log_bmp_sys 7 40000 (by decide) (by decide)

/-! ## Claims about the batch of a flush -/

/-- C6 (counterexample): a follow cycle whose redo records touch no page ends in a
successful flush of the empty set; the batch is empty, so it does not contain
exactly one block with `is_last_block == 1`. -/
theorem empty_flush_has_no_last_block :
    sample_tracker.log_bmp_sys.modified_pages = [] ∧
    (log_online_follow_redo_log sample_env sample_tracker).map
        (fun r => (r.1, (written_blocks r.2.trace).length)) = some (true, 0) ∧
    (log_online_write_bitmap sample_env sample_tracker).1 = true ∧
    ¬ ((write_batch sample_env sample_tracker).countP
        (fun b => decide (mach_read_from_4 b MODIFIED_PAGE_IS_LAST_BLOCK = 1)) = 1) := by
  refine ⟨rfl, rfl, rfl, ?_⟩
  have h := (write_batch_initial_segment sample_env sample_tracker).2 rfl
  have e : finalized_blocks sample_tracker.log_bmp_sys.start_lsn
      sample_tracker.log_bmp_sys.end_lsn sample_tracker.log_bmp_sys.modified_pages = [] := rfl
  rw [h, e]
  decide

/-- C6 (amended): a successful flush of a non-empty modified-page set writes a batch
whose last block has `is_last_block == 1` and whose other blocks have
`is_last_block == 0` and a key lexicographically below the last block's key, so
exactly one block of the batch carries the flag. -/
theorem write_batch_last_block_flag (env : server_env) (st : tracker)
    (calls : List (Nat × Nat)) (h0 : st.log_bmp_sys.modified_pages = [])
    (hne : (set_page_bits st.log_bmp_sys calls).modified_pages ≠ [])
    (hok : (log_online_write_bitmap env
      { st with log_bmp_sys := set_page_bits st.log_bmp_sys calls }).1 = true) :
    ∃ init last,
      write_batch env { st with log_bmp_sys := set_page_bits st.log_bmp_sys calls }
        = init ++ [last] ∧
      mach_read_from_4 last MODIFIED_PAGE_IS_LAST_BLOCK = 1 ∧
      (∀ b ∈ init, mach_read_from_4 b MODIFIED_PAGE_IS_LAST_BLOCK = 0 ∧
        key_lt (block_key b) (block_key last)) ∧
      (write_batch env { st with log_bmp_sys := set_page_bits st.log_bmp_sys calls }).countP
        (fun b => decide (mach_read_from_4 b MODIFIED_PAGE_IS_LAST_BLOCK = 1)) = 1 := by
  have hbatch := (write_batch_initial_segment env
    { st with log_bmp_sys := set_page_bits st.log_bmp_sys calls }).2 hok
  have hsorted := set_page_bits_sorted_of_empty st.log_bmp_sys calls h0
  have hzero := set_page_bits_is_last_zero st.log_bmp_sys calls h0
  rw [hbatch]
  generalize (set_page_bits st.log_bmp_sys calls).start_lsn = s0
  generalize (set_page_bits st.log_bmp_sys calls).end_lsn = e0
  show ∃ init last,
      finalized_blocks s0 e0 (set_page_bits st.log_bmp_sys calls).modified_pages
        = init ++ [last] ∧ _
  generalize (set_page_bits st.log_bmp_sys calls).modified_pages = nodes at hne hsorted hzero
  obtain ⟨init0, x, rfl⟩ : ∃ init0 x, nodes = init0 ++ [x] :=
    ⟨nodes.dropLast, nodes.getLast hne, (List.dropLast_append_getLast hne).symm⟩
  rw [finalized_blocks_concat]
  have hlast : mach_read_from_4 (log_online_write_bitmap_finalize s0 e0 true x)
      MODIFIED_PAGE_IS_LAST_BLOCK = 1 := by
    rw [finalize_is_last]; rfl
  have hinit : ∀ b ∈ init0.map (log_online_write_bitmap_finalize s0 e0 false),
      mach_read_from_4 b MODIFIED_PAGE_IS_LAST_BLOCK = 0 ∧
        key_lt (block_key b) (block_key (log_online_write_bitmap_finalize s0 e0 true x)) := by
    intro b hb
    obtain ⟨node, hn, rfl⟩ := List.mem_map.mp hb
    constructor
    · rw [finalize_is_last]
      simp only [Bool.false_eq_true, ↓reduceIte]
      exact hzero node (List.mem_append_left _ hn)
    · rw [finalize_key, finalize_key]
      rw [List.map_append, List.pairwise_append] at hsorted
      exact hsorted.2.2 _ (List.mem_map_of_mem _ hn) _ (by simp)
  refine ⟨_, _, rfl, hlast, hinit, ?_⟩
  rw [List.countP_append]
  have hc0 : (init0.map (log_online_write_bitmap_finalize s0 e0 false)).countP
      (fun b => decide (mach_read_from_4 b MODIFIED_PAGE_IS_LAST_BLOCK = 1)) = 0 := by
    rw [List.countP_eq_zero]
    intro b hb
    have := (hinit b hb).1
    simp [this]
  rw [hc0]
  simp [hlast]

theorem write_batch_last_block_flag_witness :
    ∃ init last,
      write_batch sample_env (sample_tracker_with [(7, 3)]) = init ++ [last] ∧
      mach_read_from_4 last MODIFIED_PAGE_IS_LAST_BLOCK = 1 ∧
      (∀ b ∈ init, mach_read_from_4 b MODIFIED_PAGE_IS_LAST_BLOCK = 0 ∧
        key_lt (block_key b) (block_key last)) ∧
      (write_batch sample_env (sample_tracker_with [(7, 3)])).countP
        (fun b => decide (mach_read_from_4 b MODIFIED_PAGE_IS_LAST_BLOCK = 1)) = 1 :=
  write_batch_last_block_flag sample_env sample_tracker [(7, 3)] rfl
    (by rw [show (set_page_bits sample_tracker.log_bmp_sys [(7, 3)]).modified_pages
          = [sample_node] from rfl]
        exact List.cons_ne_nil _ _)
    sample_write_bitmap_ok

/-- C7: all blocks written by one flush carry the tracker's `start_lsn` and
`end_lsn`, and they are handed to the writer in strictly ascending
(space_id, first_page_id) order. -/
theorem write_batch_shares_lsns_and_ascends (env : server_env) (st : tracker)
    (calls : List (Nat × Nat)) (h0 : st.log_bmp_sys.modified_pages = [])
    (hs : st.log_bmp_sys.start_lsn < 2 ^ 64) (he : st.log_bmp_sys.end_lsn < 2 ^ 64) :
    (∀ b ∈ write_batch env { st with log_bmp_sys := set_page_bits st.log_bmp_sys calls },
      mach_read_from_8 b MODIFIED_PAGE_START_LSN = st.log_bmp_sys.start_lsn ∧
      mach_read_from_8 b MODIFIED_PAGE_END_LSN = st.log_bmp_sys.end_lsn) ∧
    ((write_batch env
        { st with log_bmp_sys := set_page_bits st.log_bmp_sys calls }).map block_key).Pairwise
      key_lt := by
  have hlsn := set_page_bits_lsn calls st.log_bmp_sys
  constructor
  · intro b hb
    obtain ⟨node, _, il, hil⟩ := mem_write_batch _ _ b hb
    rw [hil, finalize_start_lsn, finalize_end_lsn]
    show (set_page_bits st.log_bmp_sys calls).start_lsn % 2 ^ 64 = _ ∧
      (set_page_bits st.log_bmp_sys calls).end_lsn % 2 ^ 64 = _
    rw [hlsn.1, hlsn.2, Nat.mod_eq_of_lt hs, Nat.mod_eq_of_lt he]
    exact ⟨rfl, rfl⟩
  · have hpre := (write_batch_initial_segment env
      { st with log_bmp_sys := set_page_bits st.log_bmp_sys calls }).1
    have hsorted := set_page_bits_sorted_of_empty st.log_bmp_sys calls h0
    have hsub := (hpre.map block_key).sublist
    rw [finalized_blocks_map_key] at hsub
    exact hsorted.sublist hsub

theorem write_batch_shares_lsns_and_ascends_witness :
    (∀ b ∈ write_batch sample_env (sample_tracker_with [(1, 32448), (1, 0)]),
      mach_read_from_8 b MODIFIED_PAGE_START_LSN = 8716 ∧
      mach_read_from_8 b MODIFIED_PAGE_END_LSN = 9000) ∧
    ((write_batch sample_env
        (sample_tracker_with [(1, 32448), (1, 0)])).map block_key).Pairwise key_lt :=
  write_batch_shares_lsns_and_ascends sample_env sample_tracker [(1, 32448), (1, 0)] rfl
    (by decide) (by decide)

/-- C8: every block the flush hands to the writer is the finalisation of a node of
the set with some flag value, the tracker's LSNs, the node's key and the node's
bitmap; read back (checksum test of `log_online_read_bitmap_page`, header reads
of `log_online_bitmap_iterator_next`) it gives `checksum_ok = true` and exactly
those values and bitmap bytes. -/
theorem bitmap_block_round_trip (env : server_env) (st : tracker)
    (calls : List (Nat × Nat)) (h0 : st.log_bmp_sys.modified_pages = [])
    (hs : st.log_bmp_sys.start_lsn < 2 ^ 64) (he : st.log_bmp_sys.end_lsn < 2 ^ 64)
    (b : Page)
    (hb : b ∈ write_batch env { st with log_bmp_sys := set_page_bits st.log_bmp_sys calls })
    (it : log_bitmap_iterator_t) :
    ∃ node ∈ (set_page_bits st.log_bmp_sys calls).modified_pages, ∃ is_last_node : Bool,
      b = log_online_write_bitmap_finalize st.log_bmp_sys.start_lsn st.log_bmp_sys.end_lsn
        is_last_node node ∧
      bitmap_page_checksum_ok b = true ∧
      mach_read_from_4 b MODIFIED_PAGE_IS_LAST_BLOCK = (if is_last_node then 1 else 0) ∧
      (log_online_bitmap_iterator_load { it with page := b }).last_page_in_run
        = is_last_node ∧
      (log_online_bitmap_iterator_load { it with page := b }).start_lsn
        = st.log_bmp_sys.start_lsn ∧
      (log_online_bitmap_iterator_load { it with page := b }).end_lsn
        = st.log_bmp_sys.end_lsn ∧
      (log_online_bitmap_iterator_load { it with page := b }).space_id
        = mach_read_from_4 node MODIFIED_PAGE_SPACE_ID ∧
      (log_online_bitmap_iterator_load { it with page := b }).first_page_id
        = mach_read_from_4 node MODIFIED_PAGE_1ST_PAGE_ID ∧
      (∀ j, MODIFIED_PAGE_BLOCK_BITMAP ≤ j → j < MODIFIED_PAGE_BLOCK_UNUSED_2 →
        b j = node j) ∧
      ∀ (renv : read_env) (f : log_online_bitmap_file_t) (page0 : Page) (ok0 : Bool),
        f.size ≥ MODIFIED_PAGE_BLOCK_SIZE →
        f.offset ≤ f.size - MODIFIED_PAGE_BLOCK_SIZE →
        f.offset % MODIFIED_PAGE_BLOCK_SIZE = 0 →
        renv.file_block f.name f.offset = some b →
        log_online_read_bitmap_page renv f page0 ok0
          = some (true, { f with offset := f.offset + MODIFIED_PAGE_BLOCK_SIZE }, b, true) := by
  have hlsn := set_page_bits_lsn calls st.log_bmp_sys
  have hzero := set_page_bits_is_last_zero st.log_bmp_sys calls h0
  obtain ⟨node, hn, il, hil⟩ := mem_write_batch _ _ b hb
  have hil' : b = log_online_write_bitmap_finalize st.log_bmp_sys.start_lsn
      st.log_bmp_sys.end_lsn il node := by
    rw [hil]
    show log_online_write_bitmap_finalize (set_page_bits st.log_bmp_sys calls).start_lsn
      (set_page_bits st.log_bmp_sys calls).end_lsn il node = _
    rw [hlsn.1, hlsn.2]
  have hck : mach_read_from_4 b MODIFIED_PAGE_BLOCK_CHECKSUM = log_online_calc_checksum b := by
    rw [hil']; exact finalize_checksum _ _ _ _
  have hflag : mach_read_from_4 b MODIFIED_PAGE_IS_LAST_BLOCK = (if il then 1 else 0) := by
    rw [hil', finalize_is_last, hzero node hn]
  have hkey := finalize_key st.log_bmp_sys.start_lsn st.log_bmp_sys.end_lsn il node
  rw [← hil'] at hkey
  refine ⟨node, hn, il, hil', ?_, hflag, ?_, ?_, ?_, ?_, ?_, ?_, ?_⟩
  · simp [bitmap_page_checksum_ok, hck]
  · show (mach_read_from_4 b MODIFIED_PAGE_IS_LAST_BLOCK != 0) = il
    rw [hflag]
    cases il <;> rfl
  · show mach_read_from_8 b MODIFIED_PAGE_START_LSN = _
    rw [hil', finalize_start_lsn, Nat.mod_eq_of_lt hs]
  · show mach_read_from_8 b MODIFIED_PAGE_END_LSN = _
    rw [hil', finalize_end_lsn, Nat.mod_eq_of_lt he]
  · exact congrArg Prod.fst hkey
  · exact congrArg Prod.snd hkey
  · intro j h1 h2
    rw [hil']
    have e1 : MODIFIED_PAGE_BLOCK_BITMAP = 32 := rfl
    have e2 : MODIFIED_PAGE_BLOCK_UNUSED_2 = 4088 := by norm_num
    exact finalize_other _ _ _ _ (by omega) (by omega)
  · intro renv f page0 ok0 h1 h2 h3 h4
    unfold log_online_read_bitmap_page
    rw [if_neg (by simpa using h1), if_neg (by simpa using h2), if_neg (by simpa using h3), h4]
    simp [bitmap_page_checksum_ok, hck]

theorem bitmap_block_round_trip_witness :
    ∃ node ∈ (set_page_bits sample_tracker.log_bmp_sys [(7, 3)]).modified_pages,
      ∃ is_last_node : Bool,
      sample_block = log_online_write_bitmap_finalize 8716 9000 is_last_node node ∧
      bitmap_page_checksum_ok sample_block = true ∧
      mach_read_from_4 sample_block MODIFIED_PAGE_IS_LAST_BLOCK
        = (if is_last_node then 1 else 0) ∧
      (log_online_bitmap_iterator_load
        { sample_iterator with page := sample_block }).last_page_in_run = is_last_node ∧
      (log_online_bitmap_iterator_load
        { sample_iterator with page := sample_block }).start_lsn = 8716 ∧
      (log_online_bitmap_iterator_load
        { sample_iterator with page := sample_block }).end_lsn = 9000 ∧
      (log_online_bitmap_iterator_load
        { sample_iterator with page := sample_block }).space_id
        = mach_read_from_4 node MODIFIED_PAGE_SPACE_ID ∧
      (log_online_bitmap_iterator_load
        { sample_iterator with page := sample_block }).first_page_id
        = mach_read_from_4 node MODIFIED_PAGE_1ST_PAGE_ID ∧
      (∀ j, MODIFIED_PAGE_BLOCK_BITMAP ≤ j → j < MODIFIED_PAGE_BLOCK_UNUSED_2 →
        sample_block j = node j) ∧
      ∀ (renv : read_env) (f : log_online_bitmap_file_t) (page0 : Page) (ok0 : Bool),
        f.size ≥ MODIFIED_PAGE_BLOCK_SIZE →
        f.offset ≤ f.size - MODIFIED_PAGE_BLOCK_SIZE →
        f.offset % MODIFIED_PAGE_BLOCK_SIZE = 0 →
        renv.file_block f.name f.offset = some sample_block →
        log_online_read_bitmap_page renv f page0 ok0
          = some (true, { f with offset := f.offset + MODIFIED_PAGE_BLOCK_SIZE },
              sample_block, true) :=
  bitmap_block_round_trip sample_env sample_tracker [(7, 3)] rfl (by decide) (by decide)
    sample_block
    (by
      show sample_block ∈ write_batch sample_env (sample_tracker_with [(7, 3)])
      rw [sample_write_batch]; exact List.mem_singleton.mpr rfl)
    sample_iterator

/-! ## Claims about the follow cycle -/

/-- C10 (counterexample): on a freshly initialised tracker, whose `end_lsn` was
never assigned, a follow with the last checkpoint at `start_lsn` returns success
and changes `end_lsn` (from 0 to 8716). -/
theorem follow_at_checkpoint_changes_end_lsn :
    sample_fresh_tracker.srv_track_changed_pages = true ∧
    sample_env_at_checkpoint.last_checkpoint_lsn = sample_fresh_tracker.log_bmp_sys.start_lsn ∧
    sample_fresh_tracker.log_bmp_sys.end_lsn = 0 ∧
    (log_online_follow_redo_log sample_env_at_checkpoint sample_fresh_tracker).map
      (fun r => (r.1, r.2.log_bmp_sys.end_lsn)) = some (true, 8716) ∧
    ¬ ((log_online_follow_redo_log sample_env_at_checkpoint sample_fresh_tracker).map
      (fun r => r.2.log_bmp_sys.end_lsn) = some sample_fresh_tracker.log_bmp_sys.end_lsn) := by
  refine ⟨rfl, rfl, rfl, rfl, ?_⟩
  have e : (log_online_follow_redo_log sample_env_at_checkpoint sample_fresh_tracker).map
      (fun r => r.2.log_bmp_sys.end_lsn) = some 8716 := rfl
  rw [e]
  decide

/-- C10 (amended): with tracking enabled and the last checkpoint LSN equal to
`start_lsn`, `log_online_follow_redo_log` returns success, makes no call to the
redo log reader or the operating system (no read, no block written, no rotation),
takes and releases the mutex once, sets `end_lsn` to the checkpoint LSN
(`= start_lsn`) and leaves every other field of the tracker as it was; the whole
bitmap struct is unchanged when `end_lsn` already equalled `start_lsn`. -/
theorem follow_at_checkpoint_only_sets_end_lsn (env : server_env) (st : tracker)
    (htrack : st.srv_track_changed_pages = true)
    (hck : env.last_checkpoint_lsn = st.log_bmp_sys.start_lsn) :
    ∃ st', log_online_follow_redo_log env st = some (true, st') ∧
      st'.trace = st.trace ∧
      st'.log_bmp_sys = { st.log_bmp_sys with end_lsn := st.log_bmp_sys.start_lsn } ∧
      st'.log_bmp_sys.start_lsn = st.log_bmp_sys.start_lsn ∧
      st'.log_bmp_sys.out = st.log_bmp_sys.out ∧
      st'.log_bmp_sys.out_seq_num = st.log_bmp_sys.out_seq_num ∧
      st'.log_bmp_sys.modified_pages = st.log_bmp_sys.modified_pages ∧
      st'.log_bmp_sys.page_free_list = st.log_bmp_sys.page_free_list ∧
      st'.tracked_lsn = st.tracked_lsn ∧
      st'.srv_track_changed_pages = st.srv_track_changed_pages ∧
      st'.mutex_enters = st.mutex_enters + 1 ∧
      st'.mutex_exits = st.mutex_exits + 1 ∧
      (st.log_bmp_sys.end_lsn = st.log_bmp_sys.start_lsn → st'.log_bmp_sys = st.log_bmp_sys) := by
  refine ⟨mutex_exit (mutex_enter
    { st with log_bmp_sys := { st.log_bmp_sys with end_lsn := st.log_bmp_sys.start_lsn } }),
    ?_, rfl, rfl, rfl, rfl, rfl, rfl, rfl, rfl, rfl, rfl, rfl, ?_⟩
  · unfold log_online_follow_redo_log
    simp [htrack, mutex_enter, mutex_exit, hck]
  · intro he
    show { st.log_bmp_sys with end_lsn := st.log_bmp_sys.start_lsn } = st.log_bmp_sys
    rw [← he]

theorem follow_at_checkpoint_only_sets_end_lsn_witness :
    ∃ st', log_online_follow_redo_log sample_env_at_checkpoint sample_idle_tracker
        = some (true, st') ∧
      st'.trace = sample_idle_tracker.trace ∧
      st'.tracked_lsn = sample_idle_tracker.tracked_lsn ∧
      st'.log_bmp_sys = sample_idle_tracker.log_bmp_sys := by
  obtain ⟨st', h1, h2, _, _, _, _, _, _, h9, _, _, _, h13⟩ :=
    follow_at_checkpoint_only_sets_end_lsn sample_env_at_checkpoint sample_idle_tracker
      rfl rfl
  exact ⟨st', h1, h2, h9, h13 rfl⟩

/-! ## The iterator stops at bit position 4056 -/

theorem page_4057_write_batch :
    write_batch sample_env (sample_tracker_with [(0, 4057)]) = [page_4057_block] := by
  rw [(write_batch_initial_segment sample_env (sample_tracker_with [(0, 4057)])).2 rfl]
  rfl

theorem page_4057_block_key : block_key page_4057_block = (0, 0) := by
  unfold page_4057_block page_4057_node
  rw [finalize_key, page_or_bit_key, new_node_key_of_lt (by decide) (by decide)]

theorem page_4057_node_key_page_zero {j : Nat} (h : 28 ≤ j) :
    mach_write_to_4 (mach_write_to_4 zero_page MODIFIED_PAGE_SPACE_ID 0)
      MODIFIED_PAGE_1ST_PAGE_ID (block_start_page 4057) j = 0 := by
  have e1 : MODIFIED_PAGE_SPACE_ID = 20 := rfl
  have e2 : MODIFIED_PAGE_1ST_PAGE_ID = 24 := rfl
  rw [mach_write_to_4_other _ _ _ (by omega), mach_write_to_4_other _ _ _ (by omega)]
  rfl

/-- In the block written for page 4057 only the bit of page 4057 is set. -/
theorem page_4057_block_bits {j : Nat} (hj : j < 32448) :
    IS_BIT_SET page_4057_block MODIFIED_PAGE_BLOCK_BITMAP j ≠ 0 ↔ j = 4057 := by
  have hbp : block_pos 4057 = 507 := by decide
  have hbit : bit_pos 4057 = 1 := by decide
  have e3 : MODIFIED_PAGE_BLOCK_BITMAP = 32 := rfl
  unfold page_4057_block
  rw [IS_BIT_SET_finalize _ _ _ _ hj, IS_BIT_SET_iff]
  unfold page_4057_node
  rw [hbp, hbit]
  by_cases hb : MODIFIED_PAGE_BLOCK_BITMAP + j / 8 = MODIFIED_PAGE_BLOCK_BITMAP + 507
  · rw [hb, page_or_bit_same, testBit_or_byte _ _ _ (Nat.mod_lt _ (by decide)),
      page_4057_node_key_page_zero (by omega)]
    simp
    omega
  · rw [page_or_bit_other _ _ _ hb, page_4057_node_key_page_zero (by omega)]
    simp
    omega

theorem page_4057_initial_iterator_eq :
    page_4057_initial_iterator =
      { failed := false
        in_files := page_4057_range
        in_i := 0
        in_file := { name := "ib_modified_log_1_0.xdb", closed := false, size := 4096,
                     offset := 0 }
        page := zero_page
        bit_offset := MODIFIED_PAGE_BLOCK_BITMAP_LEN
        start_lsn := 0
        end_lsn := 0
        space_id := 0
        first_page_id := 0
        last_page_in_run := true
        changed := false
        max_lsn := 2 ^ 64 - 1 } := by
  rfl

theorem page_4057_block_checksum_ok : bitmap_page_checksum_ok page_4057_block = true := by
  have h : mach_read_from_4 page_4057_block MODIFIED_PAGE_BLOCK_CHECKSUM
      = log_online_calc_checksum page_4057_block :=
    finalize_checksum 8716 9000 true page_4057_node
  unfold bitmap_page_checksum_ok
  exact beq_iff_eq.mpr h

theorem page_4057_block_load (i : log_bitmap_iterator_t) (h : i.page = page_4057_block) :
    log_online_bitmap_iterator_load i =
      { i with
        start_lsn := 8716
        end_lsn := 9000
        space_id := 0
        first_page_id := 0
        last_page_in_run := true
        bit_offset := 0
        changed := false } := by
  have hk := page_4057_block_key
  unfold block_key at hk
  rw [Prod.mk.injEq] at hk
  obtain ⟨h1, h2⟩ := hk
  have h3 : mach_read_from_8 page_4057_block MODIFIED_PAGE_START_LSN = 8716 := by
    unfold page_4057_block; rw [finalize_start_lsn]; norm_num
  have h4 : mach_read_from_8 page_4057_block MODIFIED_PAGE_END_LSN = 9000 := by
    unfold page_4057_block; rw [finalize_end_lsn]; norm_num
  have h5 : mach_read_from_4 page_4057_block MODIFIED_PAGE_IS_LAST_BLOCK = 1 := by
    unfold page_4057_block; rw [finalize_is_last]; rfl
  have h6 : IS_BIT_SET page_4057_block MODIFIED_PAGE_BLOCK_BITMAP 0 = 0 := by
    by_contra hne
    have := (page_4057_block_bits (j := 0) (by decide)).mp hne
    omega
  unfold log_online_bitmap_iterator_load
  rw [h, h1, h2, h3, h4, h5, h6]
  rfl

/-- The first call reads the block and exposes bit position 0. -/
theorem page_4057_first_next (fuel : Nat) :
    log_online_bitmap_iterator_next page_4057_read_env (fuel + 1) page_4057_initial_iterator
      = some (true, page_4057_iterator 0) := by
  rw [page_4057_initial_iterator_eq]
  unfold log_online_bitmap_iterator_next
  simp only [page_4057_range]
  rw [if_neg (by decide), if_neg (by decide), if_neg (by decide)]
  unfold log_online_bitmap_iterator_next_loop
  simp only []
  rw [if_neg (by decide)]
  have hread : log_online_read_bitmap_page page_4057_read_env
      { name := "ib_modified_log_1_0.xdb", closed := false, size := 4096, offset := 0 }
      zero_page false
      = some (true,
          { name := "ib_modified_log_1_0.xdb", closed := false, size := 4096, offset := 4096 },
          page_4057_block, true) := by
    unfold log_online_read_bitmap_page
    rw [if_neg (by decide), if_neg (by decide), if_neg (by decide)]
    have hb : page_4057_read_env.file_block "ib_modified_log_1_0.xdb" 0
        = some page_4057_block := rfl
    simp only [hb, page_4057_block_checksum_ok]
    rfl
  simp only [hread, ↓reduceIte]
  rw [page_4057_block_load _ rfl]
  rfl

/-- Below bit position 4056 a call moves to the next position, whose bit is clear. -/
theorem page_4057_step_next (fuel k : Nat) (hk : k < 4056) :
    log_online_bitmap_iterator_next page_4057_read_env fuel (page_4057_iterator k)
      = some (true, page_4057_iterator (k + 1)) := by
  have hbit : IS_BIT_SET page_4057_block MODIFIED_PAGE_BLOCK_BITMAP (k + 1) = 0 := by
    by_contra hne
    have := (page_4057_block_bits (j := k + 1) (by omega)).mp hne
    omega
  have e : MODIFIED_PAGE_BLOCK_BITMAP_LEN = 4056 := by norm_num
  unfold log_online_bitmap_iterator_next page_4057_iterator
  simp only [page_4057_range]
  rw [if_neg (by decide), if_pos (by rw [e]; exact hk), hbit]
  rfl

/-- At bit position 4056 the next call looks for another block, finds the file
exhausted and returns false. -/
theorem page_4057_last_next (fuel : Nat) :
    ∃ i', log_online_bitmap_iterator_next page_4057_read_env (fuel + 1)
      (page_4057_iterator 4056) = some (false, i') := by
  unfold log_online_bitmap_iterator_next page_4057_iterator
  simp only [page_4057_range]
  rw [if_neg (by decide), if_neg (by decide), if_neg (by decide)]
  unfold log_online_bitmap_iterator_next_loop
  simp only []
  rw [if_pos (by decide)]
  exact ⟨_, rfl⟩

theorem iterator_reports_succ (env : read_env) (fuel n : Nat) (i : log_bitmap_iterator_t) :
    iterator_reports env fuel (n + 1) i =
      match log_online_bitmap_iterator_next env fuel i with
      | some (true, i') =>
        (i'.space_id, i'.first_page_id + i'.bit_offset, i'.changed)
          :: iterator_reports env fuel n i'
      | _ => [] := rfl

theorem iterator_reports_initial_segment (env : read_env) (fuel : Nat) :
    ∀ (n m : Nat) (i : log_bitmap_iterator_t),
      iterator_reports env fuel n i <+: iterator_reports env fuel (n + m) i := by
  intro n
  induction n with
  | zero => intro m i; exact List.nil_prefix
  | succ n ih =>
    intro m i
    have e : n + 1 + m = (n + m) + 1 := by omega
    rw [e]
    unfold iterator_reports
    split
    · rename_i i' h
      exact (List.prefix_cons_inj _).mpr (ih m i')
    · exact List.prefix_refl _

theorem page_4057_reports_from (fuel : Nat) :
    ∀ (m k : Nat), k + m = 4056 → ∀ n : Nat,
      iterator_reports page_4057_read_env (fuel + 1) (m + n) (page_4057_iterator k)
        = (List.range' (k + 1) m).map (fun j => (0, j, false)) := by
  intro m
  induction m with
  | zero =>
    intro k hk n
    have hk' : k = 4056 := by omega
    subst hk'
    cases n with
    | zero => rfl
    | succ n =>
      obtain ⟨i', hi'⟩ := page_4057_last_next fuel
      have e : 0 + (n + 1) = n + 1 := by omega
      rw [e, iterator_reports_succ, hi']
      rfl
  | succ m ih =>
    intro k hk n
    have e : m + 1 + n = (m + n) + 1 := by omega
    rw [e, iterator_reports_succ, page_4057_step_next (fuel + 1) k (by omega)]
    simp only []
    rw [ih (k + 1) (by omega) n, List.range'_succ, List.map_cons]
    simp [page_4057_iterator]

/-- The calls of the iterator expose the pages 0 .. 4056 of the block, none of them
changed, and then the iteration is over. -/
theorem page_4057_reports (fuel n : Nat) :
    iterator_reports page_4057_read_env (fuel + 1) (4057 + n) page_4057_initial_iterator
      = (List.range 4057).map (fun j => (0, j, false)) := by
  have e : 4057 + n = (4056 + n) + 1 := by omega
  have hr : List.range 4057 = 0 :: List.range' (0 + 1) 4056 := by
    rw [List.range_eq_range']
    exact List.range'_succ 0 4056 1
  have hfrom := page_4057_reports_from fuel 4056 0 (by omega) n
  rw [e, hr, List.map_cons, ← hfrom, iterator_reports_succ, page_4057_first_next fuel]
  rfl

/-- C9 (failing input): `log_online_set_page_bit(0, 4057)` on the empty set, a
successful flush, then the iterator over the file that holds the written block.
The block records page 4057, yet the calls of `log_online_bitmap_iterator_next`
expose only the bit positions 0 .. 4056 of the block, report no page as changed and
then return false: page 4057 is never reported. -/
theorem iterator_never_reports_page_4057 :
    (log_online_write_bitmap sample_env (sample_tracker_with [(0, 4057)])).1 = true ∧
    write_batch sample_env (sample_tracker_with [(0, 4057)]) = [page_4057_block] ∧
    records page_4057_block 0 4057 ∧
    (log_online_bitmap_iterator_init page_4057_read_env (some page_4057_range)
      blank_iterator 0 (2 ^ 64 - 1)).1 = true ∧
    (∀ fuel n : Nat,
      iterator_reports page_4057_read_env (fuel + 1) (4057 + n) page_4057_initial_iterator
        = (List.range 4057).map (fun j => (0, j, false))) ∧
    (∀ fuel n : Nat,
      ∀ r ∈ iterator_reports page_4057_read_env fuel n page_4057_initial_iterator,
        r.2.1 ≤ 4056 ∧ r.2.2 = false) := by
  refine ⟨rfl, page_4057_write_batch, ⟨?_, ?_⟩, rfl, page_4057_reports, ?_⟩
  · rw [page_4057_block_key]
  · exact (page_4057_block_bits (by norm_num)).mpr (by norm_num)
  · intro fuel n r hr
    cases fuel with
    | zero =>
      cases n with
      | zero => cases hr
      | succ n =>
        have e : iterator_reports page_4057_read_env 0 (n + 1) page_4057_initial_iterator
            = [] := by
          rw [iterator_reports_succ, page_4057_initial_iterator_eq]
          rfl
        rw [e] at hr
        cases hr
    | succ fuel =>
      have hpre := iterator_reports_initial_segment page_4057_read_env (fuel + 1) n 4057
        page_4057_initial_iterator
      have hmem := hpre.subset hr
      have e : n + 4057 = 4057 + n := by omega
      rw [e, page_4057_reports fuel n, List.mem_map] at hmem
      obtain ⟨j, hj, rfl⟩ := hmem
      have hj' : j < 4057 := List.mem_range.mp hj
      exact ⟨Nat.le_of_lt_succ hj', rfl⟩


/-! ## The follow cycle and the LSN clock -/

theorem log_set_tracked_lsn_val (st : tracker) (lsn : Nat) :
    (log_set_tracked_lsn st lsn).tracked_lsn = lsn % 2 ^ 64 := by
  unfold log_set_tracked_lsn ulint
  simp only []
  omega

theorem parse_redo_log_rec_lsn (env : server_env) (sys : log_bitmap_struct) (r : redo_rec) :
    (log_online_parse_redo_log_rec env sys r).start_lsn = sys.start_lsn ∧
    (log_online_parse_redo_log_rec env sys r).end_lsn = sys.end_lsn := by
  have hfold : ∀ (l : List Nat) (s : log_bitmap_struct),
      (l.foldl (fun s i => log_online_set_page_bit s r.space i) s).start_lsn = s.start_lsn ∧
      (l.foldl (fun s i => log_online_set_page_bit s r.space i) s).end_lsn = s.end_lsn := by
    intro l
    induction l with
    | nil => intro s; exact ⟨rfl, rfl⟩
    | cons i is ih =>
      intro s
      have h1 := ih (log_online_set_page_bit s r.space i)
      have h2 := set_page_bit_lsn s r.space i
      exact ⟨h1.1.trans h2.1, h1.2.trans h2.2⟩
  unfold log_online_parse_redo_log_rec
  simp only []
  have h2 := set_page_bit_lsn sys r.space r.page_no
  split_ifs
  · have h1 := hfold (List.range (env.fil_space_get_size r.space))
      (log_online_set_page_bit sys r.space r.page_no)
    exact ⟨h1.1.trans h2.1, h1.2.trans h2.2⟩
  · exact h2
  · exact ⟨rfl, rfl⟩

theorem parse_redo_log_recs_lsn (env : server_env) (recs : List redo_rec) :
    ∀ sys : log_bitmap_struct,
      (recs.foldl (log_online_parse_redo_log_rec env) sys).start_lsn = sys.start_lsn ∧
      (recs.foldl (log_online_parse_redo_log_rec env) sys).end_lsn = sys.end_lsn := by
  induction recs with
  | nil => intro sys; exact ⟨rfl, rfl⟩
  | cons r rs ih =>
    intro sys
    have h1 := ih (log_online_parse_redo_log_rec env sys r)
    have h2 := parse_redo_log_rec_lsn env sys r
    exact ⟨h1.1.trans h2.1, h1.2.trans h2.2⟩

/-- Following one log group leaves the LSN interval and the published tracked LSN
alone. -/
theorem follow_log_group_lsn (env : server_env) (group : Nat) (st st' : tracker) (b : Bool)
    (h : log_online_follow_log_group env group st = some (b, st')) :
    st'.log_bmp_sys.start_lsn = st.log_bmp_sys.start_lsn ∧
    st'.log_bmp_sys.end_lsn = st.log_bmp_sys.end_lsn ∧
    st'.tracked_lsn = st.tracked_lsn := by
  unfold log_online_follow_log_group at h
  simp only [] at h
  split at h
  · cases h
  · rename_i recs _
    cases h
    have hl := parse_redo_log_recs_lsn env recs st.log_bmp_sys
    exact ⟨hl.1, hl.2, rfl⟩

theorem follow_log_groups_lsn (env : server_env) :
    ∀ (n group : Nat) (st st' : tracker) (b : Bool),
      log_online_follow_log_groups env n group st = some (b, st') →
      st'.log_bmp_sys.start_lsn = st.log_bmp_sys.start_lsn ∧
      st'.log_bmp_sys.end_lsn = st.log_bmp_sys.end_lsn ∧
      st'.tracked_lsn = st.tracked_lsn := by
  intro n
  induction n with
  | zero =>
    intro group st st' b h
    unfold log_online_follow_log_groups at h
    cases h
    exact ⟨rfl, rfl, rfl⟩
  | succ n ih =>
    intro group st st' b h
    unfold log_online_follow_log_groups at h
    split at h
    · cases h
    · rename_i st1 h1
      cases h
      exact follow_log_group_lsn env group st _ false h1
    · rename_i st1 h1
      have h2 := follow_log_group_lsn env group st st1 true h1
      have h3 := ih (group + 1) st1 st' b h
      exact ⟨h3.1.trans h2.1, h3.2.1.trans h2.2.1, h3.2.2.trans h2.2.2⟩

/-- The flush leaves the LSN interval alone. -/
theorem write_bitmap_lsn (env : server_env) (st : tracker) :
    (log_online_write_bitmap env st).2.log_bmp_sys.start_lsn = st.log_bmp_sys.start_lsn ∧
    (log_online_write_bitmap env st).2.log_bmp_sys.end_lsn = st.log_bmp_sys.end_lsn := by
  have key : ∀ X : Bool × tracker,
      (X.2.log_bmp_sys.start_lsn = st.log_bmp_sys.start_lsn ∧
        X.2.log_bmp_sys.end_lsn = st.log_bmp_sys.end_lsn) →
      let r := if !X.1 then (false, X.2) else
        ((log_online_write_bitmap_loop env X.2.log_bmp_sys.modified_pages true X.2).1,
          { (log_online_write_bitmap_loop env X.2.log_bmp_sys.modified_pages true X.2).2 with
            log_bmp_sys :=
              { (log_online_write_bitmap_loop env X.2.log_bmp_sys.modified_pages true
                  X.2).2.log_bmp_sys with modified_pages := [] } })
      r.2.log_bmp_sys.start_lsn = st.log_bmp_sys.start_lsn ∧
        r.2.log_bmp_sys.end_lsn = st.log_bmp_sys.end_lsn := by
    intro X hX
    obtain ⟨ok, st1⟩ := X
    cases ok with
    | false => exact hX
    | true =>
      obtain ⟨evs, hstep, -⟩ :=
        write_bitmap_loop_step env st1.log_bmp_sys.modified_pages true st1
      exact ⟨hstep.2.1.trans hX.1, hstep.2.2.1.trans hX.2⟩
  unfold log_online_write_bitmap
  simp only []
  apply key
  split_ifs
  · obtain ⟨evs, hstep, -⟩ := rotate_bitmap_file_step env st st.log_bmp_sys.start_lsn
    exact ⟨hstep.2.1, hstep.2.2.1⟩
  · exact ⟨rfl, rfl⟩

/-- What a follow cycle that got past the early returns leaves behind: the
`goto end` for a log group follow that returned false keeps the start LSN and
the tracked LSN, while after the flush, whatever its result, both are the
checkpoint LSN. -/
theorem follow_redo_log_lsn (env : server_env) (st st' : tracker) (b : Bool)
    (htrack : st.srv_track_changed_pages = true)
    (hne : env.last_checkpoint_lsn ≠ st.log_bmp_sys.start_lsn)
    (h : log_online_follow_redo_log env st = some (b, st')) :
    st'.log_bmp_sys.end_lsn = env.last_checkpoint_lsn ∧
    ((b = false ∧ st'.log_bmp_sys.start_lsn = st.log_bmp_sys.start_lsn ∧
        st'.tracked_lsn = st.tracked_lsn) ∨
      (st'.log_bmp_sys.start_lsn = env.last_checkpoint_lsn ∧
        st'.tracked_lsn = env.last_checkpoint_lsn % 2 ^ 64)) := by
  unfold log_online_follow_redo_log at h
  simp only [htrack, mutex_enter, mutex_exit, Bool.not_true, Bool.false_eq_true, ↓reduceIte,
    if_neg hne] at h
  split_ifs at h
  split at h
  · cases h
  · rename_i st1 h1
    cases h
    have h2 := follow_log_groups_lsn env _ _ _ _ _ h1
    exact ⟨h2.2.1, Or.inl ⟨rfl, h2.1, h2.2.2⟩⟩
  · rename_i st1 h1
    cases h
    have h2 := follow_log_groups_lsn env _ _ _ _ _ h1
    have h3 := write_bitmap_lsn env st1
    refine ⟨h3.2.trans h2.2.1, Or.inr ⟨h3.2.trans h2.2.1, ?_⟩⟩
    have h4 : (log_online_write_bitmap env st1).2.log_bmp_sys.end_lsn
        = env.last_checkpoint_lsn := h3.2.trans h2.2.1
    simp only [log_set_tracked_lsn, h4]
    unfold ulint
    omega

/-- A log group follow that returns has returned true: the only `return false` on
its way is the one for a log block that `log_online_is_valid_log_seg` rejects,
and that function returns true or ends the process. -/
theorem follow_log_group_true (env : server_env) (group : Nat) (st st' : tracker) (b : Bool)
    (h : log_online_follow_log_group env group st = some (b, st')) : b = true := by
  unfold log_online_follow_log_group at h
  simp only [] at h
  split at h
  · cases h
  · simp only [Option.some.injEq, Prod.mk.injEq] at h
    exact h.1.symm

theorem follow_log_groups_true (env : server_env) :
    ∀ (n group : Nat) (st st' : tracker) (b : Bool),
      log_online_follow_log_groups env n group st = some (b, st') → b = true := by
  intro n
  induction n with
  | zero =>
    intro group st st' b h
    unfold log_online_follow_log_groups at h
    simp only [Option.some.injEq, Prod.mk.injEq] at h
    exact h.1.symm
  | succ n ih =>
    intro group st st' b h
    unfold log_online_follow_log_groups at h
    split at h
    · cases h
    · rename_i st1 h1
      have := follow_log_group_true env group st st1 false h1
      cases this
    · exact ih (group + 1) _ st' b h

/-- Every follow cycle that returns false has advanced `start_lsn` and the
published tracked LSN to the checkpoint LSN: the flush is the only step that can
make the cycle return false, and the two assignments follow it whatever its
result. -/
theorem follow_failure_advances_start_lsn (env : server_env) (st st' : tracker) (b : Bool)
    (h : log_online_follow_redo_log env st = some (b, st')) (hb : b = false) :
    st.srv_track_changed_pages = true ∧
    env.last_checkpoint_lsn ≠ st.log_bmp_sys.start_lsn ∧
    st'.log_bmp_sys.start_lsn = env.last_checkpoint_lsn ∧
    st'.log_bmp_sys.end_lsn = env.last_checkpoint_lsn ∧
    st'.tracked_lsn = env.last_checkpoint_lsn % 2 ^ 64 := by
  have htrack : st.srv_track_changed_pages = true := by
    cases ht : st.srv_track_changed_pages with
    | true => rfl
    | false =>
      unfold log_online_follow_redo_log at h
      simp only [ht, Bool.not_false, ↓reduceIte, Option.some.injEq, Prod.mk.injEq] at h
      rw [← h.1] at hb
      cases hb
  have hne : env.last_checkpoint_lsn ≠ st.log_bmp_sys.start_lsn := by
    intro hck
    unfold log_online_follow_redo_log at h
    simp only [htrack, mutex_enter, mutex_exit, Bool.not_true, Bool.false_eq_true,
      ↓reduceIte, hck, Option.some.injEq, Prod.mk.injEq] at h
    rw [← h.1] at hb
    cases hb
  refine ⟨htrack, hne, ?_⟩
  unfold log_online_follow_redo_log at h
  simp only [htrack, mutex_enter, mutex_exit, Bool.not_true, Bool.false_eq_true, ↓reduceIte,
    if_neg hne] at h
  split_ifs at h
  split at h
  · cases h
  · rename_i st1 h1
    have := follow_log_groups_true env _ _ _ _ _ h1
    cases this
  · rename_i st1 h1
    cases h
    have h2 := follow_log_groups_lsn env _ _ _ _ _ h1
    have h3 := write_bitmap_lsn env st1
    have h4 : (log_online_write_bitmap env st1).2.log_bmp_sys.end_lsn
        = env.last_checkpoint_lsn := h3.2.trans h2.2.1
    refine ⟨h4, h4, ?_⟩
    simp only [log_set_tracked_lsn, h4]
    unfold ulint
    omega

/-- C11 (code bug): a follow cycle that fails in the flush has already advanced
`start_lsn` and the published tracked LSN.  With one page record in the redo log
and a disk on which the block write fails, the sample tracker (start LSN 8716,
tracked LSN 8716, checkpoint LSN 9000) returns false with `start_lsn = 9000`,
tracked LSN 9000 and an emptied modified-page set, so the interval is never
written; the same holds when the write succeeds and the flush of the file that
follows it fails. -/
theorem failed_flush_advances_start_lsn :
    sample_tracker.log_bmp_sys.start_lsn = 8716 ∧ sample_tracker.tracked_lsn = 8716 ∧
    (log_online_follow_redo_log write_failure_env sample_tracker).map
        (fun r => (r.1, r.2.log_bmp_sys.start_lsn, r.2.tracked_lsn,
          r.2.log_bmp_sys.modified_pages.length))
      = some (false, 9000, 9000, 0) ∧
    (log_online_follow_redo_log fsync_failure_env sample_tracker).map
        (fun r => (r.1, r.2.log_bmp_sys.start_lsn, r.2.tracked_lsn,
          r.2.log_bmp_sys.modified_pages.length))
      = some (false, 9000, 9000, 0) :=
  ⟨rfl, rfl, rfl, rfl⟩

/-- C12 (counterexample): a successful follow cycle can move `start_lsn` back.  The
sample tracker tracks from LSN 8716; with the last checkpoint LSN still 0 the
cycle returns true and leaves `start_lsn` and the tracked LSN at 0. -/
theorem follow_success_can_lower_start_lsn :
    sample_tracker.log_bmp_sys.start_lsn = 8716 ∧
    (log_online_follow_redo_log early_checkpoint_env sample_tracker).map
        (fun r => (r.1, r.2.log_bmp_sys.start_lsn, r.2.log_bmp_sys.end_lsn, r.2.tracked_lsn))
      = some (true, 0, 0, 0) :=
  ⟨rfl, rfl⟩

/-- C12 (amended): after a successful follow cycle with tracking enabled, started
with the tracked LSN equal to `start_lsn` and a checkpoint LSN of 64 bits,
`start_lsn` equals `end_lsn`, which is the checkpoint LSN snapshotted by the
cycle, and the tracked LSN has that value; `start_lsn` is not smaller than before
the cycle when the checkpoint LSN is not below the old `start_lsn`. -/
theorem follow_success_sets_start_lsn (env : server_env) (st st' : tracker)
    (htrack : st.srv_track_changed_pages = true)
    (hinv : st.tracked_lsn = st.log_bmp_sys.start_lsn)
    (h64 : env.last_checkpoint_lsn < 2 ^ 64)
    (h : log_online_follow_redo_log env st = some (true, st')) :
    st'.log_bmp_sys.start_lsn = st'.log_bmp_sys.end_lsn ∧
    st'.log_bmp_sys.end_lsn = env.last_checkpoint_lsn ∧
    st'.tracked_lsn = st'.log_bmp_sys.start_lsn ∧
    (st.log_bmp_sys.start_lsn ≤ env.last_checkpoint_lsn →
      st.log_bmp_sys.start_lsn ≤ st'.log_bmp_sys.start_lsn) := by
  by_cases hck : env.last_checkpoint_lsn = st.log_bmp_sys.start_lsn
  · unfold log_online_follow_redo_log at h
    simp only [htrack, mutex_enter, mutex_exit, Bool.not_true, Bool.false_eq_true,
      ↓reduceIte, hck, Option.some.injEq, Prod.mk.injEq, true_and] at h
    subst h
    exact ⟨rfl, hck.symm, hinv, fun _ => le_refl _⟩
  · obtain ⟨he, hcase⟩ := follow_redo_log_lsn env st st' true htrack hck h
    rcases hcase with ⟨hb, -⟩ | ⟨hs, ht⟩
    · cases hb
    · rw [Nat.mod_eq_of_lt h64] at ht
      exact ⟨hs.trans he.symm, he, ht.trans hs.symm, fun hle => hs ▸ hle⟩

theorem follow_success_sets_start_lsn_witness :
    sample_followed_tracker.log_bmp_sys.start_lsn = 9000 ∧
    sample_followed_tracker.log_bmp_sys.end_lsn = 9000 ∧
    sample_followed_tracker.tracked_lsn = 9000 ∧
    sample_tracker.log_bmp_sys.start_lsn ≤ sample_followed_tracker.log_bmp_sys.start_lsn := by
  have h := follow_success_sets_start_lsn sample_env sample_tracker sample_followed_tracker
    rfl rfl (by decide) rfl
  have e : sample_env.last_checkpoint_lsn = 9000 := rfl
  rw [e] at h
  exact ⟨h.1.trans h.2.1, h.2.1, h.2.2.1.trans (h.1.trans h.2.1), h.2.2.2 (by decide)⟩

/-! ## The bitmap file range -/

theorem is_bitmap_file_lt (sscanf : bitmap_name_scan) (info : os_file_stat_t)
    (seq lsn : Nat) (h : log_online_is_bitmap_file sscanf info = some (seq, lsn)) :
    seq < 2 ^ 64 ∧ lsn < 2 ^ 64 := by
  unfold log_online_is_bitmap_file at h
  split_ifs at h
  split at h
  · split_ifs at h
    cases h
    exact ⟨Nat.mod_lt _ (by norm_num), Nat.mod_lt _ (by norm_num)⟩
  · cases h

theorem getD_set_slot (files : List log_online_bitmap_file_range_slot) (pos j : Nat)
    (s : log_online_bitmap_file_range_slot) (hpos : pos < files.length) :
    (files.set pos s).getD j zero_slot = if j = pos then s else files.getD j zero_slot := by
  simp only [List.getD_eq_getElem?_getD, List.getElem?_set]
  by_cases hj : j = pos
  · subst hj
    simp [hpos]
  · have hj' : ¬ pos = j := fun e => hj e.symm
    simp [hj, hj']

/-- The second pass keeps the slot array well formed: a slot is either as
allocated, or holds a non-zero 64-bit sequence number whose distance from
`first_file_seq_num` is its index. -/
theorem range_fill_step (sscanf : bitmap_name_scan) (range_end : Nat)
    (b : bitmap_file_range_bounds) (count : Nat)
    (files files' : List log_online_bitmap_file_range_slot) (info : os_file_stat_t)
    (h : log_online_setup_bitmap_file_range_fill sscanf range_end b count (some files) info
      = some files')
    (hlen : files.length = count)
    (hinv : ∀ j, files.getD j zero_slot = zero_slot ∨
      (0 < (files.getD j zero_slot).seq_num ∧ (files.getD j zero_slot).seq_num < 2 ^ 64 ∧
        ulint ((files.getD j zero_slot).seq_num + 2 ^ 64 - b.first_file_seq_num) = j)) :
    files'.length = count ∧
    ∀ j, files'.getD j zero_slot = zero_slot ∨
      (0 < (files'.getD j zero_slot).seq_num ∧ (files'.getD j zero_slot).seq_num < 2 ^ 64 ∧
        ulint ((files'.getD j zero_slot).seq_num + 2 ^ 64 - b.first_file_seq_num) = j) := by
  unfold log_online_setup_bitmap_file_range_fill at h
  simp only [] at h
  split at h
  · cases h; exact ⟨hlen, hinv⟩
  · rename_i file_seq_num file_start_lsn hbf
    split_ifs at h with h1 h2 h3
    · cases h; exact ⟨hlen, hinv⟩
    · cases h
      have hpos : ulint (file_seq_num + 2 ^ 64 - b.first_file_seq_num) < files.length := by
        rw [hlen]; exact Nat.lt_of_not_le h2
      refine ⟨by rw [List.length_set]; exact hlen, fun j => ?_⟩
      rw [getD_set_slot _ _ _ _ hpos]
      by_cases hj : j = ulint (file_seq_num + 2 ^ 64 - b.first_file_seq_num)
      · rw [if_pos hj]
        right
        exact ⟨Nat.lt_of_le_of_lt (Nat.zero_le _) h3,
          (is_bitmap_file_lt sscanf info _ _ hbf).1, hj.symm⟩
      · rw [if_neg hj]
        exact hinv j
    · cases h; exact ⟨hlen, hinv⟩

theorem range_fill_fold (sscanf : bitmap_name_scan) (range_end : Nat)
    (b : bitmap_file_range_bounds) (count : Nat) (entries : List os_file_stat_t) :
    ∀ (files files' : List log_online_bitmap_file_range_slot),
      entries.foldl (log_online_setup_bitmap_file_range_fill sscanf range_end b count)
        (some files) = some files' →
      files.length = count →
      (∀ j, files.getD j zero_slot = zero_slot ∨
        (0 < (files.getD j zero_slot).seq_num ∧ (files.getD j zero_slot).seq_num < 2 ^ 64 ∧
          ulint ((files.getD j zero_slot).seq_num + 2 ^ 64 - b.first_file_seq_num) = j)) →
      files'.length = count ∧
      ∀ j, files'.getD j zero_slot = zero_slot ∨
        (0 < (files'.getD j zero_slot).seq_num ∧ (files'.getD j zero_slot).seq_num < 2 ^ 64 ∧
          ulint ((files'.getD j zero_slot).seq_num + 2 ^ 64 - b.first_file_seq_num) = j) := by
  induction entries with
  | nil =>
    intro files files' h hlen hinv
    cases h
    exact ⟨hlen, hinv⟩
  | cons e es ih =>
    intro files files' h hlen hinv
    rw [List.foldl_cons] at h
    cases hstep : log_online_setup_bitmap_file_range_fill sscanf range_end b count
        (some files) e with
    | none =>
      rw [hstep] at h
      have hnone : ∀ l : List os_file_stat_t,
          l.foldl (log_online_setup_bitmap_file_range_fill sscanf range_end b count) none
            = none := by
        intro l
        induction l with
        | nil => rfl
        | cons x xs ihx => rw [List.foldl_cons]; exact ihx
      rw [hnone] at h
      cases h
    | some files1 =>
      rw [hstep] at h
      obtain ⟨hlen1, hinv1⟩ := range_fill_step sscanf range_end b count files files1 e hstep
        hlen hinv
      exact ih files1 files' h hlen1 hinv1

/-- What the final loop of the range setup has checked when it lets the array
pass: the start LSNs do not decrease up to the first unfilled slot. -/
theorem range_check_ordered :
    ∀ (l : List log_online_bitmap_file_range_slot) (prev : log_online_bitmap_file_range_slot),
      log_online_setup_bitmap_file_range_check prev l = true →
      ∀ i, (∀ j, j ≤ i + 1 → ((prev :: l).getD j zero_slot).seq_num ≠ 0) →
        ((prev :: l).getD i zero_slot).start_lsn ≤ ((prev :: l).getD (i + 1) zero_slot).start_lsn := by
  intro l
  induction l with
  | nil =>
    intro prev _ i hfilled
    exact absurd rfl (hfilled (i + 1) (le_refl _) )
  | cons cur rest ih =>
    intro prev h i hfilled
    unfold log_online_setup_bitmap_file_range_check at h
    have hcur : cur.seq_num ≠ 0 := hfilled 1 (by omega)
    rw [if_neg hcur] at h
    split_ifs at h with hbad
    have hle : prev.start_lsn ≤ cur.start_lsn := by
      by_contra hc
      exact hbad (Or.inr (Nat.lt_of_not_le hc))
    cases i with
    | zero => exact hle
    | succ i =>
      exact ih cur h i (fun j hj => hfilled (j + 1) (by omega))

theorem replicate_zero_slot_getD (count j : Nat) :
    (List.replicate count zero_slot).getD j zero_slot = zero_slot := by
  rw [List.getD_eq_getElem?_getD]
  by_cases hj : j < count
  · rw [List.getElem?_replicate, if_pos hj]; rfl
  · rw [List.getElem?_replicate, if_neg hj]; rfl

/-- A range that the setup returns with success and a non-zero count: the array has
`count` slots, every slot is either as allocated or holds a non-zero 64-bit
sequence number whose distance from the one of slot 0 is its index, slot 0 holds
`first_file_seq_num`, and the start LSNs do not decrease up to the first
unfilled slot. -/
theorem setup_bitmap_file_range_ok (sscanf : bitmap_name_scan)
    (first_dir second_dir : os_file_dir_t) (range_start range_end : Nat)
    (r : log_online_bitmap_file_range_t)
    (h : log_online_setup_bitmap_file_range sscanf first_dir second_dir range_start range_end
      = (true, r))
    (hc : 0 < r.count) :
    r.files.length = r.count ∧
    (∃ entries, first_dir.entries = some entries ∧
      (r.files.getD 0 zero_slot).seq_num =
        (log_online_setup_bitmap_file_range_first_pass sscanf range_start range_end
          entries).first_file_seq_num) ∧
    (r.files.getD 0 zero_slot).seq_num ≠ 0 ∧
    (∀ j, r.files.getD j zero_slot = zero_slot ∨
      (0 < (r.files.getD j zero_slot).seq_num ∧ (r.files.getD j zero_slot).seq_num < 2 ^ 64 ∧
        ulint ((r.files.getD j zero_slot).seq_num + 2 ^ 64
          - (r.files.getD 0 zero_slot).seq_num) = j)) ∧
    (∀ i, (∀ j, j ≤ i + 1 → (r.files.getD j zero_slot).seq_num ≠ 0) →
      (r.files.getD i zero_slot).start_lsn ≤ (r.files.getD (i + 1) zero_slot).start_lsn) := by
  unfold log_online_setup_bitmap_file_range at h
  split at h
  · cases h
  · rename_i entries hentries
    simp only [] at h
    by_cases h1 : first_dir.closedir_fails = true
    · rw [if_pos h1] at h
      cases h
    rw [if_neg h1] at h
    by_cases h2 : (log_online_setup_bitmap_file_range_first_pass sscanf range_start range_end
        entries).first_file_seq_num = ULONG_MAX ∧
      (log_online_setup_bitmap_file_range_first_pass sscanf range_start range_end
        entries).last_file_seq_num = 0
    · rw [if_pos h2] at h
      cases h
      exact absurd hc (lt_irrefl 0)
    rw [if_neg h2] at h
    split at h
    · cases h
    · rename_i entries2 hentries2
      split at h
      · cases h
      · rename_i files hfold
        by_cases h3 : second_dir.closedir_fails = true
        · rw [if_pos h3] at h
          cases h
        rw [if_neg h3] at h
        by_cases h4 : (files.getD 0 zero_slot).seq_num = 0
            ∨ (files.getD 0 zero_slot).seq_num ≠
              (log_online_setup_bitmap_file_range_first_pass sscanf range_start range_end
                entries).first_file_seq_num
        · rw [if_pos h4] at h
          cases h
        rw [if_neg h4] at h
        by_cases h5 : log_online_setup_bitmap_file_range_check (files.getD 0 zero_slot)
            (files.drop 1) = true
        · rw [if_pos h5] at h
          cases h
          obtain ⟨hlen, hinv⟩ := range_fill_fold sscanf range_end _ _ entries2 _ files hfold
            (List.length_replicate _ _) (fun j => Or.inl (replicate_zero_slot_getD _ j))
          have h0 : (files.getD 0 zero_slot).seq_num ≠ 0 := fun e => h4 (Or.inl e)
          have h0' : (files.getD 0 zero_slot).seq_num =
              (log_online_setup_bitmap_file_range_first_pass sscanf range_start range_end
                entries).first_file_seq_num := by
            by_contra e
            exact h4 (Or.inr e)
          have hne : files ≠ [] := by
            intro e
            rw [e] at h0
            exact h0 rfl
          have hsplit : files = files.getD 0 zero_slot :: files.drop 1 := by
            cases files with
            | nil => exact absurd rfl hne
            | cons x xs => rfl
          refine ⟨hlen, ⟨entries, hentries, h0'⟩, h0, ?_, ?_⟩
          · intro j
            show files.getD j zero_slot = zero_slot ∨ _
            rw [h0']
            exact hinv j
          · intro i hfilled
            show (files.getD i zero_slot).start_lsn ≤ (files.getD (i + 1) zero_slot).start_lsn
            have hord := range_check_ordered (files.drop 1) (files.getD 0 zero_slot) h5 i
            rw [← hsplit] at hord
            exact hord hfilled
        · rw [if_neg h5] at h
          cases h

/-- C15 (code bug): the file that a returned range starts with depends on the order
in which the directory is enumerated.  With the bitmap files 1 (start LSN 10) and
2 (start LSN 20) and the interval from 20 to 1000, the enumeration in sequence
number order gives a range that starts with file 1, although file 2 has the
greatest start LSN not above the range start; the opposite enumeration order
gives the range of file 2 alone. -/
theorem range_first_file_depends_on_enumeration_order :
    (log_online_setup_bitmap_file_range sample_sscanf two_file_dir two_file_dir 20 1000).1
      = true ∧
    range_slots
        (log_online_setup_bitmap_file_range sample_sscanf two_file_dir two_file_dir 20 1000).2
      = [(1, 10), (2, 20)] ∧
    (log_online_setup_bitmap_file_range sample_sscanf two_file_dir_reversed
        two_file_dir_reversed 20 1000).1 = true ∧
    range_slots
        (log_online_setup_bitmap_file_range sample_sscanf two_file_dir_reversed
          two_file_dir_reversed 20 1000).2
      = [(2, 20)] :=
  ⟨rfl, rfl, rfl, rfl⟩

/-- C16 (counterexample): a directory whose start LSNs decrease after a gap is
accepted.  With the bitmap files 1 (start LSN 10), 3 (start LSN 30) and 4 (start
LSN 20) the setup succeeds with four slots, the second one unfilled, and slot 3
has a smaller start LSN than slot 2. -/
theorem range_accepts_disorder_after_gap :
    (log_online_setup_bitmap_file_range sample_sscanf gap_dir gap_dir 0 LSN_MAX).1 = true ∧
    (log_online_setup_bitmap_file_range sample_sscanf gap_dir gap_dir 0 LSN_MAX).2.count = 4 ∧
    range_slots (log_online_setup_bitmap_file_range sample_sscanf gap_dir gap_dir 0 LSN_MAX).2
      = [(1, 10), (0, 0), (3, 30), (4, 20)] :=
  ⟨rfl, rfl, rfl⟩

/-- C16 (amended): on success with `count > 0` the array has `count` slots, slot 0
is filled with the sequence number `first_file_seq_num` of the first pass, an
unfilled slot is all zeroes, every filled slot `i > 0` has a sequence number
greater than the one of slot `i - 1`, and the start LSN of slot `i > 0` is not
smaller than the one of slot `i - 1` when all the slots up to `i` are filled,
which is as far as the final loop checks. -/
theorem range_slots_ordered_up_to_first_gap (sscanf : bitmap_name_scan)
    (first_dir second_dir : os_file_dir_t) (range_start range_end : Nat)
    (r : log_online_bitmap_file_range_t)
    (h : log_online_setup_bitmap_file_range sscanf first_dir second_dir range_start range_end
      = (true, r))
    (hc : 0 < r.count) :
    r.files.length = r.count ∧
    (∃ entries, first_dir.entries = some entries ∧
      (r.files.getD 0 zero_slot).seq_num =
        (log_online_setup_bitmap_file_range_first_pass sscanf range_start range_end
          entries).first_file_seq_num) ∧
    (r.files.getD 0 zero_slot).seq_num ≠ 0 ∧
    (∀ i, (r.files.getD i zero_slot).seq_num = 0 → r.files.getD i zero_slot = zero_slot) ∧
    (∀ i, 0 < i → (r.files.getD i zero_slot).seq_num ≠ 0 →
      (r.files.getD (i - 1) zero_slot).seq_num < (r.files.getD i zero_slot).seq_num) ∧
    (∀ i, 0 < i → (∀ j, j ≤ i → (r.files.getD j zero_slot).seq_num ≠ 0) →
      (r.files.getD (i - 1) zero_slot).start_lsn ≤ (r.files.getD i zero_slot).start_lsn) := by
  obtain ⟨hlen, hfirst, h0, hinv, hord⟩ :=
    setup_bitmap_file_range_ok sscanf first_dir second_dir range_start range_end r h hc
  refine ⟨hlen, hfirst, h0, ?_, ?_, ?_⟩
  · intro i hi
    rcases hinv i with hz | ⟨hpos, -, -⟩
    · exact hz
    · omega
  · intro i hi hfilled
    have h0lt : (r.files.getD 0 zero_slot).seq_num < 2 ^ 64 := by
      rcases hinv 0 with hz | ⟨-, hlt, -⟩
      · rw [hz] at h0; exact absurd rfl h0
      · exact hlt
    rcases hinv i with hz | ⟨hpos, hlt, hidx⟩
    · rw [hz] at hfilled; exact absurd rfl hfilled
    · rcases hinv (i - 1) with hz' | ⟨hpos', hlt', hidx'⟩
      · rw [hz']; exact hpos
      · unfold ulint at hidx hidx'
        omega
  · intro i hi hfilled
    obtain ⟨k, rfl⟩ : ∃ k, i = k + 1 := ⟨i - 1, by omega⟩
    exact hord k hfilled

theorem range_slots_ordered_up_to_first_gap_witness :
    two_file_range.files.length = 2 ∧
    (two_file_range.files.getD 0 zero_slot).seq_num = 1 ∧
    (two_file_range.files.getD 0 zero_slot).seq_num
      < (two_file_range.files.getD 1 zero_slot).seq_num ∧
    (two_file_range.files.getD 0 zero_slot).start_lsn
      ≤ (two_file_range.files.getD 1 zero_slot).start_lsn := by
  have h := range_slots_ordered_up_to_first_gap sample_sscanf two_file_dir two_file_dir 20
    1000 two_file_range rfl (by decide)
  exact ⟨h.1, rfl, h.2.2.2.2.1 1 (by decide) (by decide),
    h.2.2.2.2.2 1 (by decide) (by decide)⟩

/-! ## Purging -/

theorem purge_deletions_nil (penv : purge_env) (st : tracker) :
    purge_deletions penv st [] = [] := rfl

theorem purge_deletions_cons (penv : purge_env) (st : tracker)
    (cur : log_online_bitmap_file_range_slot) (rest : List log_online_bitmap_file_range_slot) :
    purge_deletions penv st (cur :: rest) =
      (if cur.name = "" then [] else
        [os_event.file_delete (purge_full_bmp_file_name penv st cur)])
        ++ purge_deletions penv st rest := by
  unfold purge_deletions
  by_cases h : cur.name = ""
  · simp [List.filter_cons, h]
  · simp [List.filter_cons, h]

theorem tracker_trace_append_nil (st : tracker) : { st with trace := st.trace ++ [] } = st := by
  cases st
  simp

/-- The purge loop for `LSN_MAX` without a deletion error calls the deletion for
every slot with a name and changes nothing else. -/
theorem purge_loop_all (env : server_env) (penv : purge_env) :
    ∀ (files : List log_online_bitmap_file_range_slot) (st : tracker),
      (log_online_purge_changed_page_bitmaps_loop env penv LSN_MAX files st).1 = false →
      (log_online_purge_changed_page_bitmaps_loop env penv LSN_MAX files st).2
        = { st with trace := st.trace ++ purge_deletions penv st files } := by
  intro files
  induction files with
  | nil =>
    intro st _
    rw [purge_deletions_nil, tracker_trace_append_nil]
    rfl
  | cons cur rest ih =>
    intro st h
    unfold log_online_purge_changed_page_bitmaps_loop at h ⊢
    have hc : ¬ ((rest.isEmpty = true ∨ (rest.headD zero_slot).seq_num = 0
        ∨ (rest.headD zero_slot).start_lsn > LSN_MAX) ∧ LSN_MAX ≠ LSN_MAX) :=
      fun hh => hh.2 rfl
    rw [if_neg hc] at h ⊢
    rw [purge_deletions_cons]
    by_cases hn : cur.name = ""
    · rw [if_pos hn] at h ⊢
      rw [if_pos hn]
      exact ih st h
    · rw [if_neg hn] at h ⊢
      rw [if_neg hn]
      simp only [os_call] at h ⊢
      by_cases hio : env.io_ok st.trace.length = true
      · simp only [hio, Bool.not_true, Bool.false_eq_true, ↓reduceIte] at h ⊢
        rw [ih _ h]
        simp only [List.append_assoc]
        rfl
      · simp [hio] at h

/-- The purge loop for an LSN other than `LSN_MAX` that ends without a deletion
error (its result is false): it
stops at the first slot whose successor is missing, unfilled or starts above
the LSN, and has called the deletion for the slots before that one. -/
theorem purge_loop_initial_slots (env : server_env) (penv : purge_env) (lsn : Nat)
    (hlsn : lsn ≠ LSN_MAX) :
    ∀ (files : List log_online_bitmap_file_range_slot) (st : tracker),
      (log_online_purge_changed_page_bitmaps_loop env penv lsn files st).1 = false →
      ∃ k, (files ≠ [] → k < files.length) ∧
        (∀ j, j < k → j + 1 < files.length ∧ (files.getD (j + 1) zero_slot).seq_num ≠ 0 ∧
          (files.getD (j + 1) zero_slot).start_lsn ≤ lsn) ∧
        (files.length ≤ k + 1 ∨ (files.getD (k + 1) zero_slot).seq_num = 0 ∨
          lsn < (files.getD (k + 1) zero_slot).start_lsn) ∧
        log_online_purge_changed_page_bitmaps_loop env penv lsn files st
          = (false, { st with trace := st.trace ++ purge_deletions penv st (files.take k) }) := by
  intro files
  induction files with
  | nil =>
    intro st _
    refine ⟨0, fun h => absurd rfl h, fun j hj => absurd hj (Nat.not_lt_zero j),
      Or.inl (Nat.zero_le _), ?_⟩
    rw [List.take_nil, purge_deletions_nil, tracker_trace_append_nil]
    rfl
  | cons cur rest ih =>
    intro st hok
    by_cases hc : (rest.isEmpty = true ∨ (rest.headD zero_slot).seq_num = 0
        ∨ (rest.headD zero_slot).start_lsn > lsn) ∧ lsn ≠ LSN_MAX
    · refine ⟨0, fun _ => Nat.succ_pos _, fun j hj => absurd hj (Nat.not_lt_zero j), ?_, ?_⟩
      · rcases hc.1 with he | hs | hl
        · left
          rw [List.isEmpty_iff] at he
          rw [he]
          exact le_refl _
        · right; left
          cases rest with
          | nil => rfl
          | cons x xs => exact hs
        · right; right
          cases rest with
          | nil => exact absurd hl (Nat.not_lt_zero _)
          | cons x xs => exact hl
      · unfold log_online_purge_changed_page_bitmaps_loop
        rw [if_pos hc, List.take_zero, purge_deletions_nil, tracker_trace_append_nil]
    · have hne : rest ≠ [] := by
        intro e
        exact hc ⟨Or.inl (by rw [e]; rfl), hlsn⟩
      have hseq : (rest.headD zero_slot).seq_num ≠ 0 := fun e => hc ⟨Or.inr (Or.inl e), hlsn⟩
      have hstart : (rest.headD zero_slot).start_lsn ≤ lsn := by
        by_contra e
        exact hc ⟨Or.inr (Or.inr (Nat.lt_of_not_le e)), hlsn⟩
      have hhead : (cur :: rest).getD 1 zero_slot = rest.headD zero_slot := by
        cases rest with
        | nil => rfl
        | cons x xs => rfl
      have hshift : ∀ j, (cur :: rest).getD (j + 1) zero_slot = rest.getD j zero_slot :=
        fun j => rfl
      have key : ∀ st1 : tracker,
          st1.log_bmp_sys.bmp_file_home = st.log_bmp_sys.bmp_file_home →
          (log_online_purge_changed_page_bitmaps_loop env penv lsn rest st1).1 = false →
          ∃ k, k < rest.length ∧
            (∀ j, j < k → j + 1 < rest.length ∧ (rest.getD (j + 1) zero_slot).seq_num ≠ 0 ∧
              (rest.getD (j + 1) zero_slot).start_lsn ≤ lsn) ∧
            (rest.length ≤ k + 1 ∨ (rest.getD (k + 1) zero_slot).seq_num = 0 ∨
              lsn < (rest.getD (k + 1) zero_slot).start_lsn) ∧
            log_online_purge_changed_page_bitmaps_loop env penv lsn rest st1
              = (false, { st1 with
                  trace := st1.trace ++ purge_deletions penv st (rest.take k) }) := by
        intro st1 hhome hok1
        obtain ⟨k, hk, hbefore, hstop, hrun⟩ := ih st1 hok1
        refine ⟨k, hk hne, hbefore, hstop, ?_⟩
        rw [hrun]
        have hd : purge_deletions penv st1 (rest.take k)
            = purge_deletions penv st (rest.take k) := by
          unfold purge_deletions purge_full_bmp_file_name
          rw [hhome]
        rw [hd]
      have hfinish : ∀ k, k < rest.length →
          (∀ j, j < k → j + 1 < rest.length ∧ (rest.getD (j + 1) zero_slot).seq_num ≠ 0 ∧
            (rest.getD (j + 1) zero_slot).start_lsn ≤ lsn) →
          (rest.length ≤ k + 1 ∨ (rest.getD (k + 1) zero_slot).seq_num = 0 ∨
            lsn < (rest.getD (k + 1) zero_slot).start_lsn) →
          (cur :: rest ≠ [] → k + 1 < (cur :: rest).length) ∧
          (∀ j, j < k + 1 → j + 1 < (cur :: rest).length ∧
            ((cur :: rest).getD (j + 1) zero_slot).seq_num ≠ 0 ∧
            ((cur :: rest).getD (j + 1) zero_slot).start_lsn ≤ lsn) ∧
          ((cur :: rest).length ≤ k + 1 + 1 ∨
            ((cur :: rest).getD (k + 1 + 1) zero_slot).seq_num = 0 ∨
            lsn < ((cur :: rest).getD (k + 1 + 1) zero_slot).start_lsn) := by
        intro k hk hbefore hstop
        refine ⟨fun _ => by rw [List.length_cons]; omega, ?_, ?_⟩
        · intro j hj
          cases j with
          | zero =>
            rw [hhead]
            exact ⟨by rw [List.length_cons]; omega, hseq, hstart⟩
          | succ j =>
            rw [hshift]
            have := hbefore j (by omega)
            exact ⟨by rw [List.length_cons]; omega, this.2.1, this.2.2⟩
        · rw [hshift, List.length_cons]
          rcases hstop with h1 | h2 | h3
          · left; omega
          · right; left; exact h2
          · right; right; exact h3
      unfold log_online_purge_changed_page_bitmaps_loop at hok ⊢
      rw [if_neg hc] at hok ⊢
      by_cases hn : cur.name = ""
      · rw [if_pos hn] at hok ⊢
        obtain ⟨k, hk, hbefore, hstop, hrun⟩ := key st rfl hok
        obtain ⟨g1, g2, g3⟩ := hfinish k hk hbefore hstop
        refine ⟨k + 1, g1, g2, g3, ?_⟩
        rw [hrun, List.take_succ_cons, purge_deletions_cons, if_pos hn, List.nil_append]
      · rw [if_neg hn] at hok ⊢
        simp only [os_call] at hok ⊢
        by_cases hio : env.io_ok st.trace.length = true
        · simp only [hio, Bool.not_true, Bool.false_eq_true, ↓reduceIte] at hok ⊢
          obtain ⟨k, hk, hbefore, hstop, hrun⟩ := key
            { st with trace := st.trace ++
                [os_event.file_delete (purge_full_bmp_file_name penv st cur)] } rfl hok
          obtain ⟨g1, g2, g3⟩ := hfinish k hk hbefore hstop
          refine ⟨k + 1, g1, g2, g3, ?_⟩
          rw [hrun, List.take_succ_cons, purge_deletions_cons, if_neg hn]
          simp only [List.append_assoc]
        · simp [hio] at hok

theorem start_bitmap_file_out (env : server_env) (st : tracker) :
    (log_online_start_bitmap_file env st).2.log_bmp_sys.out.name = st.log_bmp_sys.out.name ∧
    (log_online_start_bitmap_file env st).2.log_bmp_sys.out_seq_num
      = st.log_bmp_sys.out_seq_num ∧
    (log_online_start_bitmap_file env st).2.log_bmp_sys.bmp_file_home
      = st.log_bmp_sys.bmp_file_home ∧
    (log_online_start_bitmap_file env st).2.srv_track_changed_pages
      = st.srv_track_changed_pages ∧
    (log_online_start_bitmap_file env st).2.tracked_lsn = st.tracked_lsn := by
  unfold log_online_start_bitmap_file os_call
  simp only []
  split_ifs <;> exact ⟨rfl, rfl, rfl, rfl, rfl⟩

/-- The rotation increments the sequence number and names the output file from
it and the given start LSN, whatever the outcome of the file creation. -/
theorem rotate_bitmap_file_out (env : server_env) (st : tracker) (lsn : Nat) :
    (log_online_rotate_bitmap_file env st lsn).2.log_bmp_sys.out_seq_num
      = ulint (st.log_bmp_sys.out_seq_num + 1) ∧
    (log_online_rotate_bitmap_file env st lsn).2.log_bmp_sys.out.name
      = st.log_bmp_sys.bmp_file_home ++ "ib_modified_log_"
        ++ toString (ulint (st.log_bmp_sys.out_seq_num + 1)) ++ "_" ++ toString lsn ++ ".xdb" ∧
    (log_online_rotate_bitmap_file env st lsn).2.log_bmp_sys.bmp_file_home
      = st.log_bmp_sys.bmp_file_home ∧
    (log_online_rotate_bitmap_file env st lsn).2.srv_track_changed_pages
      = st.srv_track_changed_pages ∧
    (log_online_rotate_bitmap_file env st lsn).2.tracked_lsn = st.tracked_lsn := by
  unfold log_online_rotate_bitmap_file
  simp only []
  split_ifs
  · obtain ⟨h1, h2, h3, h4, h5⟩ := start_bitmap_file_out env
      { st with
        trace := st.trace ++ [os_event.file_close st.log_bmp_sys.out.name]
        log_bmp_sys := log_online_make_bitmap_name
          { st.log_bmp_sys with
            out := { st.log_bmp_sys.out with closed := true }
            out_seq_num := ulint (st.log_bmp_sys.out_seq_num + 1) } lsn }
    exact ⟨h2, h1, h3, h4, h5⟩
  · obtain ⟨h1, h2, h3, h4, h5⟩ := start_bitmap_file_out env
      { st with
        log_bmp_sys := log_online_make_bitmap_name
          { st.log_bmp_sys with
            out_seq_num := ulint (st.log_bmp_sys.out_seq_num + 1) } lsn }
    exact ⟨h2, h1, h3, h4, h5⟩

theorem purge_zero_eq_max (env : server_env) (penv : purge_env) (st : tracker) :
    log_online_purge_changed_page_bitmaps env penv st 0
      = log_online_purge_changed_page_bitmaps env penv st LSN_MAX := rfl

theorem deleted_files_append (a b : List os_event) :
    deleted_files (a ++ b) = deleted_files a ++ deleted_files b := by
  induction a with
  | nil => rfl
  | cons e es ih => cases e <;> simp [deleted_files, ih]

/-- The statement before the purge loop only closes the output file, and only for
an LSN above `end_lsn`. -/
theorem purge_close_step (penv : purge_env) (lsn : Nat) (st : tracker) :
    ∃ pre, (log_online_purge_changed_page_bitmaps_close penv lsn st).trace = st.trace ++ pre ∧
      deleted_files pre = [] ∧
      (lsn ≤ st.log_bmp_sys.end_lsn → pre = []) ∧
      (penv.srv_redo_log_thread_started = true → st.log_bmp_sys.end_lsn < lsn →
        pre = [os_event.file_close st.log_bmp_sys.out.name]) ∧
      (log_online_purge_changed_page_bitmaps_close penv lsn st).log_bmp_sys.bmp_file_home
        = st.log_bmp_sys.bmp_file_home ∧
      (log_online_purge_changed_page_bitmaps_close penv lsn st).log_bmp_sys.end_lsn
        = st.log_bmp_sys.end_lsn := by
  unfold log_online_purge_changed_page_bitmaps_close
  split_ifs with h
  · exact ⟨[os_event.file_close st.log_bmp_sys.out.name], rfl, rfl,
      fun hle => absurd h.2 (Nat.not_lt.mpr hle), fun _ _ => rfl, rfl, rfl⟩
  · exact ⟨[], (List.append_nil _).symm, rfl, fun _ => rfl,
      fun hs hlt => absurd ⟨hs, hlt⟩ h, rfl, rfl⟩

/-- The statements after the purge loop only append to the trace, and nothing for
an LSN that is not above `end_lsn`. -/
theorem purge_rotate_step (env : server_env) (inited : Bool) (lsn : Nat) (st : tracker) :
    ∃ post, (log_online_purge_changed_page_bitmaps_rotate env inited lsn st).trace
        = st.trace ++ post ∧
      (lsn ≤ st.log_bmp_sys.end_lsn → post = []) := by
  unfold log_online_purge_changed_page_bitmaps_rotate
  cases inited with
  | false => exact ⟨[], (List.append_nil _).symm, fun _ => rfl⟩
  | true =>
    simp only [↓reduceIte, mutex_exit]
    by_cases hgt : lsn > st.log_bmp_sys.end_lsn
    · rw [if_pos hgt]
      have key : ∀ X : tracker, X.trace = st.trace → ∀ l : Nat,
          ∃ post,
            (if (!(log_online_rotate_bitmap_file env X l).1) = true then
              { (log_online_rotate_bitmap_file env X l).2 with
                srv_track_changed_pages := false }
            else (log_online_rotate_bitmap_file env X l).2).trace = st.trace ++ post := by
        intro X hX l
        obtain ⟨evs, hstep, -⟩ := rotate_bitmap_file_step env X l
        refine ⟨evs, ?_⟩
        rw [← hX, ← hstep.1]
        split_ifs <;> rfl
      obtain ⟨post, hpost⟩ := key
        (if lsn = LSN_MAX then
          { st with log_bmp_sys := { st.log_bmp_sys with out_seq_num := 0 } }
        else st) (by split_ifs <;> rfl)
        (if lsn = LSN_MAX then 0
        else (if lsn = LSN_MAX then
            { st with log_bmp_sys := { st.log_bmp_sys with out_seq_num := 0 } }
          else st).log_bmp_sys.end_lsn)
      exact ⟨post, hpost, fun hle => absurd hgt (Nat.not_lt.mpr hle)⟩
    · rw [if_neg hgt]
      exact ⟨[], (List.append_nil _).symm, fun _ => rfl⟩

/-- The calls of the file creation: the status query for the name of the output
file, the deletion of a zero-sized file of that name when the query finds one,
and the creation unless that deletion failed. -/
theorem start_bitmap_file_trace (env : server_env) (st : tracker) :
    (log_online_start_bitmap_file env st).2.trace
        = st.trace ++ [os_event.file_status st.log_bmp_sys.out.name,
            os_event.file_create st.log_bmp_sys.out.name] ∨
    (log_online_start_bitmap_file env st).2.trace
        = st.trace ++ [os_event.file_status st.log_bmp_sys.out.name,
            os_event.file_delete st.log_bmp_sys.out.name,
            os_event.file_create st.log_bmp_sys.out.name] ∨
    (log_online_start_bitmap_file env st).2.trace
        = st.trace ++ [os_event.file_status st.log_bmp_sys.out.name,
            os_event.file_delete st.log_bmp_sys.out.name] := by
  unfold log_online_start_bitmap_file os_call
  simp only []
  by_cases h1 : env.io_ok st.trace.length = true
  · by_cases h2 : env.io_ok (st.trace.length + 1) = true
    · by_cases h3 : env.io_ok (st.trace.length + 1 + 1) = true
      · simp [h1, h2, h3]
      · simp [h1, h2, h3]
    · simp [h1, h2]
  · by_cases h2 : env.io_ok (st.trace.length + 1) = true
    · simp [h1, h2]
    · simp [h1, h2]

/-- The statements after the purge loop for an LSN above `end_lsn` other than
`LSN_MAX`, with the mutex held and the output file closed: the rotation to the
file named from the next sequence number and `end_lsn`, whose only calls are
those of the file creation. -/
theorem purge_rotate_calls (env : server_env) (lsn : Nat) (st : tracker)
    (hgt : st.log_bmp_sys.end_lsn < lsn) (hmax : lsn ≠ LSN_MAX)
    (hclosed : st.log_bmp_sys.out.closed = true) :
    (log_online_purge_changed_page_bitmaps_rotate env true lsn st).log_bmp_sys.out.name
      = st.log_bmp_sys.bmp_file_home ++ "ib_modified_log_"
        ++ toString (ulint (st.log_bmp_sys.out_seq_num + 1)) ++ "_"
        ++ toString st.log_bmp_sys.end_lsn ++ ".xdb" ∧
    ∃ post,
      (log_online_purge_changed_page_bitmaps_rotate env true lsn st).trace = st.trace ++ post ∧
      (post = [os_event.file_status
            (log_online_purge_changed_page_bitmaps_rotate env true lsn st).log_bmp_sys.out.name,
          os_event.file_create
            (log_online_purge_changed_page_bitmaps_rotate env true lsn st).log_bmp_sys.out.name] ∨
        post = [os_event.file_status
            (log_online_purge_changed_page_bitmaps_rotate env true lsn st).log_bmp_sys.out.name,
          os_event.file_delete
            (log_online_purge_changed_page_bitmaps_rotate env true lsn st).log_bmp_sys.out.name,
          os_event.file_create
            (log_online_purge_changed_page_bitmaps_rotate env true lsn st).log_bmp_sys.out.name] ∨
        post = [os_event.file_status
            (log_online_purge_changed_page_bitmaps_rotate env true lsn st).log_bmp_sys.out.name,
          os_event.file_delete
            (log_online_purge_changed_page_bitmaps_rotate env true lsn st).log_bmp_sys.out.name]) := by
  have hgt' : lsn > st.log_bmp_sys.end_lsn := hgt
  have hrot : log_online_rotate_bitmap_file env st st.log_bmp_sys.end_lsn
      = log_online_start_bitmap_file env
          { st with
            log_bmp_sys := log_online_make_bitmap_name
              { st.log_bmp_sys with
                out_seq_num := ulint (st.log_bmp_sys.out_seq_num + 1) }
              st.log_bmp_sys.end_lsn } := by
    unfold log_online_rotate_bitmap_file
    simp only [hclosed, Bool.not_true, Bool.false_eq_true, ↓reduceIte]
  have hres : ∀ X : Bool × tracker,
      (if (!X.1) = true then { X.2 with srv_track_changed_pages := false } else X.2).trace
        = X.2.trace ∧
      (if (!X.1) = true then { X.2 with srv_track_changed_pages := false }
        else X.2).log_bmp_sys = X.2.log_bmp_sys := by
    intro X
    split_ifs <;> exact ⟨rfl, rfl⟩
  obtain ⟨o1, -, -, -, -⟩ := start_bitmap_file_out env
    { st with
      log_bmp_sys := log_online_make_bitmap_name
        { st.log_bmp_sys with
          out_seq_num := ulint (st.log_bmp_sys.out_seq_num + 1) }
        st.log_bmp_sys.end_lsn }
  have htr := start_bitmap_file_trace env
    { st with
      log_bmp_sys := log_online_make_bitmap_name
        { st.log_bmp_sys with
          out_seq_num := ulint (st.log_bmp_sys.out_seq_num + 1) }
        st.log_bmp_sys.end_lsn }
  have hname : (log_online_purge_changed_page_bitmaps_rotate env true lsn st).log_bmp_sys.out.name
      = (log_online_start_bitmap_file env
          { st with
            log_bmp_sys := log_online_make_bitmap_name
              { st.log_bmp_sys with
                out_seq_num := ulint (st.log_bmp_sys.out_seq_num + 1) }
              st.log_bmp_sys.end_lsn }).2.log_bmp_sys.out.name := by
    unfold log_online_purge_changed_page_bitmaps_rotate
    simp only [↓reduceIte, mutex_exit, if_pos hgt', if_neg hmax, hrot]
    rw [(hres _).2]
  have htrace : (log_online_purge_changed_page_bitmaps_rotate env true lsn st).trace
      = (log_online_start_bitmap_file env
          { st with
            log_bmp_sys := log_online_make_bitmap_name
              { st.log_bmp_sys with
                out_seq_num := ulint (st.log_bmp_sys.out_seq_num + 1) }
              st.log_bmp_sys.end_lsn }).2.trace := by
    unfold log_online_purge_changed_page_bitmaps_rotate
    simp only [↓reduceIte, mutex_exit, if_pos hgt', if_neg hmax, hrot]
    rw [(hres _).1]
  rw [hname, htrace, o1]
  refine ⟨rfl, ?_⟩
  rcases htr with h | h | h
  · exact ⟨_, h, Or.inl rfl⟩
  · exact ⟨_, h, Or.inr (Or.inl rfl)⟩
  · exact ⟨_, h, Or.inr (Or.inr rfl)⟩

/-- C13 (amended): for an LSN other than 0 and `LSN_MAX`, a range that the setup
accepts, and a purge that returns without a deletion error (its result is
false), the loop of the purge deletes exactly the files of the slots before slot
`k`, where `k` is the first slot whose successor is missing (`k` is the last
slot), unfilled (a gap in the sequence numbers) or starts above the LSN; it
stops there, so that files after a gap are kept and the last slot of the range
is not deleted by the loop.  All calls of the purge are: the close of the output
file before the loop and the rotation after it, both made exactly when the redo
log thread is started and the LSN is above `end_lsn`, and the deletions of the
loop between them.  The rotation goes to the file named from the next sequence
number and `end_lsn`; it queries the status of that name, deletes a zero-sized
file of that name if the query finds one, and creates the file, so the only
deletion outside the loop is that of a zero-sized file with the name of the new
output file. -/
theorem purge_deletes_slots_before_first_stop (env : server_env) (penv : purge_env) (st : tracker) (lsn : Nat)
    (r : log_online_bitmap_file_range_t)
    (h0 : lsn ≠ 0) (hmax : lsn ≠ LSN_MAX)
    (hr : log_online_setup_bitmap_file_range penv.sscanf penv.first_dir penv.second_dir 0
      LSN_MAX = (true, r))
    (hok : (log_online_purge_changed_page_bitmaps env penv st lsn).1 = false) :
    ∃ k pre post,
      (r.files ≠ [] → k < r.files.length) ∧
      (∀ j, j < k → j + 1 < r.files.length ∧ (r.files.getD (j + 1) zero_slot).seq_num ≠ 0 ∧
        (r.files.getD (j + 1) zero_slot).start_lsn ≤ lsn) ∧
      (r.files.length ≤ k + 1 ∨ (r.files.getD (k + 1) zero_slot).seq_num = 0 ∨
        lsn < (r.files.getD (k + 1) zero_slot).start_lsn) ∧
      (log_online_purge_changed_page_bitmaps env penv st lsn).2.trace
        = st.trace ++ pre ++ purge_deletions penv st (r.files.take k) ++ post ∧
      deleted_files pre = [] ∧
      (lsn ≤ st.log_bmp_sys.end_lsn → pre = [] ∧ post = []) ∧
      (penv.srv_redo_log_thread_started = false → pre = [] ∧ post = []) ∧
      (penv.srv_redo_log_thread_started = true → st.log_bmp_sys.end_lsn < lsn →
        pre = [os_event.file_close st.log_bmp_sys.out.name] ∧
        (log_online_purge_changed_page_bitmaps env penv st lsn).2.log_bmp_sys.out.name
          = st.log_bmp_sys.bmp_file_home ++ "ib_modified_log_"
            ++ toString (ulint (st.log_bmp_sys.out_seq_num + 1)) ++ "_"
            ++ toString st.log_bmp_sys.end_lsn ++ ".xdb" ∧
        (post = [os_event.file_status
              (log_online_purge_changed_page_bitmaps env penv st lsn).2.log_bmp_sys.out.name,
            os_event.file_create
              (log_online_purge_changed_page_bitmaps env penv st lsn).2.log_bmp_sys.out.name] ∨
          post = [os_event.file_status
              (log_online_purge_changed_page_bitmaps env penv st lsn).2.log_bmp_sys.out.name,
            os_event.file_delete
              (log_online_purge_changed_page_bitmaps env penv st lsn).2.log_bmp_sys.out.name,
            os_event.file_create
              (log_online_purge_changed_page_bitmaps env penv st lsn).2.log_bmp_sys.out.name] ∨
          post = [os_event.file_status
              (log_online_purge_changed_page_bitmaps env penv st lsn).2.log_bmp_sys.out.name,
            os_event.file_delete
              (log_online_purge_changed_page_bitmaps env penv st lsn).2.log_bmp_sys.out.name])) ∧
      (deleted_files post = [] ∨
        deleted_files post
          = [(log_online_purge_changed_page_bitmaps env penv st lsn).2.log_bmp_sys.out.name]) := by
  unfold log_online_purge_changed_page_bitmaps at hok ⊢
  simp only [if_neg h0, hr, Bool.not_true, Bool.false_eq_true, ↓reduceIte] at hok ⊢
  by_cases hs : penv.srv_redo_log_thread_started = true
  · simp only [hs, ↓reduceIte] at hok ⊢
    by_cases hgt : st.log_bmp_sys.end_lsn < lsn
    · have hclose : log_online_purge_changed_page_bitmaps_close penv lsn (mutex_enter st)
          = { mutex_enter st with
              trace := st.trace ++ [os_event.file_close st.log_bmp_sys.out.name]
              log_bmp_sys := { st.log_bmp_sys with
                out := { st.log_bmp_sys.out with closed := true } } } := by
        unfold log_online_purge_changed_page_bitmaps_close
        have hc : penv.srv_redo_log_thread_started = true
            ∧ lsn > (mutex_enter st).log_bmp_sys.end_lsn := ⟨hs, hgt⟩
        rw [if_pos hc]
        rfl
      rw [hclose] at hok ⊢
      obtain ⟨k, hk, hbefore, hstop, hrun⟩ :=
        purge_loop_initial_slots env penv lsn hmax r.files _ hok
      rw [hrun]
      obtain ⟨hname, post, hpost, hforms⟩ := purge_rotate_calls env lsn
        { mutex_enter st with
          trace := st.trace ++ [os_event.file_close st.log_bmp_sys.out.name]
            ++ purge_deletions penv st (r.files.take k)
          log_bmp_sys := { st.log_bmp_sys with
            out := { st.log_bmp_sys.out with closed := true } } } hgt hmax rfl
      refine ⟨k, [os_event.file_close st.log_bmp_sys.out.name], post, hk, hbefore, hstop,
        hpost, rfl, fun hle => absurd hgt (Nat.not_lt.mpr hle), fun hf => ?_,
        fun _ _ => ⟨rfl, hname, hforms⟩, ?_⟩
      · cases hf
      · rcases hforms with e | e | e
        · left; rw [e]; rfl
        · right; rw [e]; rfl
        · right; rw [e]; rfl
    · have hle : lsn ≤ st.log_bmp_sys.end_lsn := Nat.le_of_not_lt hgt
      have hclose : log_online_purge_changed_page_bitmaps_close penv lsn (mutex_enter st)
          = mutex_enter st := by
        unfold log_online_purge_changed_page_bitmaps_close
        have hc : ¬ (penv.srv_redo_log_thread_started = true
            ∧ lsn > (mutex_enter st).log_bmp_sys.end_lsn) := fun hh => hgt hh.2
        rw [if_neg hc]
      rw [hclose] at hok ⊢
      obtain ⟨k, hk, hbefore, hstop, hrun⟩ :=
        purge_loop_initial_slots env penv lsn hmax r.files _ hok
      rw [hrun]
      have hd : purge_deletions penv (mutex_enter st) (r.files.take k)
          = purge_deletions penv st (r.files.take k) := rfl
      have hrot : (log_online_purge_changed_page_bitmaps_rotate env true lsn
          { mutex_enter st with
            trace := (mutex_enter st).trace
              ++ purge_deletions penv (mutex_enter st) (r.files.take k) }).trace
          = st.trace ++ purge_deletions penv st (r.files.take k) := by
        unfold log_online_purge_changed_page_bitmaps_rotate
        have hng : ¬ (lsn > st.log_bmp_sys.end_lsn) := hgt
        simp only [↓reduceIte, mutex_exit, mutex_enter, if_neg hng]
        rfl
      refine ⟨k, [], [], hk, hbefore, hstop, ?_, rfl, fun _ => ⟨rfl, rfl⟩,
        fun _ => ⟨rfl, rfl⟩, fun _ hlt => absurd hlt hgt, Or.inl rfl⟩
      rw [List.append_nil, List.append_nil]
      exact hrot
  · have hs' : penv.srv_redo_log_thread_started = false := by
      cases hx : penv.srv_redo_log_thread_started with
      | false => rfl
      | true => exact absurd hx hs
    simp only [hs', Bool.false_eq_true, ↓reduceIte] at hok ⊢
    have hclose : log_online_purge_changed_page_bitmaps_close penv lsn st = st := by
      unfold log_online_purge_changed_page_bitmaps_close
      have hc : ¬ (penv.srv_redo_log_thread_started = true
          ∧ lsn > st.log_bmp_sys.end_lsn) := fun hh => hs hh.1
      rw [if_neg hc]
    rw [hclose] at hok ⊢
    obtain ⟨k, hk, hbefore, hstop, hrun⟩ :=
      purge_loop_initial_slots env penv lsn hmax r.files _ hok
    rw [hrun]
    refine ⟨k, [], [], hk, hbefore, hstop, ?_, rfl, fun _ => ⟨rfl, rfl⟩,
      fun _ => ⟨rfl, rfl⟩, fun ht => ?_, Or.inl rfl⟩
    · rw [List.append_nil, List.append_nil]
      rfl
    · cases ht

theorem purge_deletes_slots_before_first_stop_witness :
    (∃ k pre post,
      (four_file_range.files ≠ [] → k < four_file_range.files.length) ∧
      (∀ j, j < k → j + 1 < four_file_range.files.length ∧
        (four_file_range.files.getD (j + 1) zero_slot).seq_num ≠ 0 ∧
        (four_file_range.files.getD (j + 1) zero_slot).start_lsn ≤ 1500) ∧
      (four_file_range.files.length ≤ k + 1 ∨
        (four_file_range.files.getD (k + 1) zero_slot).seq_num = 0 ∨
        1500 < (four_file_range.files.getD (k + 1) zero_slot).start_lsn) ∧
      (log_online_purge_changed_page_bitmaps sample_env (sample_purge_env four_file_dir)
        sample_tracker 1500).2.trace
        = sample_tracker.trace ++ pre
          ++ purge_deletions (sample_purge_env four_file_dir) sample_tracker
            (four_file_range.files.take k) ++ post ∧
      deleted_files pre = [] ∧
      (1500 ≤ sample_tracker.log_bmp_sys.end_lsn → pre = [] ∧ post = [])) ∧
    range_slots four_file_range = [(1, 0), (2, 1000), (3, 2000), (4, 3000)] ∧
    (log_online_purge_changed_page_bitmaps sample_env (sample_purge_env four_file_dir)
      sample_tracker 1500).1 = false ∧
    deleted_files (log_online_purge_changed_page_bitmaps sample_env
      (sample_purge_env four_file_dir) sample_tracker 1500).2.trace
      = ["ib_modified_log_1_0.xdb"] ∧
    (∃ k pre post,
      (log_online_purge_changed_page_bitmaps purge_rotation_env (sample_purge_env four_file_dir)
        sample_tracker 9500).2.trace
        = sample_tracker.trace ++ pre
          ++ purge_deletions (sample_purge_env four_file_dir) sample_tracker
            (four_file_range.files.take k) ++ post ∧
      pre = [os_event.file_close sample_tracker.log_bmp_sys.out.name] ∧
      (deleted_files post = [] ∨
        deleted_files post
          = [(log_online_purge_changed_page_bitmaps purge_rotation_env
              (sample_purge_env four_file_dir) sample_tracker 9500).2.log_bmp_sys.out.name])) ∧
    sample_tracker.log_bmp_sys.end_lsn = 9000 ∧
    deleted_files (log_online_purge_changed_page_bitmaps purge_rotation_env
      (sample_purge_env four_file_dir) sample_tracker 9500).2.trace
      = ["ib_modified_log_1_0.xdb", "ib_modified_log_2_1000.xdb", "ib_modified_log_3_2000.xdb"] ∧
    (log_online_purge_changed_page_bitmaps purge_rotation_env (sample_purge_env four_file_dir)
      sample_tracker 9500).2.log_bmp_sys.out.name = "ib_modified_log_2_9000.xdb" :=
  ⟨(fun h => h.imp (fun _ h1 => h1.imp (fun _ h2 => h2.imp (fun _ h3 =>
      ⟨h3.1, h3.2.1, h3.2.2.1, h3.2.2.2.1, h3.2.2.2.2.1, h3.2.2.2.2.2.1⟩))))
    (purge_deletes_slots_before_first_stop sample_env (sample_purge_env four_file_dir)
      sample_tracker 1500 four_file_range (by decide) (by decide) rfl rfl), rfl, rfl, rfl,
   (fun h => h.imp (fun _ h1 => h1.imp (fun _ h2 => h2.imp (fun _ h3 =>
      ⟨h3.2.2.2.1, (h3.2.2.2.2.2.2.2.1 rfl (by decide)).1, h3.2.2.2.2.2.2.2.2⟩))))
    (purge_deletes_slots_before_first_stop purge_rotation_env (sample_purge_env four_file_dir)
      sample_tracker 9500 four_file_range (by decide) (by decide) rfl rfl), rfl, rfl,
   by decide⟩

/-- C13 (counterexample): a file with a later file that starts at or below the
purge LSN is kept when it comes after a gap.  The setup accepts the directory of
the files 1, 2, 4 and 5 that start at the LSNs 0, 1000, 3000 and 4000, and the
purge of LSN 5000 deletes file 1 only: not file 4, which is followed by file 5. -/
theorem purge_stops_at_gap :
    (log_online_setup_bitmap_file_range sample_sscanf purge_gap_dir purge_gap_dir 0
      LSN_MAX).1 = true ∧
    range_slots (log_online_setup_bitmap_file_range sample_sscanf purge_gap_dir purge_gap_dir
      0 LSN_MAX).2 = [(1, 0), (2, 1000), (0, 0), (4, 3000), (5, 4000)] ∧
    (log_online_purge_changed_page_bitmaps sample_env (sample_purge_env purge_gap_dir)
      sample_tracker 5000).1 = false ∧
    deleted_files (log_online_purge_changed_page_bitmaps sample_env
      (sample_purge_env purge_gap_dir) sample_tracker 5000).2.trace
      = ["ib_modified_log_1_0.xdb"] :=
  ⟨rfl, rfl, rfl, rfl⟩

theorem bitmap_name_one_zero (home : String) :
    home ++ "ib_modified_log_" ++ toString (ulint (0 + 1)) ++ "_" ++ toString 0 ++ ".xdb"
      = home ++ "ib_modified_log_1_0.xdb" := by
  have e : "ib_modified_log_" ++ (toString (ulint (0 + 1)) ++ ("_" ++ (toString 0 ++ ".xdb")))
      = "ib_modified_log_1_0.xdb" := by decide
  simp only [String.append_assoc]
  rw [e]

/-- The statements after the purge loop for `LSN_MAX`: the sequence number is set
to 0 and incremented by the rotation, which names the output file from it and
the start LSN 0. -/
theorem purge_rotate_max (env : server_env) (st : tracker)
    (hend : st.log_bmp_sys.end_lsn < LSN_MAX) :
    (log_online_purge_changed_page_bitmaps_rotate env true LSN_MAX st).log_bmp_sys.out_seq_num
      = 1 ∧
    (log_online_purge_changed_page_bitmaps_rotate env true LSN_MAX st).log_bmp_sys.out.name
      = st.log_bmp_sys.bmp_file_home ++ "ib_modified_log_1_0.xdb" := by
  obtain ⟨h1, h2, -, -, -⟩ := rotate_bitmap_file_out env
    { st with log_bmp_sys := { st.log_bmp_sys with out_seq_num := 0 } } 0
  rw [bitmap_name_one_zero] at h2
  have e1 : ulint (0 + 1) = 1 := by decide
  unfold log_online_purge_changed_page_bitmaps_rotate
  have hgt : LSN_MAX > st.log_bmp_sys.end_lsn := hend
  simp only [↓reduceIte, mutex_exit, if_pos hgt]
  split_ifs
  · exact ⟨h1.trans e1, h2⟩
  · exact ⟨h1.trans e1, h2⟩

/-- C14 (counterexample): after a purge with LSN 0 the output sequence number is 1,
not 0.  On the four-file directory the sample tracker ends with `out_seq_num = 1`
and the output file `ib_modified_log_1_0.xdb`. -/
theorem purge_all_leaves_sequence_number_one :
    (log_online_purge_changed_page_bitmaps sample_env (sample_purge_env four_file_dir)
      sample_tracker 0).1 = false ∧
    (log_online_purge_changed_page_bitmaps sample_env (sample_purge_env four_file_dir)
      sample_tracker 0).2.log_bmp_sys.out_seq_num = 1 ∧
    (log_online_purge_changed_page_bitmaps sample_env (sample_purge_env four_file_dir)
      sample_tracker 0).2.log_bmp_sys.out.name = "ib_modified_log_1_0.xdb" ∧
    deleted_files (log_online_purge_changed_page_bitmaps sample_env
      (sample_purge_env four_file_dir) sample_tracker 0).2.trace
      = ["ib_modified_log_1_0.xdb", "ib_modified_log_2_1000.xdb",
        "ib_modified_log_3_2000.xdb", "ib_modified_log_4_3000.xdb",
        "ib_modified_log_1_0.xdb"] :=
  ⟨rfl, rfl, by decide, rfl⟩

/-- C14 (amended): a purge with LSN 0 is the purge with `LSN_MAX`.  With the redo
log thread running, a range that the setup accepts, `end_lsn` below `LSN_MAX` and
no deletion error, it closes the output file, deletes the file of every slot
with a name, sets the output sequence number to 0 and rotates, which leaves the
sequence number at 1 and the output file named with it and the start LSN 0. -/
theorem purge_all_restarts_sequence (env : server_env) (penv : purge_env) (st : tracker)
    (r : log_online_bitmap_file_range_t)
    (hs : penv.srv_redo_log_thread_started = true)
    (hr : log_online_setup_bitmap_file_range penv.sscanf penv.first_dir penv.second_dir 0
      LSN_MAX = (true, r))
    (hend : st.log_bmp_sys.end_lsn < LSN_MAX)
    (hok : (log_online_purge_changed_page_bitmaps env penv st LSN_MAX).1 = false) :
    log_online_purge_changed_page_bitmaps env penv st 0
      = log_online_purge_changed_page_bitmaps env penv st LSN_MAX ∧
    (∃ post, (log_online_purge_changed_page_bitmaps env penv st 0).2.trace
      = st.trace ++ [os_event.file_close st.log_bmp_sys.out.name]
        ++ purge_deletions penv st r.files ++ post) ∧
    (log_online_purge_changed_page_bitmaps env penv st 0).2.log_bmp_sys.out_seq_num = 1 ∧
    (log_online_purge_changed_page_bitmaps env penv st 0).2.log_bmp_sys.out.name
      = st.log_bmp_sys.bmp_file_home ++ "ib_modified_log_1_0.xdb" := by
  have hz := purge_zero_eq_max env penv st
  rw [hz]
  refine ⟨rfl, ?_⟩
  have e2 : (if LSN_MAX = 0 then LSN_MAX else LSN_MAX) = LSN_MAX := by
    split_ifs <;> rfl
  unfold log_online_purge_changed_page_bitmaps at hok ⊢
  simp only [e2, hr, hs, Bool.not_true, Bool.false_eq_true, ↓reduceIte] at hok ⊢
  obtain ⟨pre, hpre, -, -, hpre1, hhome, hendc⟩ :=
    purge_close_step penv LSN_MAX (mutex_enter st)
  have hpre2 := hpre1 hs hend
  generalize log_online_purge_changed_page_bitmaps_close penv LSN_MAX (mutex_enter st) = st1
    at hpre hhome hendc hok ⊢
  have hrun := purge_loop_all env penv r.files st1 hok
  rw [hrun]
  have hend1 : ({ st1 with trace := st1.trace ++ purge_deletions penv st1 r.files } :
      tracker).log_bmp_sys.end_lsn < LSN_MAX := by
    show st1.log_bmp_sys.end_lsn < LSN_MAX
    rw [hendc]
    exact hend
  obtain ⟨g1, g2⟩ := purge_rotate_max env _ hend1
  obtain ⟨post, hpost, -⟩ := purge_rotate_step env true LSN_MAX
    { st1 with trace := st1.trace ++ purge_deletions penv st1 r.files }
  refine ⟨⟨post, ?_⟩, g1, ?_⟩
  · rw [hpost]
    have hd : purge_deletions penv st1 r.files = purge_deletions penv st r.files := by
      unfold purge_deletions purge_full_bmp_file_name
      rw [hhome]
      rfl
    show (st1.trace ++ purge_deletions penv st1 r.files) ++ post = _
    rw [hd, hpre, hpre2]
    rfl
  · rw [g2]
    show st1.log_bmp_sys.bmp_file_home ++ _ = _
    rw [hhome]
    rfl

theorem purge_all_restarts_sequence_witness :
    log_online_purge_changed_page_bitmaps sample_env (sample_purge_env two_file_dir)
        sample_tracker 0
      = log_online_purge_changed_page_bitmaps sample_env (sample_purge_env two_file_dir)
        sample_tracker LSN_MAX ∧
    (log_online_purge_changed_page_bitmaps sample_env (sample_purge_env two_file_dir)
      sample_tracker 0).2.log_bmp_sys.out_seq_num = 1 ∧
    (log_online_purge_changed_page_bitmaps sample_env (sample_purge_env two_file_dir)
      sample_tracker 0).2.log_bmp_sys.out.name
      = sample_tracker.log_bmp_sys.bmp_file_home ++ "ib_modified_log_1_0.xdb" := by
  have h := purge_all_restarts_sequence sample_env (sample_purge_env two_file_dir)
    sample_tracker
    (log_online_setup_bitmap_file_range sample_sscanf two_file_dir two_file_dir 0 LSN_MAX).2
    rfl rfl (by decide) rfl
  exact ⟨h.1, h.2.2.1, h.2.2.2⟩

/-! ## The last tracked LSN of the last bitmap file -/

theorem read_last_tracked_lsn_loop_succ (renv : read_env) (fuel : Nat)
    (out : log_online_bitmap_file_t) (page : Page) (checksum_ok is_last_page : Bool)
    (read_offset : Nat) :
    log_online_read_last_tracked_lsn_loop renv (fuel + 1) out page checksum_ok is_last_page
        read_offset =
      if (!checksum_ok || !is_last_page) && decide (read_offset > 0) then
        match log_online_read_bitmap_page renv
          { out with offset := ulint (read_offset + 2 ^ 64 - MODIFIED_PAGE_BLOCK_SIZE) }
          page checksum_ok with
        | none => none
        | some (false, out, page, _) => some (out, page, false, is_last_page)
        | some (true, out, page, checksum_ok) =>
          log_online_read_last_tracked_lsn_loop renv fuel out page checksum_ok
            (if checksum_ok then mach_read_from_4 page MODIFIED_PAGE_IS_LAST_BLOCK != 0
              else is_last_page)
            (ulint (read_offset + 2 ^ 64 - MODIFIED_PAGE_BLOCK_SIZE))
      else some (out, page, checksum_ok, is_last_page) := rfl

theorem read_last_tracked_lsn_loop_done (renv : read_env) (fuel : Nat)
    (out : log_online_bitmap_file_t) (page : Page) (read_offset : Nat) :
    log_online_read_last_tracked_lsn_loop renv fuel out page true true read_offset
      = some (out, page, true, true) := by
  cases fuel <;> rfl

theorem read_last_tracked_lsn_loop_bottom (renv : read_env) (fuel : Nat)
    (out : log_online_bitmap_file_t) (page : Page) (checksum_ok is_last_page : Bool) :
    log_online_read_last_tracked_lsn_loop renv fuel out page checksum_ok is_last_page 0
      = some (out, page, checksum_ok, is_last_page) := by
  cases fuel <;> simp [log_online_read_last_tracked_lsn_loop]

/-- One iteration of the backward reading: the block that ends at `read_offset` is
read, and the output position is left right after it. -/
theorem read_bitmap_page_before (renv : read_env) (out : log_online_bitmap_file_t)
    (page q : Page) (checksum_ok : Bool) (i : Nat)
    (hsize : (i + 1) * 4096 ≤ out.size) (h64 : out.size < 2 ^ 64)
    (hq : renv.file_block out.name (i * 4096) = some q) :
    ulint ((i + 1) * 4096 + 2 ^ 64 - MODIFIED_PAGE_BLOCK_SIZE) = i * 4096 ∧
    log_online_read_bitmap_page renv { out with offset := i * 4096 } page checksum_ok
      = some (true, { out with offset := (i + 1) * 4096 }, q, bitmap_page_checksum_ok q) := by
  have e : MODIFIED_PAGE_BLOCK_SIZE = 4096 := rfl
  constructor
  · unfold ulint
    rw [e]
    omega
  · unfold log_online_read_bitmap_page
    simp only [e]
    rw [if_neg (by omega), if_neg (by omega), if_neg (by omega), hq]
    have e5 : i * 4096 + 4096 = (i + 1) * 4096 := by omega
    simp only [e5]

/-- The backward reading stops at the highest block that has a valid checksum and
the last block flag. -/
theorem read_last_tracked_lsn_loop_found (renv : read_env) (name : String) (size j : Nat)
    (p : Page) (h64 : size < 2 ^ 64)
    (hp : renv.file_block name (j * 4096) = some p)
    (hck : bitmap_page_checksum_ok p = true)
    (hlast : mach_read_from_4 p MODIFIED_PAGE_IS_LAST_BLOCK ≠ 0) :
    ∀ (d extra : Nat) (out : log_online_bitmap_file_t) (page : Page) (checksum_ok : Bool),
      out.name = name → out.size = size → (j + 1 + d) * 4096 ≤ size →
      (∀ i, j < i → i < j + 1 + d → ∃ q, renv.file_block name (i * 4096) = some q ∧
        ¬ (bitmap_page_checksum_ok q = true ∧
          mach_read_from_4 q MODIFIED_PAGE_IS_LAST_BLOCK ≠ 0)) →
      log_online_read_last_tracked_lsn_loop renv (d + 1 + extra) out page checksum_ok false
          ((j + 1 + d) * 4096)
        = some ({ out with offset := (j + 1) * 4096 }, p, true, true) := by
  intro d
  induction d with
  | zero =>
    intro extra out page checksum_ok hname hsz hle _
    have hfuel : 0 + 1 + extra = extra + 1 := by omega
    rw [hfuel, read_last_tracked_lsn_loop_succ]
    have hcond : ((!checksum_ok || !false) && decide ((j + 1 + 0) * 4096 > 0)) = true := by
      simp
    rw [if_pos hcond]
    have hq : renv.file_block out.name (j * 4096) = some p := by rw [hname]; exact hp
    obtain ⟨e1, e2⟩ := read_bitmap_page_before renv out page p checksum_ok j
      (by rw [hsz]; omega) (by rw [hsz]; exact h64) hq
    have e0 : (j + 1 + 0) * 4096 = (j + 1) * 4096 := by omega
    rw [e0, e1, e2]
    simp only [hck, ↓reduceIte]
    have hl : (mach_read_from_4 p MODIFIED_PAGE_IS_LAST_BLOCK != 0) = true := by
      simp [hlast]
    rw [hl, read_last_tracked_lsn_loop_done]
  | succ d ih =>
    intro extra out page checksum_ok hname hsz hle hhigher
    have hfuel : d + 1 + 1 + extra = (d + 1 + extra) + 1 := by omega
    rw [hfuel, read_last_tracked_lsn_loop_succ]
    have hcond : ((!checksum_ok || !false) && decide ((j + 1 + (d + 1)) * 4096 > 0)) = true := by
      simp
    rw [if_pos hcond]
    obtain ⟨q, hq, hbad⟩ := hhigher (j + 1 + d) (by omega) (by omega)
    have hq' : renv.file_block out.name ((j + 1 + d) * 4096) = some q := by
      rw [hname]; exact hq
    obtain ⟨e1, e2⟩ := read_bitmap_page_before renv out page q checksum_ok (j + 1 + d)
      (by rw [hsz]; omega) (by rw [hsz]; exact h64) hq'
    have e0 : (j + 1 + (d + 1)) * 4096 = (j + 1 + d + 1) * 4096 := by omega
    rw [e0, e1, e2]
    simp only []
    have hil : (if bitmap_page_checksum_ok q = true then
        mach_read_from_4 q MODIFIED_PAGE_IS_LAST_BLOCK != 0 else false) = false := by
      by_cases hc : bitmap_page_checksum_ok q = true
      · rw [if_pos hc]
        have : mach_read_from_4 q MODIFIED_PAGE_IS_LAST_BLOCK = 0 := by
          by_contra hne
          exact hbad ⟨hc, hne⟩
        simp [this]
      · rw [if_neg hc]
    rw [hil]
    exact ih extra { out with offset := (j + 1 + d + 1) * 4096 } q
      (bitmap_page_checksum_ok q) hname hsz (by omega)
      (fun i h1 h2 => hhigher i h1 (by omega))

/-- With no block that has a valid checksum and the last block flag, the backward
reading ends after the block at offset 0, with the output position right after
that block. -/
theorem read_last_tracked_lsn_loop_none (renv : read_env) (name : String) (size : Nat)
    (h64 : size < 2 ^ 64) :
    ∀ (n extra : Nat) (out : log_online_bitmap_file_t) (page : Page) (checksum_ok : Bool),
      out.name = name → out.size = size → (n + 1) * 4096 ≤ size →
      (∀ i, i < n + 1 → ∃ q, renv.file_block name (i * 4096) = some q ∧
        ¬ (bitmap_page_checksum_ok q = true ∧
          mach_read_from_4 q MODIFIED_PAGE_IS_LAST_BLOCK ≠ 0)) →
      ∃ q, renv.file_block name 0 = some q ∧
        log_online_read_last_tracked_lsn_loop renv (n + 1 + extra) out page checksum_ok false
            ((n + 1) * 4096)
          = some ({ out with offset := 4096 }, q, bitmap_page_checksum_ok q, false) := by
  intro n
  induction n with
  | zero =>
    intro extra out page checksum_ok hname hsz hle hbad
    obtain ⟨q, hq, hbadq⟩ := hbad 0 (by omega)
    have hq0 : renv.file_block name 0 = some q := by simpa using hq
    refine ⟨q, hq0, ?_⟩
    have hfuel : 0 + 1 + extra = extra + 1 := by omega
    rw [hfuel, read_last_tracked_lsn_loop_succ]
    have hcond : ((!checksum_ok || !false) && decide ((0 + 1) * 4096 > 0)) = true := by
      simp
    rw [if_pos hcond]
    have hq' : renv.file_block out.name (0 * 4096) = some q := by rw [hname]; exact hq
    obtain ⟨e1, e2⟩ := read_bitmap_page_before renv out page q checksum_ok 0
      (by rw [hsz]; omega) (by rw [hsz]; exact h64) hq'
    rw [e1, e2]
    simp only []
    have hil : (if bitmap_page_checksum_ok q = true then
        mach_read_from_4 q MODIFIED_PAGE_IS_LAST_BLOCK != 0 else false) = false := by
      by_cases hc : bitmap_page_checksum_ok q = true
      · rw [if_pos hc]
        have : mach_read_from_4 q MODIFIED_PAGE_IS_LAST_BLOCK = 0 := by
          by_contra hne
          exact hbadq ⟨hc, hne⟩
        simp [this]
      · rw [if_neg hc]
    rw [hil]
    have e3 : (0 : Nat) * 4096 = 0 := by omega
    have e4 : (0 + 1) * 4096 = 4096 := by omega
    rw [e3, e4, read_last_tracked_lsn_loop_bottom]
  | succ n ih =>
    intro extra out page checksum_ok hname hsz hle hbad
    have hfuel : n + 1 + 1 + extra = (n + 1 + extra) + 1 := by omega
    rw [hfuel, read_last_tracked_lsn_loop_succ]
    have hcond : ((!checksum_ok || !false) && decide ((n + 1 + 1) * 4096 > 0)) = true := by
      simp
    rw [if_pos hcond]
    obtain ⟨q, hq, hbadq⟩ := hbad (n + 1) (by omega)
    have hq' : renv.file_block out.name ((n + 1) * 4096) = some q := by rw [hname]; exact hq
    obtain ⟨e1, e2⟩ := read_bitmap_page_before renv out page q checksum_ok (n + 1)
      (by rw [hsz]; omega) (by rw [hsz]; exact h64) hq'
    rw [e1, e2]
    simp only []
    have hil : (if bitmap_page_checksum_ok q = true then
        mach_read_from_4 q MODIFIED_PAGE_IS_LAST_BLOCK != 0 else false) = false := by
      by_cases hc : bitmap_page_checksum_ok q = true
      · rw [if_pos hc]
        have : mach_read_from_4 q MODIFIED_PAGE_IS_LAST_BLOCK = 0 := by
          by_contra hne
          exact hbadq ⟨hc, hne⟩
        simp [this]
      · rw [if_neg hc]
    rw [hil]
    obtain ⟨q0, hq0, hrun⟩ := ih extra { out with offset := (n + 1 + 1) * 4096 } q
      (bitmap_page_checksum_ok q) hname hsz (by omega) (fun i hi => hbad i (by omega))
    exact ⟨q0, hq0, hrun⟩

/-- The last tracked LSN of a file in which block `j` is the highest one with a
valid checksum and the last block flag, the blocks above it being readable. -/
theorem read_last_tracked_lsn_found (env : server_env) (renv : read_env) (page : Page)
    (st : tracker) (n j : Nat) (p : Page)
    (hoff : st.log_bmp_sys.out.offset = n * 4096)
    (hsize : st.log_bmp_sys.out.offset ≤ st.log_bmp_sys.out.size)
    (h64 : st.log_bmp_sys.out.size < 2 ^ 64)
    (hj : j < n)
    (hp : renv.file_block st.log_bmp_sys.out.name (j * 4096) = some p)
    (hck : bitmap_page_checksum_ok p = true)
    (hlast : mach_read_from_4 p MODIFIED_PAGE_IS_LAST_BLOCK ≠ 0)
    (hhigher : ∀ i, j < i → i < n →
      ∃ q, renv.file_block st.log_bmp_sys.out.name (i * 4096) = some q ∧
        ¬ (bitmap_page_checksum_ok q = true ∧
          mach_read_from_4 q MODIFIED_PAGE_IS_LAST_BLOCK ≠ 0)) :
    log_online_read_last_tracked_lsn env renv page st
      = some (if env.io_ok st.trace.length then mach_read_from_8 p MODIFIED_PAGE_END_LSN else 0,
          { st with
            trace := st.trace
              ++ [os_event.file_truncate st.log_bmp_sys.out.name ((j + 1) * 4096)]
            log_bmp_sys := { st.log_bmp_sys with
              out := { st.log_bmp_sys.out with offset := (j + 1) * 4096 } } }) := by
  have e : MODIFIED_PAGE_BLOCK_SIZE = 4096 := rfl
  obtain ⟨d, hd⟩ : ∃ d, n = j + 1 + d := ⟨n - (j + 1), by omega⟩
  have hfuel : st.log_bmp_sys.out.offset / MODIFIED_PAGE_BLOCK_SIZE + 1 = d + 1 + (j + 1) := by
    rw [hoff, e, hd]
    omega
  have hrun := read_last_tracked_lsn_loop_found renv st.log_bmp_sys.out.name
    st.log_bmp_sys.out.size j p h64 hp hck hlast d (j + 1) st.log_bmp_sys.out page false
    rfl rfl (by rw [← hd, ← hoff]; exact hsize)
    (fun i h1 h2 => hhigher i h1 (by omega))
  unfold log_online_read_last_tracked_lsn
  rw [hfuel, hoff, hd, hrun]
  simp only [os_call, Bool.and_self, ↓reduceIte]
  cases hio : env.io_ok st.trace.length <;> simp

/-- The last tracked LSN of a file with at least one block and no block that has a
valid checksum and the last block flag, all blocks being readable: 0, with the
output position and the truncation right after the first block. -/
theorem read_last_tracked_lsn_none (env : server_env) (renv : read_env) (page : Page)
    (st : tracker) (n : Nat)
    (hoff : st.log_bmp_sys.out.offset = (n + 1) * 4096)
    (hsize : st.log_bmp_sys.out.offset ≤ st.log_bmp_sys.out.size)
    (h64 : st.log_bmp_sys.out.size < 2 ^ 64)
    (hbad : ∀ i, i < n + 1 →
      ∃ q, renv.file_block st.log_bmp_sys.out.name (i * 4096) = some q ∧
        ¬ (bitmap_page_checksum_ok q = true ∧
          mach_read_from_4 q MODIFIED_PAGE_IS_LAST_BLOCK ≠ 0)) :
    log_online_read_last_tracked_lsn env renv page st
      = some (0,
          { st with
            trace := st.trace ++ [os_event.file_truncate st.log_bmp_sys.out.name 4096]
            log_bmp_sys := { st.log_bmp_sys with
              out := { st.log_bmp_sys.out with offset := 4096 } } }) := by
  have e : MODIFIED_PAGE_BLOCK_SIZE = 4096 := rfl
  have hfuel : st.log_bmp_sys.out.offset / MODIFIED_PAGE_BLOCK_SIZE + 1 = n + 1 + 1 := by
    rw [hoff, e]
    omega
  obtain ⟨q, -, hrun⟩ := read_last_tracked_lsn_loop_none renv st.log_bmp_sys.out.name
    st.log_bmp_sys.out.size h64 n 1 st.log_bmp_sys.out page false rfl rfl
    (by rw [← hoff]; exact hsize) hbad
  unfold log_online_read_last_tracked_lsn
  rw [hfuel, hoff, hrun]
  simp only [os_call, Bool.and_false, Bool.false_eq_true, ↓reduceIte]
  cases hio : env.io_ok st.trace.length <;> simp

/-- The last tracked LSN of a file shorter than one block: 0, with the output
position and the truncation at the start of the file. -/
theorem read_last_tracked_lsn_empty (env : server_env) (renv : read_env) (page : Page)
    (st : tracker) (hoff : st.log_bmp_sys.out.offset = 0) :
    log_online_read_last_tracked_lsn env renv page st
      = some (0,
          { st with
            trace := st.trace ++ [os_event.file_truncate st.log_bmp_sys.out.name 0] }) := by
  unfold log_online_read_last_tracked_lsn
  rw [hoff, read_last_tracked_lsn_loop_bottom]
  simp only [os_call, Bool.and_false, Bool.false_eq_true, ↓reduceIte, hoff]
  cases hio : env.io_ok st.trace.length <;> simp

theorem sample_block_checksum_ok : bitmap_page_checksum_ok sample_block = true := by
  unfold bitmap_page_checksum_ok sample_block
  simp only [finalize_checksum, beq_self_eq_true]

theorem sample_block_is_last :
    mach_read_from_4 sample_block MODIFIED_PAGE_IS_LAST_BLOCK = 1 := by
  unfold sample_block
  rw [finalize_is_last]
  rfl

theorem sample_block_end_lsn : mach_read_from_8 sample_block MODIFIED_PAGE_END_LSN = 9000 := by
  unfold sample_block
  rw [finalize_end_lsn]
  decide

/-- C17: given an output file positioned at its size rounded down to `n` blocks,
in which block `j` has a valid checksum and a non-zero last block flag, no
readable or unreadable block above it has both, and the blocks above it can be
read, `log_online_read_last_tracked_lsn` reads backwards down to block `j`,
leaves the output position right after it and truncates the file there, which
keeps the blocks up to `j` and discards what follows; it returns the `end_lsn`
of block `j` when the truncation succeeds. -/
theorem read_last_tracked_lsn_is_last_good_block (env : server_env) (renv : read_env)
    (page : Page) (st : tracker) (n j : Nat) (p : Page)
    (hoff : st.log_bmp_sys.out.offset = n * 4096)
    (hsize : st.log_bmp_sys.out.offset ≤ st.log_bmp_sys.out.size)
    (h64 : st.log_bmp_sys.out.size < 2 ^ 64)
    (hreads : ∀ i, i < n → (renv.file_block st.log_bmp_sys.out.name (i * 4096)).isSome = true)
    (hj : j < n)
    (hp : renv.file_block st.log_bmp_sys.out.name (j * 4096) = some p)
    (hck : bitmap_page_checksum_ok p = true)
    (hlast : mach_read_from_4 p MODIFIED_PAGE_IS_LAST_BLOCK ≠ 0)
    (hhighest : ∀ i q, j < i → i < n →
      renv.file_block st.log_bmp_sys.out.name (i * 4096) = some q →
      ¬ (bitmap_page_checksum_ok q = true ∧
        mach_read_from_4 q MODIFIED_PAGE_IS_LAST_BLOCK ≠ 0)) :
    ∃ result st',
      log_online_read_last_tracked_lsn env renv page st = some (result, st') ∧
      (env.io_ok st.trace.length = true → result = mach_read_from_8 p MODIFIED_PAGE_END_LSN) ∧
      st'.trace = st.trace
        ++ [os_event.file_truncate st.log_bmp_sys.out.name ((j + 1) * 4096)] ∧
      st'.log_bmp_sys.out.offset = (j + 1) * 4096 ∧
      st'.log_bmp_sys.out.name = st.log_bmp_sys.out.name ∧
      st'.log_bmp_sys.start_lsn = st.log_bmp_sys.start_lsn ∧
      st'.log_bmp_sys.end_lsn = st.log_bmp_sys.end_lsn ∧
      st'.log_bmp_sys.out_seq_num = st.log_bmp_sys.out_seq_num ∧
      st'.log_bmp_sys.modified_pages = st.log_bmp_sys.modified_pages ∧
      st'.tracked_lsn = st.tracked_lsn := by
  have hhigher : ∀ i, j < i → i < n →
      ∃ q, renv.file_block st.log_bmp_sys.out.name (i * 4096) = some q ∧
        ¬ (bitmap_page_checksum_ok q = true ∧
          mach_read_from_4 q MODIFIED_PAGE_IS_LAST_BLOCK ≠ 0) := by
    intro i h1 h2
    obtain ⟨q, hq⟩ := Option.isSome_iff_exists.mp (hreads i h2)
    exact ⟨q, hq, hhighest i q h1 h2 hq⟩
  refine ⟨_, _, read_last_tracked_lsn_found env renv page st n j p hoff hsize h64 hj hp hck
    hlast hhigher, ?_, rfl, rfl, rfl, rfl, rfl, rfl, rfl, rfl⟩
  intro hio
  rw [hio]
  rfl

theorem read_last_tracked_lsn_is_last_good_block_witness :
    ∃ st',
      log_online_read_last_tracked_lsn sample_env torn_read_env zero_page torn_file_tracker
        = some (9000, st') ∧
      st'.trace = [os_event.file_truncate "ib_modified_log_1_0.xdb" 8192] ∧
      st'.log_bmp_sys.out.offset = 8192 := by
  obtain ⟨result, st', h1, h2, h3, h4, -⟩ :=
    read_last_tracked_lsn_is_last_good_block sample_env torn_read_env zero_page
      torn_file_tracker 2 1 sample_block rfl (by decide) (by decide)
      (fun i hi => by
        have hi' : i = 0 ∨ i = 1 := by omega
        rcases hi' with rfl | rfl <;> rfl)
      (by decide) rfl sample_block_checksum_ok
      (by rw [sample_block_is_last]; decide)
      (fun i q h1 h2 _ => absurd h2 (by omega))
  have h5 := h2 rfl
  rw [sample_block_end_lsn] at h5
  rw [h5] at h1
  exact ⟨st', h1, h3, h4⟩

/-! ## Startup -/

/-- With a directory that can be enumerated, in which a bitmap file was found, and
a last file that can be opened, `log_online_read_init` continues with that
file. -/
theorem read_init_opened (env : server_env) (ienv : init_env) (renv : read_env)
    (st : tracker) (entries : List os_file_stat_t) (sys : log_bitmap_struct)
    (last_file_start_lsn size : Nat)
    (hdir : ienv.bitmap_dir.entries = some entries)
    (hclose : ienv.bitmap_dir.closedir_fails = false)
    (hscan : log_online_read_init_enumerate ienv renv st.log_bmp_sys entries
      = (sys, last_file_start_lsn))
    (hseq : sys.out_seq_num ≠ 0)
    (hopen : renv.file_size sys.out.name = some size) :
    log_online_read_init env ienv renv st
      = log_online_read_init_last_file env ienv renv
          { st with
            log_bmp_sys := { sys with
              modified_pages := []
              page_free_list := []
              out := { sys.out with closed := false } } }
          (max env.last_checkpoint_lsn (MIN_TRACKED_LSN ienv)) last_file_start_lsn size := by
  unfold log_online_read_init
  simp only [hdir, hclose, hscan, if_neg hseq, hopen, Bool.false_eq_true, ↓reduceIte]

theorem one_file_read_init (env : server_env) (ienv : init_env) (renv : read_env)
    (size : Nat)
    (hdir : ienv.bitmap_dir = one_file_dir) (hscanf : ienv.sscanf = sample_sscanf)
    (hmin : MIN_TRACKED_LSN ienv = 8716)
    (hhome : renv.srv_data_home = "")
    (hopen : renv.file_size "ib_modified_log_1_0.xdb" = some size) :
    log_online_read_init env ienv renv sample_tracker
      = log_online_read_init_last_file env ienv renv one_file_tracker
          (max env.last_checkpoint_lsn 8716) 0 size := by
  have hscan : log_online_read_init_enumerate ienv renv sample_tracker.log_bmp_sys
      [bitmap_dir_entry "ib_modified_log_1_0.xdb"] = (one_file_tracker.log_bmp_sys, 0) := by
    unfold log_online_read_init_enumerate
    rw [hhome, hscanf, hmin]
    rfl
  rw [read_init_opened env ienv renv sample_tracker
    [bitmap_dir_entry "ib_modified_log_1_0.xdb"] one_file_tracker.log_bmp_sys 0 size
    (by rw [hdir]; rfl) (by rw [hdir]; rfl) hscan (by decide) hopen, hmin]
  rfl

/-- The branch of the startup for an opened last file, once the last tracked LSN
has been read from it. -/
theorem read_init_last_file_read (env : server_env) (ienv : init_env) (renv : read_env)
    (st : tracker) (tracking_start_lsn last_file_start_lsn size : Nat)
    (last_tracked_lsn : Nat) (st2 : tracker)
    (hread : log_online_read_last_tracked_lsn env renv ienv.page
      (log_online_read_init_position st size) = some (last_tracked_lsn, st2)) :
    log_online_read_init_last_file env ienv renv st tracking_start_lsn last_file_start_lsn size
      = match log_online_can_track_missing ienv
          (if last_tracked_lsn = 0 then last_file_start_lsn else last_tracked_lsn)
          tracking_start_lsn with
        | none => none
        | some can_track =>
          if (!(if (last_tracked_lsn != 0) = true then
                log_online_rotate_bitmap_file env st2
                  (if can_track = true then
                    (if last_tracked_lsn = 0 then last_file_start_lsn else last_tracked_lsn)
                  else tracking_start_lsn)
              else (true, st2)).1) = true then none
          else if (if last_tracked_lsn = 0 then last_file_start_lsn else last_tracked_lsn)
              < tracking_start_lsn then
            log_online_track_missing_on_startup env ienv
              (if (last_tracked_lsn != 0) = true then
                log_online_rotate_bitmap_file env st2
                  (if can_track = true then
                    (if last_tracked_lsn = 0 then last_file_start_lsn else last_tracked_lsn)
                  else tracking_start_lsn)
              else (true, st2)).2
              (if last_tracked_lsn = 0 then last_file_start_lsn else last_tracked_lsn)
              tracking_start_lsn
          else
            some (log_set_tracked_lsn
              { (if (last_tracked_lsn != 0) = true then
                  log_online_rotate_bitmap_file env st2
                    (if can_track = true then
                      (if last_tracked_lsn = 0 then last_file_start_lsn else last_tracked_lsn)
                    else tracking_start_lsn)
                else (true, st2)).2 with
                log_bmp_sys :=
                  { (if (last_tracked_lsn != 0) = true then
                      log_online_rotate_bitmap_file env st2
                        (if can_track = true then
                          (if last_tracked_lsn = 0 then last_file_start_lsn
                            else last_tracked_lsn)
                        else tracking_start_lsn)
                    else (true, st2)).2.log_bmp_sys with start_lsn := tracking_start_lsn } }
              tracking_start_lsn) := by
  unfold log_online_read_init_last_file
  simp only []
  rw [hread]

theorem zero_block_has_no_last_flag (i : Nat) (hi : i < 0 + 1) :
    ∃ q, zero_block_read_env.file_block zero_block_tracker.log_bmp_sys.out.name (i * 4096)
        = some q ∧
      ¬ (bitmap_page_checksum_ok q = true ∧
        mach_read_from_4 q MODIFIED_PAGE_IS_LAST_BLOCK ≠ 0) := by
  have hi0 : i = 0 := by omega
  subst hi0
  exact ⟨zero_page, rfl, fun h => h.2 rfl⟩

/-- C18 (code bug): with no block that has a valid checksum and the last block
flag, a last file of at least one block is not truncated to zero length.  For a
last file of one block of zero bytes `log_online_read_last_tracked_lsn` returns
0, truncates the file to 4096 bytes and leaves the output position at 4096; the
dynamic init on a directory with that file does not rotate and ends with the
output position 4096 in that file, so that the next batch is written after the
block that was found not to end a batch. -/
theorem read_last_tracked_lsn_keeps_first_block :
    (∃ st', log_online_read_last_tracked_lsn sample_env zero_block_read_env zero_page
        zero_block_tracker = some (0, st') ∧
      st'.log_bmp_sys.out.offset = 4096 ∧
      st'.trace = [os_event.file_truncate "ib_modified_log_1_0.xdb" 4096]) ∧
    (∃ st', log_online_read_init sample_env (sample_init_env one_file_dir)
        zero_block_read_env sample_tracker = some st' ∧
      st'.log_bmp_sys.out.name = "ib_modified_log_1_0.xdb" ∧
      st'.log_bmp_sys.out_seq_num = 1 ∧
      st'.log_bmp_sys.out.offset = 4096 ∧
      st'.trace = [os_event.file_truncate "ib_modified_log_1_0.xdb" 4096,
        os_event.log_read 0 8716 9000]) := by
  have hread := read_last_tracked_lsn_none sample_env zero_block_read_env zero_page
    zero_block_tracker 0 rfl (by decide) (by decide) zero_block_has_no_last_flag
  constructor
  · exact ⟨_, hread, rfl, rfl⟩
  · rw [one_file_read_init sample_env (sample_init_env one_file_dir) zero_block_read_env 4096
      rfl rfl rfl rfl rfl,
      read_init_last_file_read sample_env (sample_init_env one_file_dir) zero_block_read_env
        one_file_tracker _ 0 4096 0 _ hread]
    exact ⟨_, rfl, rfl, rfl, rfl, rfl⟩

theorem last_block_checksum_ok (e : Nat) : bitmap_page_checksum_ok (last_block e) = true := by
  unfold bitmap_page_checksum_ok last_block
  simp only [finalize_checksum, beq_self_eq_true]

theorem last_block_is_last (e : Nat) :
    mach_read_from_4 (last_block e) MODIFIED_PAGE_IS_LAST_BLOCK = 1 := by
  unfold last_block
  rw [finalize_is_last]
  rfl

theorem last_block_end_lsn (e : Nat) (he : e < 2 ^ 64) :
    mach_read_from_8 (last_block e) MODIFIED_PAGE_END_LSN = e := by
  unfold last_block
  rw [finalize_end_lsn, Nat.mod_eq_of_lt he]

/-- The last tracked LSN that the startup reads from the one-block file
`last_block e`. -/
theorem last_block_read (c e : Nat) (he : e < 2 ^ 64) :
    log_online_read_last_tracked_lsn (checkpoint_env c) (last_block_read_env e) zero_page
        (log_online_read_init_position one_file_tracker 4096)
      = some (e,
          { zero_block_tracker with
            trace := [os_event.file_truncate "ib_modified_log_1_0.xdb" 4096] }) := by
  have hpos : log_online_read_init_position one_file_tracker 4096 = zero_block_tracker := rfl
  rw [hpos, read_last_tracked_lsn_found (checkpoint_env c) (last_block_read_env e) zero_page
    zero_block_tracker 1 0 (last_block e) rfl (by decide) (by decide) (by decide) rfl
    (last_block_checksum_ok e) (by rw [last_block_is_last]; decide)
    (fun i h1 h2 => absurd h2 (by omega)), last_block_end_lsn e he]
  rfl

/-- A last tracked LSN ahead of the tracking start LSN ends the startup in the
fatal error of `log_online_can_track_missing`. -/
theorem read_init_last_file_ahead (env : server_env) (ienv : init_env) (renv : read_env)
    (st : tracker) (tracking_start_lsn last_file_start_lsn size : Nat)
    (last_tracked_lsn : Nat) (st2 : tracker)
    (hread : log_online_read_last_tracked_lsn env renv ienv.page
      (log_online_read_init_position st size) = some (last_tracked_lsn, st2))
    (hgt : tracking_start_lsn < last_tracked_lsn) :
    log_online_read_init_last_file env ienv renv st tracking_start_lsn last_file_start_lsn size
      = none := by
  rw [read_init_last_file_read env ienv renv st tracking_start_lsn last_file_start_lsn size
    last_tracked_lsn st2 hread]
  have hne : last_tracked_lsn ≠ 0 := by omega
  have hm : max last_tracked_lsn (MIN_TRACKED_LSN ienv) > tracking_start_lsn :=
    Nat.lt_of_lt_of_le hgt (le_max_left _ _)
  have hcan : log_online_can_track_missing ienv last_tracked_lsn tracking_start_lsn = none := by
    unfold log_online_can_track_missing
    simp only []
    rw [if_pos hm]
  rw [if_neg hne, hcan]

/-- C20 (counterexample): a last tracked LSN ahead of the tracking start LSN ends
the startup.  With the last checkpoint at LSN 8800 and a last bitmap file whose
last block ends at LSN 9000, `log_online_read_init` does not return a tracker:
it ends in the fatal error of `log_online_can_track_missing`. -/
theorem read_init_aborts_when_bitmap_is_ahead :
    log_online_read_init (checkpoint_env 8800) (sample_init_env one_file_dir)
      (last_block_read_env 9000) sample_tracker = none := by
  rw [one_file_read_init (checkpoint_env 8800) (sample_init_env one_file_dir)
    (last_block_read_env 9000) 4096 rfl rfl rfl rfl rfl]
  exact read_init_last_file_ahead (checkpoint_env 8800) (sample_init_env one_file_dir)
    (last_block_read_env 9000) one_file_tracker _ 0 4096 9000 _
    (last_block_read 8800 9000 (by decide)) (by decide)

/-- C20 (amended): in the dynamic init, if the last tracked LSN read from the last
bitmap file is greater than the tracking start LSN, the initialisation does not
terminate normally: `log_online_can_track_missing`, which is called before the
warning is reached, ends the process with a fatal error. -/
theorem read_init_fatal_when_bitmap_is_ahead (env : server_env) (ienv : init_env)
    (renv : read_env) (st : tracker) (tracking_start_lsn last_file_start_lsn size : Nat)
    (last_tracked_lsn : Nat) (st2 : tracker)
    (hread : log_online_read_last_tracked_lsn env renv ienv.page
      (log_online_read_init_position st size) = some (last_tracked_lsn, st2))
    (hgt : tracking_start_lsn < last_tracked_lsn) :
    log_online_read_init_last_file env ienv renv st tracking_start_lsn last_file_start_lsn size
      = none :=
  read_init_last_file_ahead env ienv renv st tracking_start_lsn last_file_start_lsn size
    last_tracked_lsn st2 hread hgt

theorem read_init_fatal_when_bitmap_is_ahead_witness :
    log_online_read_init_last_file (checkpoint_env 8800) (sample_init_env one_file_dir)
      (last_block_read_env 9000) one_file_tracker 8800 0 4096 = none :=
  read_init_fatal_when_bitmap_is_ahead (checkpoint_env 8800) (sample_init_env one_file_dir)
    (last_block_read_env 9000) one_file_tracker 8800 0 4096 9000 _
    (last_block_read 8800 9000 (by decide)) (by decide)

/-- The decision of `log_online_can_track_missing` for a last tracked LSN that is
not ahead of the tracking start LSN. -/
theorem can_track_missing_eq (ienv : init_env) (last_tracked_lsn tracking_start_lsn : Nat)
    (hle : max last_tracked_lsn (MIN_TRACKED_LSN ienv) ≤ tracking_start_lsn) :
    log_online_can_track_missing ienv last_tracked_lsn tracking_start_lsn
      = some (decide (max last_tracked_lsn (MIN_TRACKED_LSN ienv) = tracking_start_lsn
          ∨ ulint (ienv.lsn + 2 ^ 64 - max last_tracked_lsn (MIN_TRACKED_LSN ienv))
            ≤ ienv.log_group_capacity)) := by
  unfold log_online_can_track_missing
  simp only []
  rw [if_neg (Nat.not_lt.mpr hle)]
  by_cases h1 : max last_tracked_lsn (MIN_TRACKED_LSN ienv) = tracking_start_lsn
  · simp [h1]
  · by_cases h2 : ulint (ienv.lsn + 2 ^ 64 - max last_tracked_lsn (MIN_TRACKED_LSN ienv))
        ≤ ienv.log_group_capacity
    · simp [h1, h2]
    · simp [h1, h2]

/-- The startup for a non-zero last tracked LSN below the tracking start LSN, when
the missing interval can be tracked. -/
theorem read_init_last_file_track (env : server_env) (ienv : init_env) (renv : read_env)
    (st : tracker) (tracking_start_lsn last_file_start_lsn size : Nat)
    (last_tracked_lsn : Nat) (st2 : tracker)
    (hread : log_online_read_last_tracked_lsn env renv ienv.page
      (log_online_read_init_position st size) = some (last_tracked_lsn, st2))
    (hne : last_tracked_lsn ≠ 0) (hlt : last_tracked_lsn < tracking_start_lsn)
    (hmin : MIN_TRACKED_LSN ienv ≤ tracking_start_lsn)
    (hcan : max last_tracked_lsn (MIN_TRACKED_LSN ienv) = tracking_start_lsn
      ∨ ulint (ienv.lsn + 2 ^ 64 - max last_tracked_lsn (MIN_TRACKED_LSN ienv))
        ≤ ienv.log_group_capacity) :
    log_online_read_init_last_file env ienv renv st tracking_start_lsn last_file_start_lsn size
      = if (log_online_rotate_bitmap_file env st2 last_tracked_lsn).1 = true then
          match log_online_follow_redo_log env
            (log_set_tracked_lsn
              { (log_online_rotate_bitmap_file env st2 last_tracked_lsn).2 with
                log_bmp_sys :=
                  { (log_online_rotate_bitmap_file env st2 last_tracked_lsn).2.log_bmp_sys with
                    start_lsn := max last_tracked_lsn (MIN_TRACKED_LSN ienv) } }
              (max last_tracked_lsn (MIN_TRACKED_LSN ienv))) with
          | none => none
          | some (false, _) => none
          | some (true, st') => some st'
        else none := by
  have hle : max last_tracked_lsn (MIN_TRACKED_LSN ienv) ≤ tracking_start_lsn :=
    max_le (Nat.le_of_lt hlt) hmin
  rw [read_init_last_file_read env ienv renv st tracking_start_lsn last_file_start_lsn size
    last_tracked_lsn st2 hread, if_neg hne, can_track_missing_eq ienv _ _ hle]
  have hb : (last_tracked_lsn != 0) = true := by simp [hne]
  simp only [hb, decide_eq_true hcan, ↓reduceIte, if_pos hlt]
  cases hrot : (log_online_rotate_bitmap_file env st2 last_tracked_lsn).1 with
  | false => simp
  | true =>
    simp only [Bool.not_true, Bool.false_eq_true, ↓reduceIte]
    unfold log_online_track_missing_on_startup
    rw [can_track_missing_eq ienv _ _ hle]
    simp only [decide_eq_true hcan]

/-- The startup for a non-zero last tracked LSN below the tracking start LSN, when
the missing interval cannot be tracked. -/
theorem read_init_last_file_skip (env : server_env) (ienv : init_env) (renv : read_env)
    (st : tracker) (tracking_start_lsn last_file_start_lsn size : Nat)
    (last_tracked_lsn : Nat) (st2 : tracker)
    (hread : log_online_read_last_tracked_lsn env renv ienv.page
      (log_online_read_init_position st size) = some (last_tracked_lsn, st2))
    (hne : last_tracked_lsn ≠ 0) (hlt : last_tracked_lsn < tracking_start_lsn)
    (hmin : MIN_TRACKED_LSN ienv ≤ tracking_start_lsn)
    (hcan : ¬ (max last_tracked_lsn (MIN_TRACKED_LSN ienv) = tracking_start_lsn
      ∨ ulint (ienv.lsn + 2 ^ 64 - max last_tracked_lsn (MIN_TRACKED_LSN ienv))
        ≤ ienv.log_group_capacity)) :
    log_online_read_init_last_file env ienv renv st tracking_start_lsn last_file_start_lsn size
      = if (log_online_rotate_bitmap_file env st2 tracking_start_lsn).1 = true then
          some (log_set_tracked_lsn
            { (log_online_rotate_bitmap_file env st2 tracking_start_lsn).2 with
              log_bmp_sys :=
                { (log_online_rotate_bitmap_file env st2 tracking_start_lsn).2.log_bmp_sys with
                  start_lsn := tracking_start_lsn, end_lsn := tracking_start_lsn } }
            tracking_start_lsn)
        else none := by
  have hle : max last_tracked_lsn (MIN_TRACKED_LSN ienv) ≤ tracking_start_lsn :=
    max_le (Nat.le_of_lt hlt) hmin
  rw [read_init_last_file_read env ienv renv st tracking_start_lsn last_file_start_lsn size
    last_tracked_lsn st2 hread, if_neg hne, can_track_missing_eq ienv _ _ hle]
  have hb : (last_tracked_lsn != 0) = true := by simp [hne]
  simp only [hb, decide_eq_false hcan, ↓reduceIte, if_pos hlt, Bool.false_eq_true]
  cases hrot : (log_online_rotate_bitmap_file env st2 tracking_start_lsn).1 with
  | false => simp
  | true =>
    simp only [Bool.not_true, Bool.false_eq_true, ↓reduceIte]
    unfold log_online_track_missing_on_startup
    rw [can_track_missing_eq ienv _ _ hle]
    simp only [decide_eq_false hcan]

/-- C19 (counterexample): the decision to track the missing interval compares the
distance from the last tracked LSN to the current LSN of the redo log, not to the
tracking start LSN, with the capacity.  With a last block that ends at LSN 10000,
the last checkpoint at LSN 15000, the redo log at LSN 17000 and a capacity of
6000 the gap from 10000 to 15000 fits within the capacity, yet the rotated file
is named with 15000 and `start_lsn = end_lsn = 15000`, and the redo log is not
read. -/
theorem read_init_skips_gap_that_fits_capacity :
    15000 - 10000 ≤ (capacity_init_env 17000 6000).log_group_capacity ∧
    ∃ st', log_online_read_init (checkpoint_env 15000) (capacity_init_env 17000 6000)
        (last_block_read_env 10000) sample_tracker = some st' ∧
      st'.log_bmp_sys.out.name = "ib_modified_log_2_15000.xdb" ∧
      st'.log_bmp_sys.start_lsn = 15000 ∧
      st'.log_bmp_sys.end_lsn = 15000 ∧
      st'.tracked_lsn = 15000 ∧
      st'.trace = [os_event.file_truncate "ib_modified_log_1_0.xdb" 4096,
        os_event.file_close "ib_modified_log_1_0.xdb",
        os_event.file_status "ib_modified_log_2_15000.xdb",
        os_event.file_delete "ib_modified_log_2_15000.xdb",
        os_event.file_create "ib_modified_log_2_15000.xdb"] := by
  refine ⟨by decide, ?_⟩
  have h1 : log_online_read_init (checkpoint_env 15000) (capacity_init_env 17000 6000)
      (last_block_read_env 10000) sample_tracker
      = log_online_read_init_last_file (checkpoint_env 15000) (capacity_init_env 17000 6000)
        (last_block_read_env 10000) one_file_tracker 15000 0 4096 :=
    one_file_read_init (checkpoint_env 15000) (capacity_init_env 17000 6000)
      (last_block_read_env 10000) 4096 rfl rfl rfl rfl rfl
  rw [h1, read_init_last_file_skip (checkpoint_env 15000) (capacity_init_env 17000 6000)
    (last_block_read_env 10000) one_file_tracker 15000 0 4096 10000 _
    (last_block_read 15000 10000 (by decide)) (by decide) (by decide) (by decide) (by decide)]
  exact ⟨_, rfl, by decide, rfl, rfl, rfl, rfl⟩

/-- C19 (amended): in the dynamic init, when the last file yields a non-zero last
tracked LSN below the tracking start LSN, the missing interval is tracked if the
last tracked LSN, raised to `MIN_TRACKED_LSN`, equals the tracking start LSN or is
within the log group capacity of the current LSN of the redo log
(`log_sys->lsn`).  Then the rotated file is named with the last tracked LSN and
the synchronous follow starts from a tracker with `start_lsn` and the tracked LSN
at the raised last tracked LSN; the init ends the process if the rotation or the
follow fails.  Otherwise the rotated file is named with the tracking start LSN,
and `start_lsn`, `end_lsn` and the tracked LSN are the tracking start LSN. -/
theorem read_init_gap_decision (env : server_env) (ienv : init_env) (renv : read_env)
    (st : tracker) (tracking_start_lsn last_file_start_lsn size : Nat)
    (last_tracked_lsn : Nat) (st2 : tracker)
    (hread : log_online_read_last_tracked_lsn env renv ienv.page
      (log_online_read_init_position st size) = some (last_tracked_lsn, st2))
    (hne : last_tracked_lsn ≠ 0) (hlt : last_tracked_lsn < tracking_start_lsn)
    (hmin : MIN_TRACKED_LSN ienv ≤ tracking_start_lsn) :
    ((max last_tracked_lsn (MIN_TRACKED_LSN ienv) = tracking_start_lsn
        ∨ ulint (ienv.lsn + 2 ^ 64 - max last_tracked_lsn (MIN_TRACKED_LSN ienv))
          ≤ ienv.log_group_capacity) →
      ∃ rotated st3,
        rotated = log_online_rotate_bitmap_file env st2 last_tracked_lsn ∧
        rotated.2.log_bmp_sys.out.name
          = st2.log_bmp_sys.bmp_file_home ++ "ib_modified_log_"
            ++ toString (ulint (st2.log_bmp_sys.out_seq_num + 1)) ++ "_"
            ++ toString last_tracked_lsn ++ ".xdb" ∧
        st3.log_bmp_sys.out.name = rotated.2.log_bmp_sys.out.name ∧
        st3.log_bmp_sys.start_lsn = max last_tracked_lsn (MIN_TRACKED_LSN ienv) ∧
        st3.tracked_lsn = max last_tracked_lsn (MIN_TRACKED_LSN ienv) % 2 ^ 64 ∧
        st3.trace = rotated.2.trace ∧
        log_online_read_init_last_file env ienv renv st tracking_start_lsn
            last_file_start_lsn size
          = if rotated.1 = true then
              match log_online_follow_redo_log env st3 with
              | none => none
              | some (false, _) => none
              | some (true, st') => some st'
            else none) ∧
    (¬ (max last_tracked_lsn (MIN_TRACKED_LSN ienv) = tracking_start_lsn
        ∨ ulint (ienv.lsn + 2 ^ 64 - max last_tracked_lsn (MIN_TRACKED_LSN ienv))
          ≤ ienv.log_group_capacity) →
      ∃ rotated,
        rotated = log_online_rotate_bitmap_file env st2 tracking_start_lsn ∧
        rotated.2.log_bmp_sys.out.name
          = st2.log_bmp_sys.bmp_file_home ++ "ib_modified_log_"
            ++ toString (ulint (st2.log_bmp_sys.out_seq_num + 1)) ++ "_"
            ++ toString tracking_start_lsn ++ ".xdb" ∧
        (rotated.1 = false →
          log_online_read_init_last_file env ienv renv st tracking_start_lsn
            last_file_start_lsn size = none) ∧
        (rotated.1 = true →
          ∃ st', log_online_read_init_last_file env ienv renv st tracking_start_lsn
              last_file_start_lsn size = some st' ∧
            st'.log_bmp_sys.out.name = rotated.2.log_bmp_sys.out.name ∧
            st'.log_bmp_sys.start_lsn = tracking_start_lsn ∧
            st'.log_bmp_sys.end_lsn = tracking_start_lsn ∧
            st'.tracked_lsn = tracking_start_lsn % 2 ^ 64 ∧
            st'.trace = rotated.2.trace)) := by
  constructor
  · intro hcan
    refine ⟨log_online_rotate_bitmap_file env st2 last_tracked_lsn, _, rfl,
      (rotate_bitmap_file_out env st2 last_tracked_lsn).2.1, ?_, ?_, ?_, ?_,
      read_init_last_file_track env ienv renv st tracking_start_lsn last_file_start_lsn size
        last_tracked_lsn st2 hread hne hlt hmin hcan⟩
    · rfl
    · rfl
    · exact log_set_tracked_lsn_val _ _
    · rfl
  · intro hcan
    have hrun := read_init_last_file_skip env ienv renv st tracking_start_lsn
      last_file_start_lsn size last_tracked_lsn st2 hread hne hlt hmin hcan
    refine ⟨log_online_rotate_bitmap_file env st2 tracking_start_lsn, rfl,
      (rotate_bitmap_file_out env st2 tracking_start_lsn).2.1, ?_, ?_⟩
    · intro hrot
      rw [hrun, hrot]
      rfl
    · intro hrot
      rw [hrun, if_pos hrot]
      exact ⟨_, rfl, rfl, rfl, rfl, log_set_tracked_lsn_val _ _, rfl⟩

theorem read_init_gap_decision_witness :
    ∃ st', log_online_read_init_last_file (checkpoint_env 1000000000)
        (capacity_init_env 1000000000 10000) (last_block_read_env 1000) one_file_tracker
        1000000000 0 4096 = some st' ∧
      st'.log_bmp_sys.start_lsn = 1000000000 ∧
      st'.log_bmp_sys.end_lsn = 1000000000 ∧
      st'.tracked_lsn = 1000000000 ∧
      st'.log_bmp_sys.out.name = "ib_modified_log_2_1000000000.xdb" := by
  obtain ⟨rotated, hrot, hname, -, hok⟩ :=
    (read_init_gap_decision (checkpoint_env 1000000000) (capacity_init_env 1000000000 10000)
      (last_block_read_env 1000) one_file_tracker 1000000000 0 4096 1000 _
      (last_block_read 1000000000 1000 (by decide)) (by decide) (by decide) (by decide)).2
      (by decide)
  obtain ⟨st', h1, h2, h3, h4, h5, -⟩ := hok (by rw [hrot]; rfl)
  refine ⟨st', h1, h3, h4, h5, ?_⟩
  rw [h2, hname]
  decide

/-! ## The comparison function is a total order -/

/-- The value of the comparison function in terms of the two keys. -/
theorem compare_bmp_keys_cases (a b : Page) :
    (log_online_compare_bmp_keys a b = -1 ∧ key_lt (block_key a) (block_key b)) ∨
    (log_online_compare_bmp_keys a b = 0 ∧ block_key a = block_key b) ∨
    (log_online_compare_bmp_keys a b = 1 ∧ key_lt (block_key b) (block_key a)) := by
  unfold log_online_compare_bmp_keys block_key key_lt
  simp only [Prod.mk.injEq]
  split_ifs with h1 h2 h3 h4
  · exact Or.inl ⟨rfl, Or.inr ⟨h1, h2⟩⟩
  · exact Or.inr (Or.inr ⟨rfl, Or.inr ⟨h1.symm, h3⟩⟩)
  · exact Or.inr (Or.inl ⟨rfl, h1, by omega⟩)
  · exact Or.inl ⟨rfl, Or.inl h4⟩
  · exact Or.inr (Or.inr ⟨rfl, Or.inl (by omega)⟩)

/-- C24: `log_online_compare_bmp_keys` is a total order on the keys
(space_id, block_start_page) of the blocks: it returns -1, 0 or 1; it returns 0
if and only if both key fields are equal; the comparison of `b` with `a` is the
negation of the comparison of `a` with `b`; it is transitive, strictly and
weakly; and it returns -1 exactly when the space id of `a` is smaller, or the
space ids are equal and the block start page of `a` is smaller, which is the
lexicographic order on the pair. -/
theorem compare_bmp_keys_total_order (a b c : Page) :
    (log_online_compare_bmp_keys a b = -1 ∨ log_online_compare_bmp_keys a b = 0
      ∨ log_online_compare_bmp_keys a b = 1) ∧
    (log_online_compare_bmp_keys a b = 0 ↔
      mach_read_from_4 a MODIFIED_PAGE_SPACE_ID = mach_read_from_4 b MODIFIED_PAGE_SPACE_ID ∧
      mach_read_from_4 a MODIFIED_PAGE_1ST_PAGE_ID
        = mach_read_from_4 b MODIFIED_PAGE_1ST_PAGE_ID) ∧
    log_online_compare_bmp_keys a b = - log_online_compare_bmp_keys b a ∧
    (log_online_compare_bmp_keys a b < 0 → log_online_compare_bmp_keys b c < 0 →
      log_online_compare_bmp_keys a c < 0) ∧
    (log_online_compare_bmp_keys a b ≤ 0 → log_online_compare_bmp_keys b c ≤ 0 →
      log_online_compare_bmp_keys a c ≤ 0) ∧
    (log_online_compare_bmp_keys a b = -1 ↔
      mach_read_from_4 a MODIFIED_PAGE_SPACE_ID < mach_read_from_4 b MODIFIED_PAGE_SPACE_ID ∨
      (mach_read_from_4 a MODIFIED_PAGE_SPACE_ID = mach_read_from_4 b MODIFIED_PAGE_SPACE_ID ∧
        mach_read_from_4 a MODIFIED_PAGE_1ST_PAGE_ID
          < mach_read_from_4 b MODIFIED_PAGE_1ST_PAGE_ID)) := by
  have hab := compare_bmp_keys_cases a b
  have hba := compare_bmp_keys_cases b a
  have hbc := compare_bmp_keys_cases b c
  have hac := compare_bmp_keys_cases a c
  unfold key_lt block_key at hab hba hbc hac
  simp only [Prod.mk.injEq] at hab hba hbc hac
  generalize log_online_compare_bmp_keys a b = ab at hab ⊢
  generalize log_online_compare_bmp_keys b a = ba at hba ⊢
  generalize log_online_compare_bmp_keys b c = bc at hbc ⊢
  generalize log_online_compare_bmp_keys a c = ac at hac ⊢
  generalize mach_read_from_4 a MODIFIED_PAGE_SPACE_ID = sa at hab hba hbc hac ⊢
  generalize mach_read_from_4 b MODIFIED_PAGE_SPACE_ID = sb at hab hba hbc hac ⊢
  generalize mach_read_from_4 c MODIFIED_PAGE_SPACE_ID = sc at hab hba hbc hac ⊢
  generalize mach_read_from_4 a MODIFIED_PAGE_1ST_PAGE_ID = pa at hab hba hbc hac ⊢
  generalize mach_read_from_4 b MODIFIED_PAGE_1ST_PAGE_ID = pb at hab hba hbc hac ⊢
  generalize mach_read_from_4 c MODIFIED_PAGE_1ST_PAGE_ID = pc at hab hba hbc hac ⊢
  refine ⟨?_, ?_, ?_, ?_, ?_, ?_⟩
  · clear hba hbc hac
    omega
  · clear hba hbc hac
    omega
  · clear hbc hac
    omega
  · clear hba
    intro h1 h2
    rcases hab with ⟨e1, k1⟩ | ⟨e1, -⟩ | ⟨e1, -⟩
    · rcases hbc with ⟨e2, k2⟩ | ⟨e2, -⟩ | ⟨e2, -⟩
      · omega
      · omega
      · omega
    · omega
    · omega
  · clear hba
    intro h1 h2
    rcases hab with ⟨e1, k1⟩ | ⟨e1, k1⟩ | ⟨e1, -⟩
    · rcases hbc with ⟨e2, k2⟩ | ⟨e2, k2⟩ | ⟨e2, -⟩
      · omega
      · omega
      · omega
    · rcases hbc with ⟨e2, k2⟩ | ⟨e2, k2⟩ | ⟨e2, -⟩
      · omega
      · omega
      · omega
    · omega
  · clear hba hbc hac
    omega

theorem compare_bmp_keys_total_order_witness :
    log_online_compare_bmp_keys page_4057_node
      (mach_write_to_4 zero_page MODIFIED_PAGE_SPACE_ID 9) < 0 :=
  (compare_bmp_keys_total_order page_4057_node sample_node
    (mach_write_to_4 zero_page MODIFIED_PAGE_SPACE_ID 9)).2.2.2.1 (by decide) (by decide)

/-! ## Which records carry a page -/

theorem rec_page_means_page_iff (env : server_env) (type : mlog_id_t) :
    log_online_rec_page_means_page env type = true ↔
      ¬ (type = mlog_id_t.MLOG_MULTI_REC_END ∨ type = mlog_id_t.MLOG_DUMMY_RECORD
        ∨ type = mlog_id_t.MLOG_CHECKPOINT ∨ type = mlog_id_t.MLOG_TRUNCATE
        ∨ (env.univ_log_lsn_debug = true ∧ type = mlog_id_t.MLOG_LSN)) := by
  unfold log_online_rec_page_means_page log_online_rec_has_page
  cases env.univ_log_lsn_debug <;> cases type <;> simp

theorem set_page_bits_cons (sys : log_bitmap_struct) (c : Nat × Nat) (cs : List (Nat × Nat)) :
    set_page_bits sys (c :: cs) = set_page_bits (log_online_set_page_bit sys c.1 c.2) cs := rfl

theorem set_page_bits_range (space : Nat) :
    ∀ (l : List Nat) (sys : log_bitmap_struct),
      l.foldl (fun s i => log_online_set_page_bit s space i) sys
        = set_page_bits sys (l.map (fun i => (space, i))) := by
  intro l
  induction l with
  | nil => intro sys; rfl
  | cons i is ih =>
    intro sys
    rw [List.foldl_cons, List.map_cons, set_page_bits_cons]
    exact ih _

/-- One completely parsed record makes the calls that the classification gives. -/
theorem parse_redo_log_rec_calls (env : server_env) (sys : log_bitmap_struct) (r : redo_rec) :
    log_online_parse_redo_log_rec env sys r = set_page_bits sys (rec_page_calls env r) := by
  unfold log_online_parse_redo_log_rec rec_page_calls
  by_cases h : log_online_rec_page_means_page env r.type = true
  · rw [if_pos h, if_neg ((rec_page_means_page_iff env r.type).mp h)]
    simp only []
    by_cases hl : r.type = mlog_id_t.MLOG_INDEX_LOAD
    · rw [if_pos hl, if_pos hl, set_page_bits_cons, set_page_bits_range]
    · rw [if_neg hl, if_neg hl]
      rfl
  · rw [if_neg h, if_pos (by
      by_contra hc
      exact h ((rec_page_means_page_iff env r.type).mpr hc))]
    rfl

/-- C22: a redo record is treated as carrying a page (`log_online_rec_page_means_page`)
if and only if its type is none of `MLOG_MULTI_REC_END`, `MLOG_DUMMY_RECORD`,
`MLOG_CHECKPOINT`, `MLOG_TRUNCATE` and, in a build with LSN debugging, not
`MLOG_LSN`; and the parsing of a sequence of completely parsed records makes
exactly the calls of `log_online_set_page_bit` of the classification, in order:
for every record that carries a page the call for its page, and for an
`MLOG_INDEX_LOAD` record additionally the calls for the pages
`0 .. space_size - 1` of its tablespace. -/
theorem records_with_page_set_bits (env : server_env) :
    (∀ type : mlog_id_t,
      log_online_rec_page_means_page env type = true ↔
        (type ≠ mlog_id_t.MLOG_MULTI_REC_END ∧ type ≠ mlog_id_t.MLOG_DUMMY_RECORD
          ∧ type ≠ mlog_id_t.MLOG_CHECKPOINT ∧ type ≠ mlog_id_t.MLOG_TRUNCATE
          ∧ ¬ (env.univ_log_lsn_debug = true ∧ type = mlog_id_t.MLOG_LSN))) ∧
    (∀ (recs : List redo_rec) (sys : log_bitmap_struct),
      recs.foldl (log_online_parse_redo_log_rec env) sys
        = set_page_bits sys (recs.flatMap (rec_page_calls env))) ∧
    (∀ r : redo_rec, log_online_rec_page_means_page env r.type = true →
      r.type ≠ mlog_id_t.MLOG_INDEX_LOAD → rec_page_calls env r = [(r.space, r.page_no)]) ∧
    (∀ r : redo_rec, r.type = mlog_id_t.MLOG_INDEX_LOAD →
      rec_page_calls env r = (r.space, r.page_no)
        :: (List.range (env.fil_space_get_size r.space)).map (fun i => (r.space, i))) ∧
    (∀ r : redo_rec, log_online_rec_page_means_page env r.type = false →
      rec_page_calls env r = []) := by
  refine ⟨fun type => ?_, fun recs => ?_, fun r h hl => ?_, fun r hl => ?_, fun r h => ?_⟩
  · rw [rec_page_means_page_iff]
    simp only [not_or]
  · induction recs with
    | nil => intro sys; rfl
    | cons r rs ih =>
      intro sys
      rw [List.foldl_cons, List.flatMap_cons, set_page_bits_append, ih,
        parse_redo_log_rec_calls]
  · unfold rec_page_calls
    rw [if_neg ((rec_page_means_page_iff env r.type).mp h), if_neg hl]
  · unfold rec_page_calls
    rw [hl]
    simp
  · unfold rec_page_calls
    rw [if_pos (by
      by_contra hc
      have := (rec_page_means_page_iff env r.type).mpr hc
      rw [h] at this
      cases this)]

theorem records_with_page_set_bits_witness :
    rec_page_calls sample_env { type := mlog_id_t.MLOG_OTHER 1, space := 7, page_no := 3 }
      = [(7, 3)] :=
  (records_with_page_set_bits sample_env).2.2.1
    { type := mlog_id_t.MLOG_OTHER 1, space := 7, page_no := 3 } rfl (fun h => by cases h)

/-! ## The checksum and its 4-byte field -/

theorem checksum_ok_iff (q : Page) :
    bitmap_page_checksum_ok q = true ↔
      mach_read_from_4 q MODIFIED_PAGE_BLOCK_CHECKSUM = log_online_calc_checksum q := by
  unfold bitmap_page_checksum_ok
  simp

/-- C26: for every block the value of `log_online_calc_checksum`, computed in a
64-bit word, is below `2 ^ 32`; the 4-byte checksum field therefore reads back the
very value that was stored, a block that was given its checksum passes the
reader's test, and a block that carries the stored checksum of `block` in its
checksum field passes the reader's test exactly when its recomputed checksum is
the one of `block`. -/
theorem calc_checksum_fits_field (block : Page) :
    log_online_calc_checksum block < 2 ^ 32 ∧
    mach_read_from_4
        (mach_write_to_4 block MODIFIED_PAGE_BLOCK_CHECKSUM (log_online_calc_checksum block))
        MODIFIED_PAGE_BLOCK_CHECKSUM = log_online_calc_checksum block ∧
    bitmap_page_checksum_ok
        (mach_write_to_4 block MODIFIED_PAGE_BLOCK_CHECKSUM (log_online_calc_checksum block))
      = true ∧
    (∀ q : Page,
      (∀ i, MODIFIED_PAGE_BLOCK_CHECKSUM ≤ i → i < MODIFIED_PAGE_BLOCK_CHECKSUM + 4 →
        q i = mach_write_to_4 block MODIFIED_PAGE_BLOCK_CHECKSUM
          (log_online_calc_checksum block) i) →
      (bitmap_page_checksum_ok q = true ↔
        log_online_calc_checksum q = log_online_calc_checksum block)) := by
  have hlt := calc_checksum_lt block
  have hrw : mach_read_from_4
      (mach_write_to_4 block MODIFIED_PAGE_BLOCK_CHECKSUM (log_online_calc_checksum block))
      MODIFIED_PAGE_BLOCK_CHECKSUM = log_online_calc_checksum block := by
    rw [mach_read_write_4, Nat.mod_eq_of_lt hlt]
  have hsame : log_online_calc_checksum
      (mach_write_to_4 block MODIFIED_PAGE_BLOCK_CHECKSUM (log_online_calc_checksum block))
      = log_online_calc_checksum block :=
    calc_checksum_congr _ _ (fun i hi => mach_write_to_4_other _ _ _ (Or.inl hi))
  refine ⟨hlt, hrw, ?_, fun q hq => ?_⟩
  · rw [checksum_ok_iff, hrw, hsame]
  · rw [checksum_ok_iff, mach_read_from_4_congr q _ MODIFIED_PAGE_BLOCK_CHECKSUM hq, hrw]
    exact eq_comm

theorem calc_checksum_fits_field_witness :
    bitmap_page_checksum_ok
        (mach_write_to_4 zero_page MODIFIED_PAGE_BLOCK_CHECKSUM
          (log_online_calc_checksum zero_page)) = true ↔
      log_online_calc_checksum
          (mach_write_to_4 zero_page MODIFIED_PAGE_BLOCK_CHECKSUM
            (log_online_calc_checksum zero_page))
        = log_online_calc_checksum zero_page :=
  (calc_checksum_fits_field zero_page).2.2.2 _ (fun _ _ _ => rfl)

/-! ## The checksum detects a changed byte -/

/-- The step of the checksum keeps two sums apart that differ modulo `2 ^ 31`. -/
theorem checksum_step_keeps_apart (st st' : Nat × Nat) (c : Nat)
    (hsh : st.2 = st'.2) (hne : st.1 % 2 ^ 31 ≠ st'.1 % 2 ^ 31) :
    (spec_checksum_step st c).2 = (spec_checksum_step st' c).2 ∧
    (spec_checksum_step st c).1 % 2 ^ 31 ≠ (spec_checksum_step st' c).1 % 2 ^ 31 := by
  have h1 : st.1 &&& 0x7FFFFFFF = st.1 % 2 ^ 31 := Nat.and_pow_two_sub_one_eq_mod st.1 31
  have h2 : st'.1 &&& 0x7FFFFFFF = st'.1 % 2 ^ 31 := Nat.and_pow_two_sub_one_eq_mod st'.1 31
  unfold spec_checksum_step
  simp only [h1, h2, hsh]
  refine ⟨trivial, ?_⟩
  generalize c <<< st'.2 = k
  omega

theorem checksum_foldl_keeps_apart (l : List Nat) :
    ∀ st st' : Nat × Nat, st.2 = st'.2 → st.1 % 2 ^ 31 ≠ st'.1 % 2 ^ 31 →
      (l.foldl spec_checksum_step st).1 ≠ (l.foldl spec_checksum_step st').1 := by
  induction l with
  | nil =>
    intro st st' _ hne h
    exact hne (by rw [List.foldl_nil, List.foldl_nil] at h; rw [h])
  | cons c cs ih =>
    intro st st' hsh hne
    obtain ⟨h1, h2⟩ := checksum_step_keeps_apart st st' c hsh hne
    rw [List.foldl_cons, List.foldl_cons]
    exact ih _ _ h1 h2

/-- The contribution of two different bytes to the sum differs modulo `2 ^ 31`,
for each shift that the loop uses: `1 + 2 ^ sh` is odd for `sh > 0`, and equal to
2 for `sh = 0`. -/
theorem checksum_byte_apart (m b b' sh : Nat) (hb : b < 256) (hb' : b' < 256) (hne : b ≠ b') :
    (m + b + b * 2 ^ sh) % 2 ^ 31 ≠ (m + b' + b' * 2 ^ sh) % 2 ^ 31 := by
  intro h
  have h1 : m + (1 + 2 ^ sh) * b ≡ m + (1 + 2 ^ sh) * b' [MOD 2 ^ 31] := by
    have e1 : m + (1 + 2 ^ sh) * b = m + b + b * 2 ^ sh := by ring
    have e2 : m + (1 + 2 ^ sh) * b' = m + b' + b' * 2 ^ sh := by ring
    rw [e1, e2]
    exact h
  have h2 : (1 + 2 ^ sh) * b ≡ (1 + 2 ^ sh) * b' [MOD 2 ^ 31] := Nat.ModEq.add_left_cancel' m h1
  cases sh with
  | zero =>
    have h3 : 2 * b ≡ 2 * b' [MOD 2 * 2 ^ 30] := h2
    have h4 : b ≡ b' [MOD 2 ^ 30] := Nat.ModEq.mul_left_cancel' (by decide) h3
    have h5 : b % 2 ^ 30 = b' % 2 ^ 30 := h4
    rw [Nat.mod_eq_of_lt (by omega), Nat.mod_eq_of_lt (by omega)] at h5
    exact hne h5
  | succ k =>
    have hodd : Odd (1 + 2 ^ (k + 1)) := by
      rw [Nat.odd_iff]
      have : 2 ^ (k + 1) = 2 * 2 ^ k := by ring
      omega
    have hco : Nat.gcd (2 ^ 31) (1 + 2 ^ (k + 1)) = 1 :=
      Nat.Coprime.pow_left 31 (Nat.coprime_two_left.mpr hodd)
    have h4 : b ≡ b' [MOD 2 ^ 31] := Nat.ModEq.cancel_left_of_coprime hco h2
    have h5 : b % 2 ^ 31 = b' % 2 ^ 31 := h4
    rw [Nat.mod_eq_of_lt (by omega), Nat.mod_eq_of_lt (by omega)] at h5
    exact hne h5

/-- The step of the checksum for two different bytes gives sums that differ modulo
`2 ^ 31`. -/
theorem checksum_step_apart (st : Nat × Nat) (b b' : Nat)
    (hb : b < 256) (hb' : b' < 256) (hne : b ≠ b') :
    (spec_checksum_step st b).2 = (spec_checksum_step st b').2 ∧
    (spec_checksum_step st b).1 % 2 ^ 31 ≠ (spec_checksum_step st b').1 % 2 ^ 31 := by
  have h1 : st.1 &&& 0x7FFFFFFF = st.1 % 2 ^ 31 := Nat.and_pow_two_sub_one_eq_mod st.1 31
  unfold spec_checksum_step
  simp only [h1, Nat.shiftLeft_eq]
  exact ⟨trivial, checksum_byte_apart _ b b' st.2 hb hb' hne⟩

/-- Two byte sequences that differ in one place have different sums. -/
theorem checksum_foldl_apart (pre post : List Nat) (b b' : Nat)
    (hb : b < 256) (hb' : b' < 256) (hne : b ≠ b') (st : Nat × Nat) :
    ((pre ++ b :: post).foldl spec_checksum_step st).1
      ≠ ((pre ++ b' :: post).foldl spec_checksum_step st).1 := by
  rw [List.foldl_append, List.foldl_append, List.foldl_cons, List.foldl_cons]
  obtain ⟨h1, h2⟩ := checksum_step_apart (pre.foldl spec_checksum_step st) b b' hb hb' hne
  exact checksum_foldl_keeps_apart post _ _ h1 h2

theorem range_split (i n : Nat) (hi : i < n) :
    List.range n = List.range' 0 i ++ i :: List.range' (i + 1) (n - i - 1) := by
  have e : n = (n - i - 1 + 1) + i := by omega
  have h1 : List.range' 0 i ++ List.range' (0 + i) (n - i - 1 + 1)
      = List.range' 0 ((n - i - 1 + 1) + i) := List.range'_append_1 0 i (n - i - 1 + 1)
  rw [List.range_eq_range']
  conv_lhs => rw [e]
  rw [← h1, Nat.zero_add, List.range'_succ]

/-- The bytes of a block in the order of the checksum loop, split at one offset. -/
theorem checksum_bytes_split (p : Page) (i : Nat) (hi : i < 4092) :
    (List.range 4092).map (fun j => (p j).val)
      = (List.range' 0 i).map (fun j => (p j).val)
        ++ (p i).val :: (List.range' (i + 1) (4092 - i - 1)).map (fun j => (p j).val) := by
  rw [range_split i 4092 hi, List.map_append, List.map_cons]

/-- C27: the bitmap block checksum detects every change of a single byte of the
covered range: two blocks that differ in the byte at one offset below 4092 and
agree in every other byte have different values of `log_online_calc_checksum`, so
when one of them passes the checksum test of the reader, the other one, read
back with the same stored checksum, is reported with `checksum_ok = false`. -/
theorem calc_checksum_detects_changed_byte (p q : Page) (i : Nat)
    (hi : i < MODIFIED_PAGE_BLOCK_CHECKSUM) (hne : p i ≠ q i)
    (hsame : ∀ j, j < MODIFIED_PAGE_BLOCK_SIZE → j ≠ i → p j = q j) :
    log_online_calc_checksum p ≠ log_online_calc_checksum q ∧
    (bitmap_page_checksum_ok p = true → bitmap_page_checksum_ok q = false) := by
  have e0 : MODIFIED_PAGE_BLOCK_CHECKSUM = 4092 := by norm_num
  have e1 : MODIFIED_PAGE_BLOCK_SIZE = 4096 := rfl
  have hi' : i < 4092 := by omega
  have hpre : (List.range' 0 i).map (fun j => (p j).val)
      = (List.range' 0 i).map (fun j => (q j).val) := by
    apply List.map_congr_left
    intro j hj
    rw [List.mem_range'_1] at hj
    rw [hsame j (by omega) (by omega)]
  have hpost : (List.range' (i + 1) (4092 - i - 1)).map (fun j => (p j).val)
      = (List.range' (i + 1) (4092 - i - 1)).map (fun j => (q j).val) := by
    apply List.map_congr_left
    intro j hj
    rw [List.mem_range'_1] at hj
    rw [hsame j (by omega) (by omega)]
  have hval : (p i).val ≠ (q i).val := fun h => hne (Fin.ext h)
  have hcalc : log_online_calc_checksum p ≠ log_online_calc_checksum q := by
    rw [calc_checksum_eq_spec, calc_checksum_eq_spec]
    unfold spec_checksum
    rw [checksum_bytes_split p i hi', checksum_bytes_split q i hi', hpre, hpost]
    exact checksum_foldl_apart _ _ _ _ (p i).isLt (q i).isLt hval (1, 0)
  refine ⟨hcalc, fun hok => ?_⟩
  rw [checksum_ok_iff] at hok
  have hfield : mach_read_from_4 q MODIFIED_PAGE_BLOCK_CHECKSUM
      = mach_read_from_4 p MODIFIED_PAGE_BLOCK_CHECKSUM :=
    mach_read_from_4_congr q p MODIFIED_PAGE_BLOCK_CHECKSUM
      (fun j h1 h2 => (hsame j (by omega) (by omega)).symm)
  cases hq : bitmap_page_checksum_ok q with
  | false => rfl
  | true =>
    rw [checksum_ok_iff, hfield, hok] at hq
    exact absurd hq hcalc

theorem calc_checksum_detects_changed_byte_witness :
    log_online_calc_checksum zero_page ≠ log_online_calc_checksum (page_set zero_page 100 1) :=
  (calc_checksum_detects_changed_byte zero_page (page_set zero_page 100 1) 100 (by norm_num)
    (by rw [page_set_same]; decide)
    (fun j _ hj => (page_set_other zero_page 1 hj).symm)).1
/-! ## The frame of `log_online_set_page_bit` -/

theorem rbt_value_update_getElem (f : Page → Page) :
    ∀ (t : List Page) (pos j : Nat),
      (rbt_value_update f t pos)[j]? = if j = pos then (t[j]?).map f else t[j]? := by
  intro t
  induction t with
  | nil => intro pos j; simp [rbt_value_update]
  | cons x xs ih =>
    intro pos j
    cases pos with
    | zero =>
      cases j with
      | zero => simp [rbt_value_update]
      | succ j => simp [rbt_value_update]
    | succ pos =>
      cases j with
      | zero => simp [rbt_value_update]
      | succ j => simp [rbt_value_update, ih]

theorem rbt_value_update_eraseIdx (f : Page → Page) :
    ∀ (t : List Page) (pos : Nat),
      (rbt_value_update f t pos).eraseIdx pos = t.eraseIdx pos := by
  intro t
  induction t with
  | nil => intro pos; simp [rbt_value_update]
  | cons x xs ih =>
    intro pos
    cases pos with
    | zero => simp [rbt_value_update]
    | succ pos => simp [rbt_value_update, ih]

theorem rbt_value_update_twice (f : Page → Page) (hf : ∀ x, f (f x) = f x) :
    ∀ (t : List Page) (pos : Nat),
      rbt_value_update f (rbt_value_update f t pos) pos = rbt_value_update f t pos := by
  intro t
  induction t with
  | nil => intro pos; simp [rbt_value_update]
  | cons x xs ih =>
    intro pos
    cases pos with
    | zero => simp [rbt_value_update, hf]
    | succ pos => simp [rbt_value_update, ih]

/-- The search depends on the keys of the nodes only. -/
theorem rbt_search_congr (key : Page) :
    ∀ (t t' : List Page), t.map block_key = t'.map block_key →
      rbt_search t key = rbt_search t' key := by
  intro t
  induction t with
  | nil =>
    intro t' h
    cases t' with
    | nil => rfl
    | cons y ys => simp at h
  | cons x xs ih =>
    intro t' h
    cases t' with
    | nil => simp at h
    | cons y ys =>
      rw [List.map_cons, List.map_cons, List.cons.injEq] at h
      have hc : log_online_compare_bmp_keys key x = 0 ↔ log_online_compare_bmp_keys key y = 0 := by
        rw [compare_eq_zero_iff, compare_eq_zero_iff, h.1]
      unfold rbt_search
      rw [ih ys h.2]
      by_cases h0 : log_online_compare_bmp_keys key x = 0
      · rw [if_pos h0, if_pos (hc.mp h0)]
      · rw [if_neg h0, if_neg (fun e => h0 (hc.mpr e))]

/-- The node a successful search points to. -/
theorem rbt_search_getElem {key : Page} :
    ∀ (t : List Page) (pos : Nat), rbt_search t key = some pos →
      ∃ b, t[pos]? = some b ∧ block_key b = block_key key := by
  intro t
  induction t with
  | nil => intro pos h; cases h
  | cons x xs ih =>
    intro pos h
    unfold rbt_search at h
    by_cases h0 : log_online_compare_bmp_keys key x = 0
    · rw [if_pos h0] at h
      cases h
      exact ⟨x, by simp, ((compare_eq_zero_iff _ _).mp h0).symm⟩
    · rw [if_neg h0] at h
      cases hr : rbt_search xs key with
      | none => rw [hr] at h; cases h
      | some v =>
        rw [hr] at h
        simp only [Option.map_some', Option.some.injEq] at h
        subst h
        obtain ⟨b, hb, hk⟩ := ih v hr
        exact ⟨b, by simpa using hb, hk⟩

/-- The new node is linked at `rbt_insert_pos`, and nothing else moves. -/
theorem rbt_add_eraseIdx (node : Page) :
    ∀ t : List Page,
      (rbt_add_preallocated_node t node).eraseIdx (rbt_insert_pos t node) = t ∧
      (rbt_add_preallocated_node t node)[rbt_insert_pos t node]? = some node := by
  intro t
  induction t with
  | nil => simp [rbt_add_preallocated_node, rbt_insert_pos]
  | cons x xs ih =>
    unfold rbt_add_preallocated_node rbt_insert_pos
    by_cases h : log_online_compare_bmp_keys node x < 0
    · rw [if_pos h, if_pos h]
      simp
    · rw [if_neg h, if_neg h]
      simp [ih.1, ih.2]

/-- A search for the key of a node that was just added finds it where it was
linked. -/
theorem rbt_search_added (node : Page) :
    ∀ t : List Page, rbt_search t node = none →
      rbt_search (rbt_add_preallocated_node t node) node = some (rbt_insert_pos t node) := by
  have hself : log_online_compare_bmp_keys node node = 0 := (compare_eq_zero_iff _ _).mpr rfl
  intro t
  induction t with
  | nil =>
    intro _
    simp [rbt_add_preallocated_node, rbt_insert_pos, rbt_search, hself]
  | cons x xs ih =>
    intro h
    unfold rbt_search at h
    by_cases h0 : log_online_compare_bmp_keys node x = 0
    · rw [if_pos h0] at h
      cases h
    · rw [if_neg h0] at h
      have hxs : rbt_search xs node = none := by
        cases hr : rbt_search xs node with
        | none => rfl
        | some v => rw [hr] at h; cases h
      unfold rbt_add_preallocated_node rbt_insert_pos
      by_cases hlt : log_online_compare_bmp_keys node x < 0
      · rw [if_pos hlt, if_pos hlt]
        unfold rbt_search
        rw [if_pos hself]
      · rw [if_neg hlt, if_neg hlt]
        unfold rbt_search
        rw [if_neg h0, ih hxs]
        rfl

/-- Setting a bit that is set changes nothing. -/
theorem page_or_bit_twice (bp k : Nat) (hk : k < 8) (b : Page) :
    page_or_bit bp k (page_or_bit bp k b) = page_or_bit bp k b := by
  funext i
  by_cases hi : i = MODIFIED_PAGE_BLOCK_BITMAP + bp
  · subst hi
    apply Fin.ext
    rw [page_or_bit_same, page_or_bit_same]
    have h1 : (b (MODIFIED_PAGE_BLOCK_BITMAP + bp)).val < 2 ^ 8 :=
      (b (MODIFIED_PAGE_BLOCK_BITMAP + bp)).isLt
    have h2 : 1 <<< k < 2 ^ 8 := by
      rw [Nat.one_shiftLeft]
      exact Nat.pow_lt_pow_right (by decide) hk
    have h3 : (b (MODIFIED_PAGE_BLOCK_BITMAP + bp)).val ||| 1 <<< k < 2 ^ 8 :=
      Nat.or_lt_two_pow h1 h2
    have h3' : (b (MODIFIED_PAGE_BLOCK_BITMAP + bp)).val ||| 1 <<< k < 256 := h3
    rw [Nat.mod_eq_of_lt h3', Nat.or_assoc, Nat.or_self, Nat.mod_eq_of_lt h3']
  · rw [page_or_bit_other _ _ _ hi]

theorem set_page_bit_found (sys : log_bitmap_struct) (space page_no pos : Nat)
    (h : rbt_search sys.modified_pages
      (mach_write_to_4 (mach_write_to_4 zero_page MODIFIED_PAGE_SPACE_ID space)
        MODIFIED_PAGE_1ST_PAGE_ID (block_start_page page_no)) = some pos) :
    log_online_set_page_bit sys space page_no =
      { sys with
        modified_pages :=
          rbt_value_update (page_or_bit (block_pos page_no) (bit_pos page_no))
            sys.modified_pages pos } := by
  unfold log_online_set_page_bit
  simp only []
  rw [h]

/-- After a call, the search for the block of the page finds a node, and the `|=`
of a second call leaves the set as it is. -/
theorem set_page_bit_found_after (sys : log_bitmap_struct) (space page_no : Nat) :
    ∃ pos, rbt_search (log_online_set_page_bit sys space page_no).modified_pages
        (mach_write_to_4 (mach_write_to_4 zero_page MODIFIED_PAGE_SPACE_ID space)
          MODIFIED_PAGE_1ST_PAGE_ID (block_start_page page_no)) = some pos ∧
      rbt_value_update (page_or_bit (block_pos page_no) (bit_pos page_no))
        (log_online_set_page_bit sys space page_no).modified_pages pos
        = (log_online_set_page_bit sys space page_no).modified_pages := by
  have hk : bit_pos page_no < 8 := by unfold bit_pos; omega
  rw [set_page_bit_modified_pages]
  cases hr : rbt_search sys.modified_pages
      (mach_write_to_4 (mach_write_to_4 zero_page MODIFIED_PAGE_SPACE_ID space)
        MODIFIED_PAGE_1ST_PAGE_ID (block_start_page page_no)) with
  | some pos =>
    refine ⟨pos, ?_, rbt_value_update_twice _ (page_or_bit_twice _ _ hk) _ _⟩
    rw [rbt_search_congr _ _ sys.modified_pages
      (rbt_value_update_map_key _ (page_or_bit_key _ _) _ _)]
    exact hr
  | none =>
    refine ⟨_, ?_, rbt_value_update_twice _ (page_or_bit_twice _ _ hk) _ _⟩
    rw [rbt_search_congr _ _ _ (rbt_value_update_map_key _ (page_or_bit_key _ _) _ _)]
    exact rbt_search_added _ _ hr

/-- C28: for a 32-bit space and page number, `log_online_set_page_bit` stores to one
byte only, the byte at offset `32 + block_pos` of the block of the page, which lies
in the bitmap area [32, 4088).  Either the set already holds the block of the
page: then the set keeps its length, every other node is the same, and the node
of the page keeps its key and every byte except that one, which gets the bit of
the page ORed in.  Or the set does not hold it: then one node is linked in and,
taking it out again, the old set is left; the new node is zero except for its
two key fields and the bit of the page.  In both cases the header, the padding
and the checksum field of the block of the page are stored as they were, and a
second call with the same arguments changes nothing. -/
theorem set_page_bit_changes_one_bitmap_byte (sys : log_bitmap_struct) (space page_no : Nat)
    (hs : space < 2 ^ 32) (hp : page_no < 2 ^ 32) :
    MODIFIED_PAGE_BLOCK_BITMAP ≤ MODIFIED_PAGE_BLOCK_BITMAP + block_pos page_no ∧
    MODIFIED_PAGE_BLOCK_BITMAP + block_pos page_no < MODIFIED_PAGE_BLOCK_UNUSED_2 ∧
    (∃ pos,
      ((∃ b, sys.modified_pages[pos]? = some b ∧
          block_key b = (space, page_no / MODIFIED_PAGE_BLOCK_ID_COUNT
            * MODIFIED_PAGE_BLOCK_ID_COUNT) ∧
          (log_online_set_page_bit sys space page_no).modified_pages.length
            = sys.modified_pages.length ∧
          (∀ j, j ≠ pos → (log_online_set_page_bit sys space page_no).modified_pages[j]?
            = sys.modified_pages[j]?) ∧
          ∃ b', (log_online_set_page_bit sys space page_no).modified_pages[pos]? = some b' ∧
            (∀ i, i ≠ MODIFIED_PAGE_BLOCK_BITMAP + block_pos page_no → b' i = b i) ∧
            (b' (MODIFIED_PAGE_BLOCK_BITMAP + block_pos page_no)).val
              = ((b (MODIFIED_PAGE_BLOCK_BITMAP + block_pos page_no)).val
                  ||| (1 <<< (page_no % 8))) % 256 ∧
            (∀ i, i < MODIFIED_PAGE_BLOCK_BITMAP ∨ MODIFIED_PAGE_BLOCK_UNUSED_2 ≤ i →
              b' i = b i))
       ∨ ((∀ b ∈ sys.modified_pages,
            block_key b ≠ (space, page_no / MODIFIED_PAGE_BLOCK_ID_COUNT
              * MODIFIED_PAGE_BLOCK_ID_COUNT)) ∧
          (log_online_set_page_bit sys space page_no).modified_pages.eraseIdx pos
            = sys.modified_pages ∧
          ∃ b', (log_online_set_page_bit sys space page_no).modified_pages[pos]? = some b' ∧
            block_key b' = (space, page_no / MODIFIED_PAGE_BLOCK_ID_COUNT
              * MODIFIED_PAGE_BLOCK_ID_COUNT) ∧
            (∀ i, i ≠ MODIFIED_PAGE_BLOCK_BITMAP + block_pos page_no →
              b' i = mach_write_to_4 (mach_write_to_4 zero_page MODIFIED_PAGE_SPACE_ID space)
                MODIFIED_PAGE_1ST_PAGE_ID (page_no / MODIFIED_PAGE_BLOCK_ID_COUNT
                  * MODIFIED_PAGE_BLOCK_ID_COUNT) i) ∧
            (b' (MODIFIED_PAGE_BLOCK_BITMAP + block_pos page_no)).val
              = 1 <<< (page_no % 8)))) ∧
    log_online_set_page_bit (log_online_set_page_bit sys space page_no) space page_no
      = log_online_set_page_bit sys space page_no := by
  have e : MODIFIED_PAGE_BLOCK_ID_COUNT = 32448 := by norm_num
  have e1 : MODIFIED_PAGE_BLOCK_BITMAP = 32 := rfl
  have e2 : MODIFIED_PAGE_BLOCK_UNUSED_2 = 4088 := by norm_num
  have e3 : MODIFIED_PAGE_BLOCK_BITMAP_LEN = 4056 := by norm_num
  have hlt := block_pos_lt hp
  rw [e3] at hlt
  have hbit : bit_pos page_no = page_no % 8 := rfl
  refine ⟨Nat.le_add_right _ _, by rw [e2, e1]; omega, ?_, ?_⟩
  · rw [e, set_page_bit_modified_pages]
    cases hr : rbt_search sys.modified_pages
        (mach_write_to_4 (mach_write_to_4 zero_page MODIFIED_PAGE_SPACE_ID space)
          MODIFIED_PAGE_1ST_PAGE_ID (block_start_page page_no)) with
    | some pos =>
      obtain ⟨b, hb, hkey⟩ := rbt_search_getElem _ _ hr
      rw [new_node_key_of_lt hs hp] at hkey
      refine ⟨pos, Or.inl ⟨b, hb, hkey, rbt_value_update_length _ _ _, ?_, ?_⟩⟩
      · intro j hj
        simp only []
        rw [rbt_value_update_getElem, if_neg hj]
      · refine ⟨page_or_bit (block_pos page_no) (bit_pos page_no) b, ?_, ?_, ?_, ?_⟩
        · simp only []
          rw [rbt_value_update_getElem, if_pos rfl, hb]
          rfl
        · intro i hi
          exact page_or_bit_other _ _ _ hi
        · rw [page_or_bit_same, hbit]
        · intro i hi
          exact page_or_bit_other _ _ _ (by rw [e1, e2] at *; omega)
    | none =>
      have hnone := rbt_search_none hr
      obtain ⟨hera, hget⟩ := rbt_add_eraseIdx
        (mach_write_to_4 (mach_write_to_4 zero_page MODIFIED_PAGE_SPACE_ID space)
          MODIFIED_PAGE_1ST_PAGE_ID (block_start_page page_no)) sys.modified_pages
      refine ⟨rbt_insert_pos sys.modified_pages
        (mach_write_to_4 (mach_write_to_4 zero_page MODIFIED_PAGE_SPACE_ID space)
          MODIFIED_PAGE_1ST_PAGE_ID (block_start_page page_no)), Or.inr ⟨?_, ?_, ?_⟩⟩
      · intro b hb
        rw [← new_node_key_of_lt hs hp]
        exact hnone b hb
      · simp only []
        rw [rbt_value_update_eraseIdx, hera]
      · refine ⟨page_or_bit (block_pos page_no) (bit_pos page_no)
          (mach_write_to_4 (mach_write_to_4 zero_page MODIFIED_PAGE_SPACE_ID space)
            MODIFIED_PAGE_1ST_PAGE_ID (block_start_page page_no)), ?_, ?_, ?_, ?_⟩
        · simp only []
          rw [rbt_value_update_getElem, if_pos rfl, hget]
          rfl
        · rw [page_or_bit_key, new_node_key_of_lt hs hp]
        · intro i hi
          rw [page_or_bit_other _ _ _ hi, block_start_page_eq hp]
        · rw [page_or_bit_same, hbit,
            mach_write_to_4_other _ _ _ (by rw [e1]; have : MODIFIED_PAGE_1ST_PAGE_ID = 24 := rfl; omega),
            mach_write_to_4_other _ _ _ (by rw [e1]; have : MODIFIED_PAGE_SPACE_ID = 20 := rfl; omega)]
          have h2 : 1 <<< (page_no % 8) < 2 ^ 8 := by
            rw [Nat.one_shiftLeft]
            exact Nat.pow_lt_pow_right (by decide) (by omega)
          show (0 ||| 1 <<< (page_no % 8)) % 256 = 1 <<< (page_no % 8)
          rw [Nat.zero_or]
          exact Nat.mod_eq_of_lt h2
  · obtain ⟨pos, hfound, hsame⟩ := set_page_bit_found_after sys space page_no
    rw [set_page_bit_found _ _ _ _ hfound, hsame]

theorem set_page_bit_changes_one_bitmap_byte_witness :
    MODIFIED_PAGE_BLOCK_BITMAP + block_pos 5 < MODIFIED_PAGE_BLOCK_UNUSED_2 ∧
    log_online_set_page_bit
        (log_online_set_page_bit (sample_tracker_with [(7, 3)]).log_bmp_sys 7 5) 7 5
      = log_online_set_page_bit (sample_tracker_with [(7, 3)]).log_bmp_sys 7 5 :=
  (fun h => ⟨h.2.1, h.2.2.2⟩)
    (set_page_bit_changes_one_bitmap_byte (sample_tracker_with [(7, 3)]).log_bmp_sys 7 5
      (by decide) (by decide))
/-! ## What the follow cycle does to the output position and to the mutex -/

theorem set_page_bit_out (sys : log_bitmap_struct) (space page_no : Nat) :
    (log_online_set_page_bit sys space page_no).out = sys.out := by
  unfold log_online_set_page_bit
  simp only []
  split <;> rfl

theorem parse_redo_log_rec_out (env : server_env) (sys : log_bitmap_struct) (r : redo_rec) :
    (log_online_parse_redo_log_rec env sys r).out = sys.out := by
  have hfold : ∀ (l : List Nat) (s : log_bitmap_struct),
      (l.foldl (fun s i => log_online_set_page_bit s r.space i) s).out = s.out := by
    intro l
    induction l with
    | nil => intro s; rfl
    | cons i is ih =>
      intro s
      exact (ih (log_online_set_page_bit s r.space i)).trans (set_page_bit_out s r.space i)
  unfold log_online_parse_redo_log_rec
  simp only []
  have h2 := set_page_bit_out sys r.space r.page_no
  split_ifs
  · exact (hfold _ _).trans h2
  · exact h2
  · rfl

theorem parse_redo_log_recs_out (env : server_env) (recs : List redo_rec) :
    ∀ sys : log_bitmap_struct,
      (recs.foldl (log_online_parse_redo_log_rec env) sys).out = sys.out := by
  induction recs with
  | nil => intro sys; rfl
  | cons r rs ih =>
    intro sys
    exact (ih (log_online_parse_redo_log_rec env sys r)).trans (parse_redo_log_rec_out env sys r)

/-- Following one log group leaves the output file, the mutex and the tracking
switch alone. -/
theorem follow_log_group_frame (env : server_env) (group : Nat) (st st' : tracker) (b : Bool)
    (h : log_online_follow_log_group env group st = some (b, st')) :
    st'.log_bmp_sys.out = st.log_bmp_sys.out ∧
    st'.mutex_enters = st.mutex_enters ∧ st'.mutex_exits = st.mutex_exits := by
  unfold log_online_follow_log_group at h
  simp only [] at h
  split at h
  · cases h
  · rename_i recs _
    cases h
    exact ⟨parse_redo_log_recs_out env recs st.log_bmp_sys, rfl, rfl⟩

theorem follow_log_groups_frame (env : server_env) :
    ∀ (n group : Nat) (st st' : tracker) (b : Bool),
      log_online_follow_log_groups env n group st = some (b, st') →
      st'.log_bmp_sys.out = st.log_bmp_sys.out ∧
      st'.mutex_enters = st.mutex_enters ∧ st'.mutex_exits = st.mutex_exits := by
  intro n
  induction n with
  | zero =>
    intro group st st' b h
    unfold log_online_follow_log_groups at h
    cases h
    exact ⟨rfl, rfl, rfl⟩
  | succ n ih =>
    intro group st st' b h
    unfold log_online_follow_log_groups at h
    split at h
    · cases h
    · rename_i st1 h1
      cases h
      exact follow_log_group_frame env group st _ false h1
    · rename_i st1 h1
      have h2 := follow_log_group_frame env group st st1 true h1
      have h3 := ih (group + 1) st1 st' b h
      exact ⟨h3.1.trans h2.1, h3.2.1.trans h2.2.1, h3.2.2.trans h2.2.2⟩

/-- The creation of an output file leaves the mutex alone; a created file is
positioned at 0, and a failure leaves the position as it was. -/
theorem start_bitmap_file_frame (env : server_env) (st : tracker) :
    (log_online_start_bitmap_file env st).2.mutex_enters = st.mutex_enters ∧
    (log_online_start_bitmap_file env st).2.mutex_exits = st.mutex_exits ∧
    ((log_online_start_bitmap_file env st).1 = true →
      (log_online_start_bitmap_file env st).2.log_bmp_sys.out.offset = 0) ∧
    ((log_online_start_bitmap_file env st).1 = false →
      (log_online_start_bitmap_file env st).2.log_bmp_sys.out.offset
        = st.log_bmp_sys.out.offset) := by
  unfold log_online_start_bitmap_file os_call
  simp only []
  split_ifs <;> simp

theorem rotate_bitmap_file_frame (env : server_env) (st : tracker) (lsn : Nat) :
    (log_online_rotate_bitmap_file env st lsn).2.mutex_enters = st.mutex_enters ∧
    (log_online_rotate_bitmap_file env st lsn).2.mutex_exits = st.mutex_exits ∧
    ((log_online_rotate_bitmap_file env st lsn).1 = true →
      (log_online_rotate_bitmap_file env st lsn).2.log_bmp_sys.out.offset = 0) ∧
    ((log_online_rotate_bitmap_file env st lsn).1 = false →
      (log_online_rotate_bitmap_file env st lsn).2.log_bmp_sys.out.offset
        = st.log_bmp_sys.out.offset) := by
  have key : ∀ X : tracker, X.mutex_enters = st.mutex_enters → X.mutex_exits = st.mutex_exits →
      X.log_bmp_sys.out.offset = st.log_bmp_sys.out.offset →
      (log_online_start_bitmap_file env X).2.mutex_enters = st.mutex_enters ∧
      (log_online_start_bitmap_file env X).2.mutex_exits = st.mutex_exits ∧
      ((log_online_start_bitmap_file env X).1 = true →
        (log_online_start_bitmap_file env X).2.log_bmp_sys.out.offset = 0) ∧
      ((log_online_start_bitmap_file env X).1 = false →
        (log_online_start_bitmap_file env X).2.log_bmp_sys.out.offset
          = st.log_bmp_sys.out.offset) := by
    intro X h1 h2 h3
    obtain ⟨g1, g2, g3, g4⟩ := start_bitmap_file_frame env X
    exact ⟨g1.trans h1, g2.trans h2, g3, fun h => (g4 h).trans h3⟩
  unfold log_online_rotate_bitmap_file
  simp only []
  apply key <;> (unfold log_online_make_bitmap_name; split_ifs <;> rfl)

/-- One block write: the calls it makes, when it succeeds, and what it does to the
output position. -/
theorem write_bitmap_page_frame (env : server_env) (st : tracker) (block : Page) :
    (log_online_write_bitmap_page env st block).2.mutex_enters = st.mutex_enters ∧
    (log_online_write_bitmap_page env st block).2.mutex_exits = st.mutex_exits ∧
    ((log_online_write_bitmap_page env st block).2.trace
        = st.trace ++ [os_event.file_write st.log_bmp_sys.out.name
            st.log_bmp_sys.out.offset block] ∨
      (log_online_write_bitmap_page env st block).2.trace
        = st.trace ++ [os_event.file_write st.log_bmp_sys.out.name
            st.log_bmp_sys.out.offset block,
          os_event.file_flush st.log_bmp_sys.out.name]) ∧
    ((log_online_write_bitmap_page env st block).1 = true ↔
      env.io_ok st.trace.length = true ∧ env.io_ok (st.trace.length + 1) = true) ∧
    ((log_online_write_bitmap_page env st block).1 = true →
      (log_online_write_bitmap_page env st block).2.log_bmp_sys.out.offset
        = st.log_bmp_sys.out.offset + MODIFIED_PAGE_BLOCK_SIZE) ∧
    ((log_online_write_bitmap_page env st block).1 = false →
      (log_online_write_bitmap_page env st block).2.log_bmp_sys.out.offset
        = st.log_bmp_sys.out.offset) := by
  unfold log_online_write_bitmap_page os_call
  simp only []
  by_cases h1 : env.io_ok st.trace.length = true
  · by_cases h2 : env.io_ok (st.trace.length + 1) = true
    · simp [h1, h2]
    · simp [h1, h2]
  · simp [h1]

theorem write_bitmap_loop_cons_false (env : server_env) (page : Page) (rest : List Page)
    (st : tracker) :
    log_online_write_bitmap_loop env (page :: rest) false st
      = log_online_write_bitmap_loop env rest false
          { st with log_bmp_sys := { st.log_bmp_sys with
              page_free_list := page :: st.log_bmp_sys.page_free_list } } := rfl

theorem write_bitmap_loop_cons_true (env : server_env) (page : Page) (rest : List Page)
    (st : tracker) :
    log_online_write_bitmap_loop env (page :: rest) true st
      = log_online_write_bitmap_loop env rest
          (log_online_write_bitmap_page env st
            (log_online_write_bitmap_finalize st.log_bmp_sys.start_lsn
              st.log_bmp_sys.end_lsn rest.isEmpty page)).1
          { (log_online_write_bitmap_page env st
              (log_online_write_bitmap_finalize st.log_bmp_sys.start_lsn
                st.log_bmp_sys.end_lsn rest.isEmpty page)).2 with
            log_bmp_sys :=
              { (log_online_write_bitmap_page env st
                  (log_online_write_bitmap_finalize st.log_bmp_sys.start_lsn
                    st.log_bmp_sys.end_lsn rest.isEmpty page)).2.log_bmp_sys with
                page_free_list :=
                  log_online_write_bitmap_finalize st.log_bmp_sys.start_lsn
                      st.log_bmp_sys.end_lsn rest.isEmpty page
                    :: (log_online_write_bitmap_page env st
                        (log_online_write_bitmap_finalize st.log_bmp_sys.start_lsn
                          st.log_bmp_sys.end_lsn rest.isEmpty
                          page)).2.log_bmp_sys.page_free_list } } := rfl

/-- The loop of the flush leaves the mutex alone and keeps the output position a
multiple of the block size. -/
theorem write_bitmap_loop_frame (env : server_env) :
    ∀ (nodes : List Page) (success : Bool) (st : tracker),
      (log_online_write_bitmap_loop env nodes success st).2.mutex_enters = st.mutex_enters ∧
      (log_online_write_bitmap_loop env nodes success st).2.mutex_exits = st.mutex_exits ∧
      (st.log_bmp_sys.out.offset % MODIFIED_PAGE_BLOCK_SIZE = 0 →
        (log_online_write_bitmap_loop env nodes success st).2.log_bmp_sys.out.offset
          % MODIFIED_PAGE_BLOCK_SIZE = 0) := by
  intro nodes
  induction nodes with
  | nil => intro success st; exact ⟨rfl, rfl, fun h => h⟩
  | cons page rest ih =>
    intro success st
    cases success with
    | false =>
      rw [write_bitmap_loop_cons_false]
      exact ih false _
    | true =>
      rw [write_bitmap_loop_cons_true]
      obtain ⟨g1, g2, -, -, g3, g4⟩ := write_bitmap_page_frame env st
        (log_online_write_bitmap_finalize st.log_bmp_sys.start_lsn
          st.log_bmp_sys.end_lsn rest.isEmpty page)
      generalize log_online_write_bitmap_page env st
        (log_online_write_bitmap_finalize st.log_bmp_sys.start_lsn
          st.log_bmp_sys.end_lsn rest.isEmpty page) = wp at g1 g2 g3 g4 ⊢
      obtain ⟨ok, st1⟩ := wp
      obtain ⟨i1, i2, i3⟩ := ih ok
        { st1 with log_bmp_sys := { st1.log_bmp_sys with
            page_free_list :=
              log_online_write_bitmap_finalize st.log_bmp_sys.start_lsn
                  st.log_bmp_sys.end_lsn rest.isEmpty page
                :: st1.log_bmp_sys.page_free_list } }
      refine ⟨i1.trans g1, i2.trans g2, fun h => i3 ?_⟩
      show st1.log_bmp_sys.out.offset % MODIFIED_PAGE_BLOCK_SIZE = 0
      cases ok with
      | false =>
        have := g4 rfl
        simp only [] at this
        rw [this]
        exact h
      | true =>
        have := g3 rfl
        simp only [] at this
        rw [this, Nat.add_mod_right]
        exact h

/-- The flush leaves the mutex alone and keeps the output position a multiple of
the block size, whatever its result. -/
theorem write_bitmap_frame (env : server_env) (st : tracker) :
    (log_online_write_bitmap env st).2.mutex_enters = st.mutex_enters ∧
    (log_online_write_bitmap env st).2.mutex_exits = st.mutex_exits ∧
    (st.log_bmp_sys.out.offset % MODIFIED_PAGE_BLOCK_SIZE = 0 →
      (log_online_write_bitmap env st).2.log_bmp_sys.out.offset
        % MODIFIED_PAGE_BLOCK_SIZE = 0) := by
  have key : ∀ X : Bool × tracker,
      (X.2.mutex_enters = st.mutex_enters ∧ X.2.mutex_exits = st.mutex_exits ∧
        (st.log_bmp_sys.out.offset % MODIFIED_PAGE_BLOCK_SIZE = 0 →
          X.2.log_bmp_sys.out.offset % MODIFIED_PAGE_BLOCK_SIZE = 0)) →
      let r := if !X.1 then (false, X.2) else
        ((log_online_write_bitmap_loop env X.2.log_bmp_sys.modified_pages true X.2).1,
          { (log_online_write_bitmap_loop env X.2.log_bmp_sys.modified_pages true X.2).2 with
            log_bmp_sys :=
              { (log_online_write_bitmap_loop env X.2.log_bmp_sys.modified_pages true
                  X.2).2.log_bmp_sys with modified_pages := [] } })
      r.2.mutex_enters = st.mutex_enters ∧ r.2.mutex_exits = st.mutex_exits ∧
        (st.log_bmp_sys.out.offset % MODIFIED_PAGE_BLOCK_SIZE = 0 →
          r.2.log_bmp_sys.out.offset % MODIFIED_PAGE_BLOCK_SIZE = 0) := by
    intro X hX
    obtain ⟨ok, st1⟩ := X
    cases ok with
    | false => exact hX
    | true =>
      obtain ⟨i1, i2, i3⟩ := write_bitmap_loop_frame env st1.log_bmp_sys.modified_pages true st1
      exact ⟨i1.trans hX.1, i2.trans hX.2.1, fun h => i3 (hX.2.2 h)⟩
  unfold log_online_write_bitmap
  simp only []
  apply key
  split_ifs
  · obtain ⟨g1, g2, g3, g4⟩ := rotate_bitmap_file_frame env st st.log_bmp_sys.start_lsn
    refine ⟨g1, g2, fun h => ?_⟩
    cases hr : (log_online_rotate_bitmap_file env st st.log_bmp_sys.start_lsn).1 with
    | false => rw [g4 hr]; exact h
    | true =>
      rw [g3 hr]
      exact Nat.zero_mod _
  · exact ⟨rfl, rfl, fun h => h⟩

/-- A follow cycle that returns has either not touched the mutex (tracking is
disabled) or acquired and released it once, and it keeps the output position a
multiple of the block size. -/
theorem follow_redo_log_frame (env : server_env) (st st' : tracker) (b : Bool)
    (h : log_online_follow_redo_log env st = some (b, st')) :
    ((st.srv_track_changed_pages = false ∧ st'.mutex_enters = st.mutex_enters ∧
        st'.mutex_exits = st.mutex_exits) ∨
      (st.srv_track_changed_pages = true ∧ st'.mutex_enters = st.mutex_enters + 1 ∧
        st'.mutex_exits = st.mutex_exits + 1)) ∧
    (st.log_bmp_sys.out.offset % MODIFIED_PAGE_BLOCK_SIZE = 0 →
      st'.log_bmp_sys.out.offset % MODIFIED_PAGE_BLOCK_SIZE = 0) := by
  unfold log_online_follow_redo_log at h
  cases htrack : st.srv_track_changed_pages with
  | false =>
    simp only [htrack, Bool.not_false, ↓reduceIte, Option.some.injEq, Prod.mk.injEq] at h
    obtain ⟨-, rfl⟩ := h
    exact ⟨Or.inl ⟨rfl, rfl, rfl⟩, fun h => h⟩
  | true =>
    simp only [htrack, mutex_enter, mutex_exit, Bool.not_true, Bool.false_eq_true,
      ↓reduceIte] at h
    by_cases hck : env.last_checkpoint_lsn = st.log_bmp_sys.start_lsn
    · rw [if_pos hck] at h
      simp only [Option.some.injEq, Prod.mk.injEq] at h
      obtain ⟨-, rfl⟩ := h
      exact ⟨Or.inr ⟨rfl, rfl, rfl⟩, fun h => h⟩
    · rw [if_neg hck] at h
      by_cases hg : env.log_groups = 0
      · rw [if_pos hg] at h
        cases h
      · rw [if_neg hg] at h
        split at h
        · cases h
        · rename_i st1 h1
          cases h
          obtain ⟨f1, f2, f3⟩ := follow_log_groups_frame env _ _ _ _ _ h1
          refine ⟨Or.inr ⟨rfl, ?_, ?_⟩, fun h => ?_⟩
          · exact f2
          · show st1.mutex_exits + 1 = st.mutex_exits + 1
            rw [f3]
          · show st1.log_bmp_sys.out.offset % MODIFIED_PAGE_BLOCK_SIZE = 0
            rw [f1]
            exact h
        · rename_i st1 h1
          cases h
          obtain ⟨f1, f2, f3⟩ := follow_log_groups_frame env _ _ _ _ _ h1
          obtain ⟨w1, w2, w3⟩ := write_bitmap_frame env st1
          refine ⟨Or.inr ⟨rfl, ?_, ?_⟩, fun h => ?_⟩
          · show (log_online_write_bitmap env st1).2.mutex_enters = st.mutex_enters + 1
            rw [w1, f2]
          · show (log_online_write_bitmap env st1).2.mutex_exits + 1 = st.mutex_exits + 1
            rw [w2, f3]
          · show (log_online_write_bitmap env st1).2.log_bmp_sys.out.offset
              % MODIFIED_PAGE_BLOCK_SIZE = 0
            exact w3 (by rw [f1]; exact h)
/-! ## The mutex in the purge -/

theorem purge_loop_mutex (env : server_env) (penv : purge_env) (lsn : Nat) :
    ∀ (slots : List log_online_bitmap_file_range_slot) (st : tracker),
      (log_online_purge_changed_page_bitmaps_loop env penv lsn slots st).2.mutex_enters
        = st.mutex_enters ∧
      (log_online_purge_changed_page_bitmaps_loop env penv lsn slots st).2.mutex_exits
        = st.mutex_exits := by
  intro slots
  induction slots with
  | nil => intro st; exact ⟨rfl, rfl⟩
  | cons cur rest ih =>
    intro st
    unfold log_online_purge_changed_page_bitmaps_loop
    simp only []
    split_ifs
    · exact ⟨rfl, rfl⟩
    · exact ih st
    · exact ⟨rfl, rfl⟩
    · exact ih (os_call env st (os_event.file_delete (purge_full_bmp_file_name penv st cur))).2

theorem purge_close_mutex (penv : purge_env) (lsn : Nat) (st : tracker) :
    (log_online_purge_changed_page_bitmaps_close penv lsn st).mutex_enters = st.mutex_enters ∧
    (log_online_purge_changed_page_bitmaps_close penv lsn st).mutex_exits = st.mutex_exits := by
  unfold log_online_purge_changed_page_bitmaps_close
  split_ifs <;> exact ⟨rfl, rfl⟩

/-- The statements after the purge loop release the mutex once when it was
acquired, also when the rotation fails, and not at all when it was not. -/
theorem purge_rotate_mutex (env : server_env) (inited : Bool) (lsn : Nat) (st : tracker) :
    (log_online_purge_changed_page_bitmaps_rotate env inited lsn st).mutex_enters
      = st.mutex_enters ∧
    (log_online_purge_changed_page_bitmaps_rotate env inited lsn st).mutex_exits
      = st.mutex_exits + (if inited then 1 else 0) := by
  unfold log_online_purge_changed_page_bitmaps_rotate
  cases inited with
  | false => exact ⟨rfl, rfl⟩
  | true =>
    simp only [↓reduceIte, mutex_exit]
    by_cases hgt : lsn > st.log_bmp_sys.end_lsn
    · rw [if_pos hgt]
      have key : ∀ (X : tracker) (l : Nat), X.mutex_enters = st.mutex_enters →
          X.mutex_exits = st.mutex_exits →
          (if (!(log_online_rotate_bitmap_file env X l).1) = true then
              { (log_online_rotate_bitmap_file env X l).2 with
                srv_track_changed_pages := false }
            else (log_online_rotate_bitmap_file env X l).2).mutex_enters = st.mutex_enters ∧
          (if (!(log_online_rotate_bitmap_file env X l).1) = true then
              { (log_online_rotate_bitmap_file env X l).2 with
                srv_track_changed_pages := false }
            else (log_online_rotate_bitmap_file env X l).2).mutex_exits + 1
            = st.mutex_exits + 1 := by
        intro X l h1 h2
        obtain ⟨g1, g2, -, -⟩ := rotate_bitmap_file_frame env X l
        split_ifs
        · exact ⟨g1.trans h1, by show (log_online_rotate_bitmap_file env X l).2.mutex_exits + 1 = _; rw [g2, h2]⟩
        · exact ⟨g1.trans h1, by rw [g2, h2]⟩
      exact key _ _ (by split_ifs <;> rfl) (by split_ifs <;> rfl)
    · rw [if_neg hgt]
      exact ⟨rfl, rfl⟩

/-- The purge acquires the mutex once when the redo log thread is started, and then
releases it once on each of its returns; otherwise it does not touch it. -/
theorem purge_mutex (env : server_env) (penv : purge_env) (st : tracker) (lsn : Nat) :
    (log_online_purge_changed_page_bitmaps env penv st lsn).2.mutex_enters
      = st.mutex_enters + (if penv.srv_redo_log_thread_started then 1 else 0) ∧
    (log_online_purge_changed_page_bitmaps env penv st lsn).2.mutex_exits
      = st.mutex_exits + (if penv.srv_redo_log_thread_started then 1 else 0) := by
  have hst0 : ∃ st0 : tracker,
      (if penv.srv_redo_log_thread_started = true then mutex_enter st else st) = st0 ∧
      st0.mutex_enters = st.mutex_enters + (if penv.srv_redo_log_thread_started then 1 else 0) ∧
      st0.mutex_exits = st.mutex_exits := by
    refine ⟨_, rfl, ?_, ?_⟩ <;> split_ifs <;> rfl
  obtain ⟨st0, hst0, hen0, hex0⟩ := hst0
  unfold log_online_purge_changed_page_bitmaps
  simp only [hst0]
  by_cases hr : (log_online_setup_bitmap_file_range penv.sscanf penv.first_dir penv.second_dir
      0 LSN_MAX).1 = true
  · simp only [hr, Bool.not_true, Bool.false_eq_true, ↓reduceIte]
    generalize (if lsn = 0 then LSN_MAX else lsn) = lsn1
    obtain ⟨c1, c2⟩ := purge_close_mutex penv lsn1 st0
    generalize log_online_purge_changed_page_bitmaps_close penv lsn1 st0 = st1 at c1 c2 ⊢
    obtain ⟨l1, l2⟩ := purge_loop_mutex env penv lsn1
      (log_online_setup_bitmap_file_range penv.sscanf penv.first_dir penv.second_dir
        0 LSN_MAX).2.files st1
    generalize log_online_purge_changed_page_bitmaps_loop env penv lsn1
      (log_online_setup_bitmap_file_range penv.sscanf penv.first_dir penv.second_dir
        0 LSN_MAX).2.files st1 = r at l1 l2 ⊢
    obtain ⟨r1, r2⟩ := purge_rotate_mutex env penv.srv_redo_log_thread_started lsn1 r.2
    exact ⟨by rw [r1, l1, c1, hen0], by rw [r2, l2, c2, hex0]⟩
  · have hr' : (log_online_setup_bitmap_file_range penv.sscanf penv.first_dir penv.second_dir
        0 LSN_MAX).1 = false := by
      cases hx : (log_online_setup_bitmap_file_range penv.sscanf penv.first_dir
        penv.second_dir 0 LSN_MAX).1 with
      | false => rfl
      | true => exact absurd hx hr
    simp only [hr', Bool.not_false, ↓reduceIte]
    cases hs : penv.srv_redo_log_thread_started with
    | false =>
      rw [hs] at hen0
      exact ⟨hen0, hex0⟩
    | true =>
      rw [hs] at hen0
      simp only [↓reduceIte, mutex_exit]
      exact ⟨hen0, by rw [hex0]⟩

/-- C25: the tracker mutex is released on every return of the follow cycle and of
the purge.  A follow cycle that returns, with either result (tracking disabled,
nothing to do, the `goto end` after a log group follow, a flush that failed or
succeeded), has executed `mutex_exit` as many times as `mutex_enter`, at most
once each; the purge, with either result (a range setup that failed, a deletion
that failed, a rotation that failed or succeeded), has executed both once when
the redo log thread is started and neither otherwise.  So a mutex that is not
held at the call is not held at the return. -/
theorem tracker_mutex_released_on_every_return (env : server_env) (penv : purge_env)
    (st : tracker) (lsn : Nat) :
    (∀ b st', log_online_follow_redo_log env st = some (b, st') →
      st'.mutex_enters - st.mutex_enters = st'.mutex_exits - st.mutex_exits ∧
      st.mutex_enters ≤ st'.mutex_enters ∧ st.mutex_exits ≤ st'.mutex_exits ∧
      st'.mutex_enters ≤ st.mutex_enters + 1 ∧
      (st.mutex_exits = st.mutex_enters → st'.mutex_exits = st'.mutex_enters)) ∧
    ((log_online_purge_changed_page_bitmaps env penv st lsn).2.mutex_enters - st.mutex_enters
        = (log_online_purge_changed_page_bitmaps env penv st lsn).2.mutex_exits
          - st.mutex_exits ∧
      st.mutex_enters ≤ (log_online_purge_changed_page_bitmaps env penv st lsn).2.mutex_enters ∧
      st.mutex_exits ≤ (log_online_purge_changed_page_bitmaps env penv st lsn).2.mutex_exits ∧
      (log_online_purge_changed_page_bitmaps env penv st lsn).2.mutex_enters
        ≤ st.mutex_enters + 1 ∧
      (st.mutex_exits = st.mutex_enters →
        (log_online_purge_changed_page_bitmaps env penv st lsn).2.mutex_exits
          = (log_online_purge_changed_page_bitmaps env penv st lsn).2.mutex_enters)) := by
  constructor
  · intro b st' h
    obtain ⟨hm, -⟩ := follow_redo_log_frame env st st' b h
    rcases hm with ⟨-, h1, h2⟩ | ⟨-, h1, h2⟩ <;> omega
  · obtain ⟨h1, h2⟩ := purge_mutex env penv st lsn
    generalize (log_online_purge_changed_page_bitmaps env penv st lsn).2 = st' at h1 h2 ⊢
    split_ifs at h1 h2 <;> omega

theorem tracker_mutex_released_on_every_return_witness :
    sample_failed_flush_tracker.mutex_exits = sample_failed_flush_tracker.mutex_enters ∧
    (log_online_follow_redo_log write_failure_env sample_tracker).map (fun r => r.1)
      = some false :=
  ⟨((tracker_mutex_released_on_every_return write_failure_env (sample_purge_env four_file_dir)
      sample_tracker 0).1 false sample_failed_flush_tracker rfl).2.2.2.2 rfl, rfl⟩
/-! ## The output position after the startup -/

theorem read_bitmap_page_aligned (env : read_env) (f f' : log_online_bitmap_file_t)
    (page page' : Page) (c c' b : Bool)
    (h : log_online_read_bitmap_page env f page c = some (b, f', page', c')) :
    f'.offset % MODIFIED_PAGE_BLOCK_SIZE = 0 := by
  unfold log_online_read_bitmap_page at h
  by_cases h1 : f.size ≥ MODIFIED_PAGE_BLOCK_SIZE
  · rw [if_neg (not_not.mpr h1)] at h
    by_cases h2 : f.offset ≤ f.size - MODIFIED_PAGE_BLOCK_SIZE
    · rw [if_neg (not_not.mpr h2)] at h
      by_cases h3 : f.offset % MODIFIED_PAGE_BLOCK_SIZE = 0
      · rw [if_neg (not_not.mpr h3)] at h
        split at h
        · simp only [Option.some.injEq, Prod.mk.injEq] at h
          obtain ⟨-, rfl, -, -⟩ := h
          exact h3
        · simp only [Option.some.injEq, Prod.mk.injEq] at h
          obtain ⟨-, rfl, -, -⟩ := h
          show (f.offset + MODIFIED_PAGE_BLOCK_SIZE) % MODIFIED_PAGE_BLOCK_SIZE = 0
          rw [Nat.add_mod_right]
          exact h3
      · rw [if_pos h3] at h
        cases h
    · rw [if_pos h2] at h
      cases h
  · rw [if_pos h1] at h
    cases h

theorem read_last_tracked_lsn_loop_aligned (renv : read_env) :
    ∀ (fuel : Nat) (out out' : log_online_bitmap_file_t) (page page' : Page)
      (c l c' l' : Bool) (read_offset : Nat),
      out.offset % MODIFIED_PAGE_BLOCK_SIZE = 0 →
      log_online_read_last_tracked_lsn_loop renv fuel out page c l read_offset
        = some (out', page', c', l') →
      out'.offset % MODIFIED_PAGE_BLOCK_SIZE = 0 := by
  intro fuel
  induction fuel with
  | zero =>
    intro out out' page page' c l c' l' ro h0 h
    unfold log_online_read_last_tracked_lsn_loop at h
    split_ifs at h
    simp only [Option.some.injEq, Prod.mk.injEq] at h
    obtain ⟨rfl, -⟩ := h
    exact h0
  | succ fuel ih =>
    intro out out' page page' c l c' l' ro h0 h
    rw [read_last_tracked_lsn_loop_succ] at h
    by_cases hc : ((!c || !l) && decide (ro > 0)) = true
    · rw [if_pos hc] at h
      cases hr : log_online_read_bitmap_page renv
          { out with offset := ulint (ro + 2 ^ 64 - MODIFIED_PAGE_BLOCK_SIZE) } page c with
      | none => rw [hr] at h; cases h
      | some res =>
        obtain ⟨b, f1, p1, c1⟩ := res
        have ha := read_bitmap_page_aligned renv _ _ _ _ _ _ _ hr
        rw [hr] at h
        cases b with
        | false =>
          simp only [Option.some.injEq, Prod.mk.injEq] at h
          obtain ⟨rfl, -⟩ := h
          exact ha
        | true =>
          simp only [] at h
          exact ih _ _ _ _ _ _ _ _ _ ha h
    · rw [if_neg hc] at h
      simp only [Option.some.injEq, Prod.mk.injEq] at h
      obtain ⟨rfl, -⟩ := h
      exact h0

theorem read_last_tracked_lsn_aligned (env : server_env) (renv : read_env) (page : Page)
    (st st' : tracker) (lsn : Nat)
    (h0 : st.log_bmp_sys.out.offset % MODIFIED_PAGE_BLOCK_SIZE = 0)
    (h : log_online_read_last_tracked_lsn env renv page st = some (lsn, st')) :
    st'.log_bmp_sys.out.offset % MODIFIED_PAGE_BLOCK_SIZE = 0 := by
  unfold log_online_read_last_tracked_lsn at h
  cases hl : log_online_read_last_tracked_lsn_loop renv
      (st.log_bmp_sys.out.offset / MODIFIED_PAGE_BLOCK_SIZE + 1) st.log_bmp_sys.out page
      false false st.log_bmp_sys.out.offset with
  | none => rw [hl] at h; cases h
  | some res =>
    obtain ⟨out, p1, c1, l1⟩ := res
    have ha := read_last_tracked_lsn_loop_aligned renv _ _ _ _ _ _ _ _ _ _ h0 hl
    rw [hl] at h
    simp only [os_call] at h
    split_ifs at h <;>
    · simp only [Option.some.injEq, Prod.mk.injEq] at h
      obtain ⟨-, rfl⟩ := h
      exact ha

theorem read_init_position_aligned (st : tracker) (size : Nat) :
    (log_online_read_init_position st size).log_bmp_sys.out.offset
      % MODIFIED_PAGE_BLOCK_SIZE = 0 := by
  unfold log_online_read_init_position
  simp only []
  split_ifs with h
  · show (size - size % MODIFIED_PAGE_BLOCK_SIZE) % MODIFIED_PAGE_BLOCK_SIZE = 0
    exact Nat.sub_mod_eq_zero_of_mod_eq (Nat.mod_mod _ _).symm
  · exact not_not.mp h

theorem track_missing_on_startup_aligned (env : server_env) (ienv : init_env)
    (st st' : tracker) (last_tracked_lsn tracking_start_lsn : Nat)
    (h0 : st.log_bmp_sys.out.offset % MODIFIED_PAGE_BLOCK_SIZE = 0)
    (h : log_online_track_missing_on_startup env ienv st last_tracked_lsn tracking_start_lsn
      = some st') :
    st'.log_bmp_sys.out.offset % MODIFIED_PAGE_BLOCK_SIZE = 0 := by
  unfold log_online_track_missing_on_startup at h
  split at h
  · cases h
  · simp only [] at h
    split at h
    · cases h
    · cases h
    · rename_i st1 hf
      cases h
      exact (follow_redo_log_frame env _ _ _ hf).2 h0
  · simp only [Option.some.injEq] at h
    subst h
    exact h0

theorem read_init_last_file_aligned (env : server_env) (ienv : init_env) (renv : read_env)
    (st st' : tracker) (tracking_start_lsn last_file_start_lsn size : Nat)
    (h : log_online_read_init_last_file env ienv renv st tracking_start_lsn
      last_file_start_lsn size = some st') :
    st'.log_bmp_sys.out.offset % MODIFIED_PAGE_BLOCK_SIZE = 0 := by
  unfold log_online_read_init_last_file at h
  simp only [] at h
  have hp := read_init_position_aligned st size
  cases hread : log_online_read_last_tracked_lsn env renv ienv.page
      (log_online_read_init_position st size) with
  | none => rw [hread] at h; cases h
  | some res =>
    obtain ⟨lsn, st1⟩ := res
    have h1 := read_last_tracked_lsn_aligned env renv ienv.page _ _ _ hp hread
    rw [hread] at h
    simp only [] at h
    split at h
    · cases h
    · rename_i can_track _
      have hrot : ∀ l : Nat,
          (if (lsn != 0) = true then log_online_rotate_bitmap_file env st1 l
            else (true, st1)).1 = true →
          (if (lsn != 0) = true then log_online_rotate_bitmap_file env st1 l
            else (true, st1)).2.log_bmp_sys.out.offset % MODIFIED_PAGE_BLOCK_SIZE = 0 := by
        intro l hl
        split_ifs at hl ⊢
        · rw [(rotate_bitmap_file_frame env st1 l).2.2.1 hl]
          exact Nat.zero_mod _
        · exact h1
      generalize hR : (if (lsn != 0) = true then
          log_online_rotate_bitmap_file env st1
            (if can_track = true then (if lsn = 0 then last_file_start_lsn else lsn)
              else tracking_start_lsn)
        else (true, st1)) = R at h
      have hR' := hrot (if can_track = true then (if lsn = 0 then last_file_start_lsn else lsn)
              else tracking_start_lsn)
      rw [hR] at hR'
      cases hR1 : R.1 with
      | false =>
        rw [hR1] at h
        simp only [Bool.not_false, ↓reduceIte] at h
        cases h
      | true =>
        rw [hR1] at h
        simp only [Bool.not_true, Bool.false_eq_true, ↓reduceIte] at h
        split_ifs at h
        all_goals
          first
          | exact track_missing_on_startup_aligned env ienv _ _ _ _ (hR' hR1) h
          | (simp only [Option.some.injEq] at h
             subst h
             exact hR' hR1)

theorem start_bitmap_file_aligned (env : server_env) (st : tracker)
    (hs : ¬ (!(log_online_start_bitmap_file env st).1) = true) :
    (log_online_start_bitmap_file env st).2.log_bmp_sys.out.offset
      % MODIFIED_PAGE_BLOCK_SIZE = 0 := by
  have hs' : (log_online_start_bitmap_file env st).1 = true := by
    simpa using hs
  rw [(start_bitmap_file_frame env st).2.2.1 hs']
  exact Nat.zero_mod _

/-- The startup leaves the output position a multiple of the block size, whatever
the directory and the last bitmap file hold. -/
theorem read_init_aligned (env : server_env) (ienv : init_env) (renv : read_env)
    (st st' : tracker) (h : log_online_read_init env ienv renv st = some st') :
    st'.log_bmp_sys.out.offset % MODIFIED_PAGE_BLOCK_SIZE = 0 := by
  unfold log_online_read_init at h
  split at h
  · cases h
  · simp only [] at h
    split_ifs at h
    all_goals
      split at h
      all_goals
        first
        | exact read_init_last_file_aligned env ienv renv _ _ _ _ _ h
        | (simp only [Option.some.injEq] at h
           subst h
           simp only [log_set_tracked_lsn]
           exact start_bitmap_file_aligned env _ (by assumption))
        | cases h
/-- C23: `log_online_write_bitmap_page` hands one block to `os_file_write` at the
current output offset of the current output file, followed by the flush when
the write succeeds, and nothing else.  It returns true exactly when both calls
succeed, and then the offset is advanced by `MODIFIED_PAGE_BLOCK_SIZE` = 4096;
when it returns false the offset is as before.  So an output offset that is a
multiple of 4096 stays one through a block write, a file creation, a rotation,
a flush and a whole follow cycle, whatever their results, and the startup
leaves a multiple of 4096 whatever the directory and the last file hold. -/
theorem write_bitmap_page_advances_by_one_block (env : server_env) (st : tracker)
    (block : Page) :
    ((log_online_write_bitmap_page env st block).2.trace
        = st.trace ++ [os_event.file_write st.log_bmp_sys.out.name
            st.log_bmp_sys.out.offset block] ∨
      (log_online_write_bitmap_page env st block).2.trace
        = st.trace ++ [os_event.file_write st.log_bmp_sys.out.name
            st.log_bmp_sys.out.offset block,
          os_event.file_flush st.log_bmp_sys.out.name]) ∧
    ((log_online_write_bitmap_page env st block).1 = true ↔
      env.io_ok st.trace.length = true ∧ env.io_ok (st.trace.length + 1) = true) ∧
    ((log_online_write_bitmap_page env st block).1 = true →
      (log_online_write_bitmap_page env st block).2.log_bmp_sys.out.offset
        = st.log_bmp_sys.out.offset + 4096) ∧
    ((log_online_write_bitmap_page env st block).1 = false →
      (log_online_write_bitmap_page env st block).2.log_bmp_sys.out.offset
        = st.log_bmp_sys.out.offset) ∧
    (st.log_bmp_sys.out.offset % 4096 = 0 →
      (log_online_write_bitmap_page env st block).2.log_bmp_sys.out.offset % 4096 = 0 ∧
      (log_online_start_bitmap_file env st).2.log_bmp_sys.out.offset % 4096 = 0 ∧
      (∀ lsn, (log_online_rotate_bitmap_file env st lsn).2.log_bmp_sys.out.offset % 4096 = 0) ∧
      (log_online_write_bitmap env st).2.log_bmp_sys.out.offset % 4096 = 0 ∧
      (∀ b st', log_online_follow_redo_log env st = some (b, st') →
        st'.log_bmp_sys.out.offset % 4096 = 0)) ∧
    (∀ ienv renv st', log_online_read_init env ienv renv st = some st' →
      st'.log_bmp_sys.out.offset % 4096 = 0) := by
  obtain ⟨-, -, g1, g2, g3, g4⟩ := write_bitmap_page_frame env st block
  refine ⟨g1, g2, g3, g4, fun h0 => ⟨?_, ?_, ?_, ?_, ?_⟩, ?_⟩
  · cases hr : (log_online_write_bitmap_page env st block).1 with
    | false => rw [g4 hr]; exact h0
    | true =>
      rw [g3 hr]
      show (st.log_bmp_sys.out.offset + 4096) % 4096 = 0
      rw [Nat.add_mod_right]
      exact h0
  · obtain ⟨-, -, s3, s4⟩ := start_bitmap_file_frame env st
    cases hr : (log_online_start_bitmap_file env st).1 with
    | false => rw [s4 hr]; exact h0
    | true => rw [s3 hr]
  · intro lsn
    obtain ⟨-, -, s3, s4⟩ := rotate_bitmap_file_frame env st lsn
    cases hr : (log_online_rotate_bitmap_file env st lsn).1 with
    | false => rw [s4 hr]; exact h0
    | true => rw [s3 hr]
  · exact (write_bitmap_frame env st).2.2 h0
  · intro b st' h
    exact (follow_redo_log_frame env st st' b h).2 h0
  · intro ienv renv st' h
    exact read_init_aligned env ienv renv st st' h

theorem write_bitmap_page_advances_by_one_block_witness :
    sample_followed_tracker.log_bmp_sys.out.offset % 4096 = 0 ∧
    sample_started_tracker.log_bmp_sys.out.offset % 4096 = 0 :=
  ⟨((write_bitmap_page_advances_by_one_block sample_env sample_tracker zero_page).2.2.2.2.1
      rfl).2.2.2.2 true sample_followed_tracker rfl,
    (write_bitmap_page_advances_by_one_block sample_env sample_tracker zero_page).2.2.2.2.2
      (sample_init_env (bitmap_dir_of [])) empty_read_env sample_started_tracker rfl⟩
/-! ## The enumeration order, a failed rotation, and the file name test -/

/-- C29 (code bug): the range depends on the order in which the directory is
enumerated.  The bitmap files 1, 2 and 3 that start at the LSNs 10, 20 and 30
give, for the interval from 20 to 1000, the range of the three files when they
are enumerated in sequence number order and the range of the files 2 and 3 when
the first two entries are exchanged, although the two enumerations are
permutations of each other. -/
theorem range_differs_for_permuted_directory :
    three_file_entries_swapped.Perm three_file_entries ∧
    (log_online_setup_bitmap_file_range sample_sscanf (bitmap_dir_of three_file_entries)
      (bitmap_dir_of three_file_entries) 20 1000).1 = true ∧
    (log_online_setup_bitmap_file_range sample_sscanf (bitmap_dir_of three_file_entries)
      (bitmap_dir_of three_file_entries) 20 1000).2.count = 3 ∧
    range_slots (log_online_setup_bitmap_file_range sample_sscanf
      (bitmap_dir_of three_file_entries) (bitmap_dir_of three_file_entries) 20 1000).2
      = [(1, 10), (2, 20), (3, 30)] ∧
    (log_online_setup_bitmap_file_range sample_sscanf (bitmap_dir_of three_file_entries_swapped)
      (bitmap_dir_of three_file_entries_swapped) 20 1000).1 = true ∧
    (log_online_setup_bitmap_file_range sample_sscanf (bitmap_dir_of three_file_entries_swapped)
      (bitmap_dir_of three_file_entries_swapped) 20 1000).2.count = 2 ∧
    range_slots (log_online_setup_bitmap_file_range sample_sscanf
      (bitmap_dir_of three_file_entries_swapped) (bitmap_dir_of three_file_entries_swapped)
      20 1000).2 = [(2, 20), (3, 30)] :=
  ⟨List.Perm.swap _ _ _, rfl, rfl, rfl, rfl, rfl, rfl⟩

/-- Past the rotation the flush empties the modified-page set, whatever the result
of the block writes. -/
theorem write_bitmap_clears_past_rotation (env : server_env) (st : tracker)
    (h : st.log_bmp_sys.out.offset < env.srv_max_bitmap_file_size ∨
      (log_online_rotate_bitmap_file env st st.log_bmp_sys.start_lsn).1 = true) :
    (log_online_write_bitmap env st).2.log_bmp_sys.modified_pages = [] := by
  unfold log_online_write_bitmap
  simp only []
  by_cases hoff : st.log_bmp_sys.out.offset ≥ env.srv_max_bitmap_file_size
  · rw [if_pos hoff]
    rcases h with h | h
    · exact absurd hoff (Nat.not_le.mpr h)
    · rw [h]
      rfl
  · rw [if_neg hoff]
    rfl

/-- C30 (code bug): a follow cycle whose flush fails in the rotation of the output
file leaves the modified-page set as it is.  The tracker whose output file has
reached the maximum size parses one record for page 3 of space 7; the creation
of the next file fails, `log_online_write_bitmap` returns before its loop, and
the cycle returns false with the node of that page still in the set and nothing
on the free list.  The same cycle on the tracker with a fresh output file fails
in the block write instead, and ends with an empty set and the node on the free
list. -/
theorem failed_rotation_keeps_modified_pages :
    full_file_tracker.log_bmp_sys.modified_pages = [] ∧
    (log_online_follow_redo_log write_failure_env full_file_tracker).map
        (fun r => (r.1, r.2.log_bmp_sys.modified_pages, r.2.log_bmp_sys.page_free_list.length))
      = some (false, [sample_node], 0) ∧
    (log_online_follow_redo_log write_failure_env sample_tracker).map
        (fun r => (r.1, r.2.log_bmp_sys.modified_pages.length,
          r.2.log_bmp_sys.page_free_list.length))
      = some (false, 0, 1) ∧
    (log_online_write_bitmap write_failure_env
        { full_file_tracker with
          log_bmp_sys := set_page_bits full_file_tracker.log_bmp_sys [(7, 3)] }).1 = false ∧
    (log_online_write_bitmap write_failure_env
        { full_file_tracker with
          log_bmp_sys := set_page_bits full_file_tracker.log_bmp_sys [(7, 3)] }).2.log_bmp_sys.modified_pages
      = [sample_node] :=
  ⟨rfl, rfl, rfl, rfl, rfl⟩

/-- C21 (code bug): the file name test accepts names that do not end in `.xdb`.
With the C library `sscanf`, the regular files `ib_modified_log_1_0.txt`,
`ib_modified_log_1_0` and `ib_modified_log_7_4096.xdb.bak` are reported as bitmap
files, with the sequence numbers and start LSNs (1, 0), (1, 0) and (7, 4096),
and so is a name with white space and a sign before a number.  The name that
`log_online_make_bitmap_name` composes for sequence number 7 and start LSN 4096
is accepted with these two values, and names without the stem, without a second
number or with an upper case stem are rejected. -/
theorem is_bitmap_file_ignores_suffix :
    log_online_is_bitmap_file sscanf_bitmap_name (bitmap_dir_entry "ib_modified_log_1_0.txt")
      = some (1, 0) ∧
    log_online_is_bitmap_file sscanf_bitmap_name (bitmap_dir_entry "ib_modified_log_1_0")
      = some (1, 0) ∧
    log_online_is_bitmap_file sscanf_bitmap_name
      (bitmap_dir_entry "ib_modified_log_7_4096.xdb.bak") = some (7, 4096) ∧
    log_online_is_bitmap_file sscanf_bitmap_name (bitmap_dir_entry "ib_modified_log_ +1_ 0.xdb")
      = some (1, 0) ∧
    (log_online_make_bitmap_name
      (empty_sys "" sample_tracker.log_bmp_sys.out 7 0 0) 4096).out.name
      = "ib_modified_log_7_4096.xdb" ∧
    log_online_is_bitmap_file sscanf_bitmap_name (bitmap_dir_entry "ib_modified_log_7_4096.xdb")
      = some (7, 4096) ∧
    log_online_is_bitmap_file sscanf_bitmap_name (bitmap_dir_entry "ib_modified_7_4096.xdb")
      = none ∧
    log_online_is_bitmap_file sscanf_bitmap_name (bitmap_dir_entry "ib_modified_log_7.xdb")
      = none ∧
    log_online_is_bitmap_file sscanf_bitmap_name (bitmap_dir_entry "IB_MODIFIED_LOG_7_4096.xdb")
      = none := by
  refine ⟨?_, ?_, ?_, ?_, ?_, ?_, ?_, ?_, ?_⟩ <;> decide
end LogOnline
